import Mathlib

/-!
# CARAVELA: supplier and scheduler

A shallow embedding of the resource supplier (`node/discovery/supplier/supplier.go`)
and of the scheduler (`node/scheduler/scheduler.go`) of the CARAVELA node, with the
properties of their bookkeeping, and of what they rest on: the default offers strategy
(`strategy_default.go`), the GUIDs (`node/common/guid/guid.go`), the registry of
offering strategies (`offering_strategy_factory.go`) and the statistics of the resource
partitions (`resource_partitions.go`).

Conventions of the embedding:

* Go's `int` and `int64` values (resource amounts, offer identifiers, counters) are
  unbounded `Int`s: no run of a node comes near `2^63` resource units or offers.
* A Go `map[OfferID]*supplierOffer` is an association list; `range` visits the entries
  in list order (Go leaves the order unspecified).
* The supplier's mutex makes every operation atomic, so an operation is a function
  from state to state.  A goroutine started with `go` that takes the mutex again
  (the deferred `createOffer`) is a later operation of its own.
* Calls on collaborators that are interfaces (`client`, `offersStrategy`) are recorded
  in the state, the way a recording test double would, and their answers come from
  an environment that is a parameter.
-/

namespace Caravela

/-! ## Resources -/

/-- The pair of CPUs and RAM a node owns, offers or needs (`resources.Resources`). -/
structure Resources where
  cpus : Int
  ram : Int
deriving DecidableEq

namespace Resources

/-- Embeds `NewResources(cpus, ram)`. -/
def NewResources (cpus ram : Int) : Resources := { cpus := cpus, ram := ram }

/-- Embeds `r.CPUs()`. -/
def CPUs (r : Resources) : Int := r.cpus

/-- Embeds `r.RAM()`. -/
def RAM (r : Resources) : Int := r.ram

/-- Embeds `r.Copy()`: a fresh value with the same fields. -/
def Copy (r : Resources) : Resources := { cpus := r.cpus, ram := r.ram }

/-- Modelled from the spec: `Resources.Add` is not among the sources; returned resources
are "merged back" into the pool and offers are "accumulated", component by component. -/
def Add (r given : Resources) : Resources :=
  { cpus := r.cpus + given.cpus, ram := r.ram + given.ram }

/-- Modelled from the spec: `Resources.Sub` is not among the sources; obtaining
"deducts `demand`" from the offer, component by component. -/
def Sub (r given : Resources) : Resources :=
  { cpus := r.cpus - given.cpus, ram := r.ram - given.ram }

/-- Modelled from the spec: `Resources.SetZero` is not among the sources; the pool is
empty once everything is offered. -/
def SetZero (_r : Resources) : Resources := { cpus := 0, ram := 0 }

/-- Modelled from the spec: `Resources.IsValid` is not among the sources; "a tuple is
valid iff all fields are ≥ 1". -/
def IsValid (r : Resources) : Bool := decide (1 ≤ r.cpus) && decide (1 ≤ r.ram)

/-- Modelled from the spec: `Resources.Contains` is not among the sources; the offer
contains the demand when `demand ≤ offer.resources` in CPUs and in RAM. -/
def Contains (r contained : Resources) : Bool :=
  decide (contained.cpus ≤ r.cpus) && decide (contained.ram ≤ r.ram)

/-- Modelled from the spec: `Resources.Equals` is not among the sources; "equality is
structural". -/
def Equals (r other : Resources) : Bool := decide (r = other)

/-- Component-wise sum of a list of resources. -/
def sum : List Resources → Resources
  | [] => { cpus := 0, ram := 0 }
  | r :: rs => Add r (sum rs)

end Resources

/-! ## GUIDs (the part the supplier uses) -/

/-- A GUID wraps a `big.Int` (`guid.GUID`). -/
structure GUID where
  id : Int
deriving DecidableEq

/-- Value of a string of decimal digits, `none` if a character is not a digit. -/
def decimalDigits (cs : List Char) : Option Nat :=
  cs.foldl
    (fun acc c =>
      match acc with
      | none => none
      | some n => if c.isDigit then some (10 * n + (c.toNat - 48)) else none)
    (some 0)

/-- One step of `decimalDigits`: the next character joins the value read so far. -/
def digitStep (acc : Option Nat) (c : Char) : Option Nat :=
  match acc with
  | none => none
  | some n => if c.isDigit then some (10 * n + (c.toNat - 48)) else none

/-- The library call `z.Rand(rnd, n)` of `big.Int`: a number in `[0, n)`, here the draw
`draw` of the random source reduced modulo `n`, and 0 when `n` is not positive. -/
def bigIntRand (draw : Nat) (n : Int) : Int :=
  if n ≤ 0 then 0 else Int.ofNat draw % n

/-- The library call `big.Int.SetString(s, 10)`: an optional sign followed by one or more
decimal digits; `none` when the string is not of that form. -/
def bigIntSetString (s : String) : Option Int :=
  match s.toList with
  | [] => none
  | c :: cs =>
    if c = Char.ofNat 45 then
      (if cs.isEmpty then none else (decimalDigits cs).map (fun n => - Int.ofNat n))
    else if c = Char.ofNat 43 then
      (if cs.isEmpty then none else (decimalDigits cs).map Int.ofNat)
    else (decimalDigits (c :: cs)).map Int.ofNat

/-- The value of the decimal digits at the head of `cs`, up to the first character that
is not a digit, read after the value `acc`. -/
def scanDigits : Nat → List Char → Nat
  | acc, [] => acc
  | acc, c :: cs => if c.isDigit then scanDigits (10 * acc + (c.toNat - 48)) cs else acc

/-- What the library call `z.SetString(s, 10)` leaves in a `big.Int` that was 0, whether
it succeeds or not: the scanner reads an optional sign and then the decimal digits up
to the first character that is not one, and stores their value, 0 when there is none;
characters left over make the call fail, but the value scanned stays in `z`.  For a
well-formed string this is the number it denotes. -/
def bigIntScan (s : String) : Int :=
  match s.toList with
  | [] => 0
  | c :: cs =>
    if c = Char.ofNat 45 then - Int.ofNat (scanDigits 0 cs)
    else if c = Char.ofNat 43 then Int.ofNat (scanDigits 0 cs)
    else Int.ofNat (scanDigits 0 (c :: cs))

/-- The bytes of a natural number, least significant first, without a zero at the end;
`fuel` bounds the number of bytes. -/
def bytesLE : Nat → Nat → List Nat
  | 0, _ => []
  | fuel + 1, n => if n = 0 then [] else n % 256 :: bytesLE fuel (n / 256)

/-- The library call `x.Bytes()` of `big.Int`: the absolute value of `x` as big-endian
bytes with no leading zero byte; the slice it returns has its capacity equal to its
length. -/
def bigIntBytes (x : Int) : List Nat := (bytesLE x.natAbs x.natAbs).reverse

/-- The library call `z.SetBytes(buf)` of `big.Int`: `buf` read as a big-endian unsigned
integer. -/
def bigIntSetBytes (buf : List Nat) : Int :=
  Int.ofNat (buf.foldl (fun acc b => acc * 256 + b) 0)

namespace GUID

/-- Embeds `NewGUIDBytes(bytesID)`. -/
def NewGUIDBytes (bytesID : List Nat) : GUID := { id := bigIntSetBytes bytesID }

/-- Embeds `SizeBytes()`, with the package variable `guidSizeBits` as a parameter. -/
def SizeBytes (guidSizeBits : Nat) : Nat := guidSizeBits / 8

/-- The first loop of `Bytes`, `count` passes from `index` on: the higher bytes are
padded with 0.  Gives the slice and the index reached. -/
def padLoop : Nat → Nat → List Nat → List Nat × Nat
  | 0, index, res => (res, index)
  | count + 1, index, res => padLoop count (index + 1) (res.set index 0)

/-- The second loop of `Bytes`, `count` passes from `index` and `k` on: `res[index]`
takes `idBytes[k]`; `none` is the panic of an index out of range. -/
def copyLoop (idBytes : List Nat) : Nat → Nat → Nat → List Nat → Option (List Nat)
  | 0, _, _, res => some res
  | count + 1, index, k, res =>
    match idBytes[k]? with
    | none => none
    | some b => copyLoop idBytes count (index + 1) (k + 1) (res.set index b)

/-- Embeds `guid.Bytes()`, with the package variable `guidSizeBits` as a parameter; `none` is
a panic.  The first loop runs while `index < numOfBytes - cap(idBytes)` and the second
while `index < numOfBytes`. -/
def Bytes (guidSizeBits : Nat) (guid : GUID) : Option (List Nat) :=
  let numOfBytes := guidSizeBits / 8
  let res := List.replicate numOfBytes 0
  let idBytes := bigIntBytes guid.id
  let padded := padLoop (numOfBytes - idBytes.length) 0 res
  copyLoop idBytes (numOfBytes - padded.2) padded.2 0 padded.1

/-- Embeds `guid.AddOffset(offset)`.  The result of `SetString` is discarded by the source,
so that for a malformed string the digits scanned before the first bad character are
added (`"12abc"` adds 12). -/
def AddOffset (guid : GUID) (offset : String) : GUID :=
  { id := guid.id + bigIntScan offset }

/-- Embeds `NewGUIDString(stringID)`: the identifier read in base 10.  The result of
`SetString` is discarded by the source, so that a malformed string gives the GUID of
the digits scanned before the first bad character (`"7abc"` gives 7). -/
def NewGUIDString (stringID : String) : GUID :=
  { id := bigIntScan stringID }

/-- Embeds `guid.Cmp(guid2)`: `-1`, `0` or `1`. -/
def Cmp (guid guid2 : GUID) : Int :=
  if guid.id < guid2.id then -1 else if guid.id = guid2.id then 0 else 1

/-- Embeds `guid.Equals(guid2)`. -/
def Equals (guid guid2 : GUID) : Bool := decide (guid.Cmp guid2 = 0)

/-- Embeds `guid.Short()`, the slice `guid.id.String()[0:12]`; `none` is the panic of a
slice that ends beyond the string.  The string is made of ASCII characters, so that its
bytes are its characters. -/
def Short (guid : GUID) : Option String :=
  if 12 ≤ (toString guid.id).length then some ((toString guid.id).take 12) else none

/-- Embeds `guid.PercentageOffset(offsetPercentage, nextGuid)`; `Div` of `big.Int` is the
Euclidean division. -/
def PercentageOffset (guid : GUID) (offsetPercentage : Int) (nextGuid : GUID) : String :=
  let offset := offsetPercentage
  let dif := nextGuid.id - guid.id
  let offset := offset * dif
  let offset := offset / 100
  toString offset

/-- What `GenerateInnerRandomGUID` leaves: the new GUID, the error (`none` for `nil`),
and the receiver and the argument as they are after the call. -/
structure InnerRandom where
  result : GUID
  err : Option String
  receiver : GUID
  topGUID : GUID
deriving DecidableEq

/-- Embeds `guid.GenerateInnerRandomGUID(topGUID)` for the draw `draw` of the random
source.  The source writes only to the three `big.Int` values it allocates (`dif`,
`randOffset`, `res`), so that the receiver and the argument stay as they are. -/
def GenerateInnerRandomGUID (guid topGUID : GUID) (draw : Nat) : InnerRandom :=
  let dif := topGUID.id - guid.id
  let randOffset := bigIntRand draw dif
  let res := guid.id + randOffset
  { result := NewGUIDString (toString res), err := none, receiver := guid,
    topGUID := topGUID }

/-- The package variables of `guid`: the size of the GUIDs in bits and the flag that
allows one initialization only. -/
structure Package where
  guidSizeBits : Int
  isGuidInitialized : Bool
deriving DecidableEq

/-- The package variables as declared: 160 bits, not initialized. -/
def Package.declared : Package := { guidSizeBits := 160, isGuidInitialized := false }

/-- Embeds `Init(guidBitsSize)`. -/
def Package.Init (pkg : Package) (guidBitsSize : Int) : Package :=
  if !pkg.isGuidInitialized then { guidSizeBits := guidBitsSize, isGuidInitialized := true }
  else pkg

/-- Embeds `SizeBits()`. -/
def Package.SizeBits (pkg : Package) : Int := pkg.guidSizeBits

/-- Embeds `SizeBytes()` on the package variables; the division of Go integers
truncates. -/
def Package.SizeBytes (pkg : Package) : Int := Int.tdiv pkg.guidSizeBits 8

/-- Embeds `guid.String()`: the identifier in base 10. -/
def String (guid : GUID) : String := toString guid.id

end GUID

/-! ## Messages and configuration -/

/-- A node as named in a message (`types.Node`): its IP and its GUID in base 10. -/
structure Node where
  IP : String
  GUID : String
deriving DecidableEq

/-- An offer as named in a message (`types.Offer`); the supplier reads only its ID. -/
structure Offer where
  ID : Int
deriving DecidableEq

/-- One call `client.RemoveOffer(fromSupp, toTrader, offer)`. -/
structure RemoveOfferCall where
  fromSupp : Node
  toTrader : Node
  offer : Offer
deriving DecidableEq

/-- The configuration values the supplier reads (`configuration.Configuration`). -/
structure Configuration where
  HostIP : String
  Simulation : Bool
  MaxRefreshesMissed : Int
  RefreshMissedTimeout : Int

/-! ## The supplier's view of an offer -/

/-- An offer the supplier has advertised (`supplierOffer`): the offer, the trader
responsible for it, the refreshes it missed and the instant of its last refresh. -/
structure supplierOffer where
  id : Int
  amount : Int
  resources : Resources
  responsibleTraderIP : String
  responsibleTraderGUID : GUID
  refreshesMissed : Int
  lastRefresh : Int
deriving DecidableEq

namespace supplierOffer

/-- Embeds `offer.ID()`. -/
def ID (offer : supplierOffer) : Int := offer.id

/-- Embeds `offer.Resources()`. -/
def Resources (offer : supplierOffer) : Caravela.Resources := offer.resources

/-- Embeds `offer.ResponsibleTraderIP()`. -/
def ResponsibleTraderIP (offer : supplierOffer) : String := offer.responsibleTraderIP

/-- Embeds `offer.ResponsibleTraderGUID()`. -/
def ResponsibleTraderGUID (offer : supplierOffer) : GUID := offer.responsibleTraderGUID

/-- Embeds `offer.RefreshesMissed()`. -/
def RefreshesMissed (offer : supplierOffer) : Int := offer.refreshesMissed

/-- Modelled from the spec: `supplierOffer.IsResponsibleTrader` is not among the sources;
the refresh is accepted when the sender "is the registered responsible trader". -/
def IsResponsibleTrader (offer : supplierOffer) (traderGUID : GUID) : Bool :=
  offer.responsibleTraderGUID.Equals traderGUID

/-- Modelled from the spec: `supplierOffer.Refresh` is not among the sources; "a successful
refresh in between resets the counter to zero", at the instant `now`. -/
def Refresh (offer : supplierOffer) (now : Int) : supplierOffer :=
  { offer with refreshesMissed := 0, lastRefresh := now }

/-- Modelled from the spec: `supplierOffer.VerifyRefreshes` is not among the sources;
"if `now − last_refresh ≥ T_refresh_missed_timeout` increment `refreshes_missed`". -/
def VerifyRefreshes (offer : supplierOffer) (now refreshTimeout : Int) : supplierOffer :=
  if refreshTimeout ≤ now - offer.lastRefresh then
    { offer with refreshesMissed := offer.refreshesMissed + 1 }
  else offer

end supplierOffer

/-- Embeds `newSupplierOffer(id, amount, res, traderIP, traderGUID)` as the default strategy
builds it, created at the instant `now`. -/
def newSupplierOffer (id amount : Int) (res : Resources) (traderIP : String)
    (traderGUID : GUID) (now : Int) : supplierOffer :=
  { id := id, amount := amount, resources := res, responsibleTraderIP := traderIP,
    responsibleTraderGUID := traderGUID, refreshesMissed := 0, lastRefresh := now }

/-! ## The map of active offers -/

/-- The Go map `map[common.OfferID]*supplierOffer`. -/
abbrev OfferMap := List (Int × supplierOffer)

namespace OfferMap

/-- The keys of the map. -/
def keys (m : OfferMap) : List Int := m.map Prod.fst

/-- The read `offer, exist := m[k]`. -/
def load : OfferMap → Int → Option supplierOffer
  | [], _ => none
  | e :: rest, k => if e.1 = k then some e.2 else load rest k

/-- The statement `delete(m, k)`. -/
def delete (m : OfferMap) (k : Int) : OfferMap := m.filter (fun e => decide (e.1 ≠ k))

/-- The write `m[k] = offer`. -/
def store (m : OfferMap) (k : Int) (offer : supplierOffer) : OfferMap :=
  if (load m k).isSome then m.map (fun e => if e.1 = k then (k, offer) else e)
  else m ++ [(k, offer)]

/-- A method with a pointer receiver called on the value stored under `k`: the stored
offer changes in place. -/
def mutate (m : OfferMap) (k : Int) (f : supplierOffer → supplierOffer) : OfferMap :=
  m.map (fun e => if e.1 = k then (e.1, f e.2) else e)

/-- Sum of the resources of the offers in the map. -/
def total (m : OfferMap) : Resources := Resources.sum (m.map (fun e => e.2.Resources))

end OfferMap

/-! ## The supplier -/

/-- The offers strategy (`OffersManager`), an interface: `CreateOffer(newOfferID,
availableResources)` answers with an offer or with an error (`none`), and may change
the world `W` it lives in (the overlay, the traders, the clock). -/
structure OffersManager (W : Type) where
  CreateOffer : Int → Resources → W → Option supplierOffer × W

/-- The state of a `Supplier`.  `working` is the flag of the embedded `NodeComponent`;
`client` holds the `RemoveOffer` calls made on the remote client so far and
`strategyCalls` the arguments of the `CreateOffer` calls made on the strategy so far,
oldest first; `world` is the state of what lies outside the supplier. -/
structure Supplier (W : Type) where
  working : Bool
  maxResources : Resources
  availableResources : Resources
  offersIDGen : Int
  activeOffers : OfferMap
  client : List RemoveOfferCall
  strategyCalls : List (Int × Resources)
  world : W

namespace Supplier

variable {W : Type}

/-- Embeds `NewSupplier(config, overlay, client, resourcesMap, maxResources)`. -/
def NewSupplier (maxResources : Resources) (world : W) : Supplier W :=
  { working := false
    maxResources := maxResources.Copy
    availableResources := maxResources.Copy
    offersIDGen := 0
    activeOffers := []
    client := []
    strategyCalls := []
    world := world }

/-- Embeds `sup.isWorking()`. -/
def isWorking (sup : Supplier W) : Bool := sup.working

/-- The `RemoveOffer` message of the supplier for `offer`, carrying `offerID`. -/
def removeOfferCall (config : Configuration) (offer : supplierOffer) (offerID : Int) :
    RemoveOfferCall :=
  { fromSupp := { IP := config.HostIP, GUID := "" }
    toTrader := { IP := offer.ResponsibleTraderIP, GUID := offer.ResponsibleTraderGUID.String }
    offer := { ID := offerID } }

/-- Body of the loop of `createOffer` over the active offers: the trader is told to
remove the offer (at once in simulation, by a goroutine otherwise), the offer leaves the
map and its resources join the available ones. -/
def gatherOffer (config : Configuration) (sup : Supplier W) (e : Int × supplierOffer) :
    Supplier W :=
  { sup with
    client := sup.client ++ [removeOfferCall config e.2 e.1]
    activeOffers := sup.activeOffers.delete e.1
    availableResources := sup.availableResources.Add e.2.Resources }

/-- Embeds `sup.createOffer()`, run with the mutex held. -/
def createOffer (config : Configuration) (strategy : OffersManager W) (sup : Supplier W) :
    Supplier W :=
  if sup.availableResources.IsValid then
    let sup1 := sup.activeOffers.foldl (gatherOffer config) sup
    let answer := strategy.CreateOffer sup1.offersIDGen sup1.availableResources sup1.world
    let sup2 : Supplier W :=
      { sup1 with
        strategyCalls := sup1.strategyCalls ++ [(sup1.offersIDGen, sup1.availableResources)]
        world := answer.2 }
    let sup3 : Supplier W :=
      match answer.1 with
      | some offer =>
        { sup2 with
          activeOffers := sup2.activeOffers.store offer.ID offer
          availableResources := sup2.availableResources.SetZero }
      | none => sup2
    { sup3 with offersIDGen := sup3.offersIDGen + 1 }
  else sup

/-- Body of the loop of the refresh-check tick over the active offers. -/
def checkRefreshes (config : Configuration) (now : Int) (sup : Supplier W)
    (e : Int × supplierOffer) : Supplier W :=
  let offer := e.2.VerifyRefreshes now config.RefreshMissedTimeout
  let sup1 : Supplier W :=
    { sup with
      activeOffers :=
        sup.activeOffers.mutate e.1 (fun o => o.VerifyRefreshes now config.RefreshMissedTimeout) }
  if config.MaxRefreshesMissed ≤ offer.RefreshesMissed then
    { sup1 with
      availableResources := sup1.availableResources.Add offer.Resources
      activeOffers := sup1.activeOffers.delete e.1 }
  else sup1

/-- The goroutine of `startSupplying` for a tick of `refreshesCheckTicker`, at the
instant `now`. -/
def refreshCheckTick (config : Configuration) (now : Int) (sup : Supplier W) : Supplier W :=
  sup.activeOffers.foldl (checkRefreshes config now) sup

/-- Embeds `sup.RefreshOffer(fromTrader, recvOffer)` at the instant `now`; `none` is the panic
of a supplier that is not working. -/
def RefreshOffer (now : Int) (sup : Supplier W) (fromTrader : Node) (recvOffer : Offer) :
    Option (Bool × Supplier W) :=
  if !sup.isWorking then none
  else
    match sup.activeOffers.load recvOffer.ID with
    | none => some (false, sup)
    | some offer =>
      if offer.IsResponsibleTrader (GUID.NewGUIDString fromTrader.GUID) then
        some (true,
          { sup with activeOffers := sup.activeOffers.mutate recvOffer.ID (fun o => o.Refresh now) })
      else some (false, sup)

/-- Embeds `sup.ObtainResources(offerID, resourcesNecessary)`; `none` is the panic of a supplier
that is not working.  Outside simulation the re-advertisement is left to a goroutine
that runs `createOffer` once the mutex is free. -/
def ObtainResources (config : Configuration) (strategy : OffersManager W) (sup : Supplier W)
    (offerID : Int) (resourcesNecessary : Resources) : Option (Bool × Supplier W) :=
  if !sup.isWorking then none
  else
    match sup.activeOffers.load offerID with
    | none => some (false, sup)
    | some supOffer =>
      if !supOffer.Resources.Contains resourcesNecessary then some (false, sup)
      else
        let remainingResources := supOffer.Resources.Copy.Sub resourcesNecessary
        let sup1 : Supplier W :=
          { sup with
            availableResources := sup.availableResources.Add remainingResources
            activeOffers := sup.activeOffers.delete offerID
            client := sup.client ++ [removeOfferCall config supOffer supOffer.ID] }
        if config.Simulation then some (true, createOffer config strategy sup1)
        else some (true, sup1)

/-- Embeds `sup.ReturnResources(releasedResources)`; `none` is the panic of a supplier that is
not working.  Outside simulation the re-advertisement is left to a goroutine that runs
`createOffer` once the mutex is free. -/
def ReturnResources (config : Configuration) (strategy : OffersManager W) (sup : Supplier W)
    (releasedResources : Resources) : Option (Supplier W) :=
  if !sup.isWorking then none
  else
    let sup1 : Supplier W :=
      { sup with availableResources := sup.availableResources.Add releasedResources }
    if config.Simulation then some (createOffer config strategy sup1)
    else some sup1

/-- Embeds `sup.Start()`.  The embedded `NodeComponent` is not among the sources: `Started` is
taken to raise the working flag and run the start function, once.  In simulation the
start function creates the first offer at once, otherwise it starts the ticker loop. -/
def Start (config : Configuration) (strategy : OffersManager W) (sup : Supplier W) :
    Supplier W :=
  if sup.working then sup
  else
    let sup1 : Supplier W := { sup with working := true }
    if !config.Simulation then sup1 else createOffer config strategy sup1

/-- Offers plus pool: the sum of the resources of the active offers and of the available
resources. -/
def holdings (sup : Supplier W) : Resources :=
  sup.activeOffers.total.Add sup.availableResources

/-! ### Runs of a supplier -/

/-- The operations that change a supplier, each atomic under its mutex. -/
inductive Op where
  /-- Embeds `Start()`. -/
  | start : Op
  /-- One run of `createOffer`: a tick of `supplyingTicker`, or the goroutine that
  `ObtainResources` and `ReturnResources` leave behind outside simulation. -/
  | supply : Op
  /-- A tick of `refreshesCheckTicker` at the instant `now`. -/
  | refreshCheck (now : Int) : Op
  /-- Embeds `RefreshOffer(fromTrader, recvOffer)` at the instant `now`. -/
  | refresh (now : Int) (fromTrader : Node) (recvOffer : Offer) : Op
  /-- Embeds `ObtainResources(offerID, resourcesNecessary)`. -/
  | obtain (offerID : Int) (resourcesNecessary : Resources) : Op
  /-- Embeds `ReturnResources(releasedResources)`. -/
  | giveBack (releasedResources : Resources) : Op

/-- One operation on a supplier; `none` when the operation panics. -/
def step (config : Configuration) (strategy : OffersManager W) (sup : Supplier W) :
    Op → Option (Supplier W)
  | Op.start => some (Start config strategy sup)
  | Op.supply => some (createOffer config strategy sup)
  | Op.refreshCheck now => some (refreshCheckTick config now sup)
  | Op.refresh now fromTrader recvOffer =>
    (RefreshOffer now sup fromTrader recvOffer).map Prod.snd
  | Op.obtain offerID resourcesNecessary =>
    (ObtainResources config strategy sup offerID resourcesNecessary).map Prod.snd
  | Op.giveBack releasedResources => ReturnResources config strategy sup releasedResources

/-- A sequence of completed operations, oldest first; `none` when one of them panics. -/
def run (config : Configuration) (strategy : OffersManager W) :
    List Op → Supplier W → Option (Supplier W)
  | [], sup => some sup
  | op :: ops, sup =>
    match step config strategy sup op with
    | none => none
    | some sup1 => run config strategy ops sup1

/-- Whether an operation may run `createOffer`: a supply tick always; `Start`,
`ObtainResources` and `ReturnResources` in simulation only (outside it they leave that
to the ticker or to a goroutine, a supply operation of its own); a refresh check and
`RefreshOffer` never. -/
def Op.runsCreateOffer (config : Configuration) : Op → Bool
  | Op.start => config.Simulation
  | Op.supply => true
  | Op.refreshCheck _ => false
  | Op.refresh _ _ _ => false
  | Op.obtain _ _ => config.Simulation
  | Op.giveBack _ => config.Simulation

/-- What one operation hands out to containers: the demand of an `ObtainResources` that
answers true, minus what a `ReturnResources` brings back, nothing otherwise. -/
def handedOut (config : Configuration) (strategy : OffersManager W) (sup : Supplier W) :
    Op → Resources
  | Op.obtain offerID resourcesNecessary =>
    match ObtainResources config strategy sup offerID resourcesNecessary with
    | some (true, _) => resourcesNecessary
    | _ => { cpus := 0, ram := 0 }
  | Op.giveBack releasedResources =>
    if sup.isWorking then { cpus := - releasedResources.cpus, ram := - releasedResources.ram }
    else { cpus := 0, ram := 0 }
  | _ => { cpus := 0, ram := 0 }

/-- What a sequence of operations hands out to containers, in total. -/
def handedOutTotal (config : Configuration) (strategy : OffersManager W) :
    List Op → Supplier W → Resources
  | [], _ => { cpus := 0, ram := 0 }
  | op :: ops, sup =>
    match step config strategy sup op with
    | none => { cpus := 0, ram := 0 }
    | some sup1 =>
      (handedOut config strategy sup op).Add (handedOutTotal config strategy ops sup1)

end Supplier

namespace OffersManager

variable {W : Type}

/-- The strategy gives each offer it creates the ID it was asked to use. -/
def KeepsID (strategy : OffersManager W) : Prop :=
  ∀ (newOfferID : Int) (res : Resources) (w : W) (offer : supplierOffer),
    (strategy.CreateOffer newOfferID res w).1 = some offer → offer.ID = newOfferID

/-- The strategy gives each offer it creates the resources it was asked to offer. -/
def KeepsResources (strategy : OffersManager W) : Prop :=
  ∀ (newOfferID : Int) (res : Resources) (w : W) (offer : supplierOffer),
    (strategy.CreateOffer newOfferID res w).1 = some offer → offer.Resources = res

end OffersManager

/-! ### Sample environments -/

/-- A strategy that always finds the trader `10.0.0.2` with GUID 7, built the way the
default strategy builds its offer. -/
def sampleStrategy : OffersManager Unit :=
  { CreateOffer := fun newOfferID res w =>
      (some (newSupplierOffer newOfferID 1 res "10.0.0.2" { id := 7 } 0), w) }

/-- A strategy that never finds a trader. -/
def failingStrategy : OffersManager Unit :=
  { CreateOffer := fun _ _ w => (none, w) }

/-- An implementation of the strategy interface that ignores what it is asked to
advertise: whatever the ID and the resources, it answers with an offer 0 of (2, 2). -/
def fixedOfferStrategy : OffersManager Unit :=
  { CreateOffer := fun _ _ w =>
      (some (newSupplierOffer 0 1 { cpus := 2, ram := 2 } "10.0.0.2" { id := 7 } 0), w) }

/-- A configuration outside simulation, with `K_max = 2`. -/
def sampleConfig : Configuration :=
  { HostIP := "10.0.0.1", Simulation := false, MaxRefreshesMissed := 2,
    RefreshMissedTimeout := 10 }

/-- The same configuration in simulation. -/
def sampleSimConfig : Configuration :=
  { HostIP := "10.0.0.1", Simulation := true, MaxRefreshesMissed := 2,
    RefreshMissedTimeout := 10 }

/-- The supplier of a node with 4 CPUs and 4096 MB that has advertised everything in
offer 0: the state after `Start` and one supply tick with `sampleStrategy`. -/
def sampleOffered : Supplier Unit :=
  { working := true
    maxResources := { cpus := 4, ram := 4096 }
    availableResources := { cpus := 0, ram := 0 }
    offersIDGen := 1
    activeOffers :=
      [(0, newSupplierOffer 0 1 { cpus := 4, ram := 4096 } "10.0.0.2" { id := 7 } 0)]
    client := []
    strategyCalls := [(0, { cpus := 4, ram := 4096 })]
    world := () }

/-- The state of `sampleOffered` after `ObtainResources(0, (2, 2048))` outside
simulation: the remainder is back in the pool and the trader was told to drop offer 0. -/
def sampleObtained : Supplier Unit :=
  { working := true
    maxResources := { cpus := 4, ram := 4096 }
    availableResources := { cpus := 2, ram := 2048 }
    offersIDGen := 1
    activeOffers := []
    client :=
      [{ fromSupp := { IP := "10.0.0.1", GUID := "" }
         toTrader := { IP := "10.0.0.2", GUID := "7" }
         offer := { ID := 0 } }]
    strategyCalls := [(0, { cpus := 4, ram := 4096 })]
    world := () }

/-- The state of `sampleObtained` after a supply tick, which advertises the remainder as
offer 1, and `ReturnResources((1, 1024))`. -/
def sampleReoffered : Supplier Unit :=
  { working := true
    maxResources := { cpus := 4, ram := 4096 }
    availableResources := { cpus := 1, ram := 1024 }
    offersIDGen := 2
    activeOffers :=
      [(1, newSupplierOffer 1 1 { cpus := 2, ram := 2048 } "10.0.0.2" { id := 7 } 0)]
    client :=
      [{ fromSupp := { IP := "10.0.0.1", GUID := "" }
         toTrader := { IP := "10.0.0.2", GUID := "7" }
         offer := { ID := 0 } }]
    strategyCalls := [(0, { cpus := 4, ram := 4096 }), (1, { cpus := 2, ram := 2048 })]
    world := () }

/-- The state of `sampleOffered` after `ObtainResources(0, (2, 2048))` in simulation:
the trader was told to drop offer 0 and the remainder is already advertised as offer 1. -/
def sampleReadvertised : Supplier Unit :=
  { working := true
    maxResources := { cpus := 4, ram := 4096 }
    availableResources := { cpus := 0, ram := 0 }
    offersIDGen := 2
    activeOffers :=
      [(1, newSupplierOffer 1 1 { cpus := 2, ram := 2048 } "10.0.0.2" { id := 7 } 0)]
    client :=
      [{ fromSupp := { IP := "10.0.0.1", GUID := "" }
         toTrader := { IP := "10.0.0.2", GUID := "7" }
         offer := { ID := 0 } }]
    strategyCalls := [(0, { cpus := 4, ram := 4096 }), (1, { cpus := 2, ram := 2048 })]
    world := () }

/-- The supplier of a node with 2 CPUs and 2 MB after `Start` in simulation with
`fixedOfferStrategy`: everything is advertised in offer 0. -/
def fixedOffered : Supplier Unit :=
  { working := true
    maxResources := { cpus := 2, ram := 2 }
    availableResources := { cpus := 0, ram := 0 }
    offersIDGen := 1
    activeOffers := [(0, newSupplierOffer 0 1 { cpus := 2, ram := 2 } "10.0.0.2" { id := 7 } 0)]
    client := []
    strategyCalls := [(0, { cpus := 2, ram := 2 })]
    world := () }

/-! ## The default offers strategy -/

/-- A node of the overlay (`overlay.Node`): its IP and its GUID as bytes. -/
structure OverlayNode where
  IP : String
  GUID : List Nat
deriving DecidableEq

namespace DefaultChordOffersManager

/-- One exchange of the strategy with a collaborator: the call and its answer.  `O` is
the type of the offers a trader answers with (`api.Offer`), which the strategy only
passes on. -/
inductive Exchange (O : Type) where
  /-- Embeds `resourcesMapping.RandGUID(res)`; the error is ignored by the source. -/
  | RandGUID (res : Resources) (answer : GUID) : Exchange O
  /-- Embeds `resourcesMapping.HigherRandGUID(guid, res)`; `none` is an error. -/
  | HigherRandGUID (guid : GUID) (res : Resources) (answer : Option GUID) : Exchange O
  /-- Embeds `resourcesMapping.LowerRandGUID(guid, res)`; `none` is an error. -/
  | LowerRandGUID (guid : GUID) (res : Resources) (answer : Option GUID) : Exchange O
  /-- Embeds `overlay.Lookup(key)`; the error is ignored by the source. -/
  | Lookup (key : List Nat) (answer : List OverlayNode) : Exchange O
  /-- Embeds `remoteClient.GetOffers(ip, guid, relay, from)`. -/
  | GetOffers (ip guid : String) (relay : Bool) (sender : String)
      (answer : Except String (List O)) : Exchange O
  /-- Embeds `remoteClient.CreateOffer(fromIP, fromGUID, toIP, toGUID, offerID, amount, cpus,
  ram)`; the answer is the error, `none` for `nil`. -/
  | CreateOffer (fromIP fromGUID toIP toGUID : String) (offerID amount cpus ram : Int)
      (answer : Option String) : Exchange O

/-- What the strategy works with: the size of the GUIDs, the host IP of the
configuration, the resources mapping, the overlay and the remote client.  The random
choices and the network live in the world `W`.  `FirstGUID` and `ResourcesByGUID` only
read the mapping, which is immutable, and every GUID has a partition. -/
structure Environment (W O : Type) where
  guidSizeBits : Nat
  HostIP : String
  RandGUID : Resources → W → GUID × W
  HigherRandGUID : GUID → Resources → W → Option GUID × W
  LowerRandGUID : GUID → Resources → W → Option GUID × W
  FirstGUID : Resources → GUID
  ResourcesByGUID : GUID → Resources
  Lookup : List Nat → W → List OverlayNode × W
  GetOffers : String → String → Bool → String → W → Except String (List O) × W
  CreateOffer : String → String → String → String → Int → Int → Int → Int → W →
    Option String × W

/-- The exchanges made so far, oldest first, and the world. -/
structure State (W O : Type) where
  trace : List (Exchange O)
  world : W

variable {W O : Type}

/-- Embeds `man.removeNonTargetNodes(remoteNodes, targetGuid)`. -/
def removeNonTargetNodes (env : Environment W O) (remoteNodes : List OverlayNode)
    (targetGuid : GUID) : List OverlayNode :=
  let targetGuidResources := env.ResourcesByGUID targetGuid
  remoteNodes.foldl
    (fun resultNodes remoteNode =>
      if targetGuidResources.Equals (env.ResourcesByGUID (GUID.NewGUIDBytes remoteNode.GUID))
      then resultNodes ++ [remoteNode]
      else resultNodes)
    []

/-- The two statements `overlayNodes, _ = man.overlay.Lookup(destinationGUID.Bytes())` and
`overlayNodes = man.removeNonTargetNodes(overlayNodes, *destinationGUID)`; `none` is a
panic of `Bytes`. -/
def lookupTarget (env : Environment W O) (destinationGUID : GUID) (st : State W O) :
    Option (List OverlayNode × State W O) :=
  match GUID.Bytes env.guidSizeBits destinationGUID with
  | none => none
  | some key =>
    let found := env.Lookup key st.world
    some (removeNonTargetNodes env found.1 destinationGUID,
      { trace := st.trace ++ [Exchange.Lookup key found.1], world := found.2 })

/-- The `GetOffers` exchange of `FindOffers` with one node. -/
def getOffersExchange (node : OverlayNode) (answer : Except String (List O)) : Exchange O :=
  Exchange.GetOffers node.IP (GUID.NewGUIDBytes node.GUID).String true "" answer

/-- The loop of `FindOffers` over the nodes of one lookup: the first node that answers
without error and with offers ends it. -/
def queryNodes (env : Environment W O) :
    List OverlayNode → State W O → Option (List O) × State W O
  | [], st => (none, st)
  | node :: rest, st =>
    let answer := env.GetOffers node.IP (GUID.NewGUIDBytes node.GUID).String true "" st.world
    let st1 : State W O :=
      { trace := st.trace ++ [getOffersExchange node answer.1], world := answer.2 }
    match answer.1 with
    | Except.ok offers =>
      if offers.length ≠ 0 then (some offers, st1) else queryNodes env rest st1
    | Except.error _ => queryNodes env rest st1

/-- The passes of the loop of `FindOffers` from the one that looks up `destinationGUID`
on: lookup, queries, and, when no node gave offers, the step to a higher partition
that opens the next pass.  At most `fuel` passes are made; `none` when that is not
enough, or on a panic. -/
def findFrom (env : Environment W O) (targetResources : Resources) :
    Nat → GUID → State W O → Option (List O × State W O)
  | 0, _, _ => none
  | fuel + 1, destinationGUID, st =>
    match lookupTarget env destinationGUID st with
    | none => none
    | some (overlayNodes, st1) =>
      match queryNodes env overlayNodes st1 with
      | (some offers, st2) => some (offers, st2)
      | (none, st2) =>
        let step := env.HigherRandGUID destinationGUID targetResources st2.world
        let st3 : State W O :=
          { trace := st2.trace ++
              [Exchange.HigherRandGUID destinationGUID targetResources step.1]
            world := step.2 }
        match step.1 with
        | none => some ([], st3)
        | some higher => findFrom env targetResources fuel higher st3

/-- Embeds `man.FindOffers(targetResources)`: the first pass (`findPhase == 0`) starts at a
random GUID of the partition of the target, every later one at a higher partition. -/
def FindOffers (env : Environment W O) (fuel : Nat) (targetResources : Resources)
    (st : State W O) : Option (List O × State W O) :=
  let first := env.RandGUID targetResources st.world
  findFrom env targetResources fuel first.1
    { trace := st.trace ++ [Exchange.RandGUID targetResources first.1], world := first.2 }

/-- The last loop of the search of `AdvertiseOffer`, `for len(overlayNodes) == 0`: steps
to lower partitions until a lookup gives a node of the partition; the answer is `none`
when `LowerRandGUID` fails.  At most `fuel` tests of the condition are made; `none`
when that is not enough, or on a panic. -/
def lowerLoop (env : Environment W O) (availableResources : Resources) :
    Nat → GUID → List OverlayNode → State W O →
      Option (Option (List OverlayNode) × State W O)
  | 0, _, _, _ => none
  | fuel + 1, destinationGUID, overlayNodes, st =>
    if overlayNodes.length = 0 then
      let step := env.LowerRandGUID destinationGUID availableResources st.world
      let st1 : State W O :=
        { trace := st.trace ++
            [Exchange.LowerRandGUID destinationGUID availableResources step.1]
          world := step.2 }
      match step.1 with
      | none => some (none, st1)
      | some lower =>
        match lookupTarget env lower st1 with
        | none => none
        | some (nodes, st2) => lowerLoop env availableResources fuel lower nodes st2
    else some (some overlayNodes, st)

/-- The search of `AdvertiseOffer` for nodes of the partition: at a random GUID, then at
the first GUID of the partition (a variable of its own in the source, so that the
steps to lower partitions start from the random GUID), then at lower partitions. -/
def searchTrader (env : Environment W O) (fuel : Nat) (availableResources : Resources)
    (st : State W O) : Option (Option (List OverlayNode) × State W O) :=
  let first := env.RandGUID availableResources st.world
  let destinationGUID := first.1
  let st1 : State W O :=
    { trace := st.trace ++ [Exchange.RandGUID availableResources first.1], world := first.2 }
  match lookupTarget env destinationGUID st1 with
  | none => none
  | some (overlayNodes, st2) =>
    match (if overlayNodes.length = 0 then
        lookupTarget env (env.FirstGUID availableResources) st2
      else some (overlayNodes, st2)) with
    | none => none
    | some (overlayNodes2, st3) =>
      lowerLoop env availableResources fuel destinationGUID overlayNodes2 st3

/-- Embeds `man.AdvertiseOffer(newOfferID, availableResources)` at the instant `now`: the
offer and the error (`none` for `nil`). -/
def AdvertiseOffer (env : Environment W O) (now : Int) (fuel : Nat) (newOfferID : Int)
    (availableResources : Resources) (st : State W O) :
    Option ((Option supplierOffer × Option String) × State W O) :=
  match searchTrader env fuel availableResources st with
  | none => none
  | some (none, st1) => some ((none, some "no nodes available to accept offer"), st1)
  | some (some overlayNodes, st1) =>
    match overlayNodes with
    | [] => none
    | chosenNode :: _ =>
      let chosenNodeGUID := GUID.NewGUIDBytes chosenNode.GUID
      let answer := env.CreateOffer env.HostIP "" chosenNode.IP chosenNodeGUID.String
        newOfferID 1 availableResources.CPUs availableResources.RAM st1.world
      let st2 : State W O :=
        { trace := st1.trace ++
            [Exchange.CreateOffer env.HostIP "" chosenNode.IP chosenNodeGUID.String
              newOfferID 1 availableResources.CPUs availableResources.RAM answer.1]
          world := answer.2 }
      match answer.1 with
      | none =>
        some ((some (newSupplierOffer newOfferID 1 availableResources chosenNode.IP
          chosenNodeGUID now), none), st2)
      | some _ => some ((none, some "impossible advertise offer"), st2)

/-! ### The walk of `FindOffers`, seen from outside -/

/-- One pass of the loop of `FindOffers`: the GUID looked up, the nodes the overlay
answered with, and the answers of the nodes that were asked for offers, in the order
they were asked. -/
structure Pass (O : Type) where
  destinationGUID : GUID
  found : List OverlayNode
  answers : List (Except String (List O))

/-- The exchanges of a pass: the lookup at the GUID, then one `GetOffers` per answer, to
the nodes of the partition of the GUID among those found, in lookup order. -/
def Pass.exchanges (env : Environment W O) (pass : Pass O) : List (Exchange O) :=
  Exchange.Lookup ((GUID.Bytes env.guidSizeBits pass.destinationGUID).getD []) pass.found ::
    List.zipWith getOffersExchange
      (removeNonTargetNodes env pass.found pass.destinationGUID) pass.answers

/-- An answer that `FindOffers` skips: an error, or an empty list of offers. -/
def Skipped (answer : Except String (List O)) : Prop :=
  match answer with
  | Except.ok offers => offers = []
  | Except.error _ => True

/-- A pass in which every node of the partition was asked and every answer skipped. -/
def Pass.Fruitless (env : Environment W O) (pass : Pass O) : Prop :=
  pass.answers.length =
      (removeNonTargetNodes env pass.found pass.destinationGUID).length ∧
    ∀ answer ∈ pass.answers, Skipped answer

/-- The GUID of the first of the passes `passes` followed by `last`. -/
def firstDestination : List (Pass O) → Pass O → GUID
  | [], last => last.destinationGUID
  | pass :: _, _ => pass.destinationGUID

/-- The exchanges of a walk through the passes `passes` and then `last`: between two
passes, the `HigherRandGUID` step from the GUID of the one to the GUID of the next. -/
def walkExchanges (env : Environment W O) (targetResources : Resources) :
    List (Pass O) → Pass O → List (Exchange O)
  | [], last => last.exchanges env
  | pass :: rest, last =>
    pass.exchanges env ++
      Exchange.HigherRandGUID pass.destinationGUID targetResources
        (some (firstDestination rest last)) ::
      walkExchanges env targetResources rest last

/-! ### The search of `AdvertiseOffer`, seen from outside -/

/-- Whether an exchange is a `CreateOffer` message. -/
def Exchange.isCreateOffer : Exchange O → Bool
  | Exchange.CreateOffer _ _ _ _ _ _ _ _ _ => true
  | _ => false

/-- One lookup of the search of `AdvertiseOffer`: the GUID looked up and the nodes the
overlay answered with. -/
structure Probe where
  destinationGUID : GUID
  found : List OverlayNode

/-- The nodes of a probe that are in the partition of its GUID. -/
def Probe.nodes (env : Environment W O) (probe : Probe) : List OverlayNode :=
  removeNonTargetNodes env probe.found probe.destinationGUID

/-- The lookup exchange of a probe. -/
def Probe.exchange (env : Environment W O) (probe : Probe) : Exchange O :=
  Exchange.Lookup ((GUID.Bytes env.guidSizeBits probe.destinationGUID).getD []) probe.found

/-- The exchanges of successive steps to lower partitions from the GUID `start`: each
probe is reached by `LowerRandGUID` from the GUID before it. -/
def lowerExchanges (env : Environment W O) (availableResources : Resources) :
    GUID → List Probe → List (Exchange O)
  | _, [] => []
  | start, probe :: rest =>
    Exchange.LowerRandGUID start availableResources (some probe.destinationGUID) ::
      probe.exchange env :: lowerExchanges env availableResources probe.destinationGUID rest

/-- The GUID reached after the steps to lower partitions through the probes. -/
def lastDestination : GUID → List Probe → GUID
  | start, [] => start
  | _, probe :: rest => lastDestination probe.destinationGUID rest

/-- The exchanges of the search after the lookup at the random GUID: none if that lookup
gave a node; otherwise the lookup at the first GUID of the partition and then the steps
to lower partitions, which start from the random GUID. -/
def searchExchanges (env : Environment W O) (availableResources : Resources)
    (random : Probe) : List Probe → List (Exchange O)
  | [] => []
  | first :: lower =>
    first.exchange env ::
      lowerExchanges env availableResources random.destinationGUID lower

end DefaultChordOffersManager

/-! ## The scheduler -/

/-- The group policy of a container (`types.GroupPolicy`): co-location, spread, or any
other value of the type. -/
inductive GroupPolicy where
  | CoLocationGroupPolicy : GroupPolicy
  | SpreadGroupPolicy : GroupPolicy
  | unknown (code : Nat) : GroupPolicy
deriving DecidableEq

/-- The resources a container asks for (`types.Resources`). -/
structure ContainerResources where
  CPUClass : Int
  CPUs : Int
  Memory : Int
deriving DecidableEq

/-- The configuration of a container to deploy (`types.ContainerConfig`); the port
mappings play no part in scheduling and are left out. -/
structure ContainerConfig where
  ImageKey : String
  Args : List String
  Resources : ContainerResources
  GroupPolicy : GroupPolicy
deriving DecidableEq

/-- The status of a launched container (`types.ContainerStatus`): where it runs and
under which ID. -/
structure ContainerStatus where
  SupplierIP : String
  ContainerID : String
deriving DecidableEq

/-- An offer found by the discovery (`types.AvailableOffer`). -/
structure AvailableOffer where
  SupplierIP : String
  ID : Int
  Amount : Int
  FreeResources : ContainerResources
deriving DecidableEq

namespace Scheduler

/-- The resources of a demand, with their CPU class (`resources.Resources` as the
scheduler uses it). -/
structure Resources where
  cpuClass : Int
  cpus : Int
  ram : Int
deriving DecidableEq

namespace Resources

/-- Embeds `resources.NewResourcesCPUClass(cpuClass, cpus, ram)`. -/
def NewResourcesCPUClass (cpuClass cpus ram : Int) : Resources :=
  { cpuClass := cpuClass, cpus := cpus, ram := ram }

/-- Modelled from the spec: `Resources.Add` is not among the sources; the demands of the
co-located containers "are summed", CPUs with CPUs and RAM with RAM.  The argument of
the source, `*resources.NewResources(cpus, ram)`, is given by its two amounts. -/
def Add (r : Resources) (cpus ram : Int) : Resources :=
  { r with cpus := r.cpus + cpus, ram := r.ram + ram }

/-- Embeds `r.SetCPUClass(cpuClass)`. -/
def SetCPUClass (r : Resources) (cpuClass : Int) : Resources :=
  { r with cpuClass := cpuClass }

/-- Embeds `resources.NewResources(cpus, ram)`.  The constructor is not among the sources;
the CPU class it leaves in the value is taken to be the zero value of the field. -/
def NewResources (cpus ram : Int) : Resources :=
  { cpuClass := 0, cpus := cpus, ram := ram }

end Resources

/-- A call the scheduler makes on one of its collaborators. -/
inductive Call where
  /-- Embeds `discovery.FindOffers(ctx, resources)`. -/
  | FindOffers (res : Resources) : Call
  /-- Embeds `client.LaunchContainer(ctx, fromBuyer, toSupplier, offer, containersConfigs)`. -/
  | LaunchContainer (fromBuyer toSupplier : Node) (offer : Offer)
      (containersConfigs : List ContainerConfig) : Call
  /-- Embeds `client.StopLocalContainer(ctx, toSupplier, containerID)`. -/
  | StopLocalContainer (toSupplier : Node) (containerID : String) : Call
  /-- Embeds `containersManager.StartContainer(fromBuyer, offer, containersConfigs,
  totalResourcesNecessary)`. -/
  | StartContainer (fromBuyer : Node) (offer : Offer)
      (containersConfigs : List ContainerConfig) (totalResourcesNecessary : Resources) : Call
deriving DecidableEq

/-- What the scheduler works with: the discovery component, the scheduling policy and
the remote client, whose answers may depend on and change the world `W`, and the
constant `types.LowCPUPClass`. -/
structure Collaborators (W : Type) where
  LowCPUPClass : Int
  FindOffers : Resources → W → List AvailableOffer × W
  Rank : List AvailableOffer → Resources → List AvailableOffer
  LaunchContainer : Node → Node → Offer → List ContainerConfig → W →
    Except String (List ContainerStatus) × W
  StopLocalContainer : Node → String → W → W

/-- The local containers manager of the scheduler (`containerManagerLocal`):
`StartContainer` answers with statuses and an error (`none` for `nil`). -/
structure ContainersManager (W : Type) where
  StartContainer : Node → Offer → List ContainerConfig → Resources → W →
    (List ContainerStatus × Option String) × W

/-- The state around a `Scheduler`: the working flag of its `NodeComponent`, the calls
made on the collaborators so far, oldest first, and the world. -/
structure State (W : Type) where
  working : Bool
  calls : List Call
  world : W

variable {W : Type}

/-- The loop of `launchContainers` over the ranked offers: the first offer that accepts
the containers ends it with the statuses; the refusal of the last offer ends it in
error. -/
def tryOffers (config : Configuration) (env : Collaborators W)
    (containersConfigs : List ContainerConfig) :
    List AvailableOffer → State W → (List ContainerStatus × Option String) × State W
  | [], st => (([], none), st)
  | offer :: rest, st =>
    let answer := env.LaunchContainer { IP := config.HostIP, GUID := "" }
      { IP := offer.SupplierIP, GUID := "" } { ID := offer.ID } containersConfigs st.world
    let st1 : State W :=
      { st with
        calls := st.calls ++ [Call.LaunchContainer { IP := config.HostIP, GUID := "" }
          { IP := offer.SupplierIP, GUID := "" } { ID := offer.ID } containersConfigs]
        world := answer.2 }
    match answer.1 with
    | Except.error _ =>
      if rest.isEmpty then (([], some "all offers were reject to deploy"), st1)
      else tryOffers config env containersConfigs rest st1
    | Except.ok containersStatus => (([] ++ containersStatus, none), st1)

/-- Embeds `s.launchContainers(ctx, containersConfigs, resourcesNecessary)`: the statuses and
the error (`none` for `nil`). -/
def launchContainers (config : Configuration) (env : Collaborators W)
    (containersConfigs : List ContainerConfig) (resourcesNecessary : Resources)
    (st : State W) : (List ContainerStatus × Option String) × State W :=
  if containersConfigs.isEmpty then (([], none), st)
  else
    let found := env.FindOffers resourcesNecessary st.world
    let st1 : State W :=
      { st with calls := st.calls ++ [Call.FindOffers resourcesNecessary], world := found.2 }
    let offers := env.Rank found.1 resourcesNecessary
    if offers.isEmpty then (([], some "no offers found to deploy"), st1)
    else tryOffers config env containersConfigs offers st1

/-- What the first loop of `SubmitContainers` has gathered. -/
structure Groups where
  coLocateTotalResources : Resources
  coLocateContainers : List ContainerConfig
  spreadContainers : List ContainerConfig

/-- Body of the first loop of `SubmitContainers`: the container joins the co-located
group or the spread ones according to its group policy. -/
def groupContainer (groups : Groups) (contConfig : ContainerConfig) : Groups :=
  if contConfig.GroupPolicy = GroupPolicy.CoLocationGroupPolicy then
    { groups with
      coLocateContainers := groups.coLocateContainers ++ [contConfig]
      coLocateTotalResources :=
        (groups.coLocateTotalResources.Add contConfig.Resources.CPUs
          contConfig.Resources.Memory).SetCPUClass contConfig.Resources.CPUClass }
  else if contConfig.GroupPolicy = GroupPolicy.SpreadGroupPolicy then
    { groups with spreadContainers := groups.spreadContainers ++ [contConfig] }
  else groups

/-- The first loop of `SubmitContainers`. -/
def groupContainers (env : Collaborators W) (contConfigs : List ContainerConfig) : Groups :=
  contConfigs.foldl groupContainer
    { coLocateTotalResources := Resources.NewResourcesCPUClass env.LowCPUPClass 0 0
      coLocateContainers := []
      spreadContainers := [] }

/-- The rollback of `SubmitContainers`: `StopLocalContainer` for the statuses collected
so far, by increasing index. -/
def stopLaunched (env : Collaborators W) (resContainersStatus : List ContainerStatus)
    (st : State W) : State W :=
  resContainersStatus.foldl
    (fun st1 status =>
      { st1 with
        calls := st1.calls ++
          [Call.StopLocalContainer { IP := status.SupplierIP, GUID := "" } status.ContainerID]
        world := env.StopLocalContainer { IP := status.SupplierIP, GUID := "" }
          status.ContainerID st1.world })
    st

/-- The last loop of `SubmitContainers`, over the spread containers still to launch,
with the statuses collected so far. -/
def launchSpread (config : Configuration) (env : Collaborators W) :
    List ContainerConfig → List ContainerStatus → State W →
      (List ContainerStatus × Option String) × State W
  | [], resContainersStatus, st => ((resContainersStatus, none), st)
  | contConfig :: rest, resContainersStatus, st =>
    let resourcesNecessary := Resources.NewResourcesCPUClass contConfig.Resources.CPUClass
      contConfig.Resources.CPUs contConfig.Resources.Memory
    let launched := launchContainers config env [contConfig] resourcesNecessary st
    match launched.1.2 with
    | some err => (([], some err), stopLaunched env resContainersStatus launched.2)
    | none => launchSpread config env rest (resContainersStatus ++ launched.1.1) launched.2

/-- Embeds `s.SubmitContainers(ctx, contConfigs)`: the statuses and the error (`none` for
`nil`), or `none` for the panic of a scheduler that is not working. -/
def SubmitContainers (config : Configuration) (env : Collaborators W) (st : State W)
    (contConfigs : List ContainerConfig) :
    Option ((List ContainerStatus × Option String) × State W) :=
  if !st.working then none
  else
    let groups := groupContainers env contConfigs
    let launched := launchContainers config env groups.coLocateContainers
      groups.coLocateTotalResources st
    match launched.1.2 with
    | some err => some (([], some err), launched.2)
    | none => some (launchSpread config env groups.spreadContainers ([] ++ launched.1.1) launched.2)

/-- Embeds `s.Launch(ctx, fromBuyer, offer, containersConfigs)`: the statuses and the error
(`none` for `nil`), or `none` for the panic of a scheduler that is not working. -/
def Launch (manager : ContainersManager W) (st : State W) (fromBuyer : Node) (offer : Offer)
    (containersConfigs : List ContainerConfig) :
    Option ((List ContainerStatus × Option String) × State W) :=
  if !st.working then none
  else if containersConfigs.isEmpty then some (([], some "no container configurations"), st)
  else
    let totalResourcesNecessary :=
      containersConfigs.foldl
        (fun total contConfig =>
          total.Add contConfig.Resources.CPUs contConfig.Resources.Memory)
        (Resources.NewResources 0 0)
    let answer := manager.StartContainer fromBuyer offer containersConfigs
      totalResourcesNecessary st.world
    some (answer.1,
      { st with
        calls := st.calls ++
          [Call.StartContainer fromBuyer offer containersConfigs totalResourcesNecessary]
        world := answer.2 })

/-- The `LaunchContainer` call that `launchContainers` makes for one offer. -/
def launchCall (config : Configuration) (containersConfigs : List ContainerConfig)
    (offer : AvailableOffer) : Call :=
  Call.LaunchContainer { IP := config.HostIP, GUID := "" }
    { IP := offer.SupplierIP, GUID := "" } { ID := offer.ID } containersConfigs

/-- The answers the offers give when they are asked one after the other to launch the
containers, each in the world the answers before it left. -/
def answersInTurn (config : Configuration) (env : Collaborators W)
    (containersConfigs : List ContainerConfig) :
    List AvailableOffer → W → List (Except String (List ContainerStatus))
  | [], _ => []
  | offer :: rest, w =>
    let answer := env.LaunchContainer { IP := config.HostIP, GUID := "" }
      { IP := offer.SupplierIP, GUID := "" } { ID := offer.ID } containersConfigs w
    answer.1 :: answersInTurn config env containersConfigs rest answer.2

/-- The demand `SubmitContainers` builds for one spread container. -/
def spreadDemand (contConfig : ContainerConfig) : Resources :=
  Resources.NewResourcesCPUClass contConfig.Resources.CPUClass contConfig.Resources.CPUs
    contConfig.Resources.Memory

/-- The statuses that the launches of the spread containers give when they are made one
after the other, in submission order, each in the state the launches before it left. -/
def statusesInTurn (config : Configuration) (env : Collaborators W) :
    List ContainerConfig → State W → List (List ContainerStatus)
  | [], _ => []
  | contConfig :: rest, st =>
    let launched := launchContainers config env [contConfig] (spreadDemand contConfig) st
    launched.1.1 :: statusesInTurn config env rest launched.2

end Scheduler

/-- A discovery that always finds one offer of supplier `10.0.0.9`, a policy that keeps
the order, and a client whose first launch succeeds with container `c1` and whose later
launches are all refused; the world counts the launches. -/
def sampleCollaborators : Scheduler.Collaborators Nat :=
  { LowCPUPClass := 0
    FindOffers := fun _ w =>
      ([{ SupplierIP := "10.0.0.9", ID := 3, Amount := 1,
          FreeResources := { CPUClass := 0, CPUs := 4, Memory := 4096 } }], w)
    Rank := fun offers _ => offers
    LaunchContainer := fun _ toSupplier _ _ w =>
      if w = 0 then (Except.ok [{ SupplierIP := toSupplier.IP, ContainerID := "c1" }], w + 1)
      else (Except.error "offer refused", w + 1)
    StopLocalContainer := fun _ _ w => w }

/-- A container to spread, needing (1, 512). -/
def sampleSpread : ContainerConfig :=
  { ImageKey := "nginx", Args := [],
    Resources := { CPUClass := 0, CPUs := 1, Memory := 512 },
    GroupPolicy := GroupPolicy.SpreadGroupPolicy }

/-- A working scheduler that has made no call yet. -/
def sampleScheduler : Scheduler.State Nat := { working := true, calls := [], world := 0 }

/-- The scheduler after the first spread container was launched on `10.0.0.9`. -/
def sampleLaunchedOne : Scheduler.State Nat :=
  { working := true
    calls :=
      [Scheduler.Call.FindOffers { cpuClass := 0, cpus := 1, ram := 512 },
        Scheduler.Call.LaunchContainer { IP := "10.0.0.1", GUID := "" }
          { IP := "10.0.0.9", GUID := "" } { ID := 3 } [sampleSpread]]
    world := 1 }

/-- A discovery that always finds the offers 3 of `10.0.0.9` and 4 of `10.0.0.8`, a
policy that keeps the order, and a client whose first launch succeeds with container
`c1`, whose second succeeds with `c2` and whose later launches are all refused; the
world counts the launches. -/
def sampleCollaboratorsTwo : Scheduler.Collaborators Nat :=
  { LowCPUPClass := 0
    FindOffers := fun _ w =>
      ([{ SupplierIP := "10.0.0.9", ID := 3, Amount := 1,
          FreeResources := { CPUClass := 0, CPUs := 4, Memory := 4096 } },
        { SupplierIP := "10.0.0.8", ID := 4, Amount := 1,
          FreeResources := { CPUClass := 0, CPUs := 4, Memory := 4096 } }], w)
    Rank := fun offers _ => offers
    LaunchContainer := fun _ toSupplier _ _ w =>
      if w = 0 then (Except.ok [{ SupplierIP := toSupplier.IP, ContainerID := "c1" }], w + 1)
      else if w = 1 then
        (Except.ok [{ SupplierIP := toSupplier.IP, ContainerID := "c2" }], w + 1)
      else (Except.error "offer refused", w + 1)
    StopLocalContainer := fun _ _ w => w }

/-- The scheduler after two spread containers were launched on `10.0.0.9` with
`sampleCollaboratorsTwo`. -/
def sampleLaunchedTwo : Scheduler.State Nat :=
  { working := true
    calls :=
      [Scheduler.Call.FindOffers { cpuClass := 0, cpus := 1, ram := 512 },
        Scheduler.Call.LaunchContainer { IP := "10.0.0.1", GUID := "" }
          { IP := "10.0.0.9", GUID := "" } { ID := 3 } [sampleSpread],
        Scheduler.Call.FindOffers { cpuClass := 0, cpus := 1, ram := 512 },
        Scheduler.Call.LaunchContainer { IP := "10.0.0.1", GUID := "" }
          { IP := "10.0.0.9", GUID := "" } { ID := 3 } [sampleSpread]]
    world := 2 }

/-- A container to co-locate, needing the given CPUs and memory. -/
def sampleCoLocated (cpus memory : Int) : ContainerConfig :=
  { ImageKey := "redis", Args := [],
    Resources := { CPUClass := 0, CPUs := cpus, Memory := memory },
    GroupPolicy := GroupPolicy.CoLocationGroupPolicy }

/-- The scheduler after three co-located containers needing (1, 512), (1, 512) and
(2, 1024) were launched together on `10.0.0.9` with `sampleCollaborators`. -/
def sampleCoLaunched : Scheduler.State Nat :=
  { working := true
    calls :=
      [Scheduler.Call.FindOffers { cpuClass := 0, cpus := 4, ram := 2048 },
        Scheduler.Call.LaunchContainer { IP := "10.0.0.1", GUID := "" }
          { IP := "10.0.0.9", GUID := "" } { ID := 3 }
          [sampleCoLocated 1 512, sampleCoLocated 1 512, sampleCoLocated 2 1024]]
    world := 1 }

/-- The scheduler after `sampleSpread` and a co-located container needing (2, 1024) were
submitted in that order with `sampleCollaboratorsTwo`: the co-located one was launched
first. -/
def sampleMixedLaunched : Scheduler.State Nat :=
  { working := true
    calls :=
      [Scheduler.Call.FindOffers { cpuClass := 0, cpus := 2, ram := 1024 },
        Scheduler.Call.LaunchContainer { IP := "10.0.0.1", GUID := "" }
          { IP := "10.0.0.9", GUID := "" } { ID := 3 } [sampleCoLocated 2 1024],
        Scheduler.Call.FindOffers { cpuClass := 0, cpus := 1, ram := 512 },
        Scheduler.Call.LaunchContainer { IP := "10.0.0.1", GUID := "" }
          { IP := "10.0.0.9", GUID := "" } { ID := 3 } [sampleSpread]]
    world := 2 }

/-- A container of a group policy that is neither co-location nor spread. -/
def sampleOther : ContainerConfig :=
  { ImageKey := "busybox", Args := [],
    Resources := { CPUClass := 1, CPUs := 8, Memory := 8192 },
    GroupPolicy := GroupPolicy.unknown 7 }

/-- A container to co-locate, needing (1, 512) of CPU class 1. -/
def sampleCoLocatedHigh : ContainerConfig :=
  { ImageKey := "redis", Args := [],
    Resources := { CPUClass := 1, CPUs := 1, Memory := 512 },
    GroupPolicy := GroupPolicy.CoLocationGroupPolicy }

/-- A containers manager that starts every container it is given. -/
def sampleManager : Scheduler.ContainersManager Nat :=
  { StartContainer := fun _ _ containersConfigs _ w =>
      ((containersConfigs.map (fun _ => { SupplierIP := "10.0.0.1", ContainerID := "c1" }),
        none), w + 1) }

/-- A system of three partitions, (1, 1024) on the GUIDs below 100, (2, 2048) below 200
and (4, 4096) above, with node `10.0.0.3` at GUID 120 and node `10.0.0.4` at GUID 210;
a lookup in the middle partition also returns the node of the upper one.  Only
`10.0.0.4` holds an offer, of (4, 4096), and every trader accepts the offers it is
sent. -/
def sampleEnvironment : DefaultChordOffersManager.Environment Unit AvailableOffer :=
  { guidSizeBits := 160
    HostIP := "10.0.0.1"
    RandGUID := fun res w =>
      (if res = { cpus := 1, ram := 1024 } then { id := 50 }
        else if res = { cpus := 2, ram := 2048 } then { id := 150 } else { id := 250 }, w)
    HigherRandGUID := fun guid _ w =>
      (if guid.id < 100 then some { id := 150 }
        else if guid.id < 200 then some { id := 250 } else none, w)
    LowerRandGUID := fun guid _ w =>
      (if 200 ≤ guid.id then some { id := 150 }
        else if 100 ≤ guid.id then some { id := 50 } else none, w)
    FirstGUID := fun res =>
      if res = { cpus := 1, ram := 1024 } then { id := 0 }
      else if res = { cpus := 2, ram := 2048 } then { id := 100 } else { id := 200 }
    ResourcesByGUID := fun guid =>
      if guid.id < 100 then { cpus := 1, ram := 1024 }
      else if guid.id < 200 then { cpus := 2, ram := 2048 } else { cpus := 4, ram := 4096 }
    Lookup := fun key w =>
      (if 200 ≤ bigIntSetBytes key then [{ IP := "10.0.0.4", GUID := [210] }]
        else if 100 ≤ bigIntSetBytes key then
          [{ IP := "10.0.0.4", GUID := [210] }, { IP := "10.0.0.3", GUID := [120] }]
        else [], w)
    GetOffers := fun ip _ _ _ w =>
      (if ip = "10.0.0.4" then
          Except.ok [AvailableOffer.mk "10.0.0.7" 0 1 (ContainerResources.mk 0 4 4096)]
        else Except.ok [], w)
    CreateOffer := fun _ _ _ _ _ _ _ _ w => (none, w) }

/-- The rank of a GUID in `sampleEnvironment`: the number of partitions above its own. -/
def sampleRank (guid : GUID) : Nat :=
  if guid.id < 100 then 2 else if guid.id < 200 then 1 else 0

/-- A strategy that has exchanged nothing yet. -/
def sampleStrategyState : DefaultChordOffersManager.State Unit AvailableOffer :=
  { trace := [], world := () }

/-- The offer that node `10.0.0.4` holds in `sampleEnvironment`. -/
def sampleHeldOffer : AvailableOffer :=
  { SupplierIP := "10.0.0.7", ID := 0, Amount := 1,
    FreeResources := { CPUClass := 0, CPUs := 4, Memory := 4096 } }

/-- The strategy after `FindOffers` for (1, 1024) in `sampleEnvironment`: nothing is
found in the partition of GUID 50, node `10.0.0.3` of the partition of GUID 150 has no
offer, and node `10.0.0.4` of the partition of GUID 250 answers with its offer. -/
def sampleFound : DefaultChordOffersManager.State Unit AvailableOffer :=
  { trace :=
      [DefaultChordOffersManager.Exchange.RandGUID { cpus := 1, ram := 1024 } { id := 50 },
        DefaultChordOffersManager.Exchange.Lookup (List.replicate 19 0 ++ [50]) [],
        DefaultChordOffersManager.Exchange.HigherRandGUID { id := 50 }
          { cpus := 1, ram := 1024 } (some { id := 150 }),
        DefaultChordOffersManager.Exchange.Lookup (List.replicate 19 0 ++ [150])
          [{ IP := "10.0.0.4", GUID := [210] }, { IP := "10.0.0.3", GUID := [120] }],
        DefaultChordOffersManager.Exchange.GetOffers "10.0.0.3" "120" true "" (Except.ok []),
        DefaultChordOffersManager.Exchange.HigherRandGUID { id := 150 }
          { cpus := 1, ram := 1024 } (some { id := 250 }),
        DefaultChordOffersManager.Exchange.Lookup (List.replicate 19 0 ++ [250])
          [{ IP := "10.0.0.4", GUID := [210] }],
        DefaultChordOffersManager.Exchange.GetOffers "10.0.0.4" "210" true ""
          (Except.ok [sampleHeldOffer])]
    world := () }

/-- The rank of a GUID in `sampleEnvironment` for the steps down: the number of
partitions below its own. -/
def sampleLowerRank (guid : GUID) : Nat :=
  if 200 ≤ guid.id then 2 else if 100 ≤ guid.id then 1 else 0

/-- The strategy after the search of `AdvertiseOffer` for (4, 4096) in
`sampleEnvironment`: the lookup at the random GUID 250 gives node `10.0.0.4`. -/
def sampleSearched : DefaultChordOffersManager.State Unit AvailableOffer :=
  { trace :=
      [DefaultChordOffersManager.Exchange.RandGUID { cpus := 4, ram := 4096 } { id := 250 },
        DefaultChordOffersManager.Exchange.Lookup (List.replicate 19 0 ++ [250])
          [{ IP := "10.0.0.4", GUID := [210] }]]
    world := () }

/-- The strategy after `AdvertiseOffer` for (1, 1024) in `sampleEnvironment`: no node is
in the lowest partition, at the random GUID 50 or at its first GUID 0, and there is no
lower partition. -/
def sampleUnplaced : DefaultChordOffersManager.State Unit AvailableOffer :=
  { trace :=
      [DefaultChordOffersManager.Exchange.RandGUID { cpus := 1, ram := 1024 } { id := 50 },
        DefaultChordOffersManager.Exchange.Lookup (List.replicate 19 0 ++ [50]) [],
        DefaultChordOffersManager.Exchange.Lookup (List.replicate 20 0) [],
        DefaultChordOffersManager.Exchange.LowerRandGUID { id := 50 }
          { cpus := 1, ram := 1024 } none]
    world := () }

/-! ## The state of the resource partitions -/

namespace Partitions

/-- Modelled from the spec: `ResourcePartitionState` and its methods are not among the
sources; "a bounded-sample counter ... with N slots", whose `hits` are "a fixed-width
ring of N samples".  The samples are kept newest first, a hit as `true`, and there are
never more than `totalTries` of them. -/
structure ResourcePartitionState where
  totalTries : Nat
  hits : List Bool
deriving DecidableEq

/-- Modelled from the spec: `NewResourcePartitionState(totalTries)` is not among the
sources; a counter with no sample yet ("uninitialized"). -/
def NewResourcePartitionState (totalTries : Nat) : ResourcePartitionState :=
  { totalTries := totalTries, hits := [] }

namespace ResourcePartitionState

/-- Modelled from the spec: `Try` of a partition state is not among the sources; "`Try`
returns true unless all N samples are misses", that is "while at least one recent sample
is a hit or the counter is uninitialized". -/
def Try (state : ResourcePartitionState) : Bool :=
  decide (state.hits.length < state.totalTries) || state.hits.any id

/-- Modelled from the spec: `Hit` of a partition state is not among the sources;
"`Hit/Miss` shift-in a sample". -/
def Hit (state : ResourcePartitionState) : ResourcePartitionState :=
  { state with hits := (true :: state.hits).take state.totalTries }

/-- Modelled from the spec: `Miss` of a partition state is not among the sources;
"`Hit/Miss` shift-in a sample". -/
def Miss (state : ResourcePartitionState) : ResourcePartitionState :=
  { state with hits := (false :: state.hits).take state.totalTries }

/-- The samples of two counters combined, slot by slot: a hit where either has one. -/
def orSamples : List Bool → List Bool → List Bool
  | [], others => others
  | mine, [] => mine
  | sample :: mine, other :: others => (sample || other) :: orSamples mine others

/-- Modelled from the spec: `Merge` of a partition state is not among the sources;
"`merge(other_hits)` OR-combines two counters". -/
def Merge (state : ResourcePartitionState) (hits : List Bool) : ResourcePartitionState :=
  { state with hits := (orSamples state.hits hits).take state.totalTries }

end ResourcePartitionState

/-- Resources as a message names them (`types.Resources`), of which the partitions read
the CPUs and the RAM. -/
structure TypesResources where
  CPUs : Int
  RAM : Int
deriving DecidableEq

/-- The state of a partition as a message carries it (`types.PartitionState`). -/
structure PartitionState where
  PartitionResources : TypesResources
  Hits : List Bool
deriving DecidableEq

/-- The state of a `SystemResourcePartitions`: the `sync.Map` from the resources of a
partition to its state (every value stored in it is a `*ResourcePartitionState`) and
the number of samples kept. -/
structure SystemResourcePartitions where
  partitionsState : Resources → Option ResourcePartitionState
  totalStats : Nat

namespace SystemResourcePartitions

/-- Embeds `NewSystemResourcePartitions(totalStats)`. -/
def NewSystemResourcePartitions (totalStats : Nat) : SystemResourcePartitions :=
  { partitionsState := fun _ => none, totalStats := totalStats }

/-- The package variable `GlobalState`. -/
def GlobalState : SystemResourcePartitions := NewSystemResourcePartitions 13

/-- The call `s.partitionsState.Store(key, value)`. -/
def store (s : SystemResourcePartitions) (key : Resources) (value : ResourcePartitionState) :
    SystemResourcePartitions :=
  { s with partitionsState := fun k => if k = key then some value else s.partitionsState k }

/-- Embeds `s.Try(targetResPartition)`: the answer and the state it leaves. -/
def Try (s : SystemResourcePartitions) (targetResPartition : Resources) :
    Bool × SystemResourcePartitions :=
  match s.partitionsState targetResPartition with
  | some partitionState => (partitionState.Try, s)
  | none =>
    let newPartitionState := NewResourcePartitionState s.totalStats
    (newPartitionState.Try, s.store targetResPartition newPartitionState)

/-- Embeds `s.Hit(resPartition)`. -/
def Hit (s : SystemResourcePartitions) (resPartition : Resources) : SystemResourcePartitions :=
  match s.partitionsState resPartition with
  | some partitionState => s.store resPartition partitionState.Hit
  | none => s

/-- Embeds `s.Miss(resPartition)`. -/
def Miss (s : SystemResourcePartitions) (resPartition : Resources) :
    SystemResourcePartitions :=
  match s.partitionsState resPartition with
  | some partitionState => s.store resPartition partitionState.Miss
  | none => s

/-- The calls that the claims on the partition statistics are about. -/
inductive Op where
  /-- Embeds `s.Try(partition)`. -/
  | Try (partition : Resources) : Op
  /-- Embeds `s.Hit(partition)`. -/
  | Hit (partition : Resources) : Op
  /-- Embeds `s.Miss(partition)`. -/
  | Miss (partition : Resources) : Op
deriving DecidableEq

/-- One call on the system. -/
def step (s : SystemResourcePartitions) : Op → SystemResourcePartitions
  | Op.Try partition => (s.Try partition).2
  | Op.Hit partition => s.Hit partition
  | Op.Miss partition => s.Miss partition

/-- A sequence of calls, oldest first. -/
def run (ops : List Op) (s : SystemResourcePartitions) : SystemResourcePartitions :=
  ops.foldl step s

/-- The samples recorded for `partition` by a sequence of calls, newest first, on top
of those in `recorded`: a `Hit` or a `Miss` counts from the first `Try` of the
partition on (`known` tells whether there was one), since the system drops the samples
of a partition it has no state for. -/
def samples (partition : Resources) : List Op → Bool → List Bool → List Bool
  | [], _, recorded => recorded
  | Op.Try p :: ops, known, recorded =>
    samples partition ops (known || decide (p = partition)) recorded
  | Op.Hit p :: ops, known, recorded =>
    samples partition ops known
      (if known && decide (p = partition) then true :: recorded else recorded)
  | Op.Miss p :: ops, known, recorded =>
    samples partition ops known
      (if known && decide (p = partition) then false :: recorded else recorded)

/-- Body of the loop of `MergePartitionsState`: the state of a known partition is merged
with the one received, that of an unknown partition is created with the hits
received. -/
def mergePartitionState (s : SystemResourcePartitions) (newPartitionState : PartitionState) :
    SystemResourcePartitions :=
  let partRes := Resources.NewResources newPartitionState.PartitionResources.CPUs
    newPartitionState.PartitionResources.RAM
  match s.partitionsState partRes with
  | some partitionState => s.store partRes (partitionState.Merge newPartitionState.Hits)
  | none =>
    let unknownPartitionState : ResourcePartitionState :=
      { NewResourcePartitionState s.totalStats with hits := newPartitionState.Hits }
    s.store partRes unknownPartitionState

/-- Embeds `s.MergePartitionsState(newPartitionsState)`. -/
def MergePartitionsState (s : SystemResourcePartitions)
    (newPartitionsState : List PartitionState) : SystemResourcePartitions :=
  newPartitionsState.foldl mergePartitionState s

/-- The calls that change a `SystemResourcePartitions`: `Try`, `Hit`, `Miss` and
`MergePartitionsState`. -/
inductive Call where
  /-- One of `Try`, `Hit` and `Miss`. -/
  | op (o : Op) : Call
  /-- Embeds `s.MergePartitionsState(newPartitionsState)`. -/
  | MergePartitionsState (newPartitionsState : List PartitionState) : Call
deriving DecidableEq

/-- One call on the system. -/
def apply (s : SystemResourcePartitions) : Call → SystemResourcePartitions
  | Call.op o => step s o
  | Call.MergePartitionsState newPartitionsState => s.MergePartitionsState newPartitionsState

/-- A sequence of calls of the four kinds, oldest first. -/
def runCalls (calls : List Call) (s : SystemResourcePartitions) : SystemResourcePartitions :=
  calls.foldl apply s

/-- Whether a call passes `partition` to `Try` or to `MergePartitionsState`. -/
def Call.passes (partition : Resources) : Call → Bool
  | Call.op (Op.Try p) => decide (p = partition)
  | Call.op (Op.Hit _) => false
  | Call.op (Op.Miss _) => false
  | Call.MergePartitionsState newPartitionsState =>
    newPartitionsState.any (fun newPartitionState =>
      decide (Resources.NewResources newPartitionState.PartitionResources.CPUs
        newPartitionState.PartitionResources.RAM = partition))

/-- The system keeps, for `partition`, the last `totalStats` of the samples `recorded`
(newest first), and has a state for it exactly when `known`. -/
def Tracks (totalStats : Nat) (partition : Resources) (s : SystemResourcePartitions)
    (known : Bool) (recorded : List Bool) : Prop :=
  s.totalStats = totalStats ∧
  known = (s.partitionsState partition).isSome ∧
  (known = false → recorded = []) ∧
  ∀ state, s.partitionsState partition = some state →
    state.totalTries = totalStats ∧ state.hits = recorded.take totalStats

end SystemResourcePartitions

end Partitions

/-! ## The registry of offering strategies -/

namespace OfferingStrategy

/-- The part of the configuration that `CreateOffersStrategy` reads. -/
structure Configuration where
  DiscoveryBackend : String
deriving DecidableEq

/-- A factory of offers managers (`ManageOffersFactory`), for nodes of type `N` and
strategies of type `S`: it answers with a strategy or with an error. -/
abbrev ManageOffersFactory (N S : Type) := N → Configuration → Except String S

/-- The package variable `manageOffers`, a Go map from strategy names to factories. -/
abbrev Registry (N S : Type) := String → Option (ManageOffersFactory N S)

variable {N S : Type}

/-- The map as `make` leaves it. -/
def Registry.made : Registry N S := fun _ => none

/-- Embeds `RegisterOffersStrategy(strategyName, factory)`; a `nil` factory is `none`, and
the answer `none` is the panic on it.  A name that exists is overridden (with a
warning in the log). -/
def RegisterOffersStrategy (manageOffers : Registry N S) (strategyName : String)
    (factory : Option (ManageOffersFactory N S)) : Option (Registry N S) :=
  match factory with
  | none => none
  | some made =>
    some (fun name => if name = strategyName then some made else manageOffers name)

/-- Embeds the package `init()`, with the two predefined factories, which are not among
the sources, as parameters. -/
def init (newSingleOfferChordManager newMultipleOfferStrategy : ManageOffersFactory N S) :
    Option (Registry N S) :=
  (RegisterOffersStrategy Registry.made "chord-single-offer"
    (some newSingleOfferChordManager)).bind fun r1 =>
  (RegisterOffersStrategy r1 "chord-multiple-offer" (some newMultipleOfferStrategy)).bind
    fun r2 =>
  RegisterOffersStrategy r2 "chord-multiple-offer-updates" (some newMultipleOfferStrategy)

/-- Embeds `CreateOffersStrategy(node, config)`; `none` is a panic. -/
def CreateOffersStrategy (manageOffers : Registry N S) (node : N) (config : Configuration) :
    Option S :=
  let configuredStrategy := config.DiscoveryBackend
  match manageOffers configuredStrategy with
  | none => none
  | some strategyFactory =>
    match strategyFactory node config with
    | Except.error _ => none
    | Except.ok offersStrategy => some offersStrategy

/-- A sequence of calls of `RegisterOffersStrategy`, oldest first; `none` when one of
them panics. -/
def registerAll :
    List (String × Option (ManageOffersFactory N S)) → Registry N S → Option (Registry N S)
  | [], manageOffers => some manageOffers
  | (strategyName, factory) :: rest, manageOffers =>
    match RegisterOffersStrategy manageOffers strategyName factory with
    | none => none
    | some next => registerAll rest next

/-- The factory most recently registered under `name` by a sequence of registrations,
oldest first, if there is one. -/
def latestFactory (registrations : List (String × ManageOffersFactory N S))
    (name : String) : Option (ManageOffersFactory N S) :=
  ((registrations.filter (fun r => decide (r.1 = name))).getLast?).map Prod.snd

/-- The registrations of `init()`. -/
def initRegistrations
    (newSingleOfferChordManager newMultipleOfferStrategy : ManageOffersFactory N S) :
    List (String × ManageOffersFactory N S) :=
  [("chord-single-offer", newSingleOfferChordManager),
    ("chord-multiple-offer", newMultipleOfferStrategy),
    ("chord-multiple-offer-updates", newMultipleOfferStrategy)]

/-- A factory that builds the strategy named "single". -/
def sampleSingleFactory : ManageOffersFactory Unit String := fun _ _ => Except.ok "single"

/-- A factory that builds the strategy named "multiple". -/
def sampleMultipleFactory : ManageOffersFactory Unit String :=
  fun _ _ => Except.ok "multiple"

/-- A factory that fails. -/
def sampleFailingFactory : ManageOffersFactory Unit String :=
  fun _ _ => Except.error "no overlay"

end OfferingStrategy

/-! # Properties -/

/-! ## GUIDs read from strings -/

theorem decimalDigits_eq (cs : List Char) :
    decimalDigits cs = cs.foldl digitStep (some 0) := rfl

theorem foldl_digitStep_none (cs : List Char) : cs.foldl digitStep none = none := by
  induction cs with
  | nil => rfl
  | cons c cs ih => simpa [digitStep] using ih

/-- The digits that `SetString` accepts are the digits that its scanner reads. -/
theorem scanDigits_of_foldl (cs : List Char) :
    ∀ (acc n : Nat), cs.foldl digitStep (some acc) = some n → scanDigits acc cs = n := by
  induction cs with
  | nil =>
    intro acc n h
    simpa [scanDigits] using h
  | cons c cs ih =>
    intro acc n h
    rw [List.foldl_cons] at h
    by_cases hc : c.isDigit = true
    · simp only [digitStep, hc, if_true] at h
      simp only [scanDigits, hc, if_true]
      exact ih _ _ h
    · simp only [digitStep, hc, Bool.false_eq_true, if_false] at h
      rw [foldl_digitStep_none] at h
      exact absurd h (by simp)

/-- When `SetString` succeeds, the value it leaves is the number it read. -/
theorem bigIntScan_of_setString (s : String) (k : Int) (h : bigIntSetString s = some k) :
    bigIntScan s = k := by
  unfold bigIntSetString at h
  unfold bigIntScan
  simp only [String.toList] at h ⊢
  cases hs : s.data with
  | nil => simp [hs] at h
  | cons c cs =>
    simp only [hs] at h ⊢
    by_cases h45 : c = Char.ofNat 45
    · simp only [h45, if_true] at h ⊢
      cases hemp : cs.isEmpty with
      | true => simp [hemp] at h
      | false =>
        simp only [hemp, Bool.false_eq_true, if_false, Option.map_eq_some'] at h
        obtain ⟨n, hn, hk⟩ := h
        rw [decimalDigits_eq] at hn
        rw [scanDigits_of_foldl cs 0 n hn]
        exact hk
    · by_cases h43 : c = Char.ofNat 43
      · have hne : ¬ (Char.ofNat 43 = Char.ofNat 45) := by decide
        simp only [h43, hne, if_true, if_false] at h ⊢
        cases hemp : cs.isEmpty with
        | true => simp [hemp] at h
        | false =>
          simp only [hemp, Bool.false_eq_true, if_false, Option.map_eq_some'] at h
          obtain ⟨n, hn, hk⟩ := h
          rw [decimalDigits_eq] at hn
          rw [scanDigits_of_foldl cs 0 n hn]
          exact hk
      · simp only [h45, h43, if_false, Option.map_eq_some'] at h ⊢
        obtain ⟨n, hn, hk⟩ := h
        rw [decimalDigits_eq] at hn
        rw [scanDigits_of_foldl (c :: cs) 0 n hn]
        exact hk

/-! ## Arithmetic of resources -/

namespace Resources

@[simp] theorem Add_cpus (r given : Resources) : (r.Add given).cpus = r.cpus + given.cpus := rfl

@[simp] theorem Add_ram (r given : Resources) : (r.Add given).ram = r.ram + given.ram := rfl

@[simp] theorem Sub_cpus (r given : Resources) : (r.Sub given).cpus = r.cpus - given.cpus := rfl

@[simp] theorem Sub_ram (r given : Resources) : (r.Sub given).ram = r.ram - given.ram := rfl

@[simp] theorem Copy_eq (r : Resources) : r.Copy = r := rfl

@[simp] theorem SetZero_cpus (r : Resources) : r.SetZero.cpus = 0 := rfl

@[simp] theorem SetZero_ram (r : Resources) : r.SetZero.ram = 0 := rfl

@[simp] theorem sum_nil : sum [] = { cpus := 0, ram := 0 } := rfl

@[simp] theorem sum_cons (r : Resources) (rs : List Resources) :
    sum (r :: rs) = r.Add (sum rs) := rfl

theorem eq_of_fields {a b : Resources} (hc : a.cpus = b.cpus) (hr : a.ram = b.ram) : a = b := by
  cases a
  cases b
  simp_all

theorem sum_append (xs ys : List Resources) : sum (xs ++ ys) = (sum xs).Add (sum ys) := by
  induction xs with
  | nil => exact eq_of_fields (by simp) (by simp)
  | cons x xs ih =>
    rw [List.cons_append, sum_cons, ih, sum_cons]
    exact eq_of_fields (by simp [add_assoc]) (by simp [add_assoc])

theorem Add_assoc (a b c : Resources) : (a.Add b).Add c = a.Add (b.Add c) :=
  eq_of_fields (by simp [add_assoc]) (by simp [add_assoc])

theorem Add_comm (a b : Resources) : a.Add b = b.Add a :=
  eq_of_fields (by simp [add_comm]) (by simp [add_comm])

@[simp] theorem Add_zero (a : Resources) : a.Add { cpus := 0, ram := 0 } = a :=
  eq_of_fields (by simp) (by simp)

@[simp] theorem zero_Add (a : Resources) : Add { cpus := 0, ram := 0 } a = a :=
  eq_of_fields (by simp) (by simp)

theorem Contains_iff (r contained : Resources) :
    r.Contains contained = true ↔ contained.cpus ≤ r.cpus ∧ contained.ram ≤ r.ram := by
  simp [Contains]

end Resources

/-! ## The map of active offers -/

namespace OfferMap

@[simp] theorem total_nil : total [] = { cpus := 0, ram := 0 } := rfl

@[simp] theorem total_cons (e : Int × supplierOffer) (m : OfferMap) :
    total (e :: m) = e.2.Resources.Add (total m) := rfl

theorem total_append (m1 m2 : OfferMap) : total (m1 ++ m2) = (total m1).Add (total m2) := by
  unfold total
  rw [List.map_append, Resources.sum_append]

@[simp] theorem keys_nil : keys [] = [] := rfl

@[simp] theorem keys_cons (e : Int × supplierOffer) (m : OfferMap) :
    keys (e :: m) = e.1 :: keys m := rfl

theorem load_eq_none_iff (m : OfferMap) (k : Int) : load m k = none ↔ k ∉ keys m := by
  induction m with
  | nil => simp [load]
  | cons e m ih =>
    by_cases h : e.1 = k
    · simp [load, h]
    · have h2 : ¬ k = e.1 := fun hk => h hk.symm
      simp [load, h, h2, ih]

theorem load_mem (m : OfferMap) (k : Int) (offer : supplierOffer) (h : load m k = some offer) :
    (k, offer) ∈ m := by
  induction m with
  | nil => simp [load] at h
  | cons e m ih =>
    by_cases hk : e.1 = k
    · simp [load, hk] at h
      have : e = (k, offer) := by
        cases e
        simp_all
      simp [this]
    · simp [load, hk] at h
      exact List.mem_cons_of_mem _ (ih h)

theorem load_delete_self (m : OfferMap) (k : Int) : load (delete m k) k = none := by
  rw [load_eq_none_iff]
  simp [keys, delete]

theorem delete_of_not_mem (m : OfferMap) (k : Int) (h : k ∉ keys m) : delete m k = m := by
  unfold delete
  rw [List.filter_eq_self]
  intro e he
  have : e.1 ∈ keys m := List.mem_map_of_mem Prod.fst he
  simp only [ne_eq, decide_eq_true_eq]
  intro hk
  exact h (hk ▸ this)

theorem mutate_of_not_mem (m : OfferMap) (k : Int) (f : supplierOffer → supplierOffer)
    (h : k ∉ keys m) : mutate m k f = m := by
  induction m with
  | nil => rfl
  | cons e m ih =>
    simp only [keys_cons, List.mem_cons, not_or] at h
    have h1 : ¬ e.1 = k := fun hk => h.1 hk.symm
    simp only [mutate, List.map_cons, h1, if_false]
    congr 1
    exact ih h.2

theorem keys_mutate (m : OfferMap) (k : Int) (f : supplierOffer → supplierOffer) :
    keys (mutate m k f) = keys m := by
  unfold keys mutate
  rw [List.map_map]
  apply List.map_congr_left
  intro e _
  by_cases h : e.1 = k <;> simp [h]

end OfferMap

/-! ## createOffer -/

namespace Supplier

variable {W : Type}

theorem foldl_gatherOffer (config : Configuration) (l : OfferMap) (sup : Supplier W) :
    l.foldl (gatherOffer config) sup =
      { sup with
        client := sup.client ++ l.map (fun e => removeOfferCall config e.2 e.1)
        activeOffers := sup.activeOffers.filter (fun e => decide (e.1 ∉ OfferMap.keys l))
        availableResources := sup.availableResources.Add (OfferMap.total l) } := by
  induction l generalizing sup with
  | nil =>
    cases sup
    simp
  | cons e l ih =>
    rw [List.foldl_cons, ih]
    cases sup
    simp only [gatherOffer, OfferMap.delete, List.filter_filter, List.map_cons,
      OfferMap.total_cons, OfferMap.keys_cons, List.mem_cons, Resources.Add_assoc,
      List.append_assoc, List.singleton_append, mk.injEq, true_and, and_true]
    apply List.filter_congr
    intro x _
    by_cases h1 : x.1 = e.1 <;> by_cases h2 : x.1 ∈ OfferMap.keys l <;> simp [h1, h2]

theorem filter_not_mem_keys_self (m : OfferMap) :
    m.filter (fun e => decide (e.1 ∉ OfferMap.keys m)) = [] := by
  rw [List.filter_eq_nil_iff]
  intro e he
  have : e.1 ∈ OfferMap.keys m := List.mem_map_of_mem Prod.fst he
  simp [this]

/-- The state `createOffer` reaches when the available resources are valid. -/
theorem createOffer_of_valid (config : Configuration) (strategy : OffersManager W)
    (sup : Supplier W) (hvalid : sup.availableResources.IsValid = true) :
    createOffer config strategy sup =
      { working := sup.working
        maxResources := sup.maxResources
        availableResources :=
          match (strategy.CreateOffer sup.offersIDGen
            (sup.availableResources.Add sup.activeOffers.total) sup.world).1 with
          | some _ => { cpus := 0, ram := 0 }
          | none => sup.availableResources.Add sup.activeOffers.total
        offersIDGen := sup.offersIDGen + 1
        activeOffers :=
          match (strategy.CreateOffer sup.offersIDGen
            (sup.availableResources.Add sup.activeOffers.total) sup.world).1 with
          | some offer => [(offer.ID, offer)]
          | none => []
        client := sup.client ++ sup.activeOffers.map (fun e => removeOfferCall config e.2 e.1)
        strategyCalls := sup.strategyCalls ++
          [(sup.offersIDGen, sup.availableResources.Add sup.activeOffers.total)]
        world := (strategy.CreateOffer sup.offersIDGen
            (sup.availableResources.Add sup.activeOffers.total) sup.world).2 } := by
  unfold createOffer
  rw [if_pos hvalid, foldl_gatherOffer, filter_not_mem_keys_self]
  simp only
  cases h : (strategy.CreateOffer sup.offersIDGen
      (sup.availableResources.Add sup.activeOffers.total) sup.world).1 with
  | none => rfl
  | some offer => simp [OfferMap.store, OfferMap.load, Resources.SetZero]

theorem createOffer_of_not_valid (config : Configuration) (strategy : OffersManager W)
    (sup : Supplier W) (hvalid : sup.availableResources.IsValid = false) :
    createOffer config strategy sup = sup := by
  unfold createOffer
  simp [hvalid]

/-! ## The refresh-check tick -/

theorem VerifyRefreshes_Resources (offer : supplierOffer) (now refreshTimeout : Int) :
    (offer.VerifyRefreshes now refreshTimeout).Resources = offer.Resources := by
  unfold supplierOffer.VerifyRefreshes
  split <;> rfl

/-- What the tick leaves of one entry: the verified offer, unless it missed too many
refreshes. -/
theorem checkRefreshes_step (config : Configuration) (now : Int) (sup : Supplier W)
    (pre l : OfferMap) (e : Int × supplierOffer) (hact : sup.activeOffers = pre ++ e :: l)
    (hpre : e.1 ∉ OfferMap.keys pre) (hl : e.1 ∉ OfferMap.keys l) :
    checkRefreshes config now sup e =
      if config.MaxRefreshesMissed ≤
          (e.2.VerifyRefreshes now config.RefreshMissedTimeout).RefreshesMissed then
        { sup with
          availableResources := sup.availableResources.Add e.2.Resources
          activeOffers := pre ++ l }
      else
        { sup with
          activeOffers :=
            pre ++ (e.1, e.2.VerifyRefreshes now config.RefreshMissedTimeout) :: l } := by
  have hmut : OfferMap.mutate (pre ++ e :: l) e.1
      (fun o => o.VerifyRefreshes now config.RefreshMissedTimeout) =
      pre ++ (e.1, e.2.VerifyRefreshes now config.RefreshMissedTimeout) :: l := by
    have h1 := OfferMap.mutate_of_not_mem pre e.1
      (fun o => o.VerifyRefreshes now config.RefreshMissedTimeout) hpre
    have h2 := OfferMap.mutate_of_not_mem l e.1
      (fun o => o.VerifyRefreshes now config.RefreshMissedTimeout) hl
    unfold OfferMap.mutate at h1 h2 ⊢
    rw [List.map_append, List.map_cons, h1, h2]
    simp
  have hdel : OfferMap.delete
      (pre ++ (e.1, e.2.VerifyRefreshes now config.RefreshMissedTimeout) :: l) e.1 =
      pre ++ l := by
    have h1 := OfferMap.delete_of_not_mem pre e.1 hpre
    have h2 := OfferMap.delete_of_not_mem l e.1 hl
    unfold OfferMap.delete at h1 h2 ⊢
    rw [List.filter_append, List.filter_cons, h1, h2]
    simp
  unfold checkRefreshes
  simp only [hact, hmut, hdel, VerifyRefreshes_Resources]

theorem foldl_checkRefreshes (config : Configuration) (now : Int) (l : OfferMap) :
    ∀ (pre : OfferMap) (sup : Supplier W), sup.activeOffers = pre ++ l →
      (OfferMap.keys (pre ++ l)).Nodup →
      l.foldl (checkRefreshes config now) sup =
        { sup with
          activeOffers := pre ++ l.filterMap (fun e =>
            if config.MaxRefreshesMissed ≤
                (e.2.VerifyRefreshes now config.RefreshMissedTimeout).RefreshesMissed then none
            else some (e.1, e.2.VerifyRefreshes now config.RefreshMissedTimeout))
          availableResources := sup.availableResources.Add (OfferMap.total (l.filter (fun e =>
            decide (config.MaxRefreshesMissed ≤
              (e.2.VerifyRefreshes now config.RefreshMissedTimeout).RefreshesMissed)))) } := by
  induction l with
  | nil =>
    intro pre sup hact _
    cases sup
    simp_all
  | cons e l ih =>
    intro pre sup hact hnd
    have hnd2 : (OfferMap.keys pre ++ e.1 :: OfferMap.keys l).Nodup := by
      simpa [OfferMap.keys] using hnd
    have hpre : e.1 ∉ OfferMap.keys pre := by
      intro hmem
      exact (List.nodup_append.mp hnd2).2.2 hmem (List.mem_cons_self _ _)
    have hl : e.1 ∉ OfferMap.keys l :=
      (List.nodup_cons.mp (List.nodup_append.mp hnd2).2.1).1
    rw [List.foldl_cons, checkRefreshes_step config now sup pre l e hact hpre hl]
    by_cases hexp : config.MaxRefreshesMissed ≤
        (e.2.VerifyRefreshes now config.RefreshMissedTimeout).RefreshesMissed
    · rw [if_pos hexp, ih pre _ rfl]
      · cases sup
        simp [hexp, Resources.Add_assoc]
      · have : (OfferMap.keys pre ++ OfferMap.keys l).Nodup := by
          refine List.Nodup.sublist ?_ hnd2
          exact List.Sublist.append_left (List.sublist_cons_self _ _) _
        simpa [OfferMap.keys] using this
    · rw [if_neg hexp,
        ih (pre ++ [(e.1, e.2.VerifyRefreshes now config.RefreshMissedTimeout)]) _ (by simp)]
      · cases sup
        simp [hexp]
      · simpa [OfferMap.keys] using hnd

/-- The state the refresh-check tick reaches. -/
theorem refreshCheckTick_eq (config : Configuration) (now : Int) (sup : Supplier W)
    (hnd : (OfferMap.keys sup.activeOffers).Nodup) :
    refreshCheckTick config now sup =
      { sup with
        activeOffers := sup.activeOffers.filterMap (fun e =>
          if config.MaxRefreshesMissed ≤
              (e.2.VerifyRefreshes now config.RefreshMissedTimeout).RefreshesMissed then none
          else some (e.1, e.2.VerifyRefreshes now config.RefreshMissedTimeout))
        availableResources := sup.availableResources.Add
          (OfferMap.total (sup.activeOffers.filter (fun e =>
            decide (config.MaxRefreshesMissed ≤
              (e.2.VerifyRefreshes now config.RefreshMissedTimeout).RefreshesMissed)))) } := by
  have h := foldl_checkRefreshes config now sup.activeOffers [] sup (by simp) (by simpa using hnd)
  simpa [refreshCheckTick] using h

/-! ## What each operation keeps -/

theorem createOffer_holdings (config : Configuration) (strategy : OffersManager W)
    (hres : strategy.KeepsResources) (sup : Supplier W) :
    (createOffer config strategy sup).holdings = sup.holdings := by
  cases hvalid : sup.availableResources.IsValid with
  | false => rw [createOffer_of_not_valid config strategy sup hvalid]
  | true =>
    rw [createOffer_of_valid config strategy sup hvalid]
    cases h : (strategy.CreateOffer sup.offersIDGen
        (sup.availableResources.Add sup.activeOffers.total) sup.world).1 with
    | none =>
      simp only [holdings, OfferMap.total_nil, Resources.zero_Add]
      exact Resources.Add_comm _ _
    | some offer =>
      have hr := hres _ _ _ _ h
      simp only [holdings, OfferMap.total_cons, OfferMap.total_nil, Resources.Add_zero, hr]
      exact Resources.Add_comm _ _

theorem createOffer_working (config : Configuration) (strategy : OffersManager W)
    (sup : Supplier W) : (createOffer config strategy sup).working = sup.working := by
  cases hvalid : sup.availableResources.IsValid with
  | false => rw [createOffer_of_not_valid config strategy sup hvalid]
  | true => rw [createOffer_of_valid config strategy sup hvalid]

theorem createOffer_maxResources (config : Configuration) (strategy : OffersManager W)
    (sup : Supplier W) : (createOffer config strategy sup).maxResources = sup.maxResources := by
  cases hvalid : sup.availableResources.IsValid with
  | false => rw [createOffer_of_not_valid config strategy sup hvalid]
  | true => rw [createOffer_of_valid config strategy sup hvalid]

theorem createOffer_length (config : Configuration) (strategy : OffersManager W)
    (sup : Supplier W) (hlen : sup.activeOffers.length ≤ 1) :
    (createOffer config strategy sup).activeOffers.length ≤ 1 := by
  cases hvalid : sup.availableResources.IsValid with
  | false => rwa [createOffer_of_not_valid config strategy sup hvalid]
  | true =>
    rw [createOffer_of_valid config strategy sup hvalid]
    cases (strategy.CreateOffer sup.offersIDGen
        (sup.availableResources.Add sup.activeOffers.total) sup.world).1 <;> simp

theorem createOffer_nodup (config : Configuration) (strategy : OffersManager W)
    (sup : Supplier W) (hnd : (OfferMap.keys sup.activeOffers).Nodup) :
    (OfferMap.keys (createOffer config strategy sup).activeOffers).Nodup := by
  cases hvalid : sup.availableResources.IsValid with
  | false => rwa [createOffer_of_not_valid config strategy sup hvalid]
  | true =>
    rw [createOffer_of_valid config strategy sup hvalid]
    cases (strategy.CreateOffer sup.offersIDGen
        (sup.availableResources.Add sup.activeOffers.total) sup.world).1 <;> simp [OfferMap.keys]

/-- The counter after `createOffer` and the keys it may leave in the map. -/
theorem createOffer_keys (config : Configuration) (strategy : OffersManager W)
    (hid : strategy.KeepsID) (sup : Supplier W) :
    sup.offersIDGen ≤ (createOffer config strategy sup).offersIDGen ∧
    ∀ k ∈ OfferMap.keys (createOffer config strategy sup).activeOffers,
      k ∈ OfferMap.keys sup.activeOffers ∨
        (sup.offersIDGen ≤ k ∧ k < (createOffer config strategy sup).offersIDGen) := by
  cases hvalid : sup.availableResources.IsValid with
  | false =>
    rw [createOffer_of_not_valid config strategy sup hvalid]
    exact ⟨le_refl _, fun k hk => Or.inl hk⟩
  | true =>
    rw [createOffer_of_valid config strategy sup hvalid]
    refine ⟨by simp, ?_⟩
    intro k hk
    cases h : (strategy.CreateOffer sup.offersIDGen
        (sup.availableResources.Add sup.activeOffers.total) sup.world).1 with
    | none => simp [h] at hk
    | some offer =>
      have hi := hid _ _ _ _ h
      simp only [h, OfferMap.keys_cons, OfferMap.keys_nil, List.mem_singleton] at hk
      right
      simp only
      omega

/-! ### Removing and changing entries -/

theorem keys_delete_sublist (m : OfferMap) (k : Int) :
    (OfferMap.keys (OfferMap.delete m k)).Sublist (OfferMap.keys m) := by
  unfold OfferMap.keys OfferMap.delete
  exact List.Sublist.map _ (List.filter_sublist m)

theorem total_delete (m : OfferMap) (k : Int) (offer : supplierOffer)
    (hnd : (OfferMap.keys m).Nodup) (hload : OfferMap.load m k = some offer) :
    (OfferMap.total (OfferMap.delete m k)).Add offer.Resources = OfferMap.total m := by
  induction m with
  | nil => simp [OfferMap.load] at hload
  | cons e m ih =>
    rw [OfferMap.keys_cons, List.nodup_cons] at hnd
    by_cases hk : e.1 = k
    · simp only [OfferMap.load, hk, if_true, Option.some.injEq] at hload
      have hdel : OfferMap.delete (e :: m) k = m := by
        have := OfferMap.delete_of_not_mem m k (hk ▸ hnd.1)
        unfold OfferMap.delete at this ⊢
        rw [List.filter_cons, this]
        simp [hk]
      rw [hdel, OfferMap.total_cons, hload]
      exact Resources.Add_comm _ _
    · simp only [OfferMap.load, hk, if_false] at hload
      have hdel : OfferMap.delete (e :: m) k = e :: OfferMap.delete m k := by
        unfold OfferMap.delete
        rw [List.filter_cons]
        simp [hk]
      rw [hdel, OfferMap.total_cons, OfferMap.total_cons, Resources.Add_assoc, ih hnd.2 hload]

theorem total_mutate (m : OfferMap) (k : Int) (f : supplierOffer → supplierOffer)
    (hf : ∀ o, (f o).Resources = o.Resources) :
    OfferMap.total (OfferMap.mutate m k f) = OfferMap.total m := by
  induction m with
  | nil => rfl
  | cons e m ih =>
    have hcons : OfferMap.mutate (e :: m) k f =
        (if e.1 = k then (e.1, f e.2) else e) :: OfferMap.mutate m k f := rfl
    rw [hcons, OfferMap.total_cons, OfferMap.total_cons, ih]
    by_cases hk : e.1 = k <;> simp [hk, hf]

theorem total_refreshed (config : Configuration) (now : Int) (m : OfferMap) :
    (OfferMap.total (m.filterMap (fun e =>
        if config.MaxRefreshesMissed ≤
            (e.2.VerifyRefreshes now config.RefreshMissedTimeout).RefreshesMissed then none
        else some (e.1, e.2.VerifyRefreshes now config.RefreshMissedTimeout)))).Add
      (OfferMap.total (m.filter (fun e =>
        decide (config.MaxRefreshesMissed ≤
          (e.2.VerifyRefreshes now config.RefreshMissedTimeout).RefreshesMissed)))) =
      OfferMap.total m := by
  induction m with
  | nil => simp
  | cons e m ih =>
    by_cases hexp : config.MaxRefreshesMissed ≤
        (e.2.VerifyRefreshes now config.RefreshMissedTimeout).RefreshesMissed
    · rw [List.filterMap_cons_none (by simp [hexp]), List.filter_cons_of_pos (by simp [hexp]),
        OfferMap.total_cons, OfferMap.total_cons, ← ih]
      apply Resources.eq_of_fields <;> simp <;> ring
    · rw [List.filterMap_cons_some (by simp [hexp]; rfl), List.filter_cons_of_neg (by simp [hexp]),
        OfferMap.total_cons, OfferMap.total_cons, VerifyRefreshes_Resources,
        Resources.Add_assoc, ih]

theorem keys_refreshed_sublist (config : Configuration) (now : Int) (m : OfferMap) :
    (OfferMap.keys (m.filterMap (fun e =>
        if config.MaxRefreshesMissed ≤
            (e.2.VerifyRefreshes now config.RefreshMissedTimeout).RefreshesMissed then none
        else some (e.1, e.2.VerifyRefreshes now config.RefreshMissedTimeout)))).Sublist
      (OfferMap.keys m) := by
  induction m with
  | nil => simp
  | cons e m ih =>
    by_cases hexp : config.MaxRefreshesMissed ≤
        (e.2.VerifyRefreshes now config.RefreshMissedTimeout).RefreshesMissed
    · rw [List.filterMap_cons_none (by simp [hexp])]
      exact List.Sublist.cons _ ih
    · rw [List.filterMap_cons_some (by simp [hexp]; rfl)]
      exact List.Sublist.cons₂ _ ih

/-! ### The answers of ObtainResources -/

theorem ObtainResources_true (config : Configuration) (strategy : OffersManager W)
    (sup sup1 : Supplier W) (offerID : Int) (res : Resources)
    (h : ObtainResources config strategy sup offerID res = some (true, sup1)) :
    ∃ offer, sup.activeOffers.load offerID = some offer ∧ offer.Resources.Contains res = true ∧
      sup.working = true ∧
      sup1 = (if config.Simulation then createOffer config strategy else fun x => x)
        { sup with
          availableResources := sup.availableResources.Add (offer.Resources.Sub res)
          activeOffers := sup.activeOffers.delete offerID
          client := sup.client ++ [removeOfferCall config offer offer.ID] } := by
  unfold ObtainResources at h
  cases hw : sup.working with
  | false => simp [isWorking, hw] at h
  | true =>
    cases hl : sup.activeOffers.load offerID with
    | none => simp [isWorking, hw, hl] at h
    | some offer =>
      cases hc : offer.Resources.Contains res with
      | false => simp [isWorking, hw, hl, hc] at h
      | true =>
        refine ⟨offer, rfl, hc, rfl, ?_⟩
        cases hs : config.Simulation <;> simp [isWorking, hw, hl, hc, hs] at h ⊢ <;> exact h.symm

theorem ObtainResources_false (config : Configuration) (strategy : OffersManager W)
    (sup sup1 : Supplier W) (offerID : Int) (res : Resources)
    (h : ObtainResources config strategy sup offerID res = some (false, sup1)) :
    sup1 = sup ∧ sup.working = true ∧
      (sup.activeOffers.load offerID = none ∨
        ∃ offer, sup.activeOffers.load offerID = some offer ∧
          offer.Resources.Contains res = false) := by
  unfold ObtainResources at h
  cases hw : sup.working with
  | false => simp [isWorking, hw] at h
  | true =>
    cases hl : sup.activeOffers.load offerID with
    | none =>
      simp [isWorking, hw, hl] at h
      exact ⟨h.symm, rfl, Or.inl rfl⟩
    | some offer =>
      cases hc : offer.Resources.Contains res with
      | false =>
        simp [isWorking, hw, hl, hc] at h
        exact ⟨h.symm, rfl, Or.inr ⟨offer, rfl, hc⟩⟩
      | true => cases hs : config.Simulation <;> simp [isWorking, hw, hl, hc, hs] at h

theorem ObtainResources_working (config : Configuration) (strategy : OffersManager W)
    (sup : Supplier W) (offerID : Int) (res : Resources) (hw : sup.working = true) :
    ∃ b sup1, ObtainResources config strategy sup offerID res = some (b, sup1) := by
  unfold ObtainResources
  cases hl : sup.activeOffers.load offerID with
  | none => exact ⟨false, sup, by simp [isWorking, hw]⟩
  | some offer =>
    cases hc : offer.Resources.Contains res with
    | false => exact ⟨false, sup, by simp [isWorking, hw, hc]⟩
    | true => cases hs : config.Simulation <;> simp [isWorking, hw, hc, hs]

theorem RefreshOffer_cases (now : Int) (sup sup1 : Supplier W) (fromTrader : Node)
    (recvOffer : Offer) (b : Bool) (h : RefreshOffer now sup fromTrader recvOffer = some (b, sup1)) :
    sup.working = true ∧
    ((b = false ∧ sup1 = sup) ∨
      (b = true ∧ sup1 = { sup with
        activeOffers := sup.activeOffers.mutate recvOffer.ID (fun o => o.Refresh now) })) := by
  unfold RefreshOffer at h
  cases hw : sup.working with
  | false => simp [isWorking, hw] at h
  | true =>
    refine ⟨rfl, ?_⟩
    cases hl : sup.activeOffers.load recvOffer.ID with
    | none =>
      simp [isWorking, hw, hl] at h
      exact Or.inl ⟨h.1, h.2.symm⟩
    | some offer =>
      cases hc : offer.IsResponsibleTrader (GUID.NewGUIDString fromTrader.GUID) with
      | false =>
        simp [isWorking, hw, hl, hc] at h
        exact Or.inl ⟨h.1, h.2.symm⟩
      | true =>
        simp [isWorking, hw, hl, hc] at h
        exact Or.inr ⟨h.1, h.2.symm⟩

/-! ## Steps and runs -/

theorem Start_cases (config : Configuration) (strategy : OffersManager W) (sup : Supplier W) :
    Start config strategy sup = sup ∨
      Start config strategy sup = { sup with working := true } ∨
      Start config strategy sup = createOffer config strategy { sup with working := true } := by
  unfold Start
  cases hw : sup.working <;> cases hs : config.Simulation <;> simp

theorem step_refresh_some (config : Configuration) (strategy : OffersManager W)
    (sup sup1 : Supplier W) (now : Int) (fromTrader : Node) (recvOffer : Offer)
    (h : step config strategy sup (Op.refresh now fromTrader recvOffer) = some sup1) :
    ∃ b, RefreshOffer now sup fromTrader recvOffer = some (b, sup1) := by
  have h1 : (RefreshOffer now sup fromTrader recvOffer).map Prod.snd = some sup1 := h
  rw [Option.map_eq_some'] at h1
  obtain ⟨⟨b, s⟩, hb, hs⟩ := h1
  exact ⟨b, by rw [hb]; simp at hs; rw [hs]⟩

theorem step_obtain_some (config : Configuration) (strategy : OffersManager W)
    (sup sup1 : Supplier W) (offerID : Int) (res : Resources)
    (h : step config strategy sup (Op.obtain offerID res) = some sup1) :
    ∃ b, ObtainResources config strategy sup offerID res = some (b, sup1) := by
  have h1 : (ObtainResources config strategy sup offerID res).map Prod.snd = some sup1 := h
  rw [Option.map_eq_some'] at h1
  obtain ⟨⟨b, s⟩, hb, hs⟩ := h1
  exact ⟨b, by rw [hb]; simp at hs; rw [hs]⟩

theorem refreshCheckTick_nodup (config : Configuration) (now : Int) (sup : Supplier W)
    (hnd : (OfferMap.keys sup.activeOffers).Nodup) :
    (OfferMap.keys (refreshCheckTick config now sup).activeOffers).Nodup := by
  rw [refreshCheckTick_eq config now sup hnd]
  exact List.Nodup.sublist (keys_refreshed_sublist config now sup.activeOffers) hnd

theorem refreshCheckTick_holdings (config : Configuration) (now : Int) (sup : Supplier W)
    (hnd : (OfferMap.keys sup.activeOffers).Nodup) :
    (refreshCheckTick config now sup).holdings = sup.holdings := by
  rw [refreshCheckTick_eq config now sup hnd]
  simp only [holdings]
  rw [Resources.Add_comm sup.availableResources, ← Resources.Add_assoc, total_refreshed]

/-- The keys of the map stay distinct under every operation. -/
theorem step_nodup (config : Configuration) (strategy : OffersManager W) (sup sup1 : Supplier W)
    (op : Op) (hnd : (OfferMap.keys sup.activeOffers).Nodup)
    (h : step config strategy sup op = some sup1) :
    (OfferMap.keys sup1.activeOffers).Nodup := by
  cases op with
  | start =>
    simp only [step, Option.some.injEq] at h
    subst h
    rcases Start_cases config strategy sup with h1 | h1 | h1 <;> rw [h1]
    · exact hnd
    · exact hnd
    · exact createOffer_nodup config strategy _ hnd
  | supply =>
    simp only [step, Option.some.injEq] at h
    subst h
    exact createOffer_nodup config strategy _ hnd
  | refreshCheck now =>
    simp only [step, Option.some.injEq] at h
    subst h
    exact refreshCheckTick_nodup config now sup hnd
  | refresh now fromTrader recvOffer =>
    obtain ⟨b, hb⟩ := step_refresh_some config strategy sup sup1 now fromTrader recvOffer h
    rcases (RefreshOffer_cases now sup sup1 fromTrader recvOffer b hb).2 with ⟨_, h1⟩ | ⟨_, h1⟩
    · rw [h1]
      exact hnd
    · rw [h1]
      simp only [OfferMap.keys_mutate]
      exact hnd
  | obtain offerID res =>
    obtain ⟨b, hb⟩ := step_obtain_some config strategy sup sup1 offerID res h
    cases b with
    | false =>
      rw [(ObtainResources_false config strategy sup sup1 offerID res hb).1]
      exact hnd
    | true =>
      obtain ⟨offer, _, _, _, h1⟩ := ObtainResources_true config strategy sup sup1 offerID res hb
      have hdel : (OfferMap.keys (OfferMap.delete sup.activeOffers offerID)).Nodup :=
        List.Nodup.sublist (keys_delete_sublist _ _) hnd
      rw [h1]
      cases config.Simulation
      · exact hdel
      · exact createOffer_nodup config strategy _ hdel
  | giveBack res =>
    simp only [step, ReturnResources] at h
    cases hw : sup.working with
    | false => simp [isWorking, hw] at h
    | true =>
      cases hs : config.Simulation <;> simp [isWorking, hw, hs] at h <;> subst h
      · exact hnd
      · exact createOffer_nodup config strategy _ hnd

/-- Offers plus pool change by exactly what the operation hands out. -/
theorem step_holdings (config : Configuration) (strategy : OffersManager W)
    (hres : strategy.KeepsResources) (sup sup1 : Supplier W) (op : Op)
    (hnd : (OfferMap.keys sup.activeOffers).Nodup)
    (h : step config strategy sup op = some sup1) :
    sup1.holdings.Add (handedOut config strategy sup op) = sup.holdings := by
  cases op with
  | start =>
    simp only [step, Option.some.injEq] at h
    subst h
    simp only [handedOut, Resources.Add_zero]
    rcases Start_cases config strategy sup with h1 | h1 | h1 <;> rw [h1]
    · rfl
    · rw [createOffer_holdings config strategy hres]
      rfl
  | supply =>
    simp only [step, Option.some.injEq] at h
    subst h
    simp only [handedOut, Resources.Add_zero]
    exact createOffer_holdings config strategy hres sup
  | refreshCheck now =>
    simp only [step, Option.some.injEq] at h
    subst h
    simp only [handedOut, Resources.Add_zero]
    exact refreshCheckTick_holdings config now sup hnd
  | refresh now fromTrader recvOffer =>
    obtain ⟨b, hb⟩ := step_refresh_some config strategy sup sup1 now fromTrader recvOffer h
    simp only [handedOut, Resources.Add_zero]
    rcases (RefreshOffer_cases now sup sup1 fromTrader recvOffer b hb).2 with ⟨_, h1⟩ | ⟨_, h1⟩
    · rw [h1]
    · rw [h1]
      simp only [holdings]
      rw [total_mutate sup.activeOffers recvOffer.ID (fun o => o.Refresh now) (fun o => rfl)]
  | obtain offerID res =>
    obtain ⟨b, hb⟩ := step_obtain_some config strategy sup sup1 offerID res h
    cases b with
    | false =>
      rw [(ObtainResources_false config strategy sup sup1 offerID res hb).1]
      simp [handedOut, hb]
    | true =>
      obtain ⟨offer, hl, _, _, h1⟩ := ObtainResources_true config strategy sup sup1 offerID res hb
      have hbase : (holdings { sup with
          availableResources := sup.availableResources.Add (offer.Resources.Sub res)
          activeOffers := sup.activeOffers.delete offerID
          client := sup.client ++ [removeOfferCall config offer offer.ID] }).Add res =
          sup.holdings := by
        have ht := total_delete sup.activeOffers offerID offer hnd hl
        simp only [holdings]
        rw [← ht]
        apply Resources.eq_of_fields <;> simp <;> ring
      simp only [handedOut, hb]
      rw [h1]
      cases config.Simulation
      · exact hbase
      · simp only [if_true]
        rw [createOffer_holdings config strategy hres]
        exact hbase
  | giveBack res =>
    simp only [step, ReturnResources] at h
    cases hw : sup.working with
    | false => simp [isWorking, hw] at h
    | true =>
      have hbase : (holdings { sup with
          availableResources := sup.availableResources.Add res }).Add
          { cpus := - res.cpus, ram := - res.ram } = sup.holdings := by
        simp only [holdings]
        apply Resources.eq_of_fields <;> simp <;> ring
      cases hs : config.Simulation <;> simp [isWorking, hw, hs] at h <;> subst h <;>
        simp only [handedOut, isWorking, hw, if_true]
      · exact hbase
      · rw [createOffer_holdings config strategy hres]
        exact hbase

/-- The counter never goes down, and a key that appears was handed out by the counter. -/
theorem step_keys (config : Configuration) (strategy : OffersManager W)
    (hid : strategy.KeepsID) (sup sup1 : Supplier W) (op : Op)
    (hnd : (OfferMap.keys sup.activeOffers).Nodup)
    (h : step config strategy sup op = some sup1) :
    sup.offersIDGen ≤ sup1.offersIDGen ∧
    ∀ k ∈ OfferMap.keys sup1.activeOffers,
      k ∈ OfferMap.keys sup.activeOffers ∨ (sup.offersIDGen ≤ k ∧ k < sup1.offersIDGen) := by
  cases op with
  | start =>
    simp only [step, Option.some.injEq] at h
    subst h
    rcases Start_cases config strategy sup with h1 | h1 | h1 <;> rw [h1]
    · exact ⟨le_refl _, fun k hk => Or.inl hk⟩
    · exact ⟨le_refl _, fun k hk => Or.inl hk⟩
    · exact createOffer_keys config strategy hid _
  | supply =>
    simp only [step, Option.some.injEq] at h
    subst h
    exact createOffer_keys config strategy hid sup
  | refreshCheck now =>
    simp only [step, Option.some.injEq] at h
    subst h
    rw [refreshCheckTick_eq config now sup hnd]
    exact ⟨le_refl _, fun k hk =>
      Or.inl ((keys_refreshed_sublist config now sup.activeOffers).subset hk)⟩
  | refresh now fromTrader recvOffer =>
    obtain ⟨b, hb⟩ := step_refresh_some config strategy sup sup1 now fromTrader recvOffer h
    rcases (RefreshOffer_cases now sup sup1 fromTrader recvOffer b hb).2 with ⟨_, h1⟩ | ⟨_, h1⟩
    · rw [h1]
      exact ⟨le_refl _, fun k hk => Or.inl hk⟩
    · rw [h1]
      simp only [OfferMap.keys_mutate]
      exact ⟨le_refl _, fun k hk => Or.inl hk⟩
  | obtain offerID res =>
    obtain ⟨b, hb⟩ := step_obtain_some config strategy sup sup1 offerID res h
    cases b with
    | false =>
      rw [(ObtainResources_false config strategy sup sup1 offerID res hb).1]
      exact ⟨le_refl _, fun k hk => Or.inl hk⟩
    | true =>
      obtain ⟨offer, _, _, _, h1⟩ := ObtainResources_true config strategy sup sup1 offerID res hb
      rw [h1]
      cases config.Simulation
      · exact ⟨le_refl _, fun k hk => Or.inl ((keys_delete_sublist _ _).subset hk)⟩
      · simp only [if_true]
        have hc := createOffer_keys config strategy hid { sup with
          availableResources := sup.availableResources.Add (offer.Resources.Sub res)
          activeOffers := sup.activeOffers.delete offerID
          client := sup.client ++ [removeOfferCall config offer offer.ID] }
        refine ⟨hc.1, fun k hk => ?_⟩
        rcases hc.2 k hk with h2 | h2
        · exact Or.inl ((keys_delete_sublist _ _).subset h2)
        · exact Or.inr h2
  | giveBack res =>
    simp only [step, ReturnResources] at h
    cases hw : sup.working with
    | false => simp [isWorking, hw] at h
    | true =>
      cases hs : config.Simulation <;> simp [isWorking, hw, hs] at h <;> subst h
      · exact ⟨le_refl _, fun k hk => Or.inl hk⟩
      · exact createOffer_keys config strategy hid _

theorem refreshCheckTick_frame (config : Configuration) (now : Int) (sup : Supplier W) :
    (refreshCheckTick config now sup).working = sup.working ∧
    (refreshCheckTick config now sup).maxResources = sup.maxResources ∧
    (refreshCheckTick config now sup).offersIDGen = sup.offersIDGen ∧
    (refreshCheckTick config now sup).client = sup.client ∧
    (refreshCheckTick config now sup).strategyCalls = sup.strategyCalls ∧
    (refreshCheckTick config now sup).world = sup.world := by
  unfold refreshCheckTick
  generalize sup.activeOffers = l
  induction l generalizing sup with
  | nil => simp
  | cons e l ih =>
    rw [List.foldl_cons]
    have hstep : (checkRefreshes config now sup e).working = sup.working ∧
        (checkRefreshes config now sup e).maxResources = sup.maxResources ∧
        (checkRefreshes config now sup e).offersIDGen = sup.offersIDGen ∧
        (checkRefreshes config now sup e).client = sup.client ∧
        (checkRefreshes config now sup e).strategyCalls = sup.strategyCalls ∧
        (checkRefreshes config now sup e).world = sup.world := by
      unfold checkRefreshes
      simp only
      split <;> simp
    have h2 := ih (checkRefreshes config now sup e)
    obtain ⟨a1, a2, a3, a4, a5, a6⟩ := hstep
    obtain ⟨b1, b2, b3, b4, b5, b6⟩ := h2
    exact ⟨b1.trans a1, b2.trans a2, b3.trans a3, b4.trans a4, b5.trans a5, b6.trans a6⟩

/-- A working supplier stays working and the maximum resources never change. -/
theorem step_frame (config : Configuration) (strategy : OffersManager W)
    (sup sup1 : Supplier W) (op : Op) (h : step config strategy sup op = some sup1) :
    (sup.working = true → sup1.working = true) ∧ sup1.maxResources = sup.maxResources := by
  cases op with
  | start =>
    simp only [step, Option.some.injEq] at h
    subst h
    rcases Start_cases config strategy sup with h1 | h1 | h1 <;> rw [h1]
    · exact ⟨id, rfl⟩
    · exact ⟨fun _ => rfl, rfl⟩
    · rw [createOffer_working, createOffer_maxResources]
      exact ⟨fun _ => rfl, rfl⟩
  | supply =>
    simp only [step, Option.some.injEq] at h
    subst h
    rw [createOffer_working, createOffer_maxResources]
    exact ⟨id, rfl⟩
  | refreshCheck now =>
    simp only [step, Option.some.injEq] at h
    subst h
    have hf := refreshCheckTick_frame config now sup
    rw [hf.1, hf.2.1]
    exact ⟨id, rfl⟩
  | refresh now fromTrader recvOffer =>
    obtain ⟨b, hb⟩ := step_refresh_some config strategy sup sup1 now fromTrader recvOffer h
    rcases (RefreshOffer_cases now sup sup1 fromTrader recvOffer b hb).2 with ⟨_, h1⟩ | ⟨_, h1⟩
    · rw [h1]
      exact ⟨id, rfl⟩
    · rw [h1]
      exact ⟨id, rfl⟩
  | obtain offerID res =>
    obtain ⟨b, hb⟩ := step_obtain_some config strategy sup sup1 offerID res h
    cases b with
    | false =>
      rw [(ObtainResources_false config strategy sup sup1 offerID res hb).1]
      exact ⟨id, rfl⟩
    | true =>
      obtain ⟨offer, _, _, _, h1⟩ := ObtainResources_true config strategy sup sup1 offerID res hb
      rw [h1]
      cases config.Simulation
      · exact ⟨id, rfl⟩
      · simp only [if_true]
        rw [createOffer_working, createOffer_maxResources]
        exact ⟨id, rfl⟩
  | giveBack res =>
    simp only [step, ReturnResources] at h
    cases hw : sup.working with
    | false => simp [isWorking, hw] at h
    | true =>
      cases hs : config.Simulation <;> simp [isWorking, hw, hs] at h <;> subst h
      · exact ⟨fun _ => rfl, rfl⟩
      · rw [createOffer_working, createOffer_maxResources]
        exact ⟨fun _ => rfl, rfl⟩

/-- A property every operation keeps holds at the end of every run. -/
theorem run_invariant (config : Configuration) (strategy : OffersManager W)
    (P : Supplier W → Prop)
    (hstep : ∀ sup op sup1, P sup → step config strategy sup op = some sup1 → P sup1) :
    ∀ (ops : List Op) (sup sup1 : Supplier W), P sup →
      run config strategy ops sup = some sup1 → P sup1 := by
  intro ops
  induction ops with
  | nil =>
    intro sup sup1 hp h
    simp only [run, Option.some.injEq] at h
    exact h ▸ hp
  | cons op ops ih =>
    intro sup sup1 hp h
    cases hs : step config strategy sup op with
    | none => simp [run, hs] at h
    | some mid =>
      simp only [run, hs] at h
      exact ih mid sup1 (hstep sup op mid hp hs) h

theorem run_nodup (config : Configuration) (strategy : OffersManager W) (ops : List Op)
    (sup sup1 : Supplier W) (hnd : (OfferMap.keys sup.activeOffers).Nodup)
    (h : run config strategy ops sup = some sup1) :
    (OfferMap.keys sup1.activeOffers).Nodup :=
  run_invariant config strategy (fun s => (OfferMap.keys s.activeOffers).Nodup)
    (fun s op s1 hp hs => step_nodup config strategy s s1 op hp hs) ops sup sup1 hnd h

theorem run_keys_lt (config : Configuration) (strategy : OffersManager W)
    (hid : strategy.KeepsID) (ops : List Op) (sup sup1 : Supplier W)
    (hnd : (OfferMap.keys sup.activeOffers).Nodup)
    (hlt : ∀ k ∈ OfferMap.keys sup.activeOffers, k < sup.offersIDGen)
    (h : run config strategy ops sup = some sup1) :
    (OfferMap.keys sup1.activeOffers).Nodup ∧
      ∀ k ∈ OfferMap.keys sup1.activeOffers, k < sup1.offersIDGen := by
  refine run_invariant config strategy
    (fun s => (OfferMap.keys s.activeOffers).Nodup ∧
      ∀ k ∈ OfferMap.keys s.activeOffers, k < s.offersIDGen) ?_ ops sup sup1 ⟨hnd, hlt⟩ h
  intro s op s1 hp hs
  refine ⟨step_nodup config strategy s s1 op hp.1 hs, fun k hk => ?_⟩
  have hk2 := step_keys config strategy hid s s1 op hp.1 hs
  rcases hk2.2 k hk with h1 | h1
  · exact lt_of_lt_of_le (hp.2 k h1) hk2.1
  · exact h1.2

theorem run_holdings (config : Configuration) (strategy : OffersManager W)
    (hres : strategy.KeepsResources) (ops : List Op) :
    ∀ (sup sup1 : Supplier W), (OfferMap.keys sup.activeOffers).Nodup →
      run config strategy ops sup = some sup1 →
      sup1.holdings.Add (handedOutTotal config strategy ops sup) = sup.holdings ∧
        sup1.maxResources = sup.maxResources := by
  induction ops with
  | nil =>
    intro sup sup1 _ h
    simp only [run, Option.some.injEq] at h
    subst h
    simp [handedOutTotal]
  | cons op ops ih =>
    intro sup sup1 hnd h
    cases hs : step config strategy sup op with
    | none => simp [run, hs] at h
    | some mid =>
      simp only [run, hs] at h
      have h1 := ih mid sup1 (step_nodup config strategy sup mid op hnd hs) h
      have h2 := step_holdings config strategy hres sup mid op hnd hs
      have h3 := step_frame config strategy sup mid op hs
      refine ⟨?_, h1.2.trans h3.2⟩
      simp only [handedOutTotal, hs]
      rw [← h2, ← h1.1]
      apply Resources.eq_of_fields <;> simp <;> ring

end Supplier

/-! ## The sample environments -/

theorem sampleStrategy_KeepsID : sampleStrategy.KeepsID := by
  intro newOfferID res w offer h
  simp only [sampleStrategy, Option.some.injEq] at h
  rw [← h]
  rfl

theorem sampleStrategy_KeepsResources : sampleStrategy.KeepsResources := by
  intro newOfferID res w offer h
  simp only [sampleStrategy, Option.some.injEq] at h
  rw [← h]
  rfl

theorem run_sampleOffered :
    Supplier.run sampleConfig sampleStrategy [Supplier.Op.start, Supplier.Op.supply]
      (Supplier.NewSupplier { cpus := 4, ram := 4096 } ()) = some sampleOffered := by
  rfl

theorem run_sampleObtained :
    Supplier.run sampleConfig sampleStrategy
      [Supplier.Op.start, Supplier.Op.supply, Supplier.Op.obtain 0 { cpus := 2, ram := 2048 }]
      (Supplier.NewSupplier { cpus := 4, ram := 4096 } ()) = some sampleObtained := by
  rfl

theorem run_sampleReoffered :
    Supplier.run sampleConfig sampleStrategy
      [Supplier.Op.supply, Supplier.Op.giveBack { cpus := 1, ram := 1024 }]
      sampleObtained = some sampleReoffered := by
  rfl

theorem obtain_sampleOffered :
    Supplier.ObtainResources sampleConfig sampleStrategy sampleOffered 0
      { cpus := 2, ram := 2048 } = some (true, sampleObtained) := by
  rfl

/-! ## The supplier's contract -/

namespace Supplier

variable {W : Type}

/-- C1, as stated, fails: after `Start`, a supply tick that advertises (4, 4096) as offer 0
and `ObtainResources(0, (2, 2048))`, the active offers plus the available resources are
(2, 2048), not the maximum (4, 4096): the other (2, 2048) is with the container. -/
theorem holdings_ne_maxResources_after_obtain :
    sampleStrategy.KeepsResources ∧
    ∃ sup, run sampleConfig sampleStrategy
        [Op.start, Op.supply, Op.obtain 0 { cpus := 2, ram := 2048 }]
        (NewSupplier { cpus := 4, ram := 4096 } ()) = some sup ∧
      sup.activeOffers.total.Add sup.availableResources = { cpus := 2, ram := 2048 } ∧
      sup.maxResources = { cpus := 4, ram := 4096 } ∧
      sup.activeOffers.total.Add sup.availableResources ≠ sup.maxResources :=
  ⟨sampleStrategy_KeepsResources, sampleObtained, run_sampleObtained, by decide, rfl, by decide⟩

/-- C1 (amended): with a strategy whose offers carry the resources it was asked to offer,
in every state a supplier reaches from `NewSupplier` through completed operations, the
sum of the resources of the active offers, plus the available resources, plus what the
operations handed out to containers (the demands of the `ObtainResources` calls that
answered true less what `ReturnResources` brought back) equals `maxResources`. -/
theorem holdings_add_handedOut_eq_maxResources (config : Configuration)
    (strategy : OffersManager W) (hres : strategy.KeepsResources) (maxResources : Resources)
    (world : W) (ops : List Op) (sup : Supplier W)
    (hrun : run config strategy ops (NewSupplier maxResources world) = some sup) :
    (sup.activeOffers.total.Add sup.availableResources).Add
        (handedOutTotal config strategy ops (NewSupplier maxResources world)) = maxResources ∧
      sup.maxResources = maxResources := by
  have h := run_holdings config strategy hres ops (NewSupplier maxResources world) sup
    (by simp [NewSupplier]) hrun
  refine ⟨?_, h.2⟩
  have h1 := h.1
  simp only [holdings] at h1
  rw [h1]
  simp [NewSupplier]

/-- C1 (amended), on the sample run: (0, 0) offered, (2, 2048) available and (2, 2048)
handed out make up the maximum (4, 4096). -/
theorem holdings_add_handedOut_eq_maxResources_witness :
    sampleStrategy.KeepsResources ∧
    run sampleConfig sampleStrategy
        [Op.start, Op.supply, Op.obtain 0 { cpus := 2, ram := 2048 }]
        (NewSupplier { cpus := 4, ram := 4096 } ()) = some sampleObtained ∧
    ((sampleObtained.activeOffers.total.Add sampleObtained.availableResources).Add
        (handedOutTotal sampleConfig sampleStrategy
          [Op.start, Op.supply, Op.obtain 0 { cpus := 2, ram := 2048 }]
          (NewSupplier { cpus := 4, ram := 4096 } ())) = { cpus := 4, ram := 4096 } ∧
      sampleObtained.maxResources = { cpus := 4, ram := 4096 }) :=
  ⟨sampleStrategy_KeepsResources, run_sampleObtained,
    holdings_add_handedOut_eq_maxResources sampleConfig sampleStrategy
      sampleStrategy_KeepsResources { cpus := 4, ram := 4096 } ()
      [Op.start, Op.supply, Op.obtain 0 { cpus := 2, ram := 2048 }] sampleObtained
      run_sampleObtained⟩

/-- C2: on a working supplier `ObtainResources(offerID, demand)` answers, and answers true
exactly when `offerID` is an active offer whose resources are at least the demand in
CPUs and in RAM; when it answers false the supplier is unchanged: same active offers,
same available resources, same offer-ID counter, and no `RemoveOffer` was sent. -/
theorem ObtainResources_true_iff (config : Configuration) (strategy : OffersManager W)
    (sup : Supplier W) (offerID : Int) (demand : Resources) (hw : sup.working = true) :
    ∃ b sup1, ObtainResources config strategy sup offerID demand = some (b, sup1) ∧
      (b = true ↔ ∃ offer, sup.activeOffers.load offerID = some offer ∧
        demand.cpus ≤ offer.Resources.cpus ∧ demand.ram ≤ offer.Resources.ram) ∧
      (b = false → sup1.activeOffers = sup.activeOffers ∧
        sup1.availableResources = sup.availableResources ∧
        sup1.offersIDGen = sup.offersIDGen ∧ sup1.client = sup.client) := by
  obtain ⟨b, sup1, h⟩ := ObtainResources_working config strategy sup offerID demand hw
  refine ⟨b, sup1, h, ?_, ?_⟩
  · cases b with
    | true =>
      obtain ⟨offer, hl, hc, _, _⟩ := ObtainResources_true config strategy sup sup1 offerID demand h
      simp only [true_iff]
      exact ⟨offer, hl, (Resources.Contains_iff _ _).mp hc⟩
    | false =>
      obtain ⟨_, _, hcase⟩ := ObtainResources_false config strategy sup sup1 offerID demand h
      simp only [Bool.false_eq_true, false_iff, not_exists, not_and]
      intro offer hl hcpu hram
      rcases hcase with h1 | ⟨o, h1, h2⟩
      · rw [h1] at hl
        cases hl
      · rw [h1] at hl
        cases hl
        have := (Resources.Contains_iff offer.Resources demand).mpr ⟨hcpu, hram⟩
        rw [h2] at this
        cases this
  · intro hb
    subst hb
    rw [(ObtainResources_false config strategy sup sup1 offerID demand h).1]
    exact ⟨rfl, rfl, rfl, rfl⟩

/-- C2 on the sample supplier: offer 0 holds (4, 4096), so asking it for (8, 2048) is
refused and leaves the supplier as it was. -/
theorem ObtainResources_true_iff_witness :
    sampleOffered.working = true ∧
    ∃ b sup1, ObtainResources sampleConfig sampleStrategy sampleOffered 0
        { cpus := 8, ram := 2048 } = some (b, sup1) ∧
      (b = true ↔ ∃ offer, sampleOffered.activeOffers.load 0 = some offer ∧
        (8 : Int) ≤ offer.Resources.cpus ∧ (2048 : Int) ≤ offer.Resources.ram) ∧
      (b = false → sup1.activeOffers = sampleOffered.activeOffers ∧
        sup1.availableResources = sampleOffered.availableResources ∧
        sup1.offersIDGen = sampleOffered.offersIDGen ∧ sup1.client = sampleOffered.client) :=
  ⟨rfl, ObtainResources_true_iff sampleConfig sampleStrategy sampleOffered 0
    { cpus := 8, ram := 2048 } rfl⟩

theorem mem_keys_of_load (m : OfferMap) (k : Int) (offer : supplierOffer)
    (h : OfferMap.load m k = some offer) : k ∈ OfferMap.keys m := by
  by_contra hk
  rw [(OfferMap.load_eq_none_iff m k).mpr hk] at h
  cases h

theorem step_of_ObtainResources (config : Configuration) (strategy : OffersManager W)
    (sup sup1 : Supplier W) (offerID : Int) (demand : Resources) (b : Bool)
    (h : ObtainResources config strategy sup offerID demand = some (b, sup1)) :
    step config strategy sup (Op.obtain offerID demand) = some sup1 := by
  simp [step, h]

/-- After an `ObtainResources` that answered true the offer is gone, also when the
re-advertisement has already run, because the new offer gets a fresh ID. -/
theorem load_after_obtain (config : Configuration) (strategy : OffersManager W)
    (hid : strategy.KeepsID) (sup sup1 : Supplier W) (offerID : Int) (demand : Resources)
    (hlt : ∀ k ∈ OfferMap.keys sup.activeOffers, k < sup.offersIDGen)
    (hobt : ObtainResources config strategy sup offerID demand = some (true, sup1)) :
    offerID ∉ OfferMap.keys sup1.activeOffers ∧ offerID < sup1.offersIDGen ∧
      sup1.working = true := by
  obtain ⟨offer, hl, _, hw, h1⟩ := ObtainResources_true config strategy sup sup1 offerID demand hobt
  have hk : offerID < sup.offersIDGen := hlt offerID (mem_keys_of_load _ _ _ hl)
  have hmid : offerID ∉ OfferMap.keys (OfferMap.delete sup.activeOffers offerID) :=
    (OfferMap.load_eq_none_iff _ _).mp (OfferMap.load_delete_self _ _)
  rw [h1]
  cases config.Simulation
  · exact ⟨hmid, hk, hw⟩
  · simp only [if_true]
    have hc := createOffer_keys config strategy hid { sup with
      availableResources := sup.availableResources.Add (offer.Resources.Sub demand)
      activeOffers := sup.activeOffers.delete offerID
      client := sup.client ++ [removeOfferCall config offer offer.ID] }
    refine ⟨fun hmem => ?_, lt_of_lt_of_le hk hc.1, ?_⟩
    · rcases hc.2 offerID hmem with h2 | h2
      · exact hmid h2
      · have h3 : sup.offersIDGen ≤ offerID := h2.1
        omega
    · rw [createOffer_working]
      exact hw

/-- C3, as stated, fails in simulation: the strategy is an interface, and with an
implementation that answers every request with an offer 0 of (2, 2), after `Start` on a
node of (2, 2) the call `ObtainResources(0, (1, 1))` answers true, yet on return offer 0
is active again (the re-advertisement stored what the strategy answered) and the active
offers plus the available resources are (2, 2), not the (1, 1) that is left when the
demand is taken from the (2, 2) before the call. -/
theorem ObtainResources_true_effect_counterexample :
    run sampleSimConfig fixedOfferStrategy [Op.start] (NewSupplier { cpus := 2, ram := 2 } ()) =
      some fixedOffered ∧
    ∃ sup1, ObtainResources sampleSimConfig fixedOfferStrategy fixedOffered 0
        { cpus := 1, ram := 1 } = some (true, sup1) ∧
      sup1.activeOffers.load 0 =
        some (newSupplierOffer 0 1 { cpus := 2, ram := 2 } "10.0.0.2" { id := 7 } 0) ∧
      sup1.activeOffers.total.Add sup1.availableResources = { cpus := 2, ram := 2 } ∧
      (fixedOffered.activeOffers.total.Add fixedOffered.availableResources).Sub
        { cpus := 1, ram := 1 } = { cpus := 1, ram := 1 } :=
  ⟨rfl, _, rfl, rfl, rfl, rfl⟩

/-- C3, amended: in a state reached from `NewSupplier`, provided that in simulation the
strategy gives its offers the ID and the resources it was asked for, when
`ObtainResources(offerID, demand)` answers true, on return `offerID` is no longer an
active offer and the sum of the active offers' resources plus the available resources is
its value before the call minus the demand: the remainder, offer resources minus demand,
went back to the pool, which in simulation has been advertised again by `createOffer`
before the call returns.  Outside simulation nothing is asked of the strategy. -/
theorem ObtainResources_true_effect (config : Configuration) (strategy : OffersManager W)
    (hstrategy : config.Simulation = true → strategy.KeepsID ∧ strategy.KeepsResources)
    (maxResources : Resources)
    (world : W) (ops : List Op) (sup sup1 : Supplier W) (offerID : Int) (demand : Resources)
    (hrun : run config strategy ops (NewSupplier maxResources world) = some sup)
    (hobt : ObtainResources config strategy sup offerID demand = some (true, sup1)) :
    sup1.activeOffers.load offerID = none ∧
    sup1.activeOffers.total.Add sup1.availableResources =
      (sup.activeOffers.total.Add sup.availableResources).Sub demand ∧
    ∃ offer, sup.activeOffers.load offerID = some offer ∧
      sup1 = (if config.Simulation then createOffer config strategy else fun x => x)
        { sup with
          availableResources := sup.availableResources.Add (offer.Resources.Sub demand)
          activeOffers := sup.activeOffers.delete offerID
          client := sup.client ++ [removeOfferCall config offer offer.ID] } := by
  obtain ⟨offer, hl, _, _, h1⟩ :=
    ObtainResources_true config strategy sup sup1 offerID demand hobt
  refine ⟨?_, ?_, offer, hl, h1⟩
  · cases hs : config.Simulation with
    | false =>
      rw [h1]
      simp only [hs, Bool.false_eq_true, if_false]
      exact OfferMap.load_delete_self _ _
    | true =>
      have hinv := run_keys_lt config strategy (hstrategy hs).1 ops
        (NewSupplier maxResources world) sup (by simp [NewSupplier]) (by simp [NewSupplier]) hrun
      exact (OfferMap.load_eq_none_iff _ _).mpr
        (load_after_obtain config strategy (hstrategy hs).1 sup sup1 offerID demand hinv.2 hobt).1
  · have hnd := run_nodup config strategy ops (NewSupplier maxResources world) sup
      (by simp [NewSupplier]) hrun
    have ht := total_delete sup.activeOffers offerID offer hnd hl
    have hmid : (holdings { sup with
          availableResources := sup.availableResources.Add (offer.Resources.Sub demand)
          activeOffers := sup.activeOffers.delete offerID
          client := sup.client ++ [removeOfferCall config offer offer.ID] }) =
        (sup.activeOffers.total.Add sup.availableResources).Sub demand := by
      simp only [holdings]
      rw [← ht]
      apply Resources.eq_of_fields <;> simp <;> ring
    cases hs : config.Simulation with
    | false =>
      rw [h1]
      simp only [hs, Bool.false_eq_true, if_false]
      exact hmid
    | true =>
      rw [h1]
      simp only [hs, if_true]
      have := createOffer_holdings config strategy (hstrategy hs).2 { sup with
          availableResources := sup.availableResources.Add (offer.Resources.Sub demand)
          activeOffers := sup.activeOffers.delete offerID
          client := sup.client ++ [removeOfferCall config offer offer.ID] }
      simp only [holdings] at this hmid
      rw [this, hmid]

/-- C3 on the sample supplier, in simulation and outside it: offer 0 of (4, 4096)
obtained with demand (2, 2048) leaves no offer 0 and (2, 2048) in offers plus pool; in
simulation they are already advertised again as offer 1, outside it they wait in the
pool. -/
theorem ObtainResources_true_effect_witness :
    ((sampleSimConfig.Simulation = true →
        sampleStrategy.KeepsID ∧ sampleStrategy.KeepsResources) ∧
      run sampleSimConfig sampleStrategy [Op.start]
        (NewSupplier { cpus := 4, ram := 4096 } ()) = some sampleOffered ∧
      ObtainResources sampleSimConfig sampleStrategy sampleOffered 0 { cpus := 2, ram := 2048 } =
        some (true, sampleReadvertised) ∧
      (sampleReadvertised.activeOffers.load 0 = none ∧
        sampleReadvertised.activeOffers.total.Add sampleReadvertised.availableResources =
          (sampleOffered.activeOffers.total.Add sampleOffered.availableResources).Sub
            { cpus := 2, ram := 2048 } ∧
        ∃ offer, sampleOffered.activeOffers.load 0 = some offer ∧
          sampleReadvertised =
            (if sampleSimConfig.Simulation then createOffer sampleSimConfig sampleStrategy
              else fun x => x)
            { sampleOffered with
              availableResources :=
                sampleOffered.availableResources.Add
                  (offer.Resources.Sub { cpus := 2, ram := 2048 })
              activeOffers := sampleOffered.activeOffers.delete 0
              client :=
                sampleOffered.client ++ [removeOfferCall sampleSimConfig offer offer.ID] })) ∧
    ((sampleConfig.Simulation = true →
        sampleStrategy.KeepsID ∧ sampleStrategy.KeepsResources) ∧
      run sampleConfig sampleStrategy [Op.start, Op.supply]
        (NewSupplier { cpus := 4, ram := 4096 } ()) = some sampleOffered ∧
      ObtainResources sampleConfig sampleStrategy sampleOffered 0 { cpus := 2, ram := 2048 } =
        some (true, sampleObtained) ∧
      (sampleObtained.activeOffers.load 0 = none ∧
        sampleObtained.activeOffers.total.Add sampleObtained.availableResources =
          (sampleOffered.activeOffers.total.Add sampleOffered.availableResources).Sub
            { cpus := 2, ram := 2048 } ∧
        ∃ offer, sampleOffered.activeOffers.load 0 = some offer ∧
          sampleObtained =
            (if sampleConfig.Simulation then createOffer sampleConfig sampleStrategy
              else fun x => x)
            { sampleOffered with
              availableResources :=
                sampleOffered.availableResources.Add
                  (offer.Resources.Sub { cpus := 2, ram := 2048 })
              activeOffers := sampleOffered.activeOffers.delete 0
              client := sampleOffered.client ++ [removeOfferCall sampleConfig offer offer.ID] })) :=
  ⟨⟨fun _ => ⟨sampleStrategy_KeepsID, sampleStrategy_KeepsResources⟩, rfl, rfl,
      ObtainResources_true_effect sampleSimConfig sampleStrategy
        (fun _ => ⟨sampleStrategy_KeepsID, sampleStrategy_KeepsResources⟩)
        { cpus := 4, ram := 4096 } () [Op.start] sampleOffered sampleReadvertised 0
        { cpus := 2, ram := 2048 } rfl rfl⟩,
    ⟨fun _ => ⟨sampleStrategy_KeepsID, sampleStrategy_KeepsResources⟩, run_sampleOffered,
      obtain_sampleOffered,
      ObtainResources_true_effect sampleConfig sampleStrategy
        (fun _ => ⟨sampleStrategy_KeepsID, sampleStrategy_KeepsResources⟩)
        { cpus := 4, ram := 4096 } () [Op.start, Op.supply] sampleOffered sampleObtained 0
        { cpus := 2, ram := 2048 } run_sampleOffered obtain_sampleOffered⟩⟩

/-- C4: with a strategy that gives each created offer the ID it was asked to use, once
`ObtainResources(id, d)` has answered true in a state reached from `NewSupplier`, every
later `ObtainResources(id, d2)` answers false (and changes nothing), whatever the demands
and whatever operations of the supplier ran in between. -/
theorem ObtainResources_only_once (config : Configuration) (strategy : OffersManager W)
    (hid : strategy.KeepsID) (maxResources : Resources) (world : W) (before between : List Op)
    (sup sup1 sup2 : Supplier W) (offerID : Int) (d d2 : Resources)
    (hrun : run config strategy before (NewSupplier maxResources world) = some sup)
    (hobt : ObtainResources config strategy sup offerID d = some (true, sup1))
    (hlater : run config strategy between sup1 = some sup2) :
    ObtainResources config strategy sup2 offerID d2 = some (false, sup2) := by
  have hinv := run_keys_lt config strategy hid before (NewSupplier maxResources world) sup
    (by simp [NewSupplier]) (by simp [NewSupplier]) hrun
  have h1 := load_after_obtain config strategy hid sup sup1 offerID d hinv.2 hobt
  have hnd1 := step_nodup config strategy sup sup1 (Op.obtain offerID d) hinv.1
    (step_of_ObtainResources config strategy sup sup1 offerID d true hobt)
  have h2 : (OfferMap.keys sup2.activeOffers).Nodup ∧
      offerID ∉ OfferMap.keys sup2.activeOffers ∧ offerID < sup2.offersIDGen ∧
      sup2.working = true := by
    refine run_invariant config strategy
      (fun s => (OfferMap.keys s.activeOffers).Nodup ∧
        offerID ∉ OfferMap.keys s.activeOffers ∧ offerID < s.offersIDGen ∧
        s.working = true) ?_ between sup1 sup2 ⟨hnd1, h1.1, h1.2.1, h1.2.2⟩ hlater
    intro s op s1 hp hs
    have hk := step_keys config strategy hid s s1 op hp.1 hs
    refine ⟨step_nodup config strategy s s1 op hp.1 hs, fun hmem => ?_,
      lt_of_lt_of_le hp.2.2.1 hk.1, (step_frame config strategy s s1 op hs).1 hp.2.2.2⟩
    rcases hk.2 offerID hmem with h3 | h3
    · exact hp.2.1 h3
    · have h4 := hp.2.2.1
      omega
  have hload := (OfferMap.load_eq_none_iff _ _).mpr h2.2.1
  simp [ObtainResources, isWorking, h2.2.2.2, hload]

/-- C4 on the sample supplier: offer 0 was obtained; after a supply tick that advertises
the remainder as offer 1 and a return of (1, 1024), offer 0 cannot be obtained again. -/
theorem ObtainResources_only_once_witness :
    sampleStrategy.KeepsID ∧
    run sampleConfig sampleStrategy [Op.start, Op.supply]
      (NewSupplier { cpus := 4, ram := 4096 } ()) = some sampleOffered ∧
    ObtainResources sampleConfig sampleStrategy sampleOffered 0 { cpus := 2, ram := 2048 } =
      some (true, sampleObtained) ∧
    run sampleConfig sampleStrategy [Op.supply, Op.giveBack { cpus := 1, ram := 1024 }]
      sampleObtained = some sampleReoffered ∧
    ObtainResources sampleConfig sampleStrategy sampleReoffered 0 { cpus := 1, ram := 1 } =
      some (false, sampleReoffered) :=
  ⟨sampleStrategy_KeepsID, run_sampleOffered, obtain_sampleOffered, run_sampleReoffered,
    ObtainResources_only_once sampleConfig sampleStrategy sampleStrategy_KeepsID
      { cpus := 4, ram := 4096 } () [Op.start, Op.supply]
      [Op.supply, Op.giveBack { cpus := 1, ram := 1024 }]
      sampleOffered sampleObtained sampleReoffered 0 { cpus := 2, ram := 2048 }
      { cpus := 1, ram := 1 } run_sampleOffered obtain_sampleOffered run_sampleReoffered⟩

theorem GUID_Equals_iff (a b : GUID) : a.Equals b = true ↔ a = b := by
  cases a with
  | mk x =>
    cases b with
    | mk y =>
      simp only [GUID.Equals, GUID.Cmp, decide_eq_true_eq, GUID.mk.injEq]
      constructor
      · intro h
        by_cases h1 : x < y
        · simp [h1] at h
        · by_cases h2 : x = y
          · exact h2
          · simp [h1, h2] at h
      · intro h
        simp [h]

theorem resources_mutate (m : OfferMap) (k : Int) (f : supplierOffer → supplierOffer)
    (hf : ∀ o, (f o).Resources = o.Resources) :
    (OfferMap.mutate m k f).map (fun e => (e.1, e.2.Resources)) =
      m.map (fun e => (e.1, e.2.Resources)) := by
  unfold OfferMap.mutate
  rw [List.map_map]
  apply List.map_congr_left
  intro e _
  by_cases h : e.1 = k <;> simp [h, hf]

/-- C5: on a working supplier `RefreshOffer(fromTrader, offer)` answers, and answers true
exactly when `offer.ID` is an active offer whose responsible trader has the GUID of
`fromTrader`, which is the GUID that `NewGUIDString` reads in the string of the node: for
a decimal string the number it denotes, and for any other string the digits before the
first character that is not one; whatever the answer, the active offers are the same
ones with the same resources and the available resources are unchanged. -/
theorem RefreshOffer_true_iff (now : Int) (sup : Supplier W) (fromTrader : Node)
    (recvOffer : Offer) (hw : sup.working = true) :
    ∃ b sup1, RefreshOffer now sup fromTrader recvOffer = some (b, sup1) ∧
      (b = true ↔ ∃ offer, sup.activeOffers.load recvOffer.ID = some offer ∧
        offer.ResponsibleTraderGUID = GUID.NewGUIDString fromTrader.GUID) ∧
      (∀ g : Int, bigIntSetString fromTrader.GUID = some g →
        (b = true ↔ ∃ offer, sup.activeOffers.load recvOffer.ID = some offer ∧
          offer.ResponsibleTraderGUID = { id := g })) ∧
      sup1.activeOffers.map (fun e => (e.1, e.2.Resources)) =
        sup.activeOffers.map (fun e => (e.1, e.2.Resources)) ∧
      sup1.availableResources = sup.availableResources := by
  have hread : ∀ g : Int, bigIntSetString fromTrader.GUID = some g →
      GUID.NewGUIDString fromTrader.GUID = { id := g } := by
    intro g hg
    simp [GUID.NewGUIDString, bigIntScan_of_setString _ _ hg]
  have hmain : ∃ b sup1, RefreshOffer now sup fromTrader recvOffer = some (b, sup1) ∧
      (b = true ↔ ∃ offer, sup.activeOffers.load recvOffer.ID = some offer ∧
        offer.ResponsibleTraderGUID = GUID.NewGUIDString fromTrader.GUID) ∧
      sup1.activeOffers.map (fun e => (e.1, e.2.Resources)) =
        sup.activeOffers.map (fun e => (e.1, e.2.Resources)) ∧
      sup1.availableResources = sup.availableResources := by
    unfold RefreshOffer
    cases hl : sup.activeOffers.load recvOffer.ID with
    | none => exact ⟨false, sup, by simp [isWorking, hw], by simp, rfl, rfl⟩
    | some offer =>
      cases hc : offer.IsResponsibleTrader (GUID.NewGUIDString fromTrader.GUID) with
      | false =>
        refine ⟨false, sup, by simp [isWorking, hw, hc], ?_, rfl, rfl⟩
        simp only [Bool.false_eq_true, Option.some.injEq, exists_eq_left', false_iff]
        intro hg
        have := (GUID_Equals_iff offer.responsibleTraderGUID
          (GUID.NewGUIDString fromTrader.GUID)).mpr hg
        simp only [supplierOffer.IsResponsibleTrader] at hc
        rw [hc] at this
        cases this
      | true =>
        refine ⟨true,
          { sup with
            activeOffers := sup.activeOffers.mutate recvOffer.ID (fun o => o.Refresh now) },
          by simp [isWorking, hw, hc], ?_,
          resources_mutate sup.activeOffers recvOffer.ID (fun o => o.Refresh now) (fun o => rfl),
          rfl⟩
        simp only [Option.some.injEq, exists_eq_left', true_iff]
        exact (GUID_Equals_iff _ _).mp hc
  obtain ⟨b, sup1, h1, h2, h3, h4⟩ := hmain
  refine ⟨b, sup1, h1, h2, ?_, h3, h4⟩
  intro g hg
  rw [← hread g hg]
  exact h2

/-- C5 on the sample supplier, whose offer 0 is with the trader of GUID 7: the trader
whose node carries the string `"7"` refreshes offer 0, and so does one whose node carries
`"7abc"`, because the digits before the first bad character are those of 7. -/
theorem RefreshOffer_true_iff_witness :
    sampleOffered.working = true ∧
    bigIntSetString (Node.mk "10.0.0.2" "7").GUID = some 7 ∧
    (RefreshOffer 5 sampleOffered { IP := "10.0.0.2", GUID := "7" } { ID := 0 }).map
      Prod.fst = some true ∧
    GUID.NewGUIDString (Node.mk "10.0.0.2" "7abc").GUID = { id := 7 } ∧
    (RefreshOffer 5 sampleOffered { IP := "10.0.0.2", GUID := "7abc" } { ID := 0 }).map
      Prod.fst = some true ∧
    ∃ b sup1, RefreshOffer 5 sampleOffered { IP := "10.0.0.2", GUID := "7" } { ID := 0 } =
        some (b, sup1) ∧
      (b = true ↔ ∃ offer, sampleOffered.activeOffers.load (Offer.mk 0).ID = some offer ∧
        offer.ResponsibleTraderGUID =
          GUID.NewGUIDString (Node.mk "10.0.0.2" "7").GUID) ∧
      (∀ g : Int, bigIntSetString (Node.mk "10.0.0.2" "7").GUID = some g →
        (b = true ↔ ∃ offer, sampleOffered.activeOffers.load (Offer.mk 0).ID = some offer ∧
          offer.ResponsibleTraderGUID = { id := g })) ∧
      sup1.activeOffers.map (fun e => (e.1, e.2.Resources)) =
        sampleOffered.activeOffers.map (fun e => (e.1, e.2.Resources)) ∧
      sup1.availableResources = sampleOffered.availableResources :=
  ⟨rfl, by decide, by decide, by decide, by decide,
    RefreshOffer_true_iff 5 sampleOffered { IP := "10.0.0.2", GUID := "7" } { ID := 0 } rfl⟩

theorem load_of_mem (m : OfferMap) (e : Int × supplierOffer)
    (hnd : (OfferMap.keys m).Nodup) (he : e ∈ m) : OfferMap.load m e.1 = some e.2 := by
  induction m with
  | nil => cases he
  | cons x m ih =>
    rw [OfferMap.keys_cons, List.nodup_cons] at hnd
    rcases List.mem_cons.mp he with h | h
    · subst h
      simp [OfferMap.load]
    · have hx : ¬ x.1 = e.1 := by
        intro hxe
        exact hnd.1 (hxe ▸ List.mem_map_of_mem Prod.fst h)
      simp only [OfferMap.load, hx, if_false]
      exact ih hnd.2 h

theorem load_refreshed (config : Configuration) (now : Int) (m : OfferMap) (k : Int)
    (hnd : (OfferMap.keys m).Nodup) :
    OfferMap.load (m.filterMap (fun e =>
        if config.MaxRefreshesMissed ≤
            (e.2.VerifyRefreshes now config.RefreshMissedTimeout).RefreshesMissed then none
        else some (e.1, e.2.VerifyRefreshes now config.RefreshMissedTimeout))) k =
      match OfferMap.load m k with
      | none => none
      | some offer =>
        if config.MaxRefreshesMissed ≤
            (offer.VerifyRefreshes now config.RefreshMissedTimeout).RefreshesMissed then none
        else some (offer.VerifyRefreshes now config.RefreshMissedTimeout) := by
  induction m with
  | nil => rfl
  | cons e m ih =>
    rw [OfferMap.keys_cons, List.nodup_cons] at hnd
    by_cases hexp : config.MaxRefreshesMissed ≤
        (e.2.VerifyRefreshes now config.RefreshMissedTimeout).RefreshesMissed
    · rw [List.filterMap_cons_none (by simp [hexp])]
      by_cases hk : e.1 = k
      · simp only [OfferMap.load, hk, if_true, hexp]
        rw [OfferMap.load_eq_none_iff]
        intro hmem
        exact hnd.1 (hk ▸ (keys_refreshed_sublist config now m).subset hmem)
      · simp only [OfferMap.load, hk, if_false]
        exact ih hnd.2
    · rw [List.filterMap_cons_some (by simp [hexp]; rfl)]
      by_cases hk : e.1 = k
      · simp [OfferMap.load, hk, hexp]
      · simp only [OfferMap.load, hk, if_false]
        exact ih hnd.2

/-- C6: after a refresh-check tick, an offer that was active before the tick is still
active exactly when the refreshes it has missed, counted after the tick's verification,
are fewer than `MaxRefreshesMissed`; the available resources have grown by exactly the
sum of the resources of the offers the tick removed; and the tick sent nothing: no
`RemoveOffer` through the client and no request to the strategy. -/
theorem refreshCheckTick_effect (config : Configuration) (now : Int) (sup : Supplier W)
    (hnd : (OfferMap.keys sup.activeOffers).Nodup) :
    (∀ k offer, sup.activeOffers.load k = some offer →
      (((refreshCheckTick config now sup).activeOffers.load k).isSome = true ↔
        (offer.VerifyRefreshes now config.RefreshMissedTimeout).RefreshesMissed <
          config.MaxRefreshesMissed)) ∧
    (refreshCheckTick config now sup).availableResources =
      sup.availableResources.Add (OfferMap.total (sup.activeOffers.filter (fun e =>
        ((refreshCheckTick config now sup).activeOffers.load e.1).isNone))) ∧
    (refreshCheckTick config now sup).client = sup.client ∧
    (refreshCheckTick config now sup).strategyCalls = sup.strategyCalls := by
  have hf := refreshCheckTick_frame config now sup
  refine ⟨?_, ?_, hf.2.2.2.1, hf.2.2.2.2.1⟩
  · intro k offer hl
    rw [refreshCheckTick_eq config now sup hnd]
    simp only
    rw [load_refreshed config now sup.activeOffers k hnd, hl]
    by_cases hexp : config.MaxRefreshesMissed ≤
        (offer.VerifyRefreshes now config.RefreshMissedTimeout).RefreshesMissed
    · simp [hexp]
    · simp only [hexp, if_false, Option.isSome_some, true_iff]
      omega
  · rw [refreshCheckTick_eq config now sup hnd]
    simp only
    congr 2
    apply List.filter_congr
    intro e he
    rw [load_refreshed config now sup.activeOffers e.1 hnd, load_of_mem _ e hnd he]
    by_cases hexp : config.MaxRefreshesMissed ≤
        (e.2.VerifyRefreshes now config.RefreshMissedTimeout).RefreshesMissed <;> simp [hexp]

/-- C6 on the sample supplier: offer 0 was last refreshed at instant 0; at instant 20 it
has missed one refresh, fewer than `K_max = 2`, so the tick keeps it. -/
theorem refreshCheckTick_effect_witness :
    (OfferMap.keys sampleOffered.activeOffers).Nodup ∧
    ((∀ k offer, sampleOffered.activeOffers.load k = some offer →
      (((refreshCheckTick sampleConfig 20 sampleOffered).activeOffers.load k).isSome = true ↔
        (offer.VerifyRefreshes 20 sampleConfig.RefreshMissedTimeout).RefreshesMissed <
          sampleConfig.MaxRefreshesMissed)) ∧
    (refreshCheckTick sampleConfig 20 sampleOffered).availableResources =
      sampleOffered.availableResources.Add
        (OfferMap.total (sampleOffered.activeOffers.filter (fun e =>
          ((refreshCheckTick sampleConfig 20 sampleOffered).activeOffers.load e.1).isNone))) ∧
    (refreshCheckTick sampleConfig 20 sampleOffered).client = sampleOffered.client ∧
    (refreshCheckTick sampleConfig 20 sampleOffered).strategyCalls =
      sampleOffered.strategyCalls) :=
  ⟨by decide, refreshCheckTick_effect sampleConfig 20 sampleOffered (by decide)⟩

/-- C7: when the available resources are valid, `createOffer` sends one `RemoveOffer` per
active offer, to that offer's trader and with that offer's ID, removes them all, and
asks the strategy once, with the current counter as ID, for an offer of the available
resources plus the resources of all the offers that were active; if the strategy
answers with an offer, that offer is the only active one and nothing is left available;
if it fails, no offer is active and the whole combined amount is available. -/
theorem createOffer_gathers_then_offers (config : Configuration) (strategy : OffersManager W)
    (sup : Supplier W) (hvalid : sup.availableResources.IsValid = true) :
    (createOffer config strategy sup).client =
      sup.client ++ sup.activeOffers.map (fun e => removeOfferCall config e.2 e.1) ∧
    (createOffer config strategy sup).strategyCalls =
      sup.strategyCalls ++
        [(sup.offersIDGen, sup.availableResources.Add sup.activeOffers.total)] ∧
    (createOffer config strategy sup).world =
      (strategy.CreateOffer sup.offersIDGen
        (sup.availableResources.Add sup.activeOffers.total) sup.world).2 ∧
    (∀ offer, (strategy.CreateOffer sup.offersIDGen
        (sup.availableResources.Add sup.activeOffers.total) sup.world).1 = some offer →
      (createOffer config strategy sup).activeOffers = [(offer.ID, offer)] ∧
      (createOffer config strategy sup).availableResources = { cpus := 0, ram := 0 }) ∧
    ((strategy.CreateOffer sup.offersIDGen
        (sup.availableResources.Add sup.activeOffers.total) sup.world).1 = none →
      (createOffer config strategy sup).activeOffers = [] ∧
      (createOffer config strategy sup).availableResources =
        sup.availableResources.Add sup.activeOffers.total) := by
  rw [createOffer_of_valid config strategy sup hvalid]
  refine ⟨rfl, rfl, rfl, ?_, ?_⟩
  · intro offer h
    simp [h]
  · intro h
    simp [h]

/-- C7 on a supplier with offer 1 of (2, 2048) active and (1, 1024) available: the trader
is told to remove offer 1 and the strategy is asked for offer 2 with (3, 3072). -/
theorem createOffer_gathers_then_offers_witness :
    sampleReoffered.availableResources.IsValid = true ∧
    ((createOffer sampleConfig sampleStrategy sampleReoffered).client =
      sampleReoffered.client ++
        sampleReoffered.activeOffers.map (fun e => removeOfferCall sampleConfig e.2 e.1) ∧
    (createOffer sampleConfig sampleStrategy sampleReoffered).strategyCalls =
      sampleReoffered.strategyCalls ++
        [(sampleReoffered.offersIDGen,
          sampleReoffered.availableResources.Add sampleReoffered.activeOffers.total)] ∧
    (createOffer sampleConfig sampleStrategy sampleReoffered).world =
      (sampleStrategy.CreateOffer sampleReoffered.offersIDGen
        (sampleReoffered.availableResources.Add sampleReoffered.activeOffers.total)
        sampleReoffered.world).2 ∧
    (∀ offer, (sampleStrategy.CreateOffer sampleReoffered.offersIDGen
        (sampleReoffered.availableResources.Add sampleReoffered.activeOffers.total)
        sampleReoffered.world).1 = some offer →
      (createOffer sampleConfig sampleStrategy sampleReoffered).activeOffers =
        [(offer.ID, offer)] ∧
      (createOffer sampleConfig sampleStrategy sampleReoffered).availableResources =
        { cpus := 0, ram := 0 }) ∧
    ((sampleStrategy.CreateOffer sampleReoffered.offersIDGen
        (sampleReoffered.availableResources.Add sampleReoffered.activeOffers.total)
        sampleReoffered.world).1 = none →
      (createOffer sampleConfig sampleStrategy sampleReoffered).activeOffers = [] ∧
      (createOffer sampleConfig sampleStrategy sampleReoffered).availableResources =
        sampleReoffered.availableResources.Add sampleReoffered.activeOffers.total)) :=
  ⟨by decide, createOffer_gathers_then_offers sampleConfig sampleStrategy sampleReoffered
    (by decide)⟩

/-- C9, as stated, fails in simulation: the strategy is an interface, and with an
implementation that answers every request with an offer 0 of (2, 2), on the supplier of
a node of (2, 2) that has advertised everything, `ReturnResources((1, 1))` returns with
the active offers plus the available resources at (2, 2), as before the call, not at the
(3, 3) that the merge makes: `createOffer` gathered (3, 3) and stored what the strategy
answered. -/
theorem ReturnResources_effect_counterexample :
    run sampleSimConfig fixedOfferStrategy [Op.start] (NewSupplier { cpus := 2, ram := 2 } ()) =
      some fixedOffered ∧
    fixedOffered.working = true ∧
    ∃ sup1, ReturnResources sampleSimConfig fixedOfferStrategy fixedOffered
        { cpus := 1, ram := 1 } = some sup1 ∧
      sup1.activeOffers.total.Add sup1.availableResources = { cpus := 2, ram := 2 } ∧
      (fixedOffered.activeOffers.total.Add fixedOffered.availableResources).Add
        { cpus := 1, ram := 1 } = { cpus := 3, ram := 3 } :=
  ⟨rfl, rfl, _, rfl, rfl, rfl⟩

/-- C9, amended: on a working supplier, provided that in simulation the strategy gives
its offers the resources it was asked to offer, `ReturnResources(r)` returns with the
sum of the active offers' resources plus the available resources grown by exactly `r`;
in simulation the state on return is the one `createOffer` reaches from the pool with
`r` merged in, and outside simulation it is the state with `r` merged in, the
re-advertisement being left to a goroutine and nothing being asked of the strategy. -/
theorem ReturnResources_effect (config : Configuration) (strategy : OffersManager W)
    (hres : config.Simulation = true → strategy.KeepsResources) (sup : Supplier W)
    (r : Resources) (hw : sup.working = true) :
    ∃ sup1, ReturnResources config strategy sup r = some sup1 ∧
      sup1.activeOffers.total.Add sup1.availableResources =
        (sup.activeOffers.total.Add sup.availableResources).Add r ∧
      (config.Simulation = true →
        sup1 = createOffer config strategy
          { sup with availableResources := sup.availableResources.Add r }) ∧
      (config.Simulation = false →
        sup1 = { sup with availableResources := sup.availableResources.Add r }) := by
  have hbase : (holdings { sup with availableResources := sup.availableResources.Add r }) =
      (sup.activeOffers.total.Add sup.availableResources).Add r := by
    simp only [holdings]
    rw [Resources.Add_assoc]
  unfold ReturnResources
  cases hs : config.Simulation with
  | false =>
    refine ⟨_, by simp [isWorking, hw], ?_, by simp, fun _ => rfl⟩
    exact hbase
  | true =>
    refine ⟨_, by simp [isWorking, hw], ?_, fun _ => rfl, by simp⟩
    have := createOffer_holdings config strategy (hres hs)
      { sup with availableResources := sup.availableResources.Add r }
    simp only [holdings] at this hbase
    rw [this, hbase]

/-- C9 on the sample supplier in simulation: (1, 1024) comes back while (2, 2048) is
available, and `createOffer` has advertised the merged (3, 3072) before the return. -/
theorem ReturnResources_effect_witness :
    (sampleSimConfig.Simulation = true → sampleStrategy.KeepsResources) ∧
    sampleObtained.working = true ∧
    ∃ sup1, ReturnResources sampleSimConfig sampleStrategy sampleObtained
        { cpus := 1, ram := 1024 } = some sup1 ∧
      sup1.activeOffers.total.Add sup1.availableResources =
        (sampleObtained.activeOffers.total.Add sampleObtained.availableResources).Add
          { cpus := 1, ram := 1024 } ∧
      (sampleSimConfig.Simulation = true →
        sup1 = createOffer sampleSimConfig sampleStrategy
          { sampleObtained with
            availableResources :=
              sampleObtained.availableResources.Add { cpus := 1, ram := 1024 } }) ∧
      (sampleSimConfig.Simulation = false →
        sup1 = { sampleObtained with
          availableResources :=
            sampleObtained.availableResources.Add { cpus := 1, ram := 1024 } }) :=
  ⟨fun _ => sampleStrategy_KeepsResources, rfl,
    ReturnResources_effect sampleSimConfig sampleStrategy
      (fun _ => sampleStrategy_KeepsResources) sampleObtained { cpus := 1, ram := 1024 } rfl⟩

/-! ### The offer-ID counter -/

theorem createOffer_calls (config : Configuration) (strategy : OffersManager W)
    (sup : Supplier W) :
    ((createOffer config strategy sup).strategyCalls = sup.strategyCalls ∧
      (createOffer config strategy sup).offersIDGen = sup.offersIDGen) ∨
    ∃ r, (createOffer config strategy sup).strategyCalls =
        sup.strategyCalls ++ [(sup.offersIDGen, r)] ∧
      (createOffer config strategy sup).offersIDGen = sup.offersIDGen + 1 := by
  cases hvalid : sup.availableResources.IsValid with
  | false =>
    rw [createOffer_of_not_valid config strategy sup hvalid]
    exact Or.inl ⟨rfl, rfl⟩
  | true =>
    rw [createOffer_of_valid config strategy sup hvalid]
    exact Or.inr ⟨_, rfl, rfl⟩

/-- An operation either leaves the counter and the requests to the strategy alone, or
makes one request with the counter as ID and adds one to the counter. -/
theorem step_calls (config : Configuration) (strategy : OffersManager W)
    (sup sup1 : Supplier W) (op : Op) (h : step config strategy sup op = some sup1) :
    (sup1.strategyCalls = sup.strategyCalls ∧ sup1.offersIDGen = sup.offersIDGen) ∨
    ∃ r, sup1.strategyCalls = sup.strategyCalls ++ [(sup.offersIDGen, r)] ∧
      sup1.offersIDGen = sup.offersIDGen + 1 := by
  cases op with
  | start =>
    simp only [step, Option.some.injEq] at h
    subst h
    rcases Start_cases config strategy sup with h1 | h1 | h1 <;> rw [h1]
    · exact Or.inl ⟨rfl, rfl⟩
    · exact Or.inl ⟨rfl, rfl⟩
    · exact createOffer_calls config strategy _
  | supply =>
    simp only [step, Option.some.injEq] at h
    subst h
    exact createOffer_calls config strategy sup
  | refreshCheck now =>
    simp only [step, Option.some.injEq] at h
    subst h
    have hf := refreshCheckTick_frame config now sup
    exact Or.inl ⟨hf.2.2.2.2.1, hf.2.2.1⟩
  | refresh now fromTrader recvOffer =>
    obtain ⟨b, hb⟩ := step_refresh_some config strategy sup sup1 now fromTrader recvOffer h
    rcases (RefreshOffer_cases now sup sup1 fromTrader recvOffer b hb).2 with ⟨_, h1⟩ | ⟨_, h1⟩
    · rw [h1]
      exact Or.inl ⟨rfl, rfl⟩
    · rw [h1]
      exact Or.inl ⟨rfl, rfl⟩
  | obtain offerID res =>
    obtain ⟨b, hb⟩ := step_obtain_some config strategy sup sup1 offerID res h
    cases b with
    | false =>
      rw [(ObtainResources_false config strategy sup sup1 offerID res hb).1]
      exact Or.inl ⟨rfl, rfl⟩
    | true =>
      obtain ⟨offer, _, _, _, h1⟩ := ObtainResources_true config strategy sup sup1 offerID res hb
      rw [h1]
      cases config.Simulation
      · exact Or.inl ⟨rfl, rfl⟩
      · exact createOffer_calls config strategy _
  | giveBack res =>
    simp only [step, ReturnResources] at h
    cases hw : sup.working with
    | false => simp [isWorking, hw] at h
    | true =>
      cases hs : config.Simulation <;> simp [isWorking, hw, hs] at h <;> subst h
      · exact Or.inl ⟨rfl, rfl⟩
      · exact createOffer_calls config strategy _

theorem run_calls_increasing (config : Configuration) (strategy : OffersManager W)
    (ops : List Op) (sup sup1 : Supplier W)
    (hsorted : (sup.strategyCalls.map Prod.fst).Pairwise (fun a b => a < b))
    (hbound : ∀ id ∈ sup.strategyCalls.map Prod.fst, id < sup.offersIDGen)
    (h : run config strategy ops sup = some sup1) :
    (sup1.strategyCalls.map Prod.fst).Pairwise (fun a b => a < b) ∧
      (∀ id ∈ sup1.strategyCalls.map Prod.fst, id < sup1.offersIDGen) ∧
      sup.offersIDGen ≤ sup1.offersIDGen := by
  have hgoal := run_invariant config strategy
    (fun s => (s.strategyCalls.map Prod.fst).Pairwise (fun a b => a < b) ∧
      (∀ id ∈ s.strategyCalls.map Prod.fst, id < s.offersIDGen) ∧
      sup.offersIDGen ≤ s.offersIDGen) ?_ ops sup sup1 ⟨hsorted, hbound, le_refl _⟩ h
  · exact hgoal
  · intro s op s1 hp hs
    rcases step_calls config strategy s s1 op hs with ⟨h1, h2⟩ | ⟨r, h1, h2⟩
    · rw [h1, h2]
      exact hp
    · rw [h1, h2, List.map_append, List.pairwise_append]
      refine ⟨⟨hp.1, by simp, ?_⟩, ?_, by omega⟩
      · intro a ha b hb
        simp only [List.map_cons, List.map_nil, List.mem_singleton] at hb
        rw [hb]
        exact hp.2.1 a ha
      · intro id hid
        rcases List.mem_append.mp hid with h3 | h3
        · have := hp.2.1 id h3
          omega
        · simp only [List.map_cons, List.map_nil, List.mem_singleton] at h3
          omega

/-- C8: the offer-ID counter starts at 0 and no operation makes it smaller; a `createOffer`
that finds valid available resources asks the strategy with the current counter as the
new offer's ID and leaves the counter one higher, whether the strategy succeeds or not;
so the IDs handed to the strategy along a run are strictly increasing, none is handed
out twice, and all are below the counter. -/
theorem offersIDGen_monotonic (config : Configuration) (strategy : OffersManager W)
    (maxResources : Resources) (world : W) (ops : List Op) (sup : Supplier W)
    (hrun : run config strategy ops (NewSupplier maxResources world) = some sup) :
    (NewSupplier maxResources world).offersIDGen = 0 ∧
    0 ≤ sup.offersIDGen ∧
    (∀ op sup1, step config strategy sup op = some sup1 →
      sup.offersIDGen ≤ sup1.offersIDGen) ∧
    (sup.availableResources.IsValid = true →
      (createOffer config strategy sup).strategyCalls =
        sup.strategyCalls ++
          [(sup.offersIDGen, sup.availableResources.Add sup.activeOffers.total)] ∧
      (createOffer config strategy sup).offersIDGen = sup.offersIDGen + 1) ∧
    (sup.strategyCalls.map Prod.fst).Pairwise (fun a b => a < b) ∧
    (sup.strategyCalls.map Prod.fst).Nodup ∧
    (∀ id ∈ sup.strategyCalls.map Prod.fst, id < sup.offersIDGen) := by
  have hinv := run_calls_increasing config strategy ops (NewSupplier maxResources world) sup
    (by simp [NewSupplier]) (by simp [NewSupplier]) hrun
  refine ⟨rfl, hinv.2.2, ?_, ?_, hinv.1, ?_, hinv.2.1⟩
  · intro op sup1 hs
    rcases step_calls config strategy sup sup1 op hs with ⟨_, h2⟩ | ⟨r, _, h2⟩ <;> omega
  · intro hvalid
    rw [createOffer_of_valid config strategy sup hvalid]
    exact ⟨rfl, rfl⟩
  · exact List.Pairwise.imp (fun hab => ne_of_lt hab) hinv.1

/-- C8 on the sample run: after two offers the IDs handed out are 0 and 1 and the
counter is 2. -/
theorem offersIDGen_monotonic_witness :
    run sampleConfig sampleStrategy [Op.supply, Op.giveBack { cpus := 1, ram := 1024 }]
      sampleObtained = some sampleReoffered ∧
    sampleReoffered.strategyCalls.map Prod.fst = [0, 1] ∧
    run sampleConfig sampleStrategy
      [Op.start, Op.supply, Op.obtain 0 { cpus := 2, ram := 2048 }, Op.supply,
        Op.giveBack { cpus := 1, ram := 1024 }]
      (NewSupplier { cpus := 4, ram := 4096 } ()) = some sampleReoffered ∧
    ((NewSupplier { cpus := 4, ram := 4096 } ()).offersIDGen = 0 ∧
    0 ≤ sampleReoffered.offersIDGen ∧
    (∀ op sup1, step sampleConfig sampleStrategy sampleReoffered op = some sup1 →
      sampleReoffered.offersIDGen ≤ sup1.offersIDGen) ∧
    (sampleReoffered.availableResources.IsValid = true →
      (createOffer sampleConfig sampleStrategy sampleReoffered).strategyCalls =
        sampleReoffered.strategyCalls ++
          [(sampleReoffered.offersIDGen,
            sampleReoffered.availableResources.Add sampleReoffered.activeOffers.total)] ∧
      (createOffer sampleConfig sampleStrategy sampleReoffered).offersIDGen =
        sampleReoffered.offersIDGen + 1) ∧
    (sampleReoffered.strategyCalls.map Prod.fst).Pairwise (fun a b => a < b) ∧
    (sampleReoffered.strategyCalls.map Prod.fst).Nodup ∧
    (∀ id ∈ sampleReoffered.strategyCalls.map Prod.fst, id < sampleReoffered.offersIDGen)) :=
  ⟨run_sampleReoffered, rfl, rfl,
    offersIDGen_monotonic sampleConfig sampleStrategy { cpus := 4, ram := 4096 } ()
      [Op.start, Op.supply, Op.obtain 0 { cpus := 2, ram := 2048 }, Op.supply,
        Op.giveBack { cpus := 1, ram := 1024 }] sampleReoffered rfl⟩

end Supplier

/-! ## The scheduler's contract -/

namespace Scheduler

variable {W : Type}

theorem stopLaunched_calls (env : Collaborators W) (resContainersStatus : List ContainerStatus)
    (st : State W) :
    (stopLaunched env resContainersStatus st).calls =
      st.calls ++ resContainersStatus.map (fun status =>
        Call.StopLocalContainer { IP := status.SupplierIP, GUID := "" } status.ContainerID) := by
  unfold stopLaunched
  induction resContainersStatus generalizing st with
  | nil => simp
  | cons status rest ih =>
    rw [List.foldl_cons, ih]
    simp

/-- The offers loop makes no `StopLocalContainer` call. -/
theorem tryOffers_calls (config : Configuration) (env : Collaborators W)
    (containersConfigs : List ContainerConfig) (offers : List AvailableOffer) :
    ∀ st : State W, ∃ made,
      (tryOffers config env containersConfigs offers st).2.calls = st.calls ++ made ∧
      ∀ toSupplier containerID, Call.StopLocalContainer toSupplier containerID ∉ made := by
  induction offers with
  | nil =>
    intro st
    exact ⟨[], by simp [tryOffers], by simp⟩
  | cons offer rest ih =>
    intro st
    unfold tryOffers
    simp only
    split
    · split
      · exact ⟨_, rfl, by simp⟩
      · obtain ⟨made, h1, h2⟩ := ih
          { st with
            calls := st.calls ++ [Call.LaunchContainer { IP := config.HostIP, GUID := "" }
              { IP := offer.SupplierIP, GUID := "" } { ID := offer.ID } containersConfigs]
            world := (env.LaunchContainer { IP := config.HostIP, GUID := "" }
              { IP := offer.SupplierIP, GUID := "" } { ID := offer.ID } containersConfigs
              st.world).2 }
        refine ⟨Call.LaunchContainer { IP := config.HostIP, GUID := "" }
          { IP := offer.SupplierIP, GUID := "" } { ID := offer.ID } containersConfigs :: made,
          ?_, ?_⟩
        · rw [h1]
          simp
        · intro toSupplier containerID hmem
          rcases List.mem_cons.mp hmem with h3 | h3
          · cases h3
          · exact h2 toSupplier containerID h3
    · exact ⟨_, rfl, by simp⟩

/-- Embeds `launchContainers` makes no `StopLocalContainer` call. -/
theorem launchContainers_calls (config : Configuration) (env : Collaborators W)
    (containersConfigs : List ContainerConfig) (resourcesNecessary : Resources)
    (st : State W) : ∃ made,
      (launchContainers config env containersConfigs resourcesNecessary st).2.calls =
        st.calls ++ made ∧
      ∀ toSupplier containerID, Call.StopLocalContainer toSupplier containerID ∉ made := by
  unfold launchContainers
  split
  · exact ⟨[], by simp, by simp⟩
  · simp only
    split
    · exact ⟨_, rfl, by simp⟩
    · obtain ⟨made, h1, h2⟩ := tryOffers_calls config env containersConfigs
        (env.Rank (env.FindOffers resourcesNecessary st.world).1 resourcesNecessary)
        { st with
          calls := st.calls ++ [Call.FindOffers resourcesNecessary]
          world := (env.FindOffers resourcesNecessary st.world).2 }
      refine ⟨Call.FindOffers resourcesNecessary :: made, ?_, ?_⟩
      · rw [h1]
        simp
      · intro toSupplier containerID hmem
        rcases List.mem_cons.mp hmem with h3 | h3
        · cases h3
        · exact h2 toSupplier containerID h3

/-- The offers loop fails only with the refusal of the last offer. -/
theorem tryOffers_error (config : Configuration) (env : Collaborators W)
    (containersConfigs : List ContainerConfig) (offers : List AvailableOffer) :
    ∀ (st : State W) (err : String),
      (tryOffers config env containersConfigs offers st).1.2 = some err →
      err = "all offers were reject to deploy" := by
  induction offers with
  | nil =>
    intro st err h
    simp [tryOffers] at h
  | cons offer rest ih =>
    intro st err h
    unfold tryOffers at h
    simp only at h
    split at h
    · split at h
      · simp only [Option.some.injEq] at h
        exact h.symm
      · exact ih _ err h
    · simp at h

/-- Embeds `launchContainers` fails only when no offer is found or when every ranked offer up
to the last refuses. -/
theorem launchContainers_error (config : Configuration) (env : Collaborators W)
    (containersConfigs : List ContainerConfig) (resourcesNecessary : Resources)
    (st : State W) (err : String)
    (h : (launchContainers config env containersConfigs resourcesNecessary st).1.2 = some err) :
    (env.Rank (env.FindOffers resourcesNecessary st.world).1 resourcesNecessary = [] ∧
        err = "no offers found to deploy") ∨
      (env.Rank (env.FindOffers resourcesNecessary st.world).1 resourcesNecessary ≠ [] ∧
        err = "all offers were reject to deploy") := by
  unfold launchContainers at h
  split at h
  · simp at h
  · simp only at h
    split at h
    · rename_i hempty
      simp only [Option.some.injEq] at h
      exact Or.inl ⟨List.isEmpty_iff.mp hempty, h.symm⟩
    · rename_i hne
      refine Or.inr ⟨fun hnil => hne (List.isEmpty_iff.mpr hnil), ?_⟩
      exact tryOffers_error config env containersConfigs _ _ err h

theorem launchSpread_cons_error (config : Configuration) (env : Collaborators W)
    (contConfig : ContainerConfig) (rest : List ContainerConfig)
    (collected : List ContainerStatus) (st : State W) (err : String)
    (h : (launchContainers config env [contConfig]
      (Resources.NewResourcesCPUClass contConfig.Resources.CPUClass contConfig.Resources.CPUs
        contConfig.Resources.Memory) st).1.2 = some err) :
    launchSpread config env (contConfig :: rest) collected st =
      (([], some err), stopLaunched env collected (launchContainers config env [contConfig]
        (Resources.NewResourcesCPUClass contConfig.Resources.CPUClass
          contConfig.Resources.CPUs contConfig.Resources.Memory) st).2) := by
  simp only [launchSpread, h]

theorem launchSpread_cons_ok (config : Configuration) (env : Collaborators W)
    (contConfig : ContainerConfig) (rest : List ContainerConfig)
    (collected : List ContainerStatus) (st : State W)
    (h : (launchContainers config env [contConfig]
      (Resources.NewResourcesCPUClass contConfig.Resources.CPUClass contConfig.Resources.CPUs
        contConfig.Resources.Memory) st).1.2 = none) :
    launchSpread config env (contConfig :: rest) collected st =
      launchSpread config env rest
        (collected ++ (launchContainers config env [contConfig]
          (Resources.NewResourcesCPUClass contConfig.Resources.CPUClass
            contConfig.Resources.CPUs contConfig.Resources.Memory) st).1.1)
        (launchContainers config env [contConfig]
          (Resources.NewResourcesCPUClass contConfig.Resources.CPUClass
            contConfig.Resources.CPUs contConfig.Resources.Memory) st).2 := by
  simp only [launchSpread, h]

/-- While the spread containers launch, no `StopLocalContainer` call is made. -/
theorem launchSpread_ok_calls (config : Configuration) (env : Collaborators W)
    (spread : List ContainerConfig) :
    ∀ (collected done : List ContainerStatus) (st mid : State W),
      launchSpread config env spread collected st = ((done, none), mid) →
      ∃ made, mid.calls = st.calls ++ made ∧
        ∀ toSupplier containerID, Call.StopLocalContainer toSupplier containerID ∉ made := by
  induction spread with
  | nil =>
    intro collected done st mid h
    simp only [launchSpread, Prod.mk.injEq, and_true] at h
    exact ⟨[], by rw [← h.2]; simp, by simp⟩
  | cons contConfig rest ih =>
    intro collected done st mid h
    cases hl : (launchContainers config env [contConfig]
      (Resources.NewResourcesCPUClass contConfig.Resources.CPUClass contConfig.Resources.CPUs
        contConfig.Resources.Memory) st).1.2 with
    | some err =>
      rw [launchSpread_cons_error config env contConfig rest collected st err hl] at h
      simp at h
    | none =>
      rw [launchSpread_cons_ok config env contConfig rest collected st hl] at h
      obtain ⟨made1, h1, h2⟩ := launchContainers_calls config env [contConfig]
        (Resources.NewResourcesCPUClass contConfig.Resources.CPUClass
          contConfig.Resources.CPUs contConfig.Resources.Memory) st
      obtain ⟨made2, h3, h4⟩ := ih _ _ _ _ h
      refine ⟨made1 ++ made2, ?_, ?_⟩
      · rw [h3, h1, List.append_assoc]
      · intro toSupplier containerID hmem
        rcases List.mem_append.mp hmem with h5 | h5
        · exact h2 toSupplier containerID h5
        · exact h4 toSupplier containerID h5

/-- Once the first spread containers are launched, the loop goes on with the rest. -/
theorem launchSpread_append (config : Configuration) (env : Collaborators W)
    (pre rest : List ContainerConfig) :
    ∀ (collected done : List ContainerStatus) (st mid : State W),
      launchSpread config env pre collected st = ((done, none), mid) →
      launchSpread config env (pre ++ rest) collected st =
        launchSpread config env rest done mid := by
  induction pre with
  | nil =>
    intro collected done st mid h
    simp only [launchSpread, Prod.mk.injEq, and_true] at h
    rw [List.nil_append, h.1, h.2]
  | cons contConfig pre ih =>
    intro collected done st mid h
    rw [List.cons_append]
    cases hl : (launchContainers config env [contConfig]
      (Resources.NewResourcesCPUClass contConfig.Resources.CPUClass contConfig.Resources.CPUs
        contConfig.Resources.Memory) st).1.2 with
    | some err =>
      rw [launchSpread_cons_error config env contConfig pre collected st err hl] at h
      simp at h
    | none =>
      rw [launchSpread_cons_ok config env contConfig pre collected st hl] at h
      rw [launchSpread_cons_ok config env contConfig (pre ++ rest) collected st hl]
      exact ih _ _ _ _ h

/-- C10: when the co-located group and the spread containers `pre` have been launched,
with statuses `collected`, and launching the next spread container fails (no offer was
found for it, or the last ranked offer refused it like the ones before), then
`SubmitContainers` returns that error with no statuses, and the calls of the submission
are: calls with no `StopLocalContainer` among them, the last of which belong to the
failed launch, followed by exactly one `StopLocalContainer` per collected status,
addressed to the supplier IP of that status with its container ID.  Nothing follows:
no later spread container is attempted. -/
theorem SubmitContainers_rollback (config : Configuration) (env : Collaborators W)
    (st st0 mid : State W) (contConfigs pre post : List ContainerConfig)
    (contConfig : ContainerConfig) (coStatuses collected : List ContainerStatus) (err : String)
    (hw : st.working = true)
    (hsplit : (groupContainers env contConfigs).spreadContainers = pre ++ contConfig :: post)
    (hco : launchContainers config env (groupContainers env contConfigs).coLocateContainers
      (groupContainers env contConfigs).coLocateTotalResources st = ((coStatuses, none), st0))
    (hpre : launchSpread config env pre coStatuses st0 = ((collected, none), mid))
    (hfail : (launchContainers config env [contConfig]
      (Resources.NewResourcesCPUClass contConfig.Resources.CPUClass contConfig.Resources.CPUs
        contConfig.Resources.Memory) mid).1.2 = some err) :
    (err = "no offers found to deploy" ∨ err = "all offers were reject to deploy") ∧
    ∃ made final,
      SubmitContainers config env st contConfigs = some (([], some err), final) ∧
      final.calls = st.calls ++ made ++ collected.map (fun status =>
        Call.StopLocalContainer { IP := status.SupplierIP, GUID := "" } status.ContainerID) ∧
      (∀ toSupplier containerID, Call.StopLocalContainer toSupplier containerID ∉ made) ∧
      st.calls ++ made = (launchContainers config env [contConfig]
        (Resources.NewResourcesCPUClass contConfig.Resources.CPUClass
          contConfig.Resources.CPUs contConfig.Resources.Memory) mid).2.calls := by
  obtain ⟨made1, h1, h2⟩ := launchContainers_calls config env
    (groupContainers env contConfigs).coLocateContainers
    (groupContainers env contConfigs).coLocateTotalResources st
  rw [hco] at h1
  obtain ⟨made2, h3, h4⟩ := launchSpread_ok_calls config env pre coStatuses collected st0 mid hpre
  obtain ⟨made3, h5, h6⟩ := launchContainers_calls config env [contConfig]
    (Resources.NewResourcesCPUClass contConfig.Resources.CPUClass contConfig.Resources.CPUs
      contConfig.Resources.Memory) mid
  have hmode : err = "no offers found to deploy" ∨ err = "all offers were reject to deploy" := by
    rcases launchContainers_error config env [contConfig] _ mid err hfail with h9 | h9
    · exact Or.inl h9.2
    · exact Or.inr h9.2
  refine ⟨hmode, made1 ++ made2 ++ made3, stopLaunched env collected (launchContainers config env
    [contConfig] (Resources.NewResourcesCPUClass contConfig.Resources.CPUClass
      contConfig.Resources.CPUs contConfig.Resources.Memory) mid).2, ?_, ?_, ?_, ?_⟩
  · unfold SubmitContainers
    simp only [hw, Bool.not_true, Bool.false_eq_true, if_false, hco, List.nil_append, hsplit]
    rw [launchSpread_append config env pre (contConfig :: post) coStatuses collected st0 mid hpre,
      launchSpread_cons_error config env contConfig post collected mid err hfail]
  · rw [stopLaunched_calls, h5, h3]
    simp only at h1
    rw [h1]
    simp [List.append_assoc]
  · intro toSupplier containerID hmem
    rcases List.mem_append.mp hmem with h7 | h7
    · rcases List.mem_append.mp h7 with h8 | h8
      · exact h2 toSupplier containerID h8
      · exact h4 toSupplier containerID h8
    · exact h6 toSupplier containerID h7
  · rw [h5, h3]
    simp only at h1
    rw [h1]
    simp [List.append_assoc]

/-- C10 on two spread containers: the first is launched on `10.0.0.9` as `c1`, the only
offer found for the second refuses it, so `c1` is stopped on `10.0.0.9` and the
submission fails with no statuses. -/
theorem SubmitContainers_rollback_witness :
    sampleScheduler.working = true ∧
    (groupContainers sampleCollaborators [sampleSpread, sampleSpread]).spreadContainers =
      [sampleSpread] ++ sampleSpread :: [] ∧
    launchContainers sampleConfig sampleCollaborators
      (groupContainers sampleCollaborators [sampleSpread, sampleSpread]).coLocateContainers
      (groupContainers sampleCollaborators [sampleSpread, sampleSpread]).coLocateTotalResources
      sampleScheduler = (([], none), sampleScheduler) ∧
    launchSpread sampleConfig sampleCollaborators [sampleSpread] [] sampleScheduler =
      (([{ SupplierIP := "10.0.0.9", ContainerID := "c1" }], none), sampleLaunchedOne) ∧
    (launchContainers sampleConfig sampleCollaborators [sampleSpread]
      (Resources.NewResourcesCPUClass sampleSpread.Resources.CPUClass sampleSpread.Resources.CPUs
        sampleSpread.Resources.Memory) sampleLaunchedOne).1.2 =
      some "all offers were reject to deploy" ∧
    ("all offers were reject to deploy" = "no offers found to deploy" ∨
      "all offers were reject to deploy" = "all offers were reject to deploy") ∧
    ∃ made final,
      SubmitContainers sampleConfig sampleCollaborators sampleScheduler
        [sampleSpread, sampleSpread] =
        some (([], some "all offers were reject to deploy"), final) ∧
      final.calls = sampleScheduler.calls ++ made ++
        [ContainerStatus.mk "10.0.0.9" "c1"].map (fun status =>
          Call.StopLocalContainer { IP := status.SupplierIP, GUID := "" } status.ContainerID) ∧
      (∀ toSupplier containerID, Call.StopLocalContainer toSupplier containerID ∉ made) ∧
      sampleScheduler.calls ++ made = (launchContainers sampleConfig sampleCollaborators
        [sampleSpread]
        (Resources.NewResourcesCPUClass sampleSpread.Resources.CPUClass
          sampleSpread.Resources.CPUs sampleSpread.Resources.Memory) sampleLaunchedOne).2.calls :=
  ⟨rfl, rfl, rfl, rfl, rfl,
    SubmitContainers_rollback sampleConfig sampleCollaborators sampleScheduler sampleScheduler
      sampleLaunchedOne [sampleSpread, sampleSpread] [sampleSpread] [] sampleSpread []
      [{ SupplierIP := "10.0.0.9", ContainerID := "c1" }] "all offers were reject to deploy"
      rfl rfl rfl rfl rfl⟩

/-! ### The order of the rollback -/

/-- The statuses collected so far stay at the front of what the loop collects. -/
theorem launchSpread_prefix (config : Configuration) (env : Collaborators W)
    (spread : List ContainerConfig) :
    ∀ (collected done : List ContainerStatus) (st mid : State W),
      launchSpread config env spread collected st = ((done, none), mid) →
      collected <+: done := by
  induction spread with
  | nil =>
    intro collected done st mid h
    simp only [launchSpread, Prod.mk.injEq, and_true] at h
    rw [h.1]
  | cons contConfig rest ih =>
    intro collected done st mid h
    cases hl : (launchContainers config env [contConfig]
      (Resources.NewResourcesCPUClass contConfig.Resources.CPUClass contConfig.Resources.CPUs
        contConfig.Resources.Memory) st).1.2 with
    | some err =>
      rw [launchSpread_cons_error config env contConfig rest collected st err hl] at h
      simp at h
    | none =>
      rw [launchSpread_cons_ok config env contConfig rest collected st hl] at h
      exact List.IsPrefix.trans (List.prefix_append _ _) (ih _ _ _ _ h)

/-- C11, as stated, fails: three spread containers are submitted, the first is launched
as `c1`, the second as `c2`, the third is refused by both offers; the rollback stops
`c1`, the first launched, first and `c2`, the most recently launched, last. -/
theorem SubmitContainers_rollback_not_reversed :
    ∃ final, SubmitContainers sampleConfig sampleCollaboratorsTwo sampleScheduler
        [sampleSpread, sampleSpread, sampleSpread] =
        some (([], some "all offers were reject to deploy"), final) ∧
      final.calls =
        [Call.FindOffers { cpuClass := 0, cpus := 1, ram := 512 },
          Call.LaunchContainer { IP := "10.0.0.1", GUID := "" } { IP := "10.0.0.9", GUID := "" }
            { ID := 3 } [sampleSpread],
          Call.FindOffers { cpuClass := 0, cpus := 1, ram := 512 },
          Call.LaunchContainer { IP := "10.0.0.1", GUID := "" } { IP := "10.0.0.9", GUID := "" }
            { ID := 3 } [sampleSpread],
          Call.FindOffers { cpuClass := 0, cpus := 1, ram := 512 },
          Call.LaunchContainer { IP := "10.0.0.1", GUID := "" } { IP := "10.0.0.9", GUID := "" }
            { ID := 3 } [sampleSpread],
          Call.LaunchContainer { IP := "10.0.0.1", GUID := "" } { IP := "10.0.0.8", GUID := "" }
            { ID := 4 } [sampleSpread],
          Call.StopLocalContainer { IP := "10.0.0.9", GUID := "" } "c1",
          Call.StopLocalContainer { IP := "10.0.0.9", GUID := "" } "c2"] ∧
      final.calls.drop 7 ≠
        [Call.StopLocalContainer { IP := "10.0.0.9", GUID := "" } "c2",
          Call.StopLocalContainer { IP := "10.0.0.9", GUID := "" } "c1"] :=
  ⟨_, rfl, rfl, by decide⟩

/-- C11 (amended): when `SubmitContainers` rolls back after a failed launch, the
`StopLocalContainer` calls follow the failed launch in the order of the collected
statuses, which is the order of successful launch: the statuses of the co-located
group, launched first, come first, and the statuses collected after any earlier part
of the spread containers come before those of the later ones; so the first launched
container is stopped first and the most recently launched one last. -/
theorem SubmitContainers_rollback_in_launch_order (config : Configuration)
    (env : Collaborators W) (st st0 mid : State W) (contConfigs pre post : List ContainerConfig)
    (contConfig : ContainerConfig) (coStatuses collected : List ContainerStatus) (err : String)
    (hw : st.working = true)
    (hsplit : (groupContainers env contConfigs).spreadContainers = pre ++ contConfig :: post)
    (hco : launchContainers config env (groupContainers env contConfigs).coLocateContainers
      (groupContainers env contConfigs).coLocateTotalResources st = ((coStatuses, none), st0))
    (hpre : launchSpread config env pre coStatuses st0 = ((collected, none), mid))
    (hfail : (launchContainers config env [contConfig]
      (Resources.NewResourcesCPUClass contConfig.Resources.CPUClass contConfig.Resources.CPUs
        contConfig.Resources.Memory) mid).1.2 = some err) :
    ∃ final,
      SubmitContainers config env st contConfigs = some (([], some err), final) ∧
      final.calls = (launchContainers config env [contConfig]
        (Resources.NewResourcesCPUClass contConfig.Resources.CPUClass
          contConfig.Resources.CPUs contConfig.Resources.Memory) mid).2.calls ++
        collected.map (fun status =>
          Call.StopLocalContainer { IP := status.SupplierIP, GUID := "" } status.ContainerID) ∧
      coStatuses <+: collected ∧
      ∀ (pre1 pre2 : List ContainerConfig) (earlier : List ContainerStatus) (mid1 : State W),
        pre = pre1 ++ pre2 →
        launchSpread config env pre1 coStatuses st0 = ((earlier, none), mid1) →
        earlier <+: collected := by
  refine ⟨stopLaunched env collected (launchContainers config env
    [contConfig] (Resources.NewResourcesCPUClass contConfig.Resources.CPUClass
      contConfig.Resources.CPUs contConfig.Resources.Memory) mid).2, ?_, ?_, ?_, ?_⟩
  · unfold SubmitContainers
    simp only [hw, Bool.not_true, Bool.false_eq_true, if_false, hco, List.nil_append, hsplit]
    rw [launchSpread_append config env pre (contConfig :: post) coStatuses collected st0 mid hpre,
      launchSpread_cons_error config env contConfig post collected mid err hfail]
  · rw [stopLaunched_calls]
  · exact launchSpread_prefix config env pre coStatuses collected st0 mid hpre
  · intro pre1 pre2 earlier mid1 hpre12 hearlier
    rw [hpre12, launchSpread_append config env pre1 pre2 coStatuses earlier st0 mid1 hearlier]
      at hpre
    exact launchSpread_prefix config env pre2 earlier collected mid1 mid hpre

/-- C11 (amended) on three spread containers: `c1` and `c2` are launched in that order,
the third launch fails, and the calls end with the stop of `c1` followed by that of
`c2`. -/
theorem SubmitContainers_rollback_in_launch_order_witness :
    sampleScheduler.working = true ∧
    (groupContainers sampleCollaboratorsTwo
      [sampleSpread, sampleSpread, sampleSpread]).spreadContainers =
      [sampleSpread, sampleSpread] ++ sampleSpread :: [] ∧
    launchContainers sampleConfig sampleCollaboratorsTwo
      (groupContainers sampleCollaboratorsTwo
        [sampleSpread, sampleSpread, sampleSpread]).coLocateContainers
      (groupContainers sampleCollaboratorsTwo
        [sampleSpread, sampleSpread, sampleSpread]).coLocateTotalResources
      sampleScheduler = (([], none), sampleScheduler) ∧
    launchSpread sampleConfig sampleCollaboratorsTwo [sampleSpread, sampleSpread] []
      sampleScheduler =
      (([{ SupplierIP := "10.0.0.9", ContainerID := "c1" },
          { SupplierIP := "10.0.0.9", ContainerID := "c2" }], none), sampleLaunchedTwo) ∧
    (launchContainers sampleConfig sampleCollaboratorsTwo [sampleSpread]
      (Resources.NewResourcesCPUClass sampleSpread.Resources.CPUClass sampleSpread.Resources.CPUs
        sampleSpread.Resources.Memory) sampleLaunchedTwo).1.2 =
      some "all offers were reject to deploy" ∧
    ∃ final,
      SubmitContainers sampleConfig sampleCollaboratorsTwo sampleScheduler
        [sampleSpread, sampleSpread, sampleSpread] =
        some (([], some "all offers were reject to deploy"), final) ∧
      final.calls = (launchContainers sampleConfig sampleCollaboratorsTwo [sampleSpread]
        (Resources.NewResourcesCPUClass sampleSpread.Resources.CPUClass
          sampleSpread.Resources.CPUs sampleSpread.Resources.Memory) sampleLaunchedTwo).2.calls ++
        [ContainerStatus.mk "10.0.0.9" "c1", ContainerStatus.mk "10.0.0.9" "c2"].map
          (fun status =>
            Call.StopLocalContainer { IP := status.SupplierIP, GUID := "" }
              status.ContainerID) ∧
      ([] : List ContainerStatus) <+:
        [ContainerStatus.mk "10.0.0.9" "c1", ContainerStatus.mk "10.0.0.9" "c2"] ∧
      ∀ (pre1 pre2 : List ContainerConfig) (earlier : List ContainerStatus)
        (mid1 : State Nat),
        [sampleSpread, sampleSpread] = pre1 ++ pre2 →
        launchSpread sampleConfig sampleCollaboratorsTwo pre1 [] sampleScheduler =
          ((earlier, none), mid1) →
        earlier <+: [ContainerStatus.mk "10.0.0.9" "c1", ContainerStatus.mk "10.0.0.9" "c2"] :=
  ⟨rfl, rfl, rfl, rfl, rfl,
    SubmitContainers_rollback_in_launch_order sampleConfig sampleCollaboratorsTwo
      sampleScheduler sampleScheduler sampleLaunchedTwo
      [sampleSpread, sampleSpread, sampleSpread] [sampleSpread, sampleSpread] [] sampleSpread []
      [{ SupplierIP := "10.0.0.9", ContainerID := "c1" },
        { SupplierIP := "10.0.0.9", ContainerID := "c2" }]
      "all offers were reject to deploy" rfl rfl rfl rfl rfl⟩

/-! ### The walk over the ranked offers -/

/-- Any list of answers is all refusals, or starts with refusals up to a first accept. -/
theorem answers_cases (answers : List (Except String (List ContainerStatus))) :
    (∃ errs : List String, answers = errs.map Except.error) ∨
      ∃ (errs : List String) (statuses : List ContainerStatus)
        (later : List (Except String (List ContainerStatus))),
        answers = errs.map Except.error ++ Except.ok statuses :: later := by
  induction answers with
  | nil => exact Or.inl ⟨[], rfl⟩
  | cons a rest ih =>
    cases a with
    | ok statuses => exact Or.inr ⟨[], statuses, rest, rfl⟩
    | error e =>
      rcases ih with ⟨errs, h⟩ | ⟨errs, statuses, later, h⟩
      · exact Or.inl ⟨e :: errs, by rw [h]; rfl⟩
      · exact Or.inr ⟨e :: errs, statuses, later, by rw [h]; rfl⟩

theorem answersInTurn_length (config : Configuration) (env : Collaborators W)
    (containersConfigs : List ContainerConfig) (offers : List AvailableOffer) :
    ∀ w : W, (answersInTurn config env containersConfigs offers w).length = offers.length := by
  induction offers with
  | nil => intro w; rfl
  | cons offer rest ih =>
    intro w
    simp only [answersInTurn, List.length_cons, ih]

/-- When every offer refuses, each was asked once, in rank order, and the loop fails. -/
theorem tryOffers_all_refuse (config : Configuration) (env : Collaborators W)
    (containersConfigs : List ContainerConfig) (offers : List AvailableOffer) :
    ∀ (st : State W) (errs : List String), offers ≠ [] →
      answersInTurn config env containersConfigs offers st.world = errs.map Except.error →
      (tryOffers config env containersConfigs offers st).1 =
          ([], some "all offers were reject to deploy") ∧
        (tryOffers config env containersConfigs offers st).2.calls =
          st.calls ++ offers.map (launchCall config containersConfigs) := by
  induction offers with
  | nil => intro st errs hne; exact absurd rfl hne
  | cons offer rest ih =>
    intro st errs _ hans
    cases errs with
    | nil => simp [answersInTurn] at hans
    | cons e errs =>
      simp only [answersInTurn, List.map_cons, List.cons.injEq] at hans
      unfold tryOffers
      simp only [hans.1]
      cases rest with
      | nil => simp [launchCall]
      | cons offer2 rest2 =>
        simp only [List.isEmpty_cons, Bool.false_eq_true, if_false]
        have h := ih
          { st with
            calls := st.calls ++ [Call.LaunchContainer { IP := config.HostIP, GUID := "" }
              { IP := offer.SupplierIP, GUID := "" } { ID := offer.ID } containersConfigs]
            world := (env.LaunchContainer { IP := config.HostIP, GUID := "" }
              { IP := offer.SupplierIP, GUID := "" } { ID := offer.ID } containersConfigs
              st.world).2 } errs (by simp) hans.2
        refine ⟨h.1, ?_⟩
        rw [h.2]
        simp [launchCall]

/-- When an offer accepts after refusals, the offers up to it were asked once each, in
rank order, and the loop ends with the statuses of that launch. -/
theorem tryOffers_first_accept (config : Configuration) (env : Collaborators W)
    (containersConfigs : List ContainerConfig) (errs : List String) :
    ∀ (offers : List AvailableOffer) (st : State W) (statuses : List ContainerStatus)
      (later : List (Except String (List ContainerStatus))),
      answersInTurn config env containersConfigs offers st.world =
        errs.map Except.error ++ Except.ok statuses :: later →
      (tryOffers config env containersConfigs offers st).1 = (statuses, none) ∧
        (tryOffers config env containersConfigs offers st).2.calls =
          st.calls ++ (offers.take (errs.length + 1)).map (launchCall config containersConfigs) := by
  induction errs with
  | nil =>
    intro offers st statuses later hans
    cases offers with
    | nil => simp [answersInTurn] at hans
    | cons offer rest =>
      simp only [answersInTurn, List.map_nil, List.nil_append, List.cons.injEq] at hans
      unfold tryOffers
      simp [hans.1, launchCall]
  | cons e errs ih =>
    intro offers st statuses later hans
    cases offers with
    | nil => simp [answersInTurn] at hans
    | cons offer rest =>
      simp only [answersInTurn, List.map_cons, List.cons_append, List.cons.injEq] at hans
      have hrest : rest ≠ [] := by
        intro hnil
        rw [hnil] at hans
        simp [answersInTurn] at hans
      unfold tryOffers
      simp only [hans.1]
      cases rest with
      | nil => exact absurd rfl hrest
      | cons offer2 rest2 =>
        simp only [List.isEmpty_cons, Bool.false_eq_true, if_false]
        have h := ih (offer2 :: rest2)
          { st with
            calls := st.calls ++ [Call.LaunchContainer { IP := config.HostIP, GUID := "" }
              { IP := offer.SupplierIP, GUID := "" } { ID := offer.ID } containersConfigs]
            world := (env.LaunchContainer { IP := config.HostIP, GUID := "" }
              { IP := offer.SupplierIP, GUID := "" } { ID := offer.ID } containersConfigs
              st.world).2 } statuses later hans.2
        refine ⟨h.1, ?_⟩
        rw [h.2]
        simp [launchCall]

/-- C12: for a non-empty group of containers, with `offers` the ranked offers and
`answers` what these offers answer when asked in turn, `launchContainers` asks the
discovery once and then the offers in rank order, one `LaunchContainer` each: if an
offer accepts after refusals only, the offers up to that one are asked, the later ones
are not, and the result is exactly the statuses of that launch with no error; if every
offer refuses, every offer is asked exactly once and the result is an error; with no
offer at all the result is an error and nothing is launched.  An error is returned
exactly when the ranked list is empty or every offer refuses. -/
theorem launchContainers_walks_ranked_offers (config : Configuration) (env : Collaborators W)
    (containersConfigs : List ContainerConfig) (resourcesNecessary : Resources)
    (st : State W) (offers : List AvailableOffer)
    (answers : List (Except String (List ContainerStatus)))
    (hne : containersConfigs ≠ [])
    (hoffers : offers =
      env.Rank (env.FindOffers resourcesNecessary st.world).1 resourcesNecessary)
    (hanswers : answers = answersInTurn config env containersConfigs offers
      (env.FindOffers resourcesNecessary st.world).2) :
    (offers = [] →
      (launchContainers config env containersConfigs resourcesNecessary st).1 =
          ([], some "no offers found to deploy") ∧
        (launchContainers config env containersConfigs resourcesNecessary st).2.calls =
          st.calls ++ [Call.FindOffers resourcesNecessary]) ∧
    (∀ errs : List String, offers ≠ [] → answers = errs.map Except.error →
      (launchContainers config env containersConfigs resourcesNecessary st).1 =
          ([], some "all offers were reject to deploy") ∧
        (launchContainers config env containersConfigs resourcesNecessary st).2.calls =
          st.calls ++ Call.FindOffers resourcesNecessary ::
            offers.map (launchCall config containersConfigs)) ∧
    (∀ (errs : List String) (statuses : List ContainerStatus)
        (later : List (Except String (List ContainerStatus))),
      answers = errs.map Except.error ++ Except.ok statuses :: later →
      (launchContainers config env containersConfigs resourcesNecessary st).1 =
          (statuses, none) ∧
        (launchContainers config env containersConfigs resourcesNecessary st).2.calls =
          st.calls ++ Call.FindOffers resourcesNecessary ::
            (offers.take (errs.length + 1)).map (launchCall config containersConfigs)) ∧
    ((launchContainers config env containersConfigs resourcesNecessary st).1.2 ≠ none ↔
      offers = [] ∨ ∃ errs : List String, answers = errs.map Except.error) := by
  have hcfg : containersConfigs.isEmpty = false := by
    cases containersConfigs with
    | nil => exact absurd rfl hne
    | cons c cs => rfl
  have hempty : offers = [] →
      launchContainers config env containersConfigs resourcesNecessary st =
        (([], some "no offers found to deploy"),
          { st with
            calls := st.calls ++ [Call.FindOffers resourcesNecessary]
            world := (env.FindOffers resourcesNecessary st.world).2 }) := by
    intro h
    unfold launchContainers
    simp [hcfg, ← hoffers, h]
  have hsome : offers ≠ [] →
      launchContainers config env containersConfigs resourcesNecessary st =
        tryOffers config env containersConfigs offers
          { st with
            calls := st.calls ++ [Call.FindOffers resourcesNecessary]
            world := (env.FindOffers resourcesNecessary st.world).2 } := by
    intro h
    have hoe : offers.isEmpty = false := by
      cases offers with
      | nil => exact absurd rfl h
      | cons o os => rfl
    unfold launchContainers
    simp [hcfg, ← hoffers, hoe]
  have hall : ∀ errs : List String, offers ≠ [] → answers = errs.map Except.error →
      (launchContainers config env containersConfigs resourcesNecessary st).1 =
          ([], some "all offers were reject to deploy") ∧
        (launchContainers config env containersConfigs resourcesNecessary st).2.calls =
          st.calls ++ Call.FindOffers resourcesNecessary ::
            offers.map (launchCall config containersConfigs) := by
    intro errs hoff hans
    rw [hsome hoff]
    have h := tryOffers_all_refuse config env containersConfigs offers
      { st with
        calls := st.calls ++ [Call.FindOffers resourcesNecessary]
        world := (env.FindOffers resourcesNecessary st.world).2 } errs hoff
      (by rw [← hanswers]; exact hans)
    refine ⟨h.1, ?_⟩
    rw [h.2]
    simp
  have hfirst : ∀ (errs : List String) (statuses : List ContainerStatus)
      (later : List (Except String (List ContainerStatus))),
      answers = errs.map Except.error ++ Except.ok statuses :: later →
      (launchContainers config env containersConfigs resourcesNecessary st).1 =
          (statuses, none) ∧
        (launchContainers config env containersConfigs resourcesNecessary st).2.calls =
          st.calls ++ Call.FindOffers resourcesNecessary ::
            (offers.take (errs.length + 1)).map (launchCall config containersConfigs) := by
    intro errs statuses later hans
    have hoff : offers ≠ [] := by
      intro hnil
      rw [hnil] at hanswers
      rw [hanswers] at hans
      simp [answersInTurn] at hans
    rw [hsome hoff]
    have h := tryOffers_first_accept config env containersConfigs errs offers
      { st with
        calls := st.calls ++ [Call.FindOffers resourcesNecessary]
        world := (env.FindOffers resourcesNecessary st.world).2 } statuses later
      (by rw [← hanswers]; exact hans)
    refine ⟨h.1, ?_⟩
    rw [h.2]
    simp
  refine ⟨fun h => ?_, hall, hfirst, ?_⟩
  · rw [hempty h]
    exact ⟨rfl, rfl⟩
  · constructor
    · intro herr
      by_cases hoff : offers = []
      · exact Or.inl hoff
      · rcases answers_cases answers with ⟨errs, h⟩ | ⟨errs, statuses, later, h⟩
        · exact Or.inr ⟨errs, h⟩
        · have := (hfirst errs statuses later h).1
          rw [this] at herr
          exact absurd rfl herr
    · intro h
      by_cases hoff : offers = []
      · rw [hempty hoff]
        simp
      · rcases h with h | ⟨errs, h⟩
        · exact absurd h hoff
        · rw [(hall errs hoff h).1]
          simp

/-- C12 on two ranked offers of which the first accepts: only the first is asked and its
statuses are the result. -/
theorem launchContainers_walks_ranked_offers_witness :
    [sampleSpread] ≠ [] ∧
    [AvailableOffer.mk "10.0.0.9" 3 1 (ContainerResources.mk 0 4 4096),
      AvailableOffer.mk "10.0.0.8" 4 1 (ContainerResources.mk 0 4 4096)] =
      sampleCollaboratorsTwo.Rank
        (sampleCollaboratorsTwo.FindOffers (spreadDemand sampleSpread)
          sampleLaunchedOne.world).1 (spreadDemand sampleSpread) ∧
    [Except.ok [ContainerStatus.mk "10.0.0.9" "c2"], Except.error "offer refused"] =
      answersInTurn sampleConfig sampleCollaboratorsTwo [sampleSpread]
        [AvailableOffer.mk "10.0.0.9" 3 1 (ContainerResources.mk 0 4 4096),
          AvailableOffer.mk "10.0.0.8" 4 1 (ContainerResources.mk 0 4 4096)]
        (sampleCollaboratorsTwo.FindOffers (spreadDemand sampleSpread)
          sampleLaunchedOne.world).2 ∧
    [Except.ok [ContainerStatus.mk "10.0.0.9" "c2"], Except.error "offer refused"] =
        ([] : List String).map Except.error ++
          Except.ok [ContainerStatus.mk "10.0.0.9" "c2"] ::
            [Except.error "offer refused"] ∧
    ((launchContainers sampleConfig sampleCollaboratorsTwo [sampleSpread]
          (spreadDemand sampleSpread) sampleLaunchedOne).1 =
          ([ContainerStatus.mk "10.0.0.9" "c2"], none) ∧
        (launchContainers sampleConfig sampleCollaboratorsTwo [sampleSpread]
          (spreadDemand sampleSpread) sampleLaunchedOne).2.calls =
          sampleLaunchedOne.calls ++ Call.FindOffers (spreadDemand sampleSpread) ::
            ([AvailableOffer.mk "10.0.0.9" 3 1 (ContainerResources.mk 0 4 4096),
              AvailableOffer.mk "10.0.0.8" 4 1 (ContainerResources.mk 0 4 4096)].take
                (([] : List String).length + 1)).map (launchCall sampleConfig [sampleSpread])) :=
  ⟨by decide, rfl, rfl, rfl,
    (launchContainers_walks_ranked_offers sampleConfig sampleCollaboratorsTwo [sampleSpread]
      (spreadDemand sampleSpread) sampleLaunchedOne
      [AvailableOffer.mk "10.0.0.9" 3 1 (ContainerResources.mk 0 4 4096),
        AvailableOffer.mk "10.0.0.8" 4 1 (ContainerResources.mk 0 4 4096)]
      [Except.ok [ContainerStatus.mk "10.0.0.9" "c2"], Except.error "offer refused"]
      (by decide) rfl rfl).2.2.1 [] [ContainerStatus.mk "10.0.0.9" "c2"]
      [Except.error "offer refused"] rfl⟩

/-! ### Grouping by policy -/

theorem foldl_groupContainer (contConfigs : List ContainerConfig) :
    ∀ groups : Groups,
      (contConfigs.foldl groupContainer groups).coLocateContainers =
        groups.coLocateContainers ++ contConfigs.filter (fun c =>
          decide (c.GroupPolicy = GroupPolicy.CoLocationGroupPolicy)) ∧
      (contConfigs.foldl groupContainer groups).spreadContainers =
        groups.spreadContainers ++ contConfigs.filter (fun c =>
          decide (c.GroupPolicy = GroupPolicy.SpreadGroupPolicy)) ∧
      (contConfigs.foldl groupContainer groups).coLocateTotalResources.cpus =
        groups.coLocateTotalResources.cpus + ((contConfigs.filter (fun c =>
          decide (c.GroupPolicy = GroupPolicy.CoLocationGroupPolicy))).map
            (fun c => c.Resources.CPUs)).sum ∧
      (contConfigs.foldl groupContainer groups).coLocateTotalResources.ram =
        groups.coLocateTotalResources.ram + ((contConfigs.filter (fun c =>
          decide (c.GroupPolicy = GroupPolicy.CoLocationGroupPolicy))).map
            (fun c => c.Resources.Memory)).sum := by
  induction contConfigs with
  | nil => intro groups; simp
  | cons c rest ih =>
    intro groups
    rw [List.foldl_cons]
    obtain ⟨h1, h2, h3, h4⟩ := ih (groupContainer groups c)
    rw [h1, h2, h3, h4]
    by_cases hco : c.GroupPolicy = GroupPolicy.CoLocationGroupPolicy
    · have hsp : ¬ c.GroupPolicy = GroupPolicy.SpreadGroupPolicy := by
        rw [hco]
        decide
      simp [groupContainer, hco, Resources.Add, Resources.SetCPUClass, add_assoc]
    · by_cases hsp : c.GroupPolicy = GroupPolicy.SpreadGroupPolicy
      · simp [groupContainer, hco, hsp]
      · simp [groupContainer, hco, hsp]

/-- The offers loop asks a first part of the offers, in order, and nothing else. -/
theorem tryOffers_calls_shape (config : Configuration) (env : Collaborators W)
    (containersConfigs : List ContainerConfig) (offers : List AvailableOffer) :
    ∀ st : State W, ∃ tried : List AvailableOffer, tried <+: offers ∧
      (tryOffers config env containersConfigs offers st).2.calls =
        st.calls ++ tried.map (launchCall config containersConfigs) := by
  intro st
  rcases answers_cases (answersInTurn config env containersConfigs offers st.world) with
    ⟨errs, h⟩ | ⟨errs, statuses, later, h⟩
  · cases offers with
    | nil => exact ⟨[], List.prefix_refl _, by simp [tryOffers]⟩
    | cons offer rest =>
      exact ⟨offer :: rest, List.prefix_refl _,
        (tryOffers_all_refuse config env containersConfigs (offer :: rest) st errs
          (by simp) h).2⟩
  · exact ⟨offers.take (errs.length + 1), List.take_prefix _ _,
      (tryOffers_first_accept config env containersConfigs errs offers st statuses later h).2⟩

/-- For a non-empty group `launchContainers` asks the discovery once, with the demand,
and then a first part of the ranked offers, each with the whole group. -/
theorem launchContainers_calls_shape (config : Configuration) (env : Collaborators W)
    (containersConfigs : List ContainerConfig) (resourcesNecessary : Resources)
    (st : State W) (hne : containersConfigs ≠ []) :
    ∃ tried : List AvailableOffer,
      (launchContainers config env containersConfigs resourcesNecessary st).2.calls =
        st.calls ++ Call.FindOffers resourcesNecessary ::
          tried.map (launchCall config containersConfigs) := by
  have hcfg : containersConfigs.isEmpty = false := by
    cases containersConfigs with
    | nil => exact absurd rfl hne
    | cons c cs => rfl
  unfold launchContainers
  simp only [hcfg, Bool.false_eq_true, if_false]
  split
  · exact ⟨[], by simp⟩
  · obtain ⟨tried, _, h⟩ := tryOffers_calls_shape config env containersConfigs
      (env.Rank (env.FindOffers resourcesNecessary st.world).1 resourcesNecessary)
      { st with
        calls := st.calls ++ [Call.FindOffers resourcesNecessary]
        world := (env.FindOffers resourcesNecessary st.world).2 }
    exact ⟨tried, by rw [h]; simp⟩

/-- The calls of the loop over the spread containers: for each container reached, its
own discovery request and its own launches, in submission order, and at the end the
stops of a rollback, if any. -/
theorem launchSpread_calls_shape (config : Configuration) (env : Collaborators W)
    (spread : List ContainerConfig) :
    ∀ (collected : List ContainerStatus) (st : State W),
      ∃ (rounds : List (List AvailableOffer)) (stops : List ContainerStatus),
        rounds.length ≤ spread.length ∧
        (launchSpread config env spread collected st).2.calls =
          st.calls ++
            (List.zipWith (fun c tried => Call.FindOffers (spreadDemand c) ::
              tried.map (launchCall config [c])) spread rounds).flatten ++
            stops.map (fun status =>
              Call.StopLocalContainer { IP := status.SupplierIP, GUID := "" }
                status.ContainerID) ∧
        ((launchSpread config env spread collected st).1.2 = none →
          rounds.length = spread.length ∧ stops = []) := by
  induction spread with
  | nil =>
    intro collected st
    exact ⟨[], [], by simp, by simp [launchSpread], fun _ => ⟨rfl, rfl⟩⟩
  | cons contConfig rest ih =>
    intro collected st
    obtain ⟨tried, htried⟩ := launchContainers_calls_shape config env [contConfig]
      (Resources.NewResourcesCPUClass contConfig.Resources.CPUClass contConfig.Resources.CPUs
        contConfig.Resources.Memory) st (by simp)
    cases hl : (launchContainers config env [contConfig]
      (Resources.NewResourcesCPUClass contConfig.Resources.CPUClass contConfig.Resources.CPUs
        contConfig.Resources.Memory) st).1.2 with
    | some err =>
      rw [launchSpread_cons_error config env contConfig rest collected st err hl]
      refine ⟨[tried], collected, by simp, ?_, by simp⟩
      rw [stopLaunched_calls, htried]
      simp [spreadDemand]
    | none =>
      rw [launchSpread_cons_ok config env contConfig rest collected st hl]
      obtain ⟨rounds, stops, h1, h2, h3⟩ := ih
        (collected ++ (launchContainers config env [contConfig]
          (Resources.NewResourcesCPUClass contConfig.Resources.CPUClass
            contConfig.Resources.CPUs contConfig.Resources.Memory) st).1.1)
        (launchContainers config env [contConfig]
          (Resources.NewResourcesCPUClass contConfig.Resources.CPUClass
            contConfig.Resources.CPUs contConfig.Resources.Memory) st).2
      refine ⟨tried :: rounds, stops, by simp [h1], ?_, ?_⟩
      · rw [h2, htried]
        simp [spreadDemand]
      · intro hnone
        obtain ⟨h4, h5⟩ := h3 hnone
        exact ⟨by simp [h4], h5⟩

/-- The groups of a submission: the co-located containers and the spread ones, each in
submission order, and the sums of the co-located demands. -/
theorem groupContainers_eq (env : Collaborators W) (contConfigs : List ContainerConfig) :
    (groupContainers env contConfigs).coLocateContainers =
      contConfigs.filter (fun c =>
        decide (c.GroupPolicy = GroupPolicy.CoLocationGroupPolicy)) ∧
    (groupContainers env contConfigs).spreadContainers =
      contConfigs.filter (fun c => decide (c.GroupPolicy = GroupPolicy.SpreadGroupPolicy)) ∧
    (groupContainers env contConfigs).coLocateTotalResources.cpus =
      ((contConfigs.filter (fun c =>
        decide (c.GroupPolicy = GroupPolicy.CoLocationGroupPolicy))).map
          (fun c => c.Resources.CPUs)).sum ∧
    (groupContainers env contConfigs).coLocateTotalResources.ram =
      ((contConfigs.filter (fun c =>
        decide (c.GroupPolicy = GroupPolicy.CoLocationGroupPolicy))).map
          (fun c => c.Resources.Memory)).sum := by
  have h := foldl_groupContainer contConfigs
    { coLocateTotalResources := Resources.NewResourcesCPUClass env.LowCPUPClass 0 0
      coLocateContainers := []
      spreadContainers := [] }
  simpa [groupContainers, Resources.NewResourcesCPUClass] using h

/-- C13: whatever `SubmitContainers` returns, the calls it made are, in this order: for
the containers whose policy is co-location (if there are any), one discovery request
with a demand whose CPUs and RAM are the sums of their CPUs and memory, and then
`LaunchContainer` calls that each carry all of them, in submission order; then for each
spread container reached, in submission order, one discovery request with its own
(CPU class, CPUs, memory) and launches that carry that container alone; and at the end
the stops of a rollback.  When the submission succeeds every spread container was
reached and nothing was stopped. -/
theorem SubmitContainers_groups_by_policy (config : Configuration) (env : Collaborators W)
    (st final : State W) (contConfigs : List ContainerConfig)
    (result : List ContainerStatus × Option String)
    (h : SubmitContainers config env st contConfigs = some (result, final)) :
    ∃ (demand : Resources) (tried : List AvailableOffer)
      (rounds : List (List AvailableOffer)) (stops : List ContainerStatus),
      demand.cpus = ((contConfigs.filter (fun c =>
        decide (c.GroupPolicy = GroupPolicy.CoLocationGroupPolicy))).map
          (fun c => c.Resources.CPUs)).sum ∧
      demand.ram = ((contConfigs.filter (fun c =>
        decide (c.GroupPolicy = GroupPolicy.CoLocationGroupPolicy))).map
          (fun c => c.Resources.Memory)).sum ∧
      rounds.length ≤ (contConfigs.filter (fun c =>
        decide (c.GroupPolicy = GroupPolicy.SpreadGroupPolicy))).length ∧
      final.calls = st.calls ++
        (if contConfigs.filter (fun c =>
            decide (c.GroupPolicy = GroupPolicy.CoLocationGroupPolicy)) = [] then []
          else Call.FindOffers demand :: tried.map (launchCall config
            (contConfigs.filter (fun c =>
              decide (c.GroupPolicy = GroupPolicy.CoLocationGroupPolicy))))) ++
        (List.zipWith (fun c offers => Call.FindOffers (spreadDemand c) ::
            offers.map (launchCall config [c]))
          (contConfigs.filter (fun c => decide (c.GroupPolicy = GroupPolicy.SpreadGroupPolicy)))
          rounds).flatten ++
        stops.map (fun status =>
          Call.StopLocalContainer { IP := status.SupplierIP, GUID := "" } status.ContainerID) ∧
      (result.2 = none →
        rounds.length = (contConfigs.filter (fun c =>
          decide (c.GroupPolicy = GroupPolicy.SpreadGroupPolicy))).length ∧ stops = []) := by
  obtain ⟨hg1, hg2, hg3, hg4⟩ := groupContainers_eq env contConfigs
  have hco : ∃ tried : List AvailableOffer,
      (launchContainers config env (groupContainers env contConfigs).coLocateContainers
        (groupContainers env contConfigs).coLocateTotalResources st).2.calls =
      st.calls ++
        (if contConfigs.filter (fun c =>
            decide (c.GroupPolicy = GroupPolicy.CoLocationGroupPolicy)) = [] then []
          else Call.FindOffers (groupContainers env contConfigs).coLocateTotalResources ::
            tried.map (launchCall config
              (contConfigs.filter (fun c =>
                decide (c.GroupPolicy = GroupPolicy.CoLocationGroupPolicy))))) := by
    by_cases hnil : contConfigs.filter (fun c =>
        decide (c.GroupPolicy = GroupPolicy.CoLocationGroupPolicy)) = []
    · refine ⟨[], ?_⟩
      have : (groupContainers env contConfigs).coLocateContainers = [] := by
        rw [hg1, hnil]
      rw [if_pos hnil, this]
      simp [launchContainers]
    · have hne : (groupContainers env contConfigs).coLocateContainers ≠ [] := by
        rw [hg1]
        exact hnil
      obtain ⟨tried, ht⟩ := launchContainers_calls_shape config env
        (groupContainers env contConfigs).coLocateContainers
        (groupContainers env contConfigs).coLocateTotalResources st hne
      refine ⟨tried, ?_⟩
      rw [if_neg hnil, ht, hg1]
  obtain ⟨tried, htried⟩ := hco
  have hw : st.working = true := by
    cases hwk : st.working with
    | true => rfl
    | false => simp [SubmitContainers, hwk] at h
  unfold SubmitContainers at h
  simp only [hw, Bool.not_true, Bool.false_eq_true, if_false, List.nil_append] at h
  cases hl : (launchContainers config env (groupContainers env contConfigs).coLocateContainers
      (groupContainers env contConfigs).coLocateTotalResources st).1.2 with
  | some err =>
    simp only [hl, Option.some.injEq, Prod.mk.injEq] at h
    refine ⟨(groupContainers env contConfigs).coLocateTotalResources, tried, [], [],
      hg3, hg4, by simp, ?_, ?_⟩
    · rw [← h.2, htried]
      simp
    · intro hnone
      rw [← h.1] at hnone
      simp at hnone
  | none =>
    simp only [hl, Option.some.injEq] at h
    obtain ⟨rounds, stops, h1, h2, h3⟩ := launchSpread_calls_shape config env
      (groupContainers env contConfigs).spreadContainers
      (launchContainers config env (groupContainers env contConfigs).coLocateContainers
        (groupContainers env contConfigs).coLocateTotalResources st).1.1
      (launchContainers config env (groupContainers env contConfigs).coLocateContainers
        (groupContainers env contConfigs).coLocateTotalResources st).2
    rw [h] at h2 h3
    rw [hg2] at h1 h2 h3
    refine ⟨(groupContainers env contConfigs).coLocateTotalResources, tried, rounds, stops,
      hg3, hg4, h1, ?_, h3⟩
    rw [h2, htried]

/-- C13 on three co-located containers needing (1, 512), (1, 512) and (2, 1024): one
discovery request for (4, 2048) and one launch that carries the three of them. -/
theorem SubmitContainers_groups_by_policy_witness :
    SubmitContainers sampleConfig sampleCollaborators sampleScheduler
      [sampleCoLocated 1 512, sampleCoLocated 1 512, sampleCoLocated 2 1024] =
      some (([ContainerStatus.mk "10.0.0.9" "c1"], none), sampleCoLaunched) ∧
    sampleCoLaunched.calls =
      [Call.FindOffers { cpuClass := 0, cpus := 4, ram := 2048 },
        Call.LaunchContainer { IP := "10.0.0.1", GUID := "" }
          { IP := "10.0.0.9", GUID := "" } { ID := 3 }
          [sampleCoLocated 1 512, sampleCoLocated 1 512, sampleCoLocated 2 1024]] ∧
    ∃ (demand : Resources) (tried : List AvailableOffer)
      (rounds : List (List AvailableOffer)) (stops : List ContainerStatus),
      demand.cpus = (([sampleCoLocated 1 512, sampleCoLocated 1 512,
        sampleCoLocated 2 1024].filter (fun c =>
        decide (c.GroupPolicy = GroupPolicy.CoLocationGroupPolicy))).map
          (fun c => c.Resources.CPUs)).sum ∧
      demand.ram = (([sampleCoLocated 1 512, sampleCoLocated 1 512,
        sampleCoLocated 2 1024].filter (fun c =>
        decide (c.GroupPolicy = GroupPolicy.CoLocationGroupPolicy))).map
          (fun c => c.Resources.Memory)).sum ∧
      rounds.length ≤ ([sampleCoLocated 1 512, sampleCoLocated 1 512,
        sampleCoLocated 2 1024].filter (fun c =>
        decide (c.GroupPolicy = GroupPolicy.SpreadGroupPolicy))).length ∧
      sampleCoLaunched.calls = sampleScheduler.calls ++
        (if [sampleCoLocated 1 512, sampleCoLocated 1 512,
            sampleCoLocated 2 1024].filter (fun c =>
            decide (c.GroupPolicy = GroupPolicy.CoLocationGroupPolicy)) = [] then []
          else Call.FindOffers demand :: tried.map (launchCall sampleConfig
            ([sampleCoLocated 1 512, sampleCoLocated 1 512,
              sampleCoLocated 2 1024].filter (fun c =>
              decide (c.GroupPolicy = GroupPolicy.CoLocationGroupPolicy))))) ++
        (List.zipWith (fun c offers => Call.FindOffers (spreadDemand c) ::
            offers.map (launchCall sampleConfig [c]))
          ([sampleCoLocated 1 512, sampleCoLocated 1 512,
            sampleCoLocated 2 1024].filter (fun c =>
            decide (c.GroupPolicy = GroupPolicy.SpreadGroupPolicy)))
          rounds).flatten ++
        stops.map (fun status =>
          Call.StopLocalContainer { IP := status.SupplierIP, GUID := "" } status.ContainerID) ∧
      ((([ContainerStatus.mk "10.0.0.9" "c1"], none) :
          List ContainerStatus × Option String).2 = none →
        rounds.length = ([sampleCoLocated 1 512, sampleCoLocated 1 512,
          sampleCoLocated 2 1024].filter (fun c =>
          decide (c.GroupPolicy = GroupPolicy.SpreadGroupPolicy))).length ∧ stops = []) :=
  ⟨rfl, rfl,
    SubmitContainers_groups_by_policy sampleConfig sampleCollaborators sampleScheduler
      sampleCoLaunched [sampleCoLocated 1 512, sampleCoLocated 1 512, sampleCoLocated 2 1024]
      ([ContainerStatus.mk "10.0.0.9" "c1"], none) rfl⟩

/-! ### The incoming launch -/

/-- C14: `Launch` on a working scheduler with an empty list of container configurations
returns the error "no container configurations" with an empty list of statuses, and
leaves the state as it was: the containers manager is not called. -/
theorem Launch_empty (manager : ContainersManager W) (st : State W) (fromBuyer : Node)
    (offer : Offer) (hw : st.working = true) :
    Launch manager st fromBuyer offer [] =
        some (([], some "no container configurations"), st) ∧
      ∀ result final, Launch manager st fromBuyer offer [] = some (result, final) →
        final.calls = st.calls ∧ final.world = st.world ∧
        ∀ buyer o configs total, Call.StartContainer buyer o configs total ∈ final.calls →
          Call.StartContainer buyer o configs total ∈ st.calls := by
  have h : Launch manager st fromBuyer offer [] =
      some (([], some "no container configurations"), st) := by
    simp [Launch, hw]
  refine ⟨h, ?_⟩
  intro result final hres
  rw [h] at hres
  simp only [Option.some.injEq, Prod.mk.injEq] at hres
  rw [← hres.2]
  exact ⟨rfl, rfl, fun _ _ _ _ hmem => hmem⟩

/-- C14 on the sample scheduler: an empty launch is refused and nothing is started. -/
theorem Launch_empty_witness :
    sampleScheduler.working = true ∧
    (Launch sampleManager sampleScheduler { IP := "10.0.0.7", GUID := "" } { ID := 3 } [] =
        some (([], some "no container configurations"), sampleScheduler) ∧
      ∀ result final,
        Launch sampleManager sampleScheduler { IP := "10.0.0.7", GUID := "" } { ID := 3 } [] =
          some (result, final) →
        final.calls = sampleScheduler.calls ∧ final.world = sampleScheduler.world ∧
        ∀ buyer o configs total, Call.StartContainer buyer o configs total ∈ final.calls →
          Call.StartContainer buyer o configs total ∈ sampleScheduler.calls) :=
  ⟨rfl, Launch_empty sampleManager sampleScheduler { IP := "10.0.0.7", GUID := "" }
    { ID := 3 } rfl⟩

end Scheduler

/-! ## GUIDs as bytes -/

theorem bytesLE_value (fuel : Nat) :
    ∀ n : Nat, n ≤ fuel → (bytesLE fuel n).foldr (fun b acc => b + 256 * acc) 0 = n := by
  induction fuel with
  | zero =>
    intro n hn
    have : n = 0 := Nat.le_zero.mp hn
    simp [bytesLE, this]
  | succ fuel ih =>
    intro n hn
    by_cases h0 : n = 0
    · simp [bytesLE, h0]
    · have hdiv : n / 256 ≤ fuel := by omega
      simp only [bytesLE, h0, if_false, List.foldr_cons, ih (n / 256) hdiv]
      omega

theorem bytesLE_length (fuel : Nat) :
    ∀ n k : Nat, n ≤ fuel → n < 256 ^ k → (bytesLE fuel n).length ≤ k := by
  induction fuel with
  | zero =>
    intro n k _ _
    simp [bytesLE]
  | succ fuel ih =>
    intro n k hn hk
    by_cases h0 : n = 0
    · simp [bytesLE, h0]
    · cases k with
      | zero =>
        simp at hk
        exact absurd hk h0
      | succ k =>
        have hdiv : n / 256 ≤ fuel := by omega
        have hlt : n / 256 < 256 ^ k := by
          rw [Nat.div_lt_iff_lt_mul (by decide)]
          rw [pow_succ] at hk
          exact hk
        simp only [bytesLE, h0, if_false, List.length_cons]
        have := ih (n / 256) k hdiv hlt
        omega

theorem bytesLE_lt (fuel : Nat) : ∀ n : Nat, ∀ b ∈ bytesLE fuel n, b < 256 := by
  induction fuel with
  | zero =>
    intro n b hb
    simp [bytesLE] at hb
  | succ fuel ih =>
    intro n b hb
    by_cases h0 : n = 0
    · simp [bytesLE, h0] at hb
    · simp only [bytesLE, h0, if_false, List.mem_cons] at hb
      rcases hb with h | h
      · rw [h]
        exact Nat.mod_lt _ (by decide)
      · exact ih _ b h

theorem foldl_bytes_reverse (l : List Nat) :
    l.reverse.foldl (fun acc b => acc * 256 + b) 0 =
      l.foldr (fun b acc => b + 256 * acc) 0 := by
  rw [List.foldl_reverse]
  congr 1
  funext b acc
  ring

/-- Reading back the bytes of a non-negative integer gives the integer. -/
theorem bigIntSetBytes_bigIntBytes (x : Int) (hx : 0 ≤ x) : bigIntSetBytes (bigIntBytes x) = x := by
  unfold bigIntSetBytes bigIntBytes
  rw [foldl_bytes_reverse, bytesLE_value _ _ (le_refl _)]
  simp only [Int.ofNat_eq_coe, Int.natCast_natAbs]
  exact abs_of_nonneg hx

theorem bigIntSetBytes_pad (p : Nat) (bs : List Nat) :
    bigIntSetBytes (List.replicate p 0 ++ bs) = bigIntSetBytes bs := by
  unfold bigIntSetBytes
  rw [List.foldl_append]
  have : (List.replicate p 0).foldl (fun acc b => acc * 256 + b) 0 = 0 := by
    induction p with
    | zero => rfl
    | succ p ih =>
      rw [List.replicate_succ, List.foldl_cons]
      simpa using ih
  rw [this]

namespace GUID

theorem padLoop_replicate (count : Nat) :
    ∀ (index n : Nat), padLoop count index (List.replicate n 0) =
      (List.replicate n 0, index + count) := by
  induction count with
  | zero => intro index n; rfl
  | succ count ih =>
    intro index n
    simp only [padLoop, List.set_replicate_self, ih]
    congr 1
    omega

theorem copyLoop_eq (idBytes : List Nat) (count : Nat) :
    ∀ (index k : Nat) (res : List Nat), index + count ≤ res.length →
      k + count ≤ idBytes.length →
      copyLoop idBytes count index k res =
        some (res.take index ++ (idBytes.drop k).take count ++ res.drop (index + count)) := by
  induction count with
  | zero =>
    intro index k res _ _
    simp [copyLoop]
  | succ count ih =>
    intro index k res hres hk
    have hklt : k < idBytes.length := by omega
    have hilt : index < res.length := by omega
    simp only [copyLoop, List.getElem?_eq_getElem hklt]
    rw [ih (index + 1) (k + 1) (res.set index idBytes[k]) (by simp; omega) (by omega)]
    congr 1
    have hset : res.set index idBytes[k] =
        res.take index ++ idBytes[k] :: res.drop (index + 1) := by
      rw [List.set_eq_take_append_cons_drop, if_pos hilt]
    have hlen : (res.take index).length = index := by
      rw [List.length_take]
      omega
    have h1 : (res.set index idBytes[k]).take (index + 1) = res.take index ++ [idBytes[k]] := by
      rw [hset]
      conv_lhs => rw [show index + 1 = (res.take index).length + 1 by rw [hlen]]
      rw [List.take_append]
      rfl
    have h2 : (res.set index idBytes[k]).drop (index + 1 + count) =
        res.drop (index + (count + 1)) := by
      rw [hset]
      conv_lhs => rw [show index + 1 + count = (res.take index).length + (count + 1) by
        rw [hlen]; omega]
      rw [List.drop_append, List.drop_succ_cons, List.drop_drop]
      congr 1
      omega
    have h3 : (idBytes.drop k).take (count + 1) =
        idBytes[k] :: (idBytes.drop (k + 1)).take count := by
      rw [List.drop_eq_getElem_cons hklt, List.take_succ_cons]
    rw [h1, h2, h3]
    simp

/-- The slice `Bytes` returns: zero bytes in front of a first part of the bytes of the
identifier; it never panics. -/
theorem Bytes_eq (guidSizeBits : Nat) (guid : GUID) :
    Bytes guidSizeBits guid =
      some (List.replicate (guidSizeBits / 8 - (bigIntBytes guid.id).length) 0 ++
        (bigIntBytes guid.id).take
          (guidSizeBits / 8 - (guidSizeBits / 8 - (bigIntBytes guid.id).length))) := by
  unfold Bytes
  simp only [padLoop_replicate, Nat.zero_add]
  rw [copyLoop_eq _ _ _ _ _ (by simp) (by omega)]
  simp only [List.drop_zero, Option.some.injEq]
  rw [List.drop_eq_nil_of_le (by simp), List.append_nil]
  congr 1
  rw [List.take_replicate]
  congr 1
  omega

/-- C19, as stated, fails for a size that is not a multiple of 8: with 65 bits the GUID
`2^64` lies in `[0, 2^65)` and needs 9 bytes, `Bytes` returns the first 8 of them, and
reading these back gives `2^56`. -/
theorem Bytes_not_roundtrip_at_65_bits :
    64 ≤ 65 ∧ (0 : Int) ≤ 2 ^ 64 ∧ (2 ^ 64 : Int) < 2 ^ 65 ∧
    bigIntBytes (2 ^ 64) = [1, 0, 0, 0, 0, 0, 0, 0, 0] ∧
    Bytes 65 { id := 2 ^ 64 } = some [1, 0, 0, 0, 0, 0, 0, 0] ∧
    NewGUIDBytes [1, 0, 0, 0, 0, 0, 0, 0] = { id := 2 ^ 56 } ∧
    NewGUIDBytes [1, 0, 0, 0, 0, 0, 0, 0] ≠ { id := 2 ^ 64 } := by
  refine ⟨by decide, by decide, by decide, rfl, rfl, rfl, ?_⟩
  intro h
  have h2 : (NewGUIDBytes [1, 0, 0, 0, 0, 0, 0, 0]).id = 2 ^ 64 := by rw [h]
  have h3 : (NewGUIDBytes [1, 0, 0, 0, 0, 0, 0, 0]).id = 2 ^ 56 := rfl
  rw [h3] at h2
  exact absurd h2 (by decide)

/-- C19 (amended): for every GUID size of `B` bits that is a multiple of 8 and every GUID
`g` with `0 ≤ g < 2^B`, `Bytes(g)` returns, without panic, exactly `B/8` bytes: the
big-endian bytes of `g` with zero bytes in front; and `NewGUIDBytes(Bytes(g))` is
`g`. -/
theorem Bytes_roundtrip (guidSizeBits : Nat) (guid : GUID) (hsize : 8 ∣ guidSizeBits)
    (hge : 0 ≤ guid.id) (hlt : guid.id < 2 ^ guidSizeBits) :
    ∃ bs, Bytes guidSizeBits guid = some bs ∧
      bs.length = SizeBytes guidSizeBits ∧
      (∀ b ∈ bs, b < 256) ∧
      bs = List.replicate (SizeBytes guidSizeBits - (bigIntBytes guid.id).length) 0 ++
        bigIntBytes guid.id ∧
      bigIntSetBytes (bigIntBytes guid.id) = guid.id ∧
      NewGUIDBytes bs = guid := by
  obtain ⟨m, hm⟩ := hsize
  have hdiv : guidSizeBits / 8 = m := by omega
  have hnat : guid.id.natAbs < 256 ^ m := by
    have h1 : (guid.id.natAbs : Int) = guid.id := Int.natAbs_of_nonneg hge
    have h2 : ((guid.id.natAbs : Nat) : Int) < ((2 ^ guidSizeBits : Nat) : Int) := by
      rw [h1]
      exact_mod_cast hlt
    have h3 : guid.id.natAbs < 2 ^ guidSizeBits := by exact_mod_cast h2
    have h4 : (256 : Nat) ^ m = 2 ^ guidSizeBits := by
      rw [hm, pow_mul]
      norm_num
    rw [h4]
    exact h3
  have hlen : (bigIntBytes guid.id).length ≤ m := by
    unfold bigIntBytes
    rw [List.length_reverse]
    exact bytesLE_length _ _ _ (le_refl _) hnat
  have htake : (bigIntBytes guid.id).take (m - (m - (bigIntBytes guid.id).length)) =
      bigIntBytes guid.id := by
    apply List.take_of_length_le
    omega
  refine ⟨List.replicate (m - (bigIntBytes guid.id).length) 0 ++ bigIntBytes guid.id,
    ?_, ?_, ?_, ?_, bigIntSetBytes_bigIntBytes guid.id hge, ?_⟩
  · rw [Bytes_eq, hdiv, htake]
  · simp only [List.length_append, List.length_replicate, SizeBytes, hdiv]
    omega
  · intro b hb
    rcases List.mem_append.mp hb with h | h
    · rw [(List.mem_replicate.mp h).2]
      decide
    · unfold bigIntBytes at h
      exact bytesLE_lt _ _ b (List.mem_reverse.mp h)
  · simp only [SizeBytes, hdiv]
  · unfold NewGUIDBytes
    rw [bigIntSetBytes_pad, bigIntSetBytes_bigIntBytes guid.id hge]

/-- C19 (amended) with the default 160 bits: the GUID 258 is the 20 bytes
`0, …, 0, 1, 2`. -/
theorem Bytes_roundtrip_witness :
    8 ∣ 160 ∧ (0 : Int) ≤ (GUID.mk 258).id ∧ (GUID.mk 258).id < 2 ^ 160 ∧
    Bytes 160 { id := 258 } = some (List.replicate 18 0 ++ [1, 2]) ∧
    ∃ bs, Bytes 160 { id := 258 } = some bs ∧
      bs.length = SizeBytes 160 ∧
      (∀ b ∈ bs, b < 256) ∧
      bs = List.replicate (SizeBytes 160 - (bigIntBytes (GUID.mk 258).id).length) 0 ++
        bigIntBytes (GUID.mk 258).id ∧
      bigIntSetBytes (bigIntBytes (GUID.mk 258).id) = (GUID.mk 258).id ∧
      NewGUIDBytes bs = { id := 258 } :=
  ⟨by decide, by norm_num, by norm_num, rfl,
    Bytes_roundtrip 160 { id := 258 } (by decide) (by norm_num) (by norm_num)⟩

end GUID

/-- C20, as stated, fails: with 160 bits, adding the offset "1" to the GUID `2^160 - 1`
gives `2^160`, which is outside `[0, 2^160)`, and adding "-1" to the GUID 0 gives -1. -/
theorem AddOffset_leaves_range :
    (0 : Int) ≤ (GUID.mk (2 ^ 160 - 1)).id ∧ (GUID.mk (2 ^ 160 - 1)).id < 2 ^ 160 ∧
    bigIntSetString "1" = some 1 ∧
    (GUID.AddOffset { id := 2 ^ 160 - 1 } "1").id = 2 ^ 160 ∧
    ¬ (GUID.AddOffset { id := 2 ^ 160 - 1 } "1").id < 2 ^ 160 ∧
    bigIntSetString "-1" = some (-1) ∧
    ¬ 0 ≤ (GUID.AddOffset { id := 0 } "-1").id := by
  have h1 : bigIntSetString "1" = some 1 := by decide
  have h2 : bigIntSetString "-1" = some (-1) := by decide
  have h3 : (GUID.AddOffset { id := 2 ^ 160 - 1 } "1").id = 2 ^ 160 := by
    simp [GUID.AddOffset, bigIntScan_of_setString _ _ h1]
  have h4 : (GUID.AddOffset { id := 0 } "-1").id = -1 := by
    simp [GUID.AddOffset, bigIntScan_of_setString _ _ h2]
  refine ⟨by norm_num, by norm_num, h1, h3, ?_, h2, ?_⟩
  · rw [h3]
    exact lt_irrefl _
  · rw [h4]
    decide

/-- C20 (amended): for every GUID `g` and every signed offset `k` given in base 10, after
`g.AddOffset(k)` the value of the GUID is `g + k`, with no reduction modulo `2^B`: it is
in `[0, 2^B)` exactly when `0 ≤ g + k < 2^B`. -/
theorem AddOffset_value (guidSizeBits : Nat) (guid : GUID) (offset : String) (k : Int)
    (hk : bigIntSetString offset = some k) :
    (guid.AddOffset offset).id = guid.id + k ∧
    ((0 ≤ (guid.AddOffset offset).id ∧ (guid.AddOffset offset).id < 2 ^ guidSizeBits) ↔
      (0 ≤ guid.id + k ∧ guid.id + k < 2 ^ guidSizeBits)) := by
  have h : (guid.AddOffset offset).id = guid.id + k := by
    simp [GUID.AddOffset, bigIntScan_of_setString _ _ hk]
  rw [h]
  exact ⟨rfl, Iff.rfl⟩

/-- C20 (amended) on the GUID 5 and the offset "-3": the result is 2, in range. -/
theorem AddOffset_value_witness :
    bigIntSetString "-3" = some (-3) ∧
    ((GUID.AddOffset { id := 5 } "-3").id = (GUID.mk 5).id + (-3) ∧
    ((0 ≤ (GUID.AddOffset { id := 5 } "-3").id ∧
        (GUID.AddOffset { id := 5 } "-3").id < 2 ^ 160) ↔
      (0 ≤ (GUID.mk 5).id + (-3) ∧ (GUID.mk 5).id + (-3) < 2 ^ 160))) :=
  ⟨by decide, AddOffset_value 160 { id := 5 } "-3" (-3) (by decide)⟩

/-! ## The default offers strategy -/

namespace DefaultChordOffersManager

variable {W O : Type}

/-- The lookup never panics: it asks the overlay with the bytes of the GUID and keeps the
nodes of the partition. -/
theorem lookupTarget_eq (env : Environment W O) (destinationGUID : GUID) (st : State W O) :
    lookupTarget env destinationGUID st =
      some (removeNonTargetNodes env
          (env.Lookup ((GUID.Bytes env.guidSizeBits destinationGUID).getD []) st.world).1
          destinationGUID,
        { trace := st.trace ++
            [Exchange.Lookup ((GUID.Bytes env.guidSizeBits destinationGUID).getD [])
              (env.Lookup ((GUID.Bytes env.guidSizeBits destinationGUID).getD []) st.world).1]
          world :=
            (env.Lookup ((GUID.Bytes env.guidSizeBits destinationGUID).getD []) st.world).2 }) := by
  unfold lookupTarget
  rw [GUID.Bytes_eq]
  rfl

theorem queryNodes_cons_error (env : Environment W O) (node : OverlayNode)
    (rest : List OverlayNode) (st : State W O) (e : String)
    (h : (env.GetOffers node.IP (GUID.NewGUIDBytes node.GUID).String true "" st.world).1 =
      Except.error e) :
    queryNodes env (node :: rest) st =
      queryNodes env rest
        { trace := st.trace ++ [getOffersExchange node (Except.error e)]
          world :=
            (env.GetOffers node.IP (GUID.NewGUIDBytes node.GUID).String true "" st.world).2 } := by
  simp only [queryNodes, h]

theorem queryNodes_cons_empty (env : Environment W O) (node : OverlayNode)
    (rest : List OverlayNode) (st : State W O)
    (h : (env.GetOffers node.IP (GUID.NewGUIDBytes node.GUID).String true "" st.world).1 =
      Except.ok []) :
    queryNodes env (node :: rest) st =
      queryNodes env rest
        { trace := st.trace ++ [getOffersExchange node (Except.ok [])]
          world :=
            (env.GetOffers node.IP (GUID.NewGUIDBytes node.GUID).String true "" st.world).2 } := by
  simp [queryNodes, h]

theorem queryNodes_cons_offers (env : Environment W O) (node : OverlayNode)
    (rest : List OverlayNode) (st : State W O) (offers : List O) (hne : offers ≠ [])
    (h : (env.GetOffers node.IP (GUID.NewGUIDBytes node.GUID).String true "" st.world).1 =
      Except.ok offers) :
    queryNodes env (node :: rest) st =
      (some offers,
        { trace := st.trace ++ [getOffersExchange node (Except.ok offers)]
          world :=
            (env.GetOffers node.IP (GUID.NewGUIDBytes node.GUID).String true "" st.world).2 }) := by
  have hlen : offers.length ≠ 0 := by
    intro h0
    exact hne (List.length_eq_zero.mp h0)
  simp [queryNodes, h, hlen]

/-- When a node gives offers, the loop over the nodes ends right after its answer. -/
theorem queryNodes_found (env : Environment W O) (nodes : List OverlayNode) :
    ∀ (st final : State W O) (offers : List O),
      queryNodes env nodes st = (some offers, final) →
      offers ≠ [] ∧ ∃ before node, node ∈ nodes ∧
        final.trace = before ++ [getOffersExchange node (Except.ok offers)] := by
  induction nodes with
  | nil =>
    intro st final offers h
    simp [queryNodes] at h
  | cons node rest ih =>
    intro st final offers h
    cases hans : (env.GetOffers node.IP (GUID.NewGUIDBytes node.GUID).String true ""
        st.world).1 with
    | error e =>
      rw [queryNodes_cons_error env node rest st e hans] at h
      obtain ⟨h1, before, n, hn, h2⟩ := ih _ _ offers h
      exact ⟨h1, before, n, List.mem_cons_of_mem _ hn, h2⟩
    | ok found =>
      cases found with
      | nil =>
        rw [queryNodes_cons_empty env node rest st hans] at h
        obtain ⟨h1, before, n, hn, h2⟩ := ih _ _ offers h
        exact ⟨h1, before, n, List.mem_cons_of_mem _ hn, h2⟩
      | cons o os =>
        rw [queryNodes_cons_offers env node rest st (o :: os) (by simp) hans] at h
        simp only [Prod.mk.injEq, Option.some.injEq] at h
        rw [← h.1, ← h.2]
        exact ⟨by simp, st.trace, node, List.mem_cons_self _ _, rfl⟩

/-- A pass of `FindOffers` whose lookup gave `nodes` and in which a node gave offers. -/
theorem findFrom_offers (env : Environment W O) (targetResources : Resources) (fuel : Nat)
    (destinationGUID : GUID) (st st1 st2 : State W O) (nodes : List OverlayNode)
    (offers : List O) (hl : lookupTarget env destinationGUID st = some (nodes, st1))
    (hq : queryNodes env nodes st1 = (some offers, st2)) :
    findFrom env targetResources (fuel + 1) destinationGUID st = some (offers, st2) := by
  simp only [findFrom, hl, hq]

/-- A pass of `FindOffers` in which no node gave offers and no higher partition is left. -/
theorem findFrom_exhausted (env : Environment W O) (targetResources : Resources) (fuel : Nat)
    (destinationGUID : GUID) (st st1 st2 : State W O) (nodes : List OverlayNode)
    (hl : lookupTarget env destinationGUID st = some (nodes, st1))
    (hq : queryNodes env nodes st1 = (none, st2))
    (hs : (env.HigherRandGUID destinationGUID targetResources st2.world).1 = none) :
    findFrom env targetResources (fuel + 1) destinationGUID st =
      some ([],
        { trace := st2.trace ++ [Exchange.HigherRandGUID destinationGUID targetResources none]
          world := (env.HigherRandGUID destinationGUID targetResources st2.world).2 }) := by
  simp only [findFrom, hl, hq, hs]

/-- A pass of `FindOffers` in which no node gave offers and a higher partition is left. -/
theorem findFrom_higher (env : Environment W O) (targetResources : Resources) (fuel : Nat)
    (destinationGUID higher : GUID) (st st1 st2 : State W O) (nodes : List OverlayNode)
    (hl : lookupTarget env destinationGUID st = some (nodes, st1))
    (hq : queryNodes env nodes st1 = (none, st2))
    (hs : (env.HigherRandGUID destinationGUID targetResources st2.world).1 = some higher) :
    findFrom env targetResources (fuel + 1) destinationGUID st =
      findFrom env targetResources fuel higher
        { trace := st2.trace ++
            [Exchange.HigherRandGUID destinationGUID targetResources (some higher)]
          world := (env.HigherRandGUID destinationGUID targetResources st2.world).2 } := by
  simp only [findFrom, hl, hq, hs]

/-- The two ways out of the loop of `FindOffers`: offers right after the answer that
brought them, or no offer right after `HigherRandGUID` failed. -/
theorem findFrom_exit (env : Environment W O) (targetResources : Resources) (fuel : Nat) :
    ∀ (destinationGUID : GUID) (st final : State W O) (offers : List O),
      findFrom env targetResources fuel destinationGUID st = some (offers, final) →
      (offers ≠ [] ∧ ∃ before node,
        final.trace = before ++ [getOffersExchange node (Except.ok offers)]) ∨
      (offers = [] ∧ ∃ before guid,
        final.trace = before ++ [Exchange.HigherRandGUID guid targetResources none]) := by
  induction fuel with
  | zero =>
    intro destinationGUID st final offers h
    simp [findFrom] at h
  | succ fuel ih =>
    intro destinationGUID st final offers h
    have hl := lookupTarget_eq env destinationGUID st
    cases hq : queryNodes env (removeNonTargetNodes env
        (env.Lookup ((GUID.Bytes env.guidSizeBits destinationGUID).getD []) st.world).1
        destinationGUID)
      { trace := st.trace ++
          [Exchange.Lookup ((GUID.Bytes env.guidSizeBits destinationGUID).getD [])
            (env.Lookup ((GUID.Bytes env.guidSizeBits destinationGUID).getD []) st.world).1]
        world :=
          (env.Lookup ((GUID.Bytes env.guidSizeBits destinationGUID).getD []) st.world).2 } with
    | mk r st2 =>
      cases r with
      | some found =>
        rw [findFrom_offers env targetResources fuel destinationGUID st _ st2 _ found hl hq] at h
        simp only [Option.some.injEq, Prod.mk.injEq] at h
        obtain ⟨h1, before, node, _, h2⟩ := queryNodes_found env _ _ _ found hq
        rw [← h.1, ← h.2]
        exact Or.inl ⟨h1, before, node, h2⟩
      | none =>
        cases hs : (env.HigherRandGUID destinationGUID targetResources st2.world).1 with
        | none =>
          rw [findFrom_exhausted env targetResources fuel destinationGUID st _ st2 _ hl hq hs]
            at h
          simp only [Option.some.injEq, Prod.mk.injEq] at h
          rw [← h.1, ← h.2]
          exact Or.inr ⟨rfl, st2.trace, destinationGUID, rfl⟩
        | some higher =>
          rw [findFrom_higher env targetResources fuel destinationGUID higher st _ st2 _
            hl hq hs] at h
          exact ih _ _ _ _ h

/-- The loop of `FindOffers` returns, and returns the same whatever fuel is left over,
when every successful step to a higher partition lowers a rank. -/
theorem findFrom_terminates (env : Environment W O) (targetResources : Resources)
    (rank : GUID → Nat)
    (hrank : ∀ guid w higher, (env.HigherRandGUID guid targetResources w).1 = some higher →
      rank higher < rank guid) (n : Nat) :
    ∀ (destinationGUID : GUID) (st : State W O), rank destinationGUID ≤ n →
      ∃ result, ∀ fuel, n < fuel →
        findFrom env targetResources fuel destinationGUID st = some result := by
  induction n with
  | zero =>
    intro destinationGUID st hle
    have hl := lookupTarget_eq env destinationGUID st
    cases hq : queryNodes env (removeNonTargetNodes env
        (env.Lookup ((GUID.Bytes env.guidSizeBits destinationGUID).getD []) st.world).1
        destinationGUID)
      { trace := st.trace ++
          [Exchange.Lookup ((GUID.Bytes env.guidSizeBits destinationGUID).getD [])
            (env.Lookup ((GUID.Bytes env.guidSizeBits destinationGUID).getD []) st.world).1]
        world :=
          (env.Lookup ((GUID.Bytes env.guidSizeBits destinationGUID).getD []) st.world).2 } with
    | mk r st2 =>
      cases r with
      | some found =>
        refine ⟨(found, st2), fun fuel hfuel => ?_⟩
        obtain ⟨f, rfl⟩ : ∃ f, fuel = f + 1 := ⟨fuel - 1, by omega⟩
        exact findFrom_offers env targetResources f destinationGUID st _ st2 _ found hl hq
      | none =>
        cases hs : (env.HigherRandGUID destinationGUID targetResources st2.world).1 with
        | none =>
          refine ⟨([],
            { trace := st2.trace ++
                [Exchange.HigherRandGUID destinationGUID targetResources none]
              world := (env.HigherRandGUID destinationGUID targetResources st2.world).2 }),
            fun fuel hfuel => ?_⟩
          obtain ⟨f, rfl⟩ : ∃ f, fuel = f + 1 := ⟨fuel - 1, by omega⟩
          exact findFrom_exhausted env targetResources f destinationGUID st _ st2 _ hl hq hs
        | some higher =>
          have := hrank destinationGUID st2.world higher hs
          omega
  | succ n ih =>
    intro destinationGUID st hle
    have hl := lookupTarget_eq env destinationGUID st
    cases hq : queryNodes env (removeNonTargetNodes env
        (env.Lookup ((GUID.Bytes env.guidSizeBits destinationGUID).getD []) st.world).1
        destinationGUID)
      { trace := st.trace ++
          [Exchange.Lookup ((GUID.Bytes env.guidSizeBits destinationGUID).getD [])
            (env.Lookup ((GUID.Bytes env.guidSizeBits destinationGUID).getD []) st.world).1]
        world :=
          (env.Lookup ((GUID.Bytes env.guidSizeBits destinationGUID).getD []) st.world).2 } with
    | mk r st2 =>
      cases r with
      | some found =>
        refine ⟨(found, st2), fun fuel hfuel => ?_⟩
        obtain ⟨f, rfl⟩ : ∃ f, fuel = f + 1 := ⟨fuel - 1, by omega⟩
        exact findFrom_offers env targetResources f destinationGUID st _ st2 _ found hl hq
      | none =>
        cases hs : (env.HigherRandGUID destinationGUID targetResources st2.world).1 with
        | none =>
          refine ⟨([],
            { trace := st2.trace ++
                [Exchange.HigherRandGUID destinationGUID targetResources none]
              world := (env.HigherRandGUID destinationGUID targetResources st2.world).2 }),
            fun fuel hfuel => ?_⟩
          obtain ⟨f, rfl⟩ : ∃ f, fuel = f + 1 := ⟨fuel - 1, by omega⟩
          exact findFrom_exhausted env targetResources f destinationGUID st _ st2 _ hl hq hs
        | some higher =>
          have hlt := hrank destinationGUID st2.world higher hs
          obtain ⟨result, hres⟩ := ih higher
            { trace := st2.trace ++
                [Exchange.HigherRandGUID destinationGUID targetResources (some higher)]
              world := (env.HigherRandGUID destinationGUID targetResources st2.world).2 }
            (by omega)
          refine ⟨result, fun fuel hfuel => ?_⟩
          obtain ⟨f, rfl⟩ : ∃ f, fuel = f + 1 := ⟨fuel - 1, by omega⟩
          rw [findFrom_higher env targetResources f destinationGUID higher st _ st2 _ hl hq hs]
          exact hres f (by omega)

theorem sampleRank_decreases (targetResources : Resources) :
    ∀ (guid : GUID) (w : Unit) (higher : GUID),
      (sampleEnvironment.HigherRandGUID guid targetResources w).1 = some higher →
      sampleRank higher < sampleRank guid := by
  intro guid w higher h
  simp only [sampleEnvironment] at h
  by_cases h1 : guid.id < 100
  · simp only [h1, if_true, Option.some.injEq] at h
    rw [← h]
    simp [sampleRank, h1]
  · by_cases h2 : guid.id < 200
    · simp only [h1, h2, if_true, if_false, Option.some.injEq] at h
      rw [← h]
      simp [sampleRank, h1, h2]
    · simp [h1, h2] at h

/-! ### The walk of FindOffers -/

theorem foldl_keep (p : OverlayNode → Bool) (nodes : List OverlayNode) :
    ∀ kept : List OverlayNode,
      nodes.foldl (fun resultNodes remoteNode =>
        if p remoteNode then resultNodes ++ [remoteNode] else resultNodes) kept =
      kept ++ nodes.filter p := by
  induction nodes with
  | nil => intro kept; simp
  | cons node rest ih =>
    intro kept
    rw [List.foldl_cons, ih]
    by_cases h : p node <;> simp [h]

/-- The nodes `removeNonTargetNodes` keeps: those whose GUID is in the partition of the
target GUID, in their order. -/
theorem removeNonTargetNodes_eq_filter (env : Environment W O) (remoteNodes : List OverlayNode)
    (targetGuid : GUID) :
    removeNonTargetNodes env remoteNodes targetGuid =
      remoteNodes.filter (fun node =>
        (env.ResourcesByGUID targetGuid).Equals
          (env.ResourcesByGUID (GUID.NewGUIDBytes node.GUID))) := by
  unfold removeNonTargetNodes
  simp only
  rw [foldl_keep]
  rfl

theorem mem_removeNonTargetNodes (env : Environment W O) (remoteNodes : List OverlayNode)
    (targetGuid : GUID) (node : OverlayNode)
    (h : node ∈ removeNonTargetNodes env remoteNodes targetGuid) :
    node ∈ remoteNodes ∧
      env.ResourcesByGUID (GUID.NewGUIDBytes node.GUID) = env.ResourcesByGUID targetGuid := by
  rw [removeNonTargetNodes_eq_filter, List.mem_filter] at h
  refine ⟨h.1, ?_⟩
  have h2 := h.2
  simp only [Resources.Equals, decide_eq_true_eq] at h2
  exact h2.symm

/-- When no node gives offers, every node was asked and every answer skipped. -/
theorem queryNodes_trace_none (env : Environment W O) (nodes : List OverlayNode) :
    ∀ (st final : State W O), queryNodes env nodes st = (none, final) →
      ∃ answers : List (Except String (List O)), answers.length = nodes.length ∧
        (∀ answer ∈ answers, Skipped answer) ∧
        final.trace = st.trace ++ List.zipWith getOffersExchange nodes answers := by
  induction nodes with
  | nil =>
    intro st final h
    simp only [queryNodes, Prod.mk.injEq, true_and] at h
    exact ⟨[], rfl, by simp, by rw [← h]; simp⟩
  | cons node rest ih =>
    intro st final h
    cases hans : (env.GetOffers node.IP (GUID.NewGUIDBytes node.GUID).String true ""
        st.world).1 with
    | error e =>
      rw [queryNodes_cons_error env node rest st e hans] at h
      obtain ⟨answers, h1, h2, h3⟩ := ih _ _ h
      refine ⟨Except.error e :: answers, by simp [h1], ?_, by rw [h3]; simp⟩
      intro a ha
      rcases List.mem_cons.mp ha with h4 | h4
      · rw [h4]
        trivial
      · exact h2 a h4
    | ok found =>
      cases found with
      | nil =>
        rw [queryNodes_cons_empty env node rest st hans] at h
        obtain ⟨answers, h1, h2, h3⟩ := ih _ _ h
        refine ⟨Except.ok [] :: answers, by simp [h1], ?_, by rw [h3]; simp⟩
        intro a ha
        rcases List.mem_cons.mp ha with h4 | h4
        · rw [h4]
          rfl
        · exact h2 a h4
      | cons o os =>
        rw [queryNodes_cons_offers env node rest st (o :: os) (by simp) hans] at h
        simp at h

/-- When a node gives offers, the nodes before it were asked in order and their answers
skipped, and the nodes after it were not asked. -/
theorem queryNodes_trace_found (env : Environment W O) (nodes : List OverlayNode) :
    ∀ (st final : State W O) (offers : List O),
      queryNodes env nodes st = (some offers, final) →
      ∃ skippedAnswers : List (Except String (List O)),
        skippedAnswers.length < nodes.length ∧
        (∀ answer ∈ skippedAnswers, Skipped answer) ∧
        final.trace = st.trace ++
          List.zipWith getOffersExchange nodes (skippedAnswers ++ [Except.ok offers]) := by
  induction nodes with
  | nil =>
    intro st final offers h
    simp [queryNodes] at h
  | cons node rest ih =>
    intro st final offers h
    cases hans : (env.GetOffers node.IP (GUID.NewGUIDBytes node.GUID).String true ""
        st.world).1 with
    | error e =>
      rw [queryNodes_cons_error env node rest st e hans] at h
      obtain ⟨sk, h1, h2, h3⟩ := ih _ _ offers h
      refine ⟨Except.error e :: sk, by simp [h1], ?_, by rw [h3]; simp⟩
      intro a ha
      rcases List.mem_cons.mp ha with h4 | h4
      · rw [h4]
        trivial
      · exact h2 a h4
    | ok found =>
      cases found with
      | nil =>
        rw [queryNodes_cons_empty env node rest st hans] at h
        obtain ⟨sk, h1, h2, h3⟩ := ih _ _ offers h
        refine ⟨Except.ok [] :: sk, by simp [h1], ?_, by rw [h3]; simp⟩
        intro a ha
        rcases List.mem_cons.mp ha with h4 | h4
        · rw [h4]
          rfl
        · exact h2 a h4
      | cons o os =>
        rw [queryNodes_cons_offers env node rest st (o :: os) (by simp) hans] at h
        simp only [Prod.mk.injEq, Option.some.injEq] at h
        refine ⟨[], by simp, by simp, ?_⟩
        rw [← h.2, ← h.1]
        simp

/-- The exchanges of the loop of `FindOffers` from a pass on: fruitless passes joined
by `HigherRandGUID` steps, and a last pass that ends with the answer that brought the
offers, or that is fruitless too and followed by the failure of `HigherRandGUID`. -/
theorem findFrom_walk (env : Environment W O) (targetResources : Resources) (fuel : Nat) :
    ∀ (destinationGUID : GUID) (st final : State W O) (offers : List O),
      findFrom env targetResources fuel destinationGUID st = some (offers, final) →
      ∃ (passes : List (Pass O)) (last : Pass O),
        firstDestination passes last = destinationGUID ∧
        (∀ pass ∈ passes, pass.Fruitless env) ∧
        ((offers ≠ [] ∧
            final.trace = st.trace ++ walkExchanges env targetResources passes last ∧
            ∃ skippedAnswers : List (Except String (List O)),
              last.answers = skippedAnswers ++ [Except.ok offers] ∧
              (∀ answer ∈ skippedAnswers, Skipped answer) ∧
              skippedAnswers.length <
                (removeNonTargetNodes env last.found last.destinationGUID).length) ∨
          (offers = [] ∧ last.Fruitless env ∧
            final.trace = st.trace ++ walkExchanges env targetResources passes last ++
              [Exchange.HigherRandGUID last.destinationGUID targetResources none])) := by
  induction fuel with
  | zero =>
    intro destinationGUID st final offers h
    simp [findFrom] at h
  | succ fuel ih =>
    intro destinationGUID st final offers h
    have hl := lookupTarget_eq env destinationGUID st
    cases hq : queryNodes env (removeNonTargetNodes env
        (env.Lookup ((GUID.Bytes env.guidSizeBits destinationGUID).getD []) st.world).1
        destinationGUID)
      { trace := st.trace ++
          [Exchange.Lookup ((GUID.Bytes env.guidSizeBits destinationGUID).getD [])
            (env.Lookup ((GUID.Bytes env.guidSizeBits destinationGUID).getD []) st.world).1]
        world :=
          (env.Lookup ((GUID.Bytes env.guidSizeBits destinationGUID).getD []) st.world).2 } with
    | mk r st2 =>
      cases r with
      | some found =>
        rw [findFrom_offers env targetResources fuel destinationGUID st _ st2 _ found hl hq] at h
        simp only [Option.some.injEq, Prod.mk.injEq] at h
        obtain ⟨hne, _⟩ := queryNodes_found env _ _ _ found hq
        obtain ⟨sk, h1, h2, h3⟩ := queryNodes_trace_found env _ _ _ found hq
        refine ⟨[], { destinationGUID := destinationGUID
                      found := (env.Lookup
                        ((GUID.Bytes env.guidSizeBits destinationGUID).getD []) st.world).1
                      answers := sk ++ [Except.ok found] }, rfl, by simp, Or.inl ⟨?_, ?_, ?_⟩⟩
        · rw [← h.1]
          exact hne
        · rw [← h.2, h3]
          simp [walkExchanges, Pass.exchanges]
        · rw [← h.1]
          exact ⟨sk, rfl, h2, h1⟩
      | none =>
        obtain ⟨answers, h1, h2, h3⟩ := queryNodes_trace_none env _ _ _ hq
        cases hs : (env.HigherRandGUID destinationGUID targetResources st2.world).1 with
        | none =>
          rw [findFrom_exhausted env targetResources fuel destinationGUID st _ st2 _ hl hq hs]
            at h
          simp only [Option.some.injEq, Prod.mk.injEq] at h
          refine ⟨[], { destinationGUID := destinationGUID
                        found := (env.Lookup
                          ((GUID.Bytes env.guidSizeBits destinationGUID).getD []) st.world).1
                        answers := answers }, rfl, by simp, Or.inr ⟨h.1.symm, ⟨h1, h2⟩, ?_⟩⟩
          rw [← h.2, h3]
          simp [walkExchanges, Pass.exchanges]
        | some higher =>
          rw [findFrom_higher env targetResources fuel destinationGUID higher st _ st2 _
            hl hq hs] at h
          obtain ⟨passes, last, hfirst, hfruit, hcases⟩ := ih _ _ _ _ h
          refine ⟨{ destinationGUID := destinationGUID
                    found := (env.Lookup
                      ((GUID.Bytes env.guidSizeBits destinationGUID).getD []) st.world).1
                    answers := answers } :: passes, last, rfl, ?_, ?_⟩
          · intro pass hmem
            rcases List.mem_cons.mp hmem with h4 | h4
            · rw [h4]
              exact ⟨h1, h2⟩
            · exact hfruit pass h4
          · rcases hcases with ⟨hne, htrace, hlast⟩ | ⟨hnil, hlastf, htrace⟩
            · refine Or.inl ⟨hne, ?_, hlast⟩
              rw [htrace, h3]
              simp [walkExchanges, Pass.exchanges, hfirst]
            · refine Or.inr ⟨hnil, hlastf, ?_⟩
              rw [htrace, h3]
              simp [walkExchanges, Pass.exchanges, hfirst]

/-- C15: when every successful `HigherRandGUID` step lowers a rank, so that it fails
after finitely many successive steps, `FindOffers` returns, with any fuel above the rank
of the GUID it starts from, and it returns as soon as a node answers with offers or
`HigherRandGUID` fails: what it exchanged is the draw of the random GUID and then a walk
of passes, in which every pass before the last asked every node of its partition and
got only errors and empty lists, and was followed by a `HigherRandGUID` that succeeded;
the last pass either ends with the first answer that is a non-empty list, the result,
the answers before it in that pass being errors and empty lists and no node being asked
after it, or is as fruitless as the others and is followed by the `HigherRandGUID` that
reported no higher partition, the last exchange, with the empty list as result.  So the
empty list is returned exactly in the latter case. -/
theorem FindOffers_terminates (env : Environment W O) (targetResources : Resources)
    (st : State W O) (rank : GUID → Nat)
    (hrank : ∀ guid w higher, (env.HigherRandGUID guid targetResources w).1 = some higher →
      rank higher < rank guid) :
    ∃ offers final,
      (∀ fuel, rank (env.RandGUID targetResources st.world).1 < fuel →
        FindOffers env fuel targetResources st = some (offers, final)) ∧
      (∃ (passes : List (Pass O)) (last : Pass O),
        firstDestination passes last = (env.RandGUID targetResources st.world).1 ∧
        (∀ pass ∈ passes, pass.Fruitless env) ∧
        ((offers ≠ [] ∧
            final.trace = st.trace ++
              Exchange.RandGUID targetResources (firstDestination passes last) ::
                walkExchanges env targetResources passes last ∧
            ∃ skippedAnswers : List (Except String (List O)),
              last.answers = skippedAnswers ++ [Except.ok offers] ∧
              (∀ answer ∈ skippedAnswers, Skipped answer) ∧
              skippedAnswers.length <
                (removeNonTargetNodes env last.found last.destinationGUID).length) ∨
          (offers = [] ∧ last.Fruitless env ∧
            final.trace = st.trace ++
              Exchange.RandGUID targetResources (firstDestination passes last) ::
                (walkExchanges env targetResources passes last ++
                  [Exchange.HigherRandGUID last.destinationGUID targetResources none])))) ∧
      ((offers ≠ [] ∧ ∃ before node,
          final.trace = before ++ [getOffersExchange node (Except.ok offers)]) ∨
        (offers = [] ∧ ∃ before guid,
          final.trace = before ++ [Exchange.HigherRandGUID guid targetResources none])) ∧
      (offers = [] ↔ ∃ before guid,
        final.trace = before ++ [Exchange.HigherRandGUID guid targetResources none]) := by
  obtain ⟨⟨offers, final⟩, hres⟩ := findFrom_terminates env targetResources rank hrank
    (rank (env.RandGUID targetResources st.world).1)
    (env.RandGUID targetResources st.world).1
    { trace := st.trace ++
        [Exchange.RandGUID targetResources (env.RandGUID targetResources st.world).1]
      world := (env.RandGUID targetResources st.world).2 } (le_refl _)
  have hrun := hres (rank (env.RandGUID targetResources st.world).1 + 1) (by omega)
  have hexit := findFrom_exit env targetResources _ _ _ final offers hrun
  obtain ⟨passes, last, hfirst, hfruit, hcases⟩ :=
    findFrom_walk env targetResources _ _ _ _ _ hrun
  refine ⟨offers, final, fun fuel hfuel => hres fuel hfuel,
    ⟨passes, last, hfirst, hfruit, ?_⟩, hexit, ?_⟩
  · rcases hcases with ⟨hne, htrace, hlast⟩ | ⟨hnil, hlastf, htrace⟩
    · refine Or.inl ⟨hne, ?_, hlast⟩
      rw [htrace, hfirst]
      simp
    · refine Or.inr ⟨hnil, hlastf, ?_⟩
      rw [htrace, hfirst]
      simp
  · constructor
    · intro hnil
      rcases hexit with ⟨hne, _⟩ | ⟨_, h⟩
      · exact absurd hnil hne
      · exact h
    · intro ⟨before, guid, htrace⟩
      rcases hexit with ⟨_, before2, node, h⟩ | ⟨hnil, _⟩
      · rw [h] at htrace
        have := (List.append_inj' htrace rfl).2
        simp [getOffersExchange] at this
      · exact hnil

/-- C15 on the sample system: a search for (1, 1024) walks up the three partitions and
returns, with fuel 3 or more, the offer that the node of the third partition holds. -/
theorem FindOffers_terminates_witness :
    (∀ guid w higher,
      (sampleEnvironment.HigherRandGUID guid { cpus := 1, ram := 1024 } w).1 = some higher →
      sampleRank higher < sampleRank guid) ∧
    FindOffers sampleEnvironment 3 { cpus := 1, ram := 1024 } sampleStrategyState =
      some ([sampleHeldOffer], sampleFound) ∧
    ∃ offers final,
      (∀ fuel, sampleRank (sampleEnvironment.RandGUID { cpus := 1, ram := 1024 }
          sampleStrategyState.world).1 < fuel →
        FindOffers sampleEnvironment fuel { cpus := 1, ram := 1024 } sampleStrategyState =
          some (offers, final)) ∧
      (∃ (passes : List (Pass AvailableOffer)) (last : Pass AvailableOffer),
        firstDestination passes last =
          (sampleEnvironment.RandGUID { cpus := 1, ram := 1024 } sampleStrategyState.world).1 ∧
        (∀ pass ∈ passes, pass.Fruitless sampleEnvironment) ∧
        ((offers ≠ [] ∧
            final.trace = sampleStrategyState.trace ++
              Exchange.RandGUID { cpus := 1, ram := 1024 } (firstDestination passes last) ::
                walkExchanges sampleEnvironment { cpus := 1, ram := 1024 } passes last ∧
            ∃ skippedAnswers : List (Except String (List AvailableOffer)),
              last.answers = skippedAnswers ++ [Except.ok offers] ∧
              (∀ answer ∈ skippedAnswers, Skipped answer) ∧
              skippedAnswers.length <
                (removeNonTargetNodes sampleEnvironment last.found
                  last.destinationGUID).length) ∨
          (offers = [] ∧ last.Fruitless sampleEnvironment ∧
            final.trace = sampleStrategyState.trace ++
              Exchange.RandGUID { cpus := 1, ram := 1024 } (firstDestination passes last) ::
                (walkExchanges sampleEnvironment { cpus := 1, ram := 1024 } passes last ++
                  [Exchange.HigherRandGUID last.destinationGUID
                    { cpus := 1, ram := 1024 } none])))) ∧
      ((offers ≠ [] ∧ ∃ before node,
          final.trace = before ++ [getOffersExchange node (Except.ok offers)]) ∨
        (offers = [] ∧ ∃ before guid,
          final.trace = before ++
            [Exchange.HigherRandGUID guid { cpus := 1, ram := 1024 } none])) ∧
      (offers = [] ↔ ∃ before guid,
        final.trace = before ++
          [Exchange.HigherRandGUID guid { cpus := 1, ram := 1024 } none]) :=
  ⟨sampleRank_decreases { cpus := 1, ram := 1024 }, rfl,
    FindOffers_terminates sampleEnvironment { cpus := 1, ram := 1024 } sampleStrategyState
      sampleRank (sampleRank_decreases { cpus := 1, ram := 1024 })⟩

/-- C16: a non-empty result of `FindOffers` is exactly the list one `GetOffers` call
answered with, the last exchange of the walk.  The walk starts at the random GUID and
goes from pass to pass by `HigherRandGUID`; in each pass only nodes that the lookup
returned and whose GUID is in the partition of the looked-up GUID are asked, in lookup
order; in every pass before the last all of them were asked and each answered with an
error or an empty list, and in the last pass the nodes asked before the one that
brought the offers answered so too. -/
theorem FindOffers_result (env : Environment W O) (fuel : Nat) (targetResources : Resources)
    (st final : State W O) (offers : List O)
    (h : FindOffers env fuel targetResources st = some (offers, final))
    (hne : offers ≠ []) :
    ∃ (passes : List (Pass O)) (last : Pass O)
      (skippedAnswers : List (Except String (List O))),
      final.trace = st.trace ++
        Exchange.RandGUID targetResources (firstDestination passes last) ::
          walkExchanges env targetResources passes last ∧
      firstDestination passes last = (env.RandGUID targetResources st.world).1 ∧
      (∀ pass ∈ passes, pass.Fruitless env) ∧
      last.answers = skippedAnswers ++ [Except.ok offers] ∧
      (∀ answer ∈ skippedAnswers, Skipped answer) ∧
      skippedAnswers.length <
        (removeNonTargetNodes env last.found last.destinationGUID).length ∧
      ∀ pass ∈ passes ++ [last],
        ∀ node ∈ removeNonTargetNodes env pass.found pass.destinationGUID,
          node ∈ pass.found ∧
            env.ResourcesByGUID (GUID.NewGUIDBytes node.GUID) =
              env.ResourcesByGUID pass.destinationGUID := by
  unfold FindOffers at h
  obtain ⟨passes, last, hfirst, hfruit, hcases⟩ := findFrom_walk env targetResources fuel _ _ _ _ h
  rcases hcases with ⟨_, htrace, sk, hlast, hsk, hlen⟩ | ⟨hnil, _, _⟩
  · refine ⟨passes, last, sk, ?_, hfirst, hfruit, hlast, hsk, hlen, ?_⟩
    · rw [htrace, hfirst]
      simp
    · intro pass _ node hnode
      exact mem_removeNonTargetNodes env pass.found pass.destinationGUID node hnode
  · exact absurd hnil hne

theorem FindOffers_sample :
    FindOffers sampleEnvironment 3 { cpus := 1, ram := 1024 } sampleStrategyState =
      some ([sampleHeldOffer], sampleFound) := by
  rfl

/-- C16 on the sample system: the demand (1, 1024) finds only the (4, 4096) offer, two
`HigherRandGUID` steps up, and the result is the answer of node `10.0.0.4`. -/
theorem FindOffers_result_witness :
    FindOffers sampleEnvironment 3 { cpus := 1, ram := 1024 } sampleStrategyState =
      some ([sampleHeldOffer], sampleFound) ∧
    [sampleHeldOffer] ≠ [] ∧
    ∃ (passes : List (Pass AvailableOffer)) (last : Pass AvailableOffer)
      (skippedAnswers : List (Except String (List AvailableOffer))),
      sampleFound.trace = sampleStrategyState.trace ++
        Exchange.RandGUID { cpus := 1, ram := 1024 } (firstDestination passes last) ::
          walkExchanges sampleEnvironment { cpus := 1, ram := 1024 } passes last ∧
      firstDestination passes last =
        (sampleEnvironment.RandGUID { cpus := 1, ram := 1024 } sampleStrategyState.world).1 ∧
      (∀ pass ∈ passes, pass.Fruitless sampleEnvironment) ∧
      last.answers = skippedAnswers ++ [Except.ok [sampleHeldOffer]] ∧
      (∀ answer ∈ skippedAnswers, Skipped answer) ∧
      skippedAnswers.length <
        (removeNonTargetNodes sampleEnvironment last.found last.destinationGUID).length ∧
      ∀ pass ∈ passes ++ [last],
        ∀ node ∈ removeNonTargetNodes sampleEnvironment pass.found pass.destinationGUID,
          node ∈ pass.found ∧
            sampleEnvironment.ResourcesByGUID (GUID.NewGUIDBytes node.GUID) =
              sampleEnvironment.ResourcesByGUID pass.destinationGUID :=
  ⟨FindOffers_sample, by simp,
    FindOffers_result sampleEnvironment 3 { cpus := 1, ram := 1024 } sampleStrategyState
      sampleFound [sampleHeldOffer] FindOffers_sample (by simp)⟩

/-! ### The search of AdvertiseOffer -/

theorem lowerLoop_found (env : Environment W O) (availableResources : Resources) (fuel : Nat)
    (destinationGUID : GUID) (overlayNodes : List OverlayNode) (st : State W O)
    (hne : overlayNodes ≠ []) :
    lowerLoop env availableResources (fuel + 1) destinationGUID overlayNodes st =
      some (some overlayNodes, st) := by
  have hlen : overlayNodes.length ≠ 0 := fun h0 => hne (List.length_eq_zero.mp h0)
  simp [lowerLoop, hlen]

theorem lowerLoop_failed (env : Environment W O) (availableResources : Resources) (fuel : Nat)
    (destinationGUID : GUID) (st : State W O)
    (hs : (env.LowerRandGUID destinationGUID availableResources st.world).1 = none) :
    lowerLoop env availableResources (fuel + 1) destinationGUID [] st =
      some (none,
        { trace := st.trace ++
            [Exchange.LowerRandGUID destinationGUID availableResources none]
          world := (env.LowerRandGUID destinationGUID availableResources st.world).2 }) := by
  simp [lowerLoop, hs]

theorem lowerLoop_lower (env : Environment W O) (availableResources : Resources) (fuel : Nat)
    (destinationGUID lower : GUID) (st st2 : State W O) (nodes : List OverlayNode)
    (hs : (env.LowerRandGUID destinationGUID availableResources st.world).1 = some lower)
    (hl : lookupTarget env lower
      { trace := st.trace ++
          [Exchange.LowerRandGUID destinationGUID availableResources (some lower)]
        world := (env.LowerRandGUID destinationGUID availableResources st.world).2 } =
      some (nodes, st2)) :
    lowerLoop env availableResources (fuel + 1) destinationGUID [] st =
      lowerLoop env availableResources fuel lower nodes st2 := by
  simp [lowerLoop, hs, hl]

/-- The exchanges of the steps to lower partitions: probes with no node of their
partition, and then either a probe with such nodes, which are the answer, or the
failure of `LowerRandGUID`. -/
theorem lowerLoop_trace (env : Environment W O) (availableResources : Resources) (fuel : Nat) :
    ∀ (destinationGUID : GUID) (st final : State W O) (r : Option (List OverlayNode)),
      lowerLoop env availableResources fuel destinationGUID [] st = some (r, final) →
      ∃ empties : List Probe, (∀ probe ∈ empties, probe.nodes env = []) ∧
        ((∃ hit : Probe, hit.nodes env ≠ [] ∧ r = some (hit.nodes env) ∧
            final.trace = st.trace ++
              lowerExchanges env availableResources destinationGUID (empties ++ [hit])) ∨
          (r = none ∧
            final.trace = st.trace ++
              lowerExchanges env availableResources destinationGUID empties ++
              [Exchange.LowerRandGUID (lastDestination destinationGUID empties)
                availableResources none])) := by
  induction fuel with
  | zero =>
    intro destinationGUID st final r h
    simp [lowerLoop] at h
  | succ fuel ih =>
    intro destinationGUID st final r h
    cases hs : (env.LowerRandGUID destinationGUID availableResources st.world).1 with
    | none =>
      rw [lowerLoop_failed env availableResources fuel destinationGUID st hs] at h
      simp only [Option.some.injEq, Prod.mk.injEq] at h
      refine ⟨[], by simp, Or.inr ⟨h.1.symm, ?_⟩⟩
      rw [← h.2]
      simp [lowerExchanges, lastDestination]
    | some lower =>
      have hl := lookupTarget_eq env lower
        { trace := st.trace ++
            [Exchange.LowerRandGUID destinationGUID availableResources (some lower)]
          world := (env.LowerRandGUID destinationGUID availableResources st.world).2 }
      rw [lowerLoop_lower env availableResources fuel destinationGUID lower st _ _ hs hl] at h
      by_cases hnodes : removeNonTargetNodes env
          (env.Lookup ((GUID.Bytes env.guidSizeBits lower).getD [])
            (env.LowerRandGUID destinationGUID availableResources st.world).2).1 lower = []
      · rw [hnodes] at h
        obtain ⟨empties, hemp, hcases⟩ := ih _ _ _ _ h
        refine ⟨{ destinationGUID := lower
                  found := (env.Lookup ((GUID.Bytes env.guidSizeBits lower).getD [])
                    (env.LowerRandGUID destinationGUID availableResources st.world).2).1 } ::
                empties, ?_, ?_⟩
        · intro probe hmem
          rcases List.mem_cons.mp hmem with h1 | h1
          · rw [h1]
            exact hnodes
          · exact hemp probe h1
        · rcases hcases with ⟨hit, h1, h2, h3⟩ | ⟨h1, h3⟩
          · refine Or.inl ⟨hit, h1, h2, ?_⟩
            rw [h3]
            simp [lowerExchanges, Probe.exchange]
          · refine Or.inr ⟨h1, ?_⟩
            rw [h3]
            simp [lowerExchanges, Probe.exchange, lastDestination]
      · cases fuel with
        | zero => simp [lowerLoop] at h
        | succ fuel =>
          rw [lowerLoop_found env availableResources fuel lower _ _ hnodes] at h
          simp only [Option.some.injEq, Prod.mk.injEq] at h
          refine ⟨[], by simp, Or.inl
            ⟨{ destinationGUID := lower
               found := (env.Lookup ((GUID.Bytes env.guidSizeBits lower).getD [])
                 (env.LowerRandGUID destinationGUID availableResources st.world).2).1 },
              hnodes, h.1.symm, ?_⟩⟩
          rw [← h.2]
          simp [lowerExchanges, Probe.exchange]

theorem lowerExchanges_not_createOffer (env : Environment W O)
    (availableResources : Resources) (probes : List Probe) :
    ∀ (start : GUID), ∀ exchange ∈ lowerExchanges env availableResources start probes,
      exchange.isCreateOffer = false := by
  induction probes with
  | nil =>
    intro start exchange h
    simp [lowerExchanges] at h
  | cons probe rest ih =>
    intro start exchange h
    simp only [lowerExchanges, List.mem_cons] at h
    rcases h with h | h | h
    · rw [h]; rfl
    · rw [h]; rfl
    · exact ih _ _ h

theorem searchExchanges_not_createOffer (env : Environment W O)
    (availableResources : Resources) (random : Probe) (later : List Probe) :
    ∀ exchange ∈ searchExchanges env availableResources random later,
      exchange.isCreateOffer = false := by
  intro exchange h
  cases later with
  | nil => simp [searchExchanges] at h
  | cons first lower =>
    simp only [searchExchanges, List.mem_cons] at h
    rcases h with h | h
    · rw [h]; rfl
    · exact lowerExchanges_not_createOffer env availableResources lower _ _ h

theorem searchTrader_at_random (env : Environment W O) (fuel : Nat)
    (availableResources : Resources) (st : State W O)
    (hne : removeNonTargetNodes env
      (env.Lookup ((GUID.Bytes env.guidSizeBits (env.RandGUID availableResources st.world).1).getD
        []) (env.RandGUID availableResources st.world).2).1
      (env.RandGUID availableResources st.world).1 ≠ []) :
    searchTrader env fuel availableResources st =
      lowerLoop env availableResources fuel (env.RandGUID availableResources st.world).1
        (removeNonTargetNodes env
          (env.Lookup ((GUID.Bytes env.guidSizeBits
            (env.RandGUID availableResources st.world).1).getD [])
            (env.RandGUID availableResources st.world).2).1
          (env.RandGUID availableResources st.world).1)
        { trace := st.trace ++
            [Exchange.RandGUID availableResources (env.RandGUID availableResources st.world).1] ++
            [Exchange.Lookup ((GUID.Bytes env.guidSizeBits
                (env.RandGUID availableResources st.world).1).getD [])
              (env.Lookup ((GUID.Bytes env.guidSizeBits
                (env.RandGUID availableResources st.world).1).getD [])
                (env.RandGUID availableResources st.world).2).1]
          world := (env.Lookup ((GUID.Bytes env.guidSizeBits
            (env.RandGUID availableResources st.world).1).getD [])
            (env.RandGUID availableResources st.world).2).2 } := by
  have hlen : (removeNonTargetNodes env
      (env.Lookup ((GUID.Bytes env.guidSizeBits (env.RandGUID availableResources st.world).1).getD
        []) (env.RandGUID availableResources st.world).2).1
      (env.RandGUID availableResources st.world).1).length ≠ 0 :=
    fun h0 => hne (List.length_eq_zero.mp h0)
  unfold searchTrader
  simp only [lookupTarget_eq, if_neg hlen]

theorem searchTrader_at_first (env : Environment W O) (fuel : Nat)
    (availableResources : Resources) (st : State W O)
    (hnil : removeNonTargetNodes env
      (env.Lookup ((GUID.Bytes env.guidSizeBits (env.RandGUID availableResources st.world).1).getD
        []) (env.RandGUID availableResources st.world).2).1
      (env.RandGUID availableResources st.world).1 = []) :
    searchTrader env fuel availableResources st =
      lowerLoop env availableResources fuel (env.RandGUID availableResources st.world).1
        (removeNonTargetNodes env
          (env.Lookup ((GUID.Bytes env.guidSizeBits
            (env.FirstGUID availableResources)).getD [])
            (env.Lookup ((GUID.Bytes env.guidSizeBits
              (env.RandGUID availableResources st.world).1).getD [])
              (env.RandGUID availableResources st.world).2).2).1
          (env.FirstGUID availableResources))
        { trace := st.trace ++
            [Exchange.RandGUID availableResources (env.RandGUID availableResources st.world).1] ++
            [Exchange.Lookup ((GUID.Bytes env.guidSizeBits
                (env.RandGUID availableResources st.world).1).getD [])
              (env.Lookup ((GUID.Bytes env.guidSizeBits
                (env.RandGUID availableResources st.world).1).getD [])
                (env.RandGUID availableResources st.world).2).1] ++
            [Exchange.Lookup ((GUID.Bytes env.guidSizeBits
                (env.FirstGUID availableResources)).getD [])
              (env.Lookup ((GUID.Bytes env.guidSizeBits
                (env.FirstGUID availableResources)).getD [])
                (env.Lookup ((GUID.Bytes env.guidSizeBits
                  (env.RandGUID availableResources st.world).1).getD [])
                  (env.RandGUID availableResources st.world).2).2).1]
          world := (env.Lookup ((GUID.Bytes env.guidSizeBits
              (env.FirstGUID availableResources)).getD [])
            (env.Lookup ((GUID.Bytes env.guidSizeBits
              (env.RandGUID availableResources st.world).1).getD [])
              (env.RandGUID availableResources st.world).2).2).2 } := by
  have hlen : (removeNonTargetNodes env
      (env.Lookup ((GUID.Bytes env.guidSizeBits (env.RandGUID availableResources st.world).1).getD
        []) (env.RandGUID availableResources st.world).2).1
      (env.RandGUID availableResources st.world).1).length = 0 := by
    rw [hnil]; rfl
  unfold searchTrader
  simp only [lookupTarget_eq, if_pos hlen]

/-- The exchanges of the search of `AdvertiseOffer`: the lookup at the random GUID;
if it gave no node of the partition, the lookup at the first GUID; while no node is
found, steps to lower partitions from the random GUID; at the end either the nodes of
the last probe or the failure of `LowerRandGUID`. -/
theorem searchTrader_trace (env : Environment W O) (fuel : Nat)
    (availableResources : Resources) (st final : State W O)
    (r : Option (List OverlayNode))
    (h : searchTrader env fuel availableResources st = some (r, final)) :
    ∃ (random : Probe) (later : List Probe),
      random.destinationGUID = (env.RandGUID availableResources st.world).1 ∧
      (∀ first ∈ later.head?, first.destinationGUID = env.FirstGUID availableResources) ∧
      ((∃ empties hit, random :: later = empties ++ [hit] ∧
          (∀ probe ∈ empties, probe.nodes env = []) ∧ hit.nodes env ≠ [] ∧
          r = some (hit.nodes env) ∧
          final.trace = st.trace ++
            Exchange.RandGUID availableResources random.destinationGUID ::
              random.exchange env ::
              searchExchanges env availableResources random later) ∨
        ((∀ probe ∈ random :: later, probe.nodes env = []) ∧ later ≠ [] ∧ r = none ∧
          final.trace = st.trace ++
            Exchange.RandGUID availableResources random.destinationGUID ::
              random.exchange env ::
              searchExchanges env availableResources random later ++
            [Exchange.LowerRandGUID (lastDestination random.destinationGUID later.tail)
              availableResources none])) := by
  by_cases hn0 : removeNonTargetNodes env
      (env.Lookup ((GUID.Bytes env.guidSizeBits (env.RandGUID availableResources st.world).1).getD
        []) (env.RandGUID availableResources st.world).2).1
      (env.RandGUID availableResources st.world).1 = []
  · rw [searchTrader_at_first env fuel availableResources st hn0] at h
    by_cases hn1 : removeNonTargetNodes env
        (env.Lookup ((GUID.Bytes env.guidSizeBits (env.FirstGUID availableResources)).getD [])
          (env.Lookup ((GUID.Bytes env.guidSizeBits
            (env.RandGUID availableResources st.world).1).getD [])
            (env.RandGUID availableResources st.world).2).2).1
        (env.FirstGUID availableResources) = []
    · rw [hn1] at h
      obtain ⟨empties, hemp, hcases⟩ := lowerLoop_trace env availableResources fuel _ _ _ _ h
      rcases hcases with ⟨hit, h1, h2, h3⟩ | ⟨h2, h3⟩
      · refine ⟨(Probe.mk (env.RandGUID availableResources st.world).1
            (env.Lookup ((GUID.Bytes env.guidSizeBits
              (env.RandGUID availableResources st.world).1).getD [])
              (env.RandGUID availableResources st.world).2).1),
          (Probe.mk (env.FirstGUID availableResources)
            (env.Lookup ((GUID.Bytes env.guidSizeBits
              (env.FirstGUID availableResources)).getD [])
              (env.Lookup ((GUID.Bytes env.guidSizeBits
                (env.RandGUID availableResources st.world).1).getD [])
                (env.RandGUID availableResources st.world).2).2).1) :: (empties ++ [hit]), rfl, ?_,
          Or.inl ⟨(Probe.mk (env.RandGUID availableResources st.world).1
            (env.Lookup ((GUID.Bytes env.guidSizeBits
              (env.RandGUID availableResources st.world).1).getD [])
              (env.RandGUID availableResources st.world).2).1) ::
            (Probe.mk (env.FirstGUID availableResources)
            (env.Lookup ((GUID.Bytes env.guidSizeBits
              (env.FirstGUID availableResources)).getD [])
              (env.Lookup ((GUID.Bytes env.guidSizeBits
                (env.RandGUID availableResources st.world).1).getD [])
                (env.RandGUID availableResources st.world).2).2).1) :: empties, hit, rfl, ?_, h1, h2, ?_⟩⟩
        · intro first hfirst
          simp only [List.head?_cons, Option.mem_def, Option.some.injEq] at hfirst
          rw [← hfirst]
        · intro probe hmem
          rcases List.mem_cons.mp hmem with hp | hmem
          · rw [hp]; exact hn0
          · rcases List.mem_cons.mp hmem with hp | hmem
            · rw [hp]; exact hn1
            · exact hemp probe hmem
        · rw [h3]
          simp [searchExchanges, Probe.exchange]
      · refine ⟨(Probe.mk (env.RandGUID availableResources st.world).1
            (env.Lookup ((GUID.Bytes env.guidSizeBits
              (env.RandGUID availableResources st.world).1).getD [])
              (env.RandGUID availableResources st.world).2).1),
          (Probe.mk (env.FirstGUID availableResources)
            (env.Lookup ((GUID.Bytes env.guidSizeBits
              (env.FirstGUID availableResources)).getD [])
              (env.Lookup ((GUID.Bytes env.guidSizeBits
                (env.RandGUID availableResources st.world).1).getD [])
                (env.RandGUID availableResources st.world).2).2).1) :: empties, rfl, ?_,
          Or.inr ⟨?_, by simp, h2, ?_⟩⟩
        · intro first hfirst
          simp only [List.head?_cons, Option.mem_def, Option.some.injEq] at hfirst
          rw [← hfirst]
        · intro probe hmem
          rcases List.mem_cons.mp hmem with hp | hmem
          · rw [hp]; exact hn0
          · rcases List.mem_cons.mp hmem with hp | hmem
            · rw [hp]; exact hn1
            · exact hemp probe hmem
        · rw [h3]
          simp [searchExchanges, Probe.exchange]
    · cases fuel with
      | zero => simp [lowerLoop] at h
      | succ fuel =>
        rw [lowerLoop_found env availableResources fuel _ _ _ hn1] at h
        simp only [Option.some.injEq, Prod.mk.injEq] at h
        refine ⟨(Probe.mk (env.RandGUID availableResources st.world).1
            (env.Lookup ((GUID.Bytes env.guidSizeBits
              (env.RandGUID availableResources st.world).1).getD [])
              (env.RandGUID availableResources st.world).2).1),
          [(Probe.mk (env.FirstGUID availableResources)
            (env.Lookup ((GUID.Bytes env.guidSizeBits
              (env.FirstGUID availableResources)).getD [])
              (env.Lookup ((GUID.Bytes env.guidSizeBits
                (env.RandGUID availableResources st.world).1).getD [])
                (env.RandGUID availableResources st.world).2).2).1)], rfl, ?_,
          Or.inl ⟨[(Probe.mk (env.RandGUID availableResources st.world).1
            (env.Lookup ((GUID.Bytes env.guidSizeBits
              (env.RandGUID availableResources st.world).1).getD [])
              (env.RandGUID availableResources st.world).2).1)],
            (Probe.mk (env.FirstGUID availableResources)
            (env.Lookup ((GUID.Bytes env.guidSizeBits
              (env.FirstGUID availableResources)).getD [])
              (env.Lookup ((GUID.Bytes env.guidSizeBits
                (env.RandGUID availableResources st.world).1).getD [])
                (env.RandGUID availableResources st.world).2).2).1), rfl, ?_, hn1, h.1.symm, ?_⟩⟩
        · intro first hfirst
          simp only [List.head?_cons, Option.mem_def, Option.some.injEq] at hfirst
          rw [← hfirst]
        · intro probe hmem
          rw [List.mem_singleton] at hmem
          rw [hmem]; exact hn0
        · rw [← h.2]
          simp [searchExchanges, lowerExchanges, Probe.exchange]
  · rw [searchTrader_at_random env fuel availableResources st hn0] at h
    cases fuel with
    | zero => simp [lowerLoop] at h
    | succ fuel =>
      rw [lowerLoop_found env availableResources fuel _ _ _ hn0] at h
      simp only [Option.some.injEq, Prod.mk.injEq] at h
      refine ⟨(Probe.mk (env.RandGUID availableResources st.world).1
            (env.Lookup ((GUID.Bytes env.guidSizeBits
              (env.RandGUID availableResources st.world).1).getD [])
              (env.RandGUID availableResources st.world).2).1), [], rfl, ?_,
        Or.inl ⟨[], (Probe.mk (env.RandGUID availableResources st.world).1
            (env.Lookup ((GUID.Bytes env.guidSizeBits
              (env.RandGUID availableResources st.world).1).getD [])
              (env.RandGUID availableResources st.world).2).1), rfl, by simp, hn0,
          h.1.symm, ?_⟩⟩
      · intro first hfirst
        simp at hfirst
      · rw [← h.2]
        simp [searchExchanges, Probe.exchange]

/-- The loop to lower partitions ends when every successful `LowerRandGUID` step
lowers a rank: fuel above the rank of the starting GUID is enough. -/
theorem lowerLoop_terminates (env : Environment W O) (availableResources : Resources)
    (rank : GUID → Nat)
    (hrank : ∀ guid w lower, (env.LowerRandGUID guid availableResources w).1 = some lower →
      rank lower < rank guid) :
    ∀ (n : Nat) (destinationGUID : GUID) (overlayNodes : List OverlayNode) (st : State W O),
      rank destinationGUID ≤ n →
      ∃ r, ∀ fuel, n < fuel →
        lowerLoop env availableResources fuel destinationGUID overlayNodes st = some r := by
  intro n
  induction n with
  | zero =>
    intro destinationGUID overlayNodes st hle
    by_cases hnodes : overlayNodes = []
    · subst hnodes
      cases hs : (env.LowerRandGUID destinationGUID availableResources st.world).1 with
      | none =>
        refine ⟨(none,
          { trace := st.trace ++
              [Exchange.LowerRandGUID destinationGUID availableResources none]
            world := (env.LowerRandGUID destinationGUID availableResources st.world).2 }),
          fun fuel hfuel => ?_⟩
        obtain ⟨f, rfl⟩ : ∃ f, fuel = f + 1 := ⟨fuel - 1, by omega⟩
        exact lowerLoop_failed env availableResources f destinationGUID st hs
      | some lower =>
        have := hrank _ _ _ hs
        omega
    · refine ⟨(some overlayNodes, st), fun fuel hfuel => ?_⟩
      obtain ⟨f, rfl⟩ : ∃ f, fuel = f + 1 := ⟨fuel - 1, by omega⟩
      exact lowerLoop_found env availableResources f destinationGUID overlayNodes st hnodes
  | succ n ih =>
    intro destinationGUID overlayNodes st hle
    by_cases hnodes : overlayNodes = []
    · subst hnodes
      cases hs : (env.LowerRandGUID destinationGUID availableResources st.world).1 with
      | none =>
        refine ⟨(none,
          { trace := st.trace ++
              [Exchange.LowerRandGUID destinationGUID availableResources none]
            world := (env.LowerRandGUID destinationGUID availableResources st.world).2 }),
          fun fuel hfuel => ?_⟩
        obtain ⟨f, rfl⟩ : ∃ f, fuel = f + 1 := ⟨fuel - 1, by omega⟩
        exact lowerLoop_failed env availableResources f destinationGUID st hs
      | some lower =>
        have hlt := hrank _ _ _ hs
        have hl := lookupTarget_eq env lower
          { trace := st.trace ++
              [Exchange.LowerRandGUID destinationGUID availableResources (some lower)]
            world := (env.LowerRandGUID destinationGUID availableResources st.world).2 }
        obtain ⟨r, hr⟩ := ih lower _ _ (by omega)
        refine ⟨r, fun fuel hfuel => ?_⟩
        obtain ⟨f, rfl⟩ : ∃ f, fuel = f + 1 := ⟨fuel - 1, by omega⟩
        rw [lowerLoop_lower env availableResources f destinationGUID lower st _ _ hs hl]
        exact hr f (by omega)
    · refine ⟨(some overlayNodes, st), fun fuel hfuel => ?_⟩
      obtain ⟨f, rfl⟩ : ∃ f, fuel = f + 1 := ⟨fuel - 1, by omega⟩
      exact lowerLoop_found env availableResources f destinationGUID overlayNodes st hnodes

theorem searchTrader_terminates (env : Environment W O) (availableResources : Resources)
    (st : State W O) (rank : GUID → Nat)
    (hrank : ∀ guid w lower, (env.LowerRandGUID guid availableResources w).1 = some lower →
      rank lower < rank guid) :
    ∃ r, ∀ fuel, rank (env.RandGUID availableResources st.world).1 < fuel →
      searchTrader env fuel availableResources st = some r := by
  by_cases hn0 : removeNonTargetNodes env
      (env.Lookup ((GUID.Bytes env.guidSizeBits (env.RandGUID availableResources st.world).1).getD
        []) (env.RandGUID availableResources st.world).2).1
      (env.RandGUID availableResources st.world).1 = []
  · obtain ⟨r, hr⟩ := lowerLoop_terminates env availableResources rank hrank
      (rank (env.RandGUID availableResources st.world).1)
      (env.RandGUID availableResources st.world).1
      (removeNonTargetNodes env
        (env.Lookup ((GUID.Bytes env.guidSizeBits (env.FirstGUID availableResources)).getD [])
          (env.Lookup ((GUID.Bytes env.guidSizeBits
            (env.RandGUID availableResources st.world).1).getD [])
            (env.RandGUID availableResources st.world).2).2).1
        (env.FirstGUID availableResources))
      { trace := st.trace ++
          [Exchange.RandGUID availableResources (env.RandGUID availableResources st.world).1] ++
          [Exchange.Lookup ((GUID.Bytes env.guidSizeBits
              (env.RandGUID availableResources st.world).1).getD [])
            (env.Lookup ((GUID.Bytes env.guidSizeBits
              (env.RandGUID availableResources st.world).1).getD [])
              (env.RandGUID availableResources st.world).2).1] ++
          [Exchange.Lookup ((GUID.Bytes env.guidSizeBits
              (env.FirstGUID availableResources)).getD [])
            (env.Lookup ((GUID.Bytes env.guidSizeBits
              (env.FirstGUID availableResources)).getD [])
              (env.Lookup ((GUID.Bytes env.guidSizeBits
                (env.RandGUID availableResources st.world).1).getD [])
                (env.RandGUID availableResources st.world).2).2).1]
        world := (env.Lookup ((GUID.Bytes env.guidSizeBits
            (env.FirstGUID availableResources)).getD [])
          (env.Lookup ((GUID.Bytes env.guidSizeBits
            (env.RandGUID availableResources st.world).1).getD [])
            (env.RandGUID availableResources st.world).2).2).2 } (le_refl _)
    refine ⟨r, fun fuel hfuel => ?_⟩
    rw [searchTrader_at_first env fuel availableResources st hn0]
    exact hr fuel hfuel
  · obtain ⟨r, hr⟩ := lowerLoop_terminates env availableResources rank hrank
      (rank (env.RandGUID availableResources st.world).1)
      (env.RandGUID availableResources st.world).1
      (removeNonTargetNodes env
        (env.Lookup ((GUID.Bytes env.guidSizeBits
          (env.RandGUID availableResources st.world).1).getD [])
          (env.RandGUID availableResources st.world).2).1
        (env.RandGUID availableResources st.world).1)
      { trace := st.trace ++
          [Exchange.RandGUID availableResources (env.RandGUID availableResources st.world).1] ++
          [Exchange.Lookup ((GUID.Bytes env.guidSizeBits
              (env.RandGUID availableResources st.world).1).getD [])
            (env.Lookup ((GUID.Bytes env.guidSizeBits
              (env.RandGUID availableResources st.world).1).getD [])
              (env.RandGUID availableResources st.world).2).1]
        world := (env.Lookup ((GUID.Bytes env.guidSizeBits
          (env.RandGUID availableResources st.world).1).getD [])
          (env.RandGUID availableResources st.world).2).2 } (le_refl _)
    refine ⟨r, fun fuel hfuel => ?_⟩
    rw [searchTrader_at_random env fuel availableResources st hn0]
    exact hr fuel hfuel

/-- The nodes the loop to lower partitions ends with are not empty and are those of
the probe whose lookup is the last exchange; no `CreateOffer` is sent on the way. -/
theorem lowerLoop_last (env : Environment W O) (availableResources : Resources)
    (base : List (Exchange O)) (fuel : Nat) :
    ∀ (destinationGUID : GUID) (overlayNodes : List OverlayNode) (st final : State W O)
      (r : List OverlayNode),
      lowerLoop env availableResources fuel destinationGUID overlayNodes st =
        some (some r, final) →
      (∃ made, st.trace = base ++ made ∧ ∀ exchange ∈ made, exchange.isCreateOffer = false) →
      (overlayNodes ≠ [] → ∃ (before : List (Exchange O)) (hit : Probe),
        overlayNodes = hit.nodes env ∧ st.trace = base ++ before ++ [hit.exchange env] ∧
        ∀ exchange ∈ before, exchange.isCreateOffer = false) →
      r ≠ [] ∧ ∃ (before : List (Exchange O)) (hit : Probe),
        r = hit.nodes env ∧ final.trace = base ++ before ++ [hit.exchange env] ∧
        ∀ exchange ∈ before, exchange.isCreateOffer = false := by
  induction fuel with
  | zero =>
    intro destinationGUID overlayNodes st final r h
    simp [lowerLoop] at h
  | succ fuel ih =>
    intro destinationGUID overlayNodes st final r h hmade hlast
    by_cases hnodes : overlayNodes = []
    · subst hnodes
      cases hs : (env.LowerRandGUID destinationGUID availableResources st.world).1 with
      | none =>
        rw [lowerLoop_failed env availableResources fuel destinationGUID st hs] at h
        simp at h
      | some lower =>
        have hl := lookupTarget_eq env lower
          { trace := st.trace ++
              [Exchange.LowerRandGUID destinationGUID availableResources (some lower)]
            world := (env.LowerRandGUID destinationGUID availableResources st.world).2 }
        rw [lowerLoop_lower env availableResources fuel destinationGUID lower st _ _ hs hl] at h
        obtain ⟨made, hm1, hm2⟩ := hmade
        refine ih _ _ _ _ _ h ?_ ?_
        · refine ⟨made ++
            [Exchange.LowerRandGUID destinationGUID availableResources (some lower)] ++
            [Exchange.Lookup ((GUID.Bytes env.guidSizeBits lower).getD [])
              (env.Lookup ((GUID.Bytes env.guidSizeBits lower).getD [])
                (env.LowerRandGUID destinationGUID availableResources st.world).2).1], ?_, ?_⟩
          · simp [hm1]
          · intro exchange hmem
            simp only [List.mem_append, List.mem_singleton] at hmem
            rcases hmem with (hmem | hmem) | hmem
            · exact hm2 _ hmem
            · rw [hmem]; rfl
            · rw [hmem]; rfl
        · intro _
          refine ⟨made ++
            [Exchange.LowerRandGUID destinationGUID availableResources (some lower)],
            Probe.mk lower
              (env.Lookup ((GUID.Bytes env.guidSizeBits lower).getD [])
                (env.LowerRandGUID destinationGUID availableResources st.world).2).1,
            rfl, ?_, ?_⟩
          · simp [hm1, Probe.exchange]
          · intro exchange hmem
            simp only [List.mem_append, List.mem_singleton] at hmem
            rcases hmem with hmem | hmem
            · exact hm2 _ hmem
            · rw [hmem]; rfl
    · rw [lowerLoop_found env availableResources fuel destinationGUID overlayNodes st hnodes] at h
      simp only [Option.some.injEq, Prod.mk.injEq] at h
      obtain ⟨h1, h2⟩ := h
      subst h1
      subst h2
      exact ⟨hnodes, hlast hnodes⟩

/-- When the search of `AdvertiseOffer` finds nodes, they are not empty and are the
nodes of the partition among the answer of the last lookup; no `CreateOffer` is sent
during the search. -/
theorem searchTrader_last (env : Environment W O) (fuel : Nat)
    (availableResources : Resources) (st mid : State W O) (nodes : List OverlayNode)
    (h : searchTrader env fuel availableResources st = some (some nodes, mid)) :
    nodes ≠ [] ∧ ∃ (before : List (Exchange O)) (hit : Probe),
      nodes = hit.nodes env ∧ mid.trace = st.trace ++ before ++ [hit.exchange env] ∧
      ∀ exchange ∈ before, exchange.isCreateOffer = false := by
  by_cases hn0 : removeNonTargetNodes env
      (env.Lookup ((GUID.Bytes env.guidSizeBits (env.RandGUID availableResources st.world).1).getD
        []) (env.RandGUID availableResources st.world).2).1
      (env.RandGUID availableResources st.world).1 = []
  · rw [searchTrader_at_first env fuel availableResources st hn0] at h
    refine lowerLoop_last env availableResources st.trace fuel _ _ _ _ _ h ?_ ?_
    · refine ⟨[Exchange.RandGUID availableResources
            (env.RandGUID availableResources st.world).1,
          Exchange.Lookup ((GUID.Bytes env.guidSizeBits
              (env.RandGUID availableResources st.world).1).getD [])
            (env.Lookup ((GUID.Bytes env.guidSizeBits
              (env.RandGUID availableResources st.world).1).getD [])
              (env.RandGUID availableResources st.world).2).1,
          Exchange.Lookup ((GUID.Bytes env.guidSizeBits
              (env.FirstGUID availableResources)).getD [])
            (env.Lookup ((GUID.Bytes env.guidSizeBits
              (env.FirstGUID availableResources)).getD [])
              (env.Lookup ((GUID.Bytes env.guidSizeBits
                (env.RandGUID availableResources st.world).1).getD [])
                (env.RandGUID availableResources st.world).2).2).1], by simp, ?_⟩
      intro exchange hmem
      simp only [List.mem_cons, List.mem_singleton, List.not_mem_nil, or_false] at hmem
      rcases hmem with hmem | hmem | hmem
      · rw [hmem]; rfl
      · rw [hmem]; rfl
      · rw [hmem]; rfl
    · intro _
      refine ⟨[Exchange.RandGUID availableResources
            (env.RandGUID availableResources st.world).1] ++
          [Exchange.Lookup ((GUID.Bytes env.guidSizeBits
              (env.RandGUID availableResources st.world).1).getD [])
            (env.Lookup ((GUID.Bytes env.guidSizeBits
              (env.RandGUID availableResources st.world).1).getD [])
              (env.RandGUID availableResources st.world).2).1],
        Probe.mk (env.FirstGUID availableResources)
          (env.Lookup ((GUID.Bytes env.guidSizeBits
            (env.FirstGUID availableResources)).getD [])
            (env.Lookup ((GUID.Bytes env.guidSizeBits
              (env.RandGUID availableResources st.world).1).getD [])
              (env.RandGUID availableResources st.world).2).2).1,
        rfl, by simp [Probe.exchange], ?_⟩
      intro exchange hmem
      simp only [List.mem_append, List.mem_singleton] at hmem
      rcases hmem with hmem | hmem
      · rw [hmem]; rfl
      · rw [hmem]; rfl
  · rw [searchTrader_at_random env fuel availableResources st hn0] at h
    refine lowerLoop_last env availableResources st.trace fuel _ _ _ _ _ h ?_ ?_
    · refine ⟨[Exchange.RandGUID availableResources
            (env.RandGUID availableResources st.world).1,
          Exchange.Lookup ((GUID.Bytes env.guidSizeBits
              (env.RandGUID availableResources st.world).1).getD [])
            (env.Lookup ((GUID.Bytes env.guidSizeBits
              (env.RandGUID availableResources st.world).1).getD [])
              (env.RandGUID availableResources st.world).2).1], by simp, ?_⟩
      intro exchange hmem
      simp only [List.mem_cons, List.mem_singleton, List.not_mem_nil, or_false] at hmem
      rcases hmem with hmem | hmem
      · rw [hmem]; rfl
      · rw [hmem]; rfl
    · intro _
      refine ⟨[Exchange.RandGUID availableResources
            (env.RandGUID availableResources st.world).1],
        Probe.mk (env.RandGUID availableResources st.world).1
          (env.Lookup ((GUID.Bytes env.guidSizeBits
            (env.RandGUID availableResources st.world).1).getD [])
            (env.RandGUID availableResources st.world).2).1,
        rfl, by simp [Probe.exchange], ?_⟩
      intro exchange hmem
      rw [List.mem_singleton] at hmem
      rw [hmem]; rfl

/-! ### AdvertiseOffer -/

theorem AdvertiseOffer_unplaced (env : Environment W O) (now : Int) (fuel : Nat)
    (newOfferID : Int) (availableResources : Resources) (st mid : State W O)
    (h : searchTrader env fuel availableResources st = some (none, mid)) :
    AdvertiseOffer env now fuel newOfferID availableResources st =
      some ((none, some "no nodes available to accept offer"), mid) := by
  simp [AdvertiseOffer, h]

theorem AdvertiseOffer_accepted (env : Environment W O) (now : Int) (fuel : Nat)
    (newOfferID : Int) (availableResources : Resources) (st mid : State W O)
    (chosenNode : OverlayNode) (rest : List OverlayNode)
    (h : searchTrader env fuel availableResources st = some (some (chosenNode :: rest), mid))
    (ha : (env.CreateOffer env.HostIP "" chosenNode.IP
      (GUID.NewGUIDBytes chosenNode.GUID).String newOfferID 1 availableResources.CPUs
      availableResources.RAM mid.world).1 = none) :
    AdvertiseOffer env now fuel newOfferID availableResources st =
      some ((some (newSupplierOffer newOfferID 1 availableResources chosenNode.IP
          (GUID.NewGUIDBytes chosenNode.GUID) now), none),
        { trace := mid.trace ++
            [Exchange.CreateOffer env.HostIP "" chosenNode.IP
              (GUID.NewGUIDBytes chosenNode.GUID).String newOfferID 1 availableResources.CPUs
              availableResources.RAM none]
          world := (env.CreateOffer env.HostIP "" chosenNode.IP
            (GUID.NewGUIDBytes chosenNode.GUID).String newOfferID 1 availableResources.CPUs
            availableResources.RAM mid.world).2 }) := by
  simp [AdvertiseOffer, h, ha]

theorem AdvertiseOffer_refused (env : Environment W O) (now : Int) (fuel : Nat)
    (newOfferID : Int) (availableResources : Resources) (st mid : State W O)
    (chosenNode : OverlayNode) (rest : List OverlayNode) (e : String)
    (h : searchTrader env fuel availableResources st = some (some (chosenNode :: rest), mid))
    (ha : (env.CreateOffer env.HostIP "" chosenNode.IP
      (GUID.NewGUIDBytes chosenNode.GUID).String newOfferID 1 availableResources.CPUs
      availableResources.RAM mid.world).1 = some e) :
    AdvertiseOffer env now fuel newOfferID availableResources st =
      some ((none, some "impossible advertise offer"),
        { trace := mid.trace ++
            [Exchange.CreateOffer env.HostIP "" chosenNode.IP
              (GUID.NewGUIDBytes chosenNode.GUID).String newOfferID 1 availableResources.CPUs
              availableResources.RAM (some e)]
          world := (env.CreateOffer env.HostIP "" chosenNode.IP
            (GUID.NewGUIDBytes chosenNode.GUID).String newOfferID 1 availableResources.CPUs
            availableResources.RAM mid.world).2 }) := by
  simp [AdvertiseOffer, h, ha]

/-- After a search that found nodes, `AdvertiseOffer` sends one `CreateOffer` to the
first of them and answers by what the trader said. -/
theorem AdvertiseOffer_sent (env : Environment W O) (now : Int) (fuel : Nat)
    (newOfferID : Int) (availableResources : Resources) (st mid : State W O)
    (chosenNode : OverlayNode) (rest : List OverlayNode)
    (h : searchTrader env fuel availableResources st =
      some (some (chosenNode :: rest), mid)) :
    ∃ outcome final,
      AdvertiseOffer env now fuel newOfferID availableResources st = some (outcome, final) ∧
      final.trace = mid.trace ++
        [Exchange.CreateOffer env.HostIP "" chosenNode.IP
          (GUID.NewGUIDBytes chosenNode.GUID).String newOfferID 1 availableResources.CPUs
          availableResources.RAM
          (env.CreateOffer env.HostIP "" chosenNode.IP
            (GUID.NewGUIDBytes chosenNode.GUID).String newOfferID 1 availableResources.CPUs
            availableResources.RAM mid.world).1] ∧
      ((env.CreateOffer env.HostIP "" chosenNode.IP
          (GUID.NewGUIDBytes chosenNode.GUID).String newOfferID 1 availableResources.CPUs
          availableResources.RAM mid.world).1 = none →
        outcome = (some (newSupplierOffer newOfferID 1 availableResources chosenNode.IP
          (GUID.NewGUIDBytes chosenNode.GUID) now), none)) ∧
      ((env.CreateOffer env.HostIP "" chosenNode.IP
          (GUID.NewGUIDBytes chosenNode.GUID).String newOfferID 1 availableResources.CPUs
          availableResources.RAM mid.world).1 ≠ none →
        outcome = (none, some "impossible advertise offer")) := by
  cases ha : (env.CreateOffer env.HostIP "" chosenNode.IP
      (GUID.NewGUIDBytes chosenNode.GUID).String newOfferID 1 availableResources.CPUs
      availableResources.RAM mid.world).1 with
  | none =>
    exact ⟨_, _, AdvertiseOffer_accepted env now fuel newOfferID availableResources st mid
      chosenNode rest h ha, rfl, fun _ => rfl, fun hne => absurd rfl hne⟩
  | some e =>
    exact ⟨_, _, AdvertiseOffer_refused env now fuel newOfferID availableResources st mid
      chosenNode rest e h ha, rfl, fun hnone => by simp at hnone, fun _ => rfl⟩

theorem sampleLowerRank_decreases (availableResources : Resources) :
    ∀ (guid : GUID) (w : Unit) (lower : GUID),
      (sampleEnvironment.LowerRandGUID guid availableResources w).1 = some lower →
      sampleLowerRank lower < sampleLowerRank guid := by
  intro guid w lower h
  simp only [sampleEnvironment] at h
  by_cases h1 : 200 ≤ guid.id
  · simp only [h1, if_true, Option.some.injEq] at h
    rw [← h]
    simp [sampleLowerRank, h1]
  · by_cases h2 : 100 ≤ guid.id
    · simp only [h1, h2, if_true, if_false, Option.some.injEq] at h
      rw [← h]
      simp [sampleLowerRank, h1, h2]
    · simp [h1, h2] at h

theorem AdvertiseOffer_congr (env : Environment W O) (now : Int) (fuel fuel2 : Nat)
    (newOfferID : Int) (availableResources : Resources) (st : State W O)
    (h : searchTrader env fuel availableResources st =
      searchTrader env fuel2 availableResources st) :
    AdvertiseOffer env now fuel newOfferID availableResources st =
      AdvertiseOffer env now fuel2 newOfferID availableResources st := by
  unfold AdvertiseOffer
  rw [h]

/-- C17: when every successful `LowerRandGUID` step lowers a rank, `AdvertiseOffer`
returns, with any fuel above the rank of the random GUID. Its exchanges are the draw of
the random GUID of the partition of the available resources and the lookup there; only
if that gave no node of the partition, the lookup at the first GUID of the partition;
then, only while no node of the partition was found, a step `LowerRandGUID` (the first
one from the random GUID) and the lookup at its result. Either the last lookup gave
nodes of its partition and a `CreateOffer` follows, or every lookup gave none, the last
`LowerRandGUID` failed, the answer is the error `no nodes available to accept offer`
with no offer, and no `CreateOffer` was sent. -/
theorem AdvertiseOffer_search (env : Environment W O) (now newOfferID : Int)
    (availableResources : Resources) (st : State W O) (rank : GUID → Nat)
    (hrank : ∀ guid w lower, (env.LowerRandGUID guid availableResources w).1 = some lower →
      rank lower < rank guid) :
    ∃ (outcome : Option supplierOffer × Option String) (final : State W O)
      (random : Probe) (later : List Probe),
      (∀ fuel, rank (env.RandGUID availableResources st.world).1 < fuel →
        AdvertiseOffer env now fuel newOfferID availableResources st =
          some (outcome, final)) ∧
      random.destinationGUID = (env.RandGUID availableResources st.world).1 ∧
      (∀ first ∈ later.head?, first.destinationGUID = env.FirstGUID availableResources) ∧
      ((∃ (empties : List Probe) (hit : Probe) (created : Exchange O),
          random :: later = empties ++ [hit] ∧
          (∀ probe ∈ empties, probe.nodes env = []) ∧ hit.nodes env ≠ [] ∧
          created.isCreateOffer = true ∧
          final.trace = st.trace ++
            (Exchange.RandGUID availableResources random.destinationGUID ::
              random.exchange env ::
              searchExchanges env availableResources random later) ++ [created]) ∨
        ((∀ probe ∈ random :: later, probe.nodes env = []) ∧ later ≠ [] ∧
          outcome = (none, some "no nodes available to accept offer") ∧
          final.trace = st.trace ++
            ((Exchange.RandGUID availableResources random.destinationGUID ::
              random.exchange env ::
              searchExchanges env availableResources random later) ++
            [Exchange.LowerRandGUID (lastDestination random.destinationGUID later.tail)
              availableResources none]) ∧
          ∀ exchange ∈
            (Exchange.RandGUID availableResources random.destinationGUID ::
              random.exchange env ::
              searchExchanges env availableResources random later) ++
            [Exchange.LowerRandGUID (lastDestination random.destinationGUID later.tail)
              availableResources none],
            exchange.isCreateOffer = false)) := by
  obtain ⟨⟨r, mid⟩, hr⟩ := searchTrader_terminates env availableResources st rank hrank
  have hone := hr (rank (env.RandGUID availableResources st.world).1 + 1) (by omega)
  obtain ⟨random, later, hrand, hfirst, hcases⟩ :=
    searchTrader_trace env _ availableResources st mid r hone
  cases r with
  | none =>
    refine ⟨(none, some "no nodes available to accept offer"), mid, random, later,
      fun fuel hfuel => AdvertiseOffer_unplaced env now fuel newOfferID availableResources
        st mid (hr fuel hfuel), hrand, hfirst, ?_⟩
    rcases hcases with ⟨empties, hit, _, _, _, h4, _⟩ | ⟨h1, h2, _, h4⟩
    · simp at h4
    · refine Or.inr ⟨h1, h2, rfl, ?_, ?_⟩
      · rw [h4, List.append_assoc]
      · intro exchange hmem
        rcases List.mem_append.mp hmem with hmem | hmem
        · rcases List.mem_cons.mp hmem with hmem | hmem
          · rw [hmem]; rfl
          · rcases List.mem_cons.mp hmem with hmem | hmem
            · rw [hmem]; rfl
            · exact searchExchanges_not_createOffer env availableResources random later _
                hmem
        · rw [List.mem_singleton] at hmem
          rw [hmem]; rfl
  | some nodes =>
    obtain ⟨hne, _⟩ := searchTrader_last env _ availableResources st mid nodes hone
    obtain ⟨chosenNode, rest, hnodes⟩ := List.exists_cons_of_ne_nil hne
    subst hnodes
    obtain ⟨outcome, final, hadv, htrace, _, _⟩ :=
      AdvertiseOffer_sent env now _ newOfferID availableResources st mid chosenNode rest hone
    refine ⟨outcome, final, random, later, fun fuel hfuel => ?_, hrand, hfirst, ?_⟩
    · rw [AdvertiseOffer_congr env now fuel
        (rank (env.RandGUID availableResources st.world).1 + 1) newOfferID availableResources
        st (by rw [hr fuel hfuel, hone])]
      exact hadv
    · rcases hcases with ⟨empties, hit, h1, h2, h3, _, h5⟩ | ⟨_, _, h4, _⟩
      · exact Or.inl ⟨empties, hit,
          Exchange.CreateOffer env.HostIP "" chosenNode.IP
            (GUID.NewGUIDBytes chosenNode.GUID).String newOfferID 1 availableResources.CPUs
            availableResources.RAM
            (env.CreateOffer env.HostIP "" chosenNode.IP
              (GUID.NewGUIDBytes chosenNode.GUID).String newOfferID 1
              availableResources.CPUs availableResources.RAM mid.world).1,
          h1, h2, h3, rfl, by rw [htrace, h5]⟩
      · simp at h4

/-- C18: when the search of `AdvertiseOffer` finds nodes: they are the nodes of the
partition among the answer of the last lookup, and no `CreateOffer` was sent before;
then exactly one `CreateOffer` is sent, to the first of these nodes, with the new offer
ID, amount 1 and the available CPUs and RAM; if the trader accepts, the answer is an
offer with that ID, amount 1, the available resources and that node (IP and GUID) as
responsible trader, with no error; if it refuses, the answer is the error `impossible
advertise offer` and no offer. -/
theorem AdvertiseOffer_creates_offer (env : Environment W O) (now : Int) (fuel : Nat)
    (newOfferID : Int) (availableResources : Resources) (st mid : State W O)
    (nodes : List OverlayNode)
    (h : searchTrader env fuel availableResources st = some (some nodes, mid)) :
    ∃ (chosenNode : OverlayNode) (rest : List OverlayNode) (before : List (Exchange O))
      (hit : Probe) (answer : Option String)
      (outcome : Option supplierOffer × Option String) (final : State W O),
      nodes = chosenNode :: rest ∧ hit.nodes env = nodes ∧
      mid.trace = st.trace ++ before ++ [hit.exchange env] ∧
      (∀ exchange ∈ before, exchange.isCreateOffer = false) ∧
      answer = (env.CreateOffer env.HostIP "" chosenNode.IP
        (GUID.NewGUIDBytes chosenNode.GUID).String newOfferID 1 availableResources.CPUs
        availableResources.RAM mid.world).1 ∧
      AdvertiseOffer env now fuel newOfferID availableResources st = some (outcome, final) ∧
      final.trace = mid.trace ++
        [Exchange.CreateOffer env.HostIP "" chosenNode.IP
          (GUID.NewGUIDBytes chosenNode.GUID).String newOfferID 1 availableResources.CPUs
          availableResources.RAM answer] ∧
      (answer = none → ∃ offer : supplierOffer, outcome = (some offer, none) ∧
        offer.id = newOfferID ∧ offer.amount = 1 ∧ offer.resources = availableResources ∧
        offer.responsibleTraderIP = chosenNode.IP ∧
        offer.responsibleTraderGUID = GUID.NewGUIDBytes chosenNode.GUID) ∧
      (answer ≠ none → outcome = (none, some "impossible advertise offer")) := by
  obtain ⟨hne, before, hit, hhit, hmid, hbefore⟩ :=
    searchTrader_last env fuel availableResources st mid nodes h
  obtain ⟨chosenNode, rest, hnodes⟩ := List.exists_cons_of_ne_nil hne
  subst hnodes
  obtain ⟨outcome, final, hadv, htrace, hok, hfail⟩ :=
    AdvertiseOffer_sent env now fuel newOfferID availableResources st mid chosenNode rest h
  refine ⟨chosenNode, rest, before, hit, _, outcome, final, rfl, hhit.symm, hmid, hbefore,
    rfl, hadv, htrace, ?_, hfail⟩
  intro hnone
  exact ⟨_, hok hnone, rfl, rfl, rfl, rfl, rfl⟩

/-- C17 on the sample system: the lowest partition has no node and nothing is below
it, so that an offer of (1, 1024) is advertised to nobody: a random GUID, two lookups
and the `LowerRandGUID` that fails. -/
theorem AdvertiseOffer_search_witness :
    (∀ guid w lower,
      (sampleEnvironment.LowerRandGUID guid { cpus := 1, ram := 1024 } w).1 = some lower →
      sampleLowerRank lower < sampleLowerRank guid) ∧
    AdvertiseOffer sampleEnvironment 0 1 7 { cpus := 1, ram := 1024 } sampleStrategyState =
      some ((none, some "no nodes available to accept offer"), sampleUnplaced) ∧
    ∃ (outcome : Option supplierOffer × Option String)
      (final : State Unit AvailableOffer) (random : Probe) (later : List Probe),
      (∀ fuel, sampleLowerRank (sampleEnvironment.RandGUID { cpus := 1, ram := 1024 }
          sampleStrategyState.world).1 < fuel →
        AdvertiseOffer sampleEnvironment 0 fuel 7 { cpus := 1, ram := 1024 }
          sampleStrategyState = some (outcome, final)) ∧
      random.destinationGUID =
        (sampleEnvironment.RandGUID { cpus := 1, ram := 1024 } sampleStrategyState.world).1 ∧
      (∀ first ∈ later.head?,
        first.destinationGUID = sampleEnvironment.FirstGUID { cpus := 1, ram := 1024 }) ∧
      ((∃ (empties : List Probe) (hit : Probe) (created : Exchange AvailableOffer),
          random :: later = empties ++ [hit] ∧
          (∀ probe ∈ empties, probe.nodes sampleEnvironment = []) ∧
          hit.nodes sampleEnvironment ≠ [] ∧
          created.isCreateOffer = true ∧
          final.trace = sampleStrategyState.trace ++
            (Exchange.RandGUID { cpus := 1, ram := 1024 } random.destinationGUID ::
              random.exchange sampleEnvironment ::
              searchExchanges sampleEnvironment { cpus := 1, ram := 1024 } random later) ++
            [created]) ∨
        ((∀ probe ∈ random :: later, probe.nodes sampleEnvironment = []) ∧ later ≠ [] ∧
          outcome = (none, some "no nodes available to accept offer") ∧
          final.trace = sampleStrategyState.trace ++
            ((Exchange.RandGUID { cpus := 1, ram := 1024 } random.destinationGUID ::
              random.exchange sampleEnvironment ::
              searchExchanges sampleEnvironment { cpus := 1, ram := 1024 } random later) ++
            [Exchange.LowerRandGUID (lastDestination random.destinationGUID later.tail)
              { cpus := 1, ram := 1024 } none]) ∧
          ∀ exchange ∈
            (Exchange.RandGUID { cpus := 1, ram := 1024 } random.destinationGUID ::
              random.exchange sampleEnvironment ::
              searchExchanges sampleEnvironment { cpus := 1, ram := 1024 } random later) ++
            [Exchange.LowerRandGUID (lastDestination random.destinationGUID later.tail)
              { cpus := 1, ram := 1024 } none],
            exchange.isCreateOffer = false)) :=
  ⟨sampleLowerRank_decreases { cpus := 1, ram := 1024 }, rfl,
    AdvertiseOffer_search sampleEnvironment 0 7 { cpus := 1, ram := 1024 }
      sampleStrategyState sampleLowerRank
      (sampleLowerRank_decreases { cpus := 1, ram := 1024 })⟩

/-- C18 on the sample system: an offer of (4, 4096) finds node `10.0.0.4` at the random
GUID 250, one `CreateOffer` goes to it and the offer names it as responsible trader. -/
theorem AdvertiseOffer_creates_offer_witness :
    searchTrader sampleEnvironment 1 { cpus := 4, ram := 4096 } sampleStrategyState =
      some (some [{ IP := "10.0.0.4", GUID := [210] }], sampleSearched) ∧
    AdvertiseOffer sampleEnvironment 0 1 7 { cpus := 4, ram := 4096 } sampleStrategyState =
      some ((some (newSupplierOffer 7 1 { cpus := 4, ram := 4096 } "10.0.0.4" { id := 210 }
          0), none),
        { trace := sampleSearched.trace ++
            [Exchange.CreateOffer "10.0.0.1" "" "10.0.0.4" "210" 7 1 4 4096 none]
          world := () }) ∧
    ∃ (chosenNode : OverlayNode) (rest : List OverlayNode)
      (before : List (Exchange AvailableOffer)) (hit : Probe) (answer : Option String)
      (outcome : Option supplierOffer × Option String)
      (final : State Unit AvailableOffer),
      [({ IP := "10.0.0.4", GUID := [210] } : OverlayNode)] = chosenNode :: rest ∧
      hit.nodes sampleEnvironment = [{ IP := "10.0.0.4", GUID := [210] }] ∧
      sampleSearched.trace =
        sampleStrategyState.trace ++ before ++ [hit.exchange sampleEnvironment] ∧
      (∀ exchange ∈ before, exchange.isCreateOffer = false) ∧
      answer = (sampleEnvironment.CreateOffer sampleEnvironment.HostIP "" chosenNode.IP
        (GUID.NewGUIDBytes chosenNode.GUID).String 7 1
        (Resources.CPUs { cpus := 4, ram := 4096 })
        (Resources.RAM { cpus := 4, ram := 4096 }) sampleSearched.world).1 ∧
      AdvertiseOffer sampleEnvironment 0 1 7 { cpus := 4, ram := 4096 }
        sampleStrategyState = some (outcome, final) ∧
      final.trace = sampleSearched.trace ++
        [Exchange.CreateOffer sampleEnvironment.HostIP "" chosenNode.IP
          (GUID.NewGUIDBytes chosenNode.GUID).String 7 1
          (Resources.CPUs { cpus := 4, ram := 4096 })
          (Resources.RAM { cpus := 4, ram := 4096 }) answer] ∧
      (answer = none → ∃ offer : supplierOffer, outcome = (some offer, none) ∧
        offer.id = 7 ∧ offer.amount = 1 ∧ offer.resources = { cpus := 4, ram := 4096 } ∧
        offer.responsibleTraderIP = chosenNode.IP ∧
        offer.responsibleTraderGUID = GUID.NewGUIDBytes chosenNode.GUID) ∧
      (answer ≠ none → outcome = (none, some "impossible advertise offer")) :=
  ⟨rfl, rfl,
    AdvertiseOffer_creates_offer sampleEnvironment 0 1 7 { cpus := 4, ram := 4096 }
      sampleStrategyState sampleSearched [{ IP := "10.0.0.4", GUID := [210] }] rfl⟩

/-! ### The filter on the partition -/

/-- C27: `removeNonTargetNodes(nodes, target)` returns exactly the nodes whose GUID maps
to the same resources as the target GUID, in their original order (it is the filter of
the list on that condition, so a sublist of it), and applying it again to its own result
with the same target returns that result unchanged. -/
theorem removeNonTargetNodes_spec (env : Environment W O) (remoteNodes : List OverlayNode)
    (targetGuid : GUID) :
    removeNonTargetNodes env remoteNodes targetGuid =
      remoteNodes.filter (fun node =>
        decide (env.ResourcesByGUID (GUID.NewGUIDBytes node.GUID) =
          env.ResourcesByGUID targetGuid)) ∧
    (removeNonTargetNodes env remoteNodes targetGuid).Sublist remoteNodes ∧
    (∀ node, node ∈ removeNonTargetNodes env remoteNodes targetGuid ↔
      node ∈ remoteNodes ∧
        env.ResourcesByGUID (GUID.NewGUIDBytes node.GUID) = env.ResourcesByGUID targetGuid) ∧
    removeNonTargetNodes env (removeNonTargetNodes env remoteNodes targetGuid) targetGuid =
      removeNonTargetNodes env remoteNodes targetGuid := by
  have hfilter : ∀ nodes : List OverlayNode, removeNonTargetNodes env nodes targetGuid =
      nodes.filter (fun node =>
        decide (env.ResourcesByGUID (GUID.NewGUIDBytes node.GUID) =
          env.ResourcesByGUID targetGuid)) := by
    intro nodes
    rw [removeNonTargetNodes_eq_filter]
    apply List.filter_congr
    intro node _
    simp only [Resources.Equals, decide_eq_decide]
    exact eq_comm
  refine ⟨hfilter remoteNodes, ?_, ?_, ?_⟩
  · rw [hfilter]
    exact List.filter_sublist _
  · intro node
    rw [hfilter, List.mem_filter, decide_eq_true_eq]
  · rw [hfilter (removeNonTargetNodes env remoteNodes targetGuid), hfilter remoteNodes,
      List.filter_filter]
    apply List.filter_congr
    intro node _
    simp

/-- C27 in the sample system: of the two nodes a lookup in the middle partition gives,
only `10.0.0.3` at GUID 120 is in the partition of GUID 150, and filtering again keeps
it. -/
theorem removeNonTargetNodes_spec_witness :
    removeNonTargetNodes sampleEnvironment
      [{ IP := "10.0.0.4", GUID := [210] }, { IP := "10.0.0.3", GUID := [120] }]
      { id := 150 } = [{ IP := "10.0.0.3", GUID := [120] }] ∧
    removeNonTargetNodes sampleEnvironment
      (removeNonTargetNodes sampleEnvironment
        [{ IP := "10.0.0.4", GUID := [210] }, { IP := "10.0.0.3", GUID := [120] }]
        { id := 150 }) { id := 150 } =
      removeNonTargetNodes sampleEnvironment
        [{ IP := "10.0.0.4", GUID := [210] }, { IP := "10.0.0.3", GUID := [120] }]
        { id := 150 } :=
  ⟨rfl, (removeNonTargetNodes_spec sampleEnvironment
    [{ IP := "10.0.0.4", GUID := [210] }, { IP := "10.0.0.3", GUID := [120] }]
    { id := 150 }).2.2.2⟩

end DefaultChordOffersManager

/-! ## More of the supplier -/

namespace Supplier

variable {W : Type}

/-- C24: when `availableResources` is not valid, `createOffer`, and so a supply tick,
changes nothing: the supplier is left as it was, with its active offers, its available
resources and its offer-ID counter; the strategy is not called and no `RemoveOffer`
message is sent. -/
theorem createOffer_invalid_changes_nothing (config : Configuration)
    (strategy : OffersManager W) (sup : Supplier W)
    (hvalid : sup.availableResources.IsValid = false) :
    createOffer config strategy sup = sup ∧
    step config strategy sup Op.supply = some sup ∧
    (createOffer config strategy sup).activeOffers = sup.activeOffers ∧
    (createOffer config strategy sup).availableResources = sup.availableResources ∧
    (createOffer config strategy sup).offersIDGen = sup.offersIDGen ∧
    (createOffer config strategy sup).strategyCalls = sup.strategyCalls ∧
    (createOffer config strategy sup).client = sup.client ∧
    (createOffer config strategy sup).world = sup.world := by
  have h := createOffer_of_not_valid config strategy sup hvalid
  refine ⟨h, ?_, ?_, ?_, ?_, ?_, ?_, ?_⟩
  · simp only [step, h]
  all_goals rw [h]

/-- C24 on a supplier whose resources are all in offer 0: its available resources are
(0, 0), so a supply tick leaves it as it is. -/
theorem createOffer_invalid_changes_nothing_witness :
    sampleOffered.availableResources.IsValid = false ∧
    (createOffer sampleConfig sampleStrategy sampleOffered = sampleOffered ∧
    step sampleConfig sampleStrategy sampleOffered Op.supply = some sampleOffered ∧
    (createOffer sampleConfig sampleStrategy sampleOffered).activeOffers =
      sampleOffered.activeOffers ∧
    (createOffer sampleConfig sampleStrategy sampleOffered).availableResources =
      sampleOffered.availableResources ∧
    (createOffer sampleConfig sampleStrategy sampleOffered).offersIDGen =
      sampleOffered.offersIDGen ∧
    (createOffer sampleConfig sampleStrategy sampleOffered).strategyCalls =
      sampleOffered.strategyCalls ∧
    (createOffer sampleConfig sampleStrategy sampleOffered).client = sampleOffered.client ∧
    (createOffer sampleConfig sampleStrategy sampleOffered).world = sampleOffered.world) :=
  ⟨by decide, createOffer_invalid_changes_nothing sampleConfig sampleStrategy sampleOffered
    (by decide)⟩

end Supplier

/-! ## More of the scheduler -/

namespace Scheduler

variable {W : Type}

theorem foldl_total (containersConfigs : List ContainerConfig) :
    ∀ total : Resources,
      (containersConfigs.foldl
          (fun total contConfig =>
            total.Add contConfig.Resources.CPUs contConfig.Resources.Memory) total).cpus =
        total.cpus + (containersConfigs.map (fun c => c.Resources.CPUs)).sum ∧
      (containersConfigs.foldl
          (fun total contConfig =>
            total.Add contConfig.Resources.CPUs contConfig.Resources.Memory) total).ram =
        total.ram + (containersConfigs.map (fun c => c.Resources.Memory)).sum ∧
      (containersConfigs.foldl
          (fun total contConfig =>
            total.Add contConfig.Resources.CPUs contConfig.Resources.Memory)
          total).cpuClass = total.cpuClass := by
  induction containersConfigs with
  | nil => intro total; simp
  | cons c rest ih =>
    intro total
    rw [List.foldl_cons]
    obtain ⟨h1, h2, h3⟩ := ih (total.Add c.Resources.CPUs c.Resources.Memory)
    rw [h1, h2, h3]
    simp [Resources.Add, add_assoc]

/-- C25: for a non-empty list of container configurations, `Launch` on a working
scheduler makes exactly one call, `StartContainer` with the same buyer, offer and
configurations and with total resources whose CPUs and RAM are the sums of the CPUs and
memories of the configurations, and returns the statuses and the error of that call as
they are. -/
theorem Launch_delegates (manager : ContainersManager W) (st : State W) (fromBuyer : Node)
    (offer : Offer) (containersConfigs : List ContainerConfig) (hw : st.working = true)
    (hne : containersConfigs ≠ []) :
    ∃ total : Resources,
      total.cpus = (containersConfigs.map (fun c => c.Resources.CPUs)).sum ∧
      total.ram = (containersConfigs.map (fun c => c.Resources.Memory)).sum ∧
      ∃ final : State W,
        Launch manager st fromBuyer offer containersConfigs =
          some ((manager.StartContainer fromBuyer offer containersConfigs total st.world).1,
            final) ∧
        final.calls = st.calls ++
          [Call.StartContainer fromBuyer offer containersConfigs total] ∧
        final.world =
          (manager.StartContainer fromBuyer offer containersConfigs total st.world).2 := by
  obtain ⟨h1, h2, _⟩ := foldl_total containersConfigs (Resources.NewResources 0 0)
  have hcfg : containersConfigs.isEmpty = false := by
    cases containersConfigs with
    | nil => exact absurd rfl hne
    | cons c cs => rfl
  refine ⟨containersConfigs.foldl
      (fun total contConfig =>
        total.Add contConfig.Resources.CPUs contConfig.Resources.Memory)
      (Resources.NewResources 0 0), ?_, ?_, ?_⟩
  · rw [h1]
    simp [Resources.NewResources]
  · rw [h2]
    simp [Resources.NewResources]
  · refine ⟨{ st with
        calls := st.calls ++
          [Call.StartContainer fromBuyer offer containersConfigs
            (containersConfigs.foldl
              (fun total contConfig =>
                total.Add contConfig.Resources.CPUs contConfig.Resources.Memory)
              (Resources.NewResources 0 0))]
        world := (manager.StartContainer fromBuyer offer containersConfigs
          (containersConfigs.foldl
            (fun total contConfig =>
              total.Add contConfig.Resources.CPUs contConfig.Resources.Memory)
            (Resources.NewResources 0 0)) st.world).2 }, ?_, rfl, rfl⟩
    simp [Launch, hw, hcfg]

/-- C25 on two containers needing (1, 512) and (2, 1024): one `StartContainer` call for
(3, 1536), whose two statuses come back. -/
theorem Launch_delegates_witness :
    sampleScheduler.working = true ∧ [sampleSpread, sampleCoLocated 2 1024] ≠ [] ∧
    Launch sampleManager sampleScheduler { IP := "10.0.0.7", GUID := "" } { ID := 3 }
        [sampleSpread, sampleCoLocated 2 1024] =
      some (([{ SupplierIP := "10.0.0.1", ContainerID := "c1" },
          { SupplierIP := "10.0.0.1", ContainerID := "c1" }], none),
        { working := true
          calls := [Call.StartContainer { IP := "10.0.0.7", GUID := "" } { ID := 3 }
            [sampleSpread, sampleCoLocated 2 1024] { cpuClass := 0, cpus := 3, ram := 1536 }]
          world := 1 }) ∧
    ∃ total : Resources,
      total.cpus = ([sampleSpread, sampleCoLocated 2 1024].map
        (fun c => c.Resources.CPUs)).sum ∧
      total.ram = ([sampleSpread, sampleCoLocated 2 1024].map
        (fun c => c.Resources.Memory)).sum ∧
      ∃ final : State Nat,
        Launch sampleManager sampleScheduler { IP := "10.0.0.7", GUID := "" } { ID := 3 }
            [sampleSpread, sampleCoLocated 2 1024] =
          some ((sampleManager.StartContainer { IP := "10.0.0.7", GUID := "" } { ID := 3 }
            [sampleSpread, sampleCoLocated 2 1024] total sampleScheduler.world).1, final) ∧
        final.calls = sampleScheduler.calls ++
          [Call.StartContainer { IP := "10.0.0.7", GUID := "" } { ID := 3 }
            [sampleSpread, sampleCoLocated 2 1024] total] ∧
        final.world =
          (sampleManager.StartContainer { IP := "10.0.0.7", GUID := "" } { ID := 3 }
            [sampleSpread, sampleCoLocated 2 1024] total sampleScheduler.world).2 :=
  ⟨rfl, by decide, rfl,
    Launch_delegates sampleManager sampleScheduler { IP := "10.0.0.7", GUID := "" }
      { ID := 3 } [sampleSpread, sampleCoLocated 2 1024] rfl (by decide)⟩

/-! ### The statuses of a submission -/

/-- When the loop over the spread containers ends without error, it has added to the
statuses collected before it those of each launch, in submission order. -/
theorem launchSpread_statuses (config : Configuration) (env : Collaborators W)
    (spread : List ContainerConfig) :
    ∀ (collected statuses : List ContainerStatus) (st final : State W),
      launchSpread config env spread collected st = ((statuses, none), final) →
      statuses = collected ++ (statusesInTurn config env spread st).flatten := by
  induction spread with
  | nil =>
    intro collected statuses st final h
    simp only [launchSpread, Prod.mk.injEq, and_true] at h
    simp [statusesInTurn, h.1]
  | cons contConfig rest ih =>
    intro collected statuses st final h
    cases hl : (launchContainers config env [contConfig]
      (Resources.NewResourcesCPUClass contConfig.Resources.CPUClass contConfig.Resources.CPUs
        contConfig.Resources.Memory) st).1.2 with
    | some err =>
      rw [launchSpread_cons_error config env contConfig rest collected st err hl] at h
      simp at h
    | none =>
      rw [launchSpread_cons_ok config env contConfig rest collected st hl] at h
      rw [ih _ _ _ _ h]
      simp [statusesInTurn, spreadDemand]

theorem statusesInTurn_length (config : Configuration) (env : Collaborators W)
    (spread : List ContainerConfig) :
    ∀ st : State W, (statusesInTurn config env spread st).length = spread.length := by
  induction spread with
  | nil => intro st; rfl
  | cons contConfig rest ih =>
    intro st
    simp [statusesInTurn, ih]

/-- C26: when `SubmitContainers` succeeds, the launch of the co-located group (the
containers whose policy is co-location, wherever they are in the submitted list) was
made first, from the state of the submission, and without error; the launches of the
spread containers followed in submission order, from the state the co-located launch
left, so that every call made for them comes after those of the co-located group; and
the returned list is the statuses of the co-located group followed by those of each
spread container in submission order. -/
theorem SubmitContainers_statuses (config : Configuration) (env : Collaborators W)
    (st final : State W) (contConfigs : List ContainerConfig)
    (statuses : List ContainerStatus)
    (h : SubmitContainers config env st contConfigs = some ((statuses, none), final)) :
    (launchContainers config env
      (contConfigs.filter (fun c =>
        decide (c.GroupPolicy = GroupPolicy.CoLocationGroupPolicy)))
      (groupContainers env contConfigs).coLocateTotalResources st).1.2 = none ∧
    statuses =
      (launchContainers config env
        (contConfigs.filter (fun c =>
          decide (c.GroupPolicy = GroupPolicy.CoLocationGroupPolicy)))
        (groupContainers env contConfigs).coLocateTotalResources st).1.1 ++
      (statusesInTurn config env
        (contConfigs.filter (fun c => decide (c.GroupPolicy = GroupPolicy.SpreadGroupPolicy)))
        (launchContainers config env
          (contConfigs.filter (fun c =>
            decide (c.GroupPolicy = GroupPolicy.CoLocationGroupPolicy)))
          (groupContainers env contConfigs).coLocateTotalResources st).2).flatten ∧
    (statusesInTurn config env
        (contConfigs.filter (fun c => decide (c.GroupPolicy = GroupPolicy.SpreadGroupPolicy)))
        (launchContainers config env
          (contConfigs.filter (fun c =>
            decide (c.GroupPolicy = GroupPolicy.CoLocationGroupPolicy)))
          (groupContainers env contConfigs).coLocateTotalResources st).2).length =
      (contConfigs.filter (fun c =>
        decide (c.GroupPolicy = GroupPolicy.SpreadGroupPolicy))).length ∧
    ∃ rounds : List (List AvailableOffer),
      rounds.length = (contConfigs.filter (fun c =>
        decide (c.GroupPolicy = GroupPolicy.SpreadGroupPolicy))).length ∧
      final.calls =
        (launchContainers config env
          (contConfigs.filter (fun c =>
            decide (c.GroupPolicy = GroupPolicy.CoLocationGroupPolicy)))
          (groupContainers env contConfigs).coLocateTotalResources st).2.calls ++
        (List.zipWith (fun c offers => Call.FindOffers (spreadDemand c) ::
            offers.map (launchCall config [c]))
          (contConfigs.filter (fun c => decide (c.GroupPolicy = GroupPolicy.SpreadGroupPolicy)))
          rounds).flatten := by
  obtain ⟨hg1, hg2, _, _⟩ := groupContainers_eq env contConfigs
  have hw : st.working = true := by
    cases hwk : st.working with
    | true => rfl
    | false => simp [SubmitContainers, hwk] at h
  unfold SubmitContainers at h
  simp only [hw, Bool.not_true, Bool.false_eq_true, if_false, List.nil_append] at h
  rw [hg1, hg2] at h
  cases hl : (launchContainers config env
      (contConfigs.filter (fun c =>
        decide (c.GroupPolicy = GroupPolicy.CoLocationGroupPolicy)))
      (groupContainers env contConfigs).coLocateTotalResources st).1.2 with
  | some err =>
    simp [hl] at h
  | none =>
    simp only [hl, Option.some.injEq] at h
    refine ⟨rfl, launchSpread_statuses config env _ _ _ _ _ h,
      statusesInTurn_length config env _ _, ?_⟩
    obtain ⟨rounds, stops, _, h2, h3⟩ := launchSpread_calls_shape config env
      (contConfigs.filter (fun c => decide (c.GroupPolicy = GroupPolicy.SpreadGroupPolicy)))
      (launchContainers config env
        (contConfigs.filter (fun c =>
          decide (c.GroupPolicy = GroupPolicy.CoLocationGroupPolicy)))
        (groupContainers env contConfigs).coLocateTotalResources st).1.1
      (launchContainers config env
        (contConfigs.filter (fun c =>
          decide (c.GroupPolicy = GroupPolicy.CoLocationGroupPolicy)))
        (groupContainers env contConfigs).coLocateTotalResources st).2
    rw [h] at h2 h3
    obtain ⟨h4, h5⟩ := h3 rfl
    refine ⟨rounds, h4, ?_⟩
    rw [h2, h5]
    simp

/-- C26 on a spread container submitted before a co-located one: the co-located one is
launched first, as `c1`, the spread one second, as `c2`, and the statuses come back in
that order. -/
theorem SubmitContainers_statuses_witness :
    SubmitContainers sampleConfig sampleCollaboratorsTwo sampleScheduler
        [sampleSpread, sampleCoLocated 2 1024] =
      some (([{ SupplierIP := "10.0.0.9", ContainerID := "c1" },
        { SupplierIP := "10.0.0.9", ContainerID := "c2" }], none), sampleMixedLaunched) ∧
    (launchContainers sampleConfig sampleCollaboratorsTwo [sampleCoLocated 2 1024]
      { cpuClass := 0, cpus := 2, ram := 1024 } sampleScheduler).1.1 =
      [{ SupplierIP := "10.0.0.9", ContainerID := "c1" }] ∧
    ([{ SupplierIP := "10.0.0.9", ContainerID := "c1" },
        { SupplierIP := "10.0.0.9", ContainerID := "c2" }] : List ContainerStatus) =
      (launchContainers sampleConfig sampleCollaboratorsTwo
        ([sampleSpread, sampleCoLocated 2 1024].filter (fun c =>
          decide (c.GroupPolicy = GroupPolicy.CoLocationGroupPolicy)))
        (groupContainers sampleCollaboratorsTwo
          [sampleSpread, sampleCoLocated 2 1024]).coLocateTotalResources
        sampleScheduler).1.1 ++
      (statusesInTurn sampleConfig sampleCollaboratorsTwo
        ([sampleSpread, sampleCoLocated 2 1024].filter (fun c =>
          decide (c.GroupPolicy = GroupPolicy.SpreadGroupPolicy)))
        (launchContainers sampleConfig sampleCollaboratorsTwo
          ([sampleSpread, sampleCoLocated 2 1024].filter (fun c =>
            decide (c.GroupPolicy = GroupPolicy.CoLocationGroupPolicy)))
          (groupContainers sampleCollaboratorsTwo
            [sampleSpread, sampleCoLocated 2 1024]).coLocateTotalResources
          sampleScheduler).2).flatten :=
  ⟨rfl, rfl,
    (SubmitContainers_statuses sampleConfig sampleCollaboratorsTwo sampleScheduler
      sampleMixedLaunched [sampleSpread, sampleCoLocated 2 1024]
      [{ SupplierIP := "10.0.0.9", ContainerID := "c1" },
        { SupplierIP := "10.0.0.9", ContainerID := "c2" }] rfl).2.1⟩

end Scheduler

/-! ## GUIDs in base 10 -/

theorem digitChar_isDigit (k : Nat) (hk : k < 10) :
    (Nat.digitChar k).isDigit = true ∧ (Nat.digitChar k).toNat - 48 = k := by
  interval_cases k <;> exact ⟨rfl, rfl⟩

/-- Reading the digits that `Nat.toDigits` writes in front of `ds`. -/
theorem foldl_toDigitsCore (fuel : Nat) :
    ∀ (n : Nat) (ds : List Char), n < fuel →
      (Nat.toDigitsCore 10 fuel n ds).foldl digitStep (some 0) =
        ds.foldl digitStep (some n) := by
  induction fuel with
  | zero => intro n ds h; omega
  | succ fuel ih =>
    intro n ds h
    obtain ⟨h1, h2⟩ := digitChar_isDigit (n % 10) (Nat.mod_lt _ (by decide))
    by_cases hz : n / 10 = 0
    · have hn : n % 10 = n := Nat.mod_eq_of_lt (by omega)
      simp only [Nat.toDigitsCore, hz, if_true, List.foldl_cons, digitStep, h1, h2]
      simp [hn]
    · simp only [Nat.toDigitsCore, hz, if_false]
      rw [ih (n / 10) _ (by omega)]
      simp only [List.foldl_cons, digitStep, h1, h2, if_true]
      congr 2
      omega

theorem decimalDigits_toDigits (n : Nat) : decimalDigits (Nat.toDigits 10 n) = some n := by
  rw [decimalDigits_eq]
  unfold Nat.toDigits
  rw [foldl_toDigitsCore (n + 1) n [] (by omega)]
  rfl

theorem toDigitsCore_ne_nil (fuel : Nat) :
    ∀ (n : Nat) (ds : List Char), ds ≠ [] → Nat.toDigitsCore 10 fuel n ds ≠ [] := by
  induction fuel with
  | zero => intro n ds h; simpa [Nat.toDigitsCore] using h
  | succ fuel ih =>
    intro n ds h
    by_cases hz : n / 10 = 0
    · simp [Nat.toDigitsCore, hz]
    · simp only [Nat.toDigitsCore, hz, if_false]
      exact ih _ _ (by simp)

theorem toDigits_ne_nil (n : Nat) : Nat.toDigits 10 n ≠ [] := by
  unfold Nat.toDigits
  by_cases hz : n / 10 = 0
  · simp [Nat.toDigitsCore, hz]
  · simp only [Nat.toDigitsCore, hz, if_false]
    exact toDigitsCore_ne_nil _ _ _ (by simp)

theorem decimalDigits_head (c : Char) (cs : List Char) (n : Nat)
    (h : decimalDigits (c :: cs) = some n) : c.isDigit = true := by
  rw [decimalDigits_eq, List.foldl_cons] at h
  by_contra hc
  simp only [digitStep, hc, Bool.false_eq_true, if_false] at h
  rw [foldl_digitStep_none] at h
  exact absurd h (by simp)

theorem bigIntSetString_natDigits (n : Nat) :
    bigIntSetString (String.mk (Nat.toDigits 10 n)) = some (Int.ofNat n) := by
  have h := decimalDigits_toDigits n
  unfold bigIntSetString
  cases hd : Nat.toDigits 10 n with
  | nil => exact absurd hd (toDigits_ne_nil n)
  | cons c cs =>
    rw [hd] at h
    have hc := decimalDigits_head c cs n h
    have h45 : c ≠ Char.ofNat 45 := by
      intro heq
      rw [heq] at hc
      exact absurd hc (by decide)
    have h43 : c ≠ Char.ofNat 43 := by
      intro heq
      rw [heq] at hc
      exact absurd hc (by decide)
    simp only [String.toList, h45, h43, if_false, h, Option.map_some']

/-- What `String` of `big.Int` writes, `SetString` reads back. -/
theorem bigIntSetString_toString (z : Int) : bigIntSetString (toString z) = some z := by
  cases z with
  | ofNat n => exact bigIntSetString_natDigits n
  | negSucc n =>
    have h := decimalDigits_toDigits (n + 1)
    have hne := toDigits_ne_nil (n + 1)
    show bigIntSetString (String.mk ((Char.ofNat 45) :: Nat.toDigits 10 (n + 1))) = _
    unfold bigIntSetString
    have hemp : (Nat.toDigits 10 (n + 1)).isEmpty = false := by
      cases hd : Nat.toDigits 10 (n + 1) with
      | nil => exact absurd hd hne
      | cons c cs => rfl
    simp only [String.toList, if_true, hemp, Bool.false_eq_true, if_false, h,
      Option.map_some']
    rfl

theorem bigIntScan_toString (z : Int) : bigIntScan (toString z) = z :=
  bigIntScan_of_setString _ _ (bigIntSetString_toString z)

theorem bigIntRand_range (draw : Nat) (n : Int) (hn : 0 < n) :
    0 ≤ bigIntRand draw n ∧ bigIntRand draw n < n := by
  have hne : n ≠ 0 := by omega
  have hnot : ¬ n ≤ 0 := by omega
  simp only [bigIntRand, hnot, if_false]
  exact ⟨Int.emod_nonneg _ hne, Int.emod_lt_of_pos _ hn⟩

/-- C21: for GUIDs `a < top` and every draw of the random source,
`a.GenerateInnerRandomGUID(top)` returns a nil error and a GUID `r` with `a ≤ r < top`
(the receiver plus the draw reduced to `[0, top - a)`), and leaves `a` and `top` as they
were. -/
theorem GenerateInnerRandomGUID_in_range (guid topGUID : GUID) (draw : Nat)
    (h : guid.id < topGUID.id) :
    (guid.GenerateInnerRandomGUID topGUID draw).err = none ∧
    guid.id ≤ (guid.GenerateInnerRandomGUID topGUID draw).result.id ∧
    (guid.GenerateInnerRandomGUID topGUID draw).result.id < topGUID.id ∧
    (guid.GenerateInnerRandomGUID topGUID draw).result.id =
      guid.id + bigIntRand draw (topGUID.id - guid.id) ∧
    (guid.GenerateInnerRandomGUID topGUID draw).receiver = guid ∧
    (guid.GenerateInnerRandomGUID topGUID draw).topGUID = topGUID := by
  obtain ⟨h0, h1⟩ := bigIntRand_range draw (topGUID.id - guid.id) (by omega)
  have hres : (guid.GenerateInnerRandomGUID topGUID draw).result.id =
      guid.id + bigIntRand draw (topGUID.id - guid.id) := by
    simp [GUID.GenerateInnerRandomGUID, GUID.NewGUIDString, bigIntScan_toString]
  refine ⟨rfl, ?_, ?_, hres, rfl, rfl⟩
  · rw [hres]
    omega
  · rw [hres]
    omega

/-- C21 between the GUIDs 100 and 200 with the draw 1234: the new GUID is 134. -/
theorem GenerateInnerRandomGUID_in_range_witness :
    (GUID.mk 100).id < (GUID.mk 200).id ∧
    ((GUID.mk 100).GenerateInnerRandomGUID { id := 200 } 1234).result = { id := 134 } ∧
    (((GUID.mk 100).GenerateInnerRandomGUID { id := 200 } 1234).err = none ∧
    (GUID.mk 100).id ≤ ((GUID.mk 100).GenerateInnerRandomGUID { id := 200 } 1234).result.id ∧
    ((GUID.mk 100).GenerateInnerRandomGUID { id := 200 } 1234).result.id < (GUID.mk 200).id ∧
    ((GUID.mk 100).GenerateInnerRandomGUID { id := 200 } 1234).result.id =
      (GUID.mk 100).id + bigIntRand 1234 ((GUID.mk 200).id - (GUID.mk 100).id) ∧
    ((GUID.mk 100).GenerateInnerRandomGUID { id := 200 } 1234).receiver = { id := 100 } ∧
    ((GUID.mk 100).GenerateInnerRandomGUID { id := 200 } 1234).topGUID = { id := 200 }) :=
  ⟨by decide, by decide,
    GenerateInnerRandomGUID_in_range { id := 100 } { id := 200 } 1234 (by decide)⟩

theorem AddOffset_PercentageOffset (guid nextGuid : GUID) (p : Int) :
    (guid.AddOffset (guid.PercentageOffset p nextGuid)).id =
      guid.id + p * (nextGuid.id - guid.id) / 100 := by
  simp [GUID.AddOffset, GUID.PercentageOffset, bigIntScan_toString]

/-- C28: for GUIDs `g ≤ next` and a percentage `0 ≤ p ≤ 100`, `g.PercentageOffset(p, next)`
is the number `k = floor(p * (next - g) / 100)` written in base 10, where `k` is the
integer with `100 * k ≤ p * (next - g) < 100 * (k + 1)`; adding it to `g` with
`AddOffset` gives exactly `g + k`, a value between `g` and `next`, which is `g` for
`p = 0`, `next` for `p = 100`, and does not decrease when `p` grows. -/
theorem PercentageOffset_AddOffset (guid nextGuid : GUID) (p : Int)
    (hle : guid.id ≤ nextGuid.id) (hp0 : 0 ≤ p) (hp : p ≤ 100) :
    guid.PercentageOffset p nextGuid = toString (p * (nextGuid.id - guid.id) / 100) ∧
    100 * (p * (nextGuid.id - guid.id) / 100) ≤ p * (nextGuid.id - guid.id) ∧
    p * (nextGuid.id - guid.id) < 100 * (p * (nextGuid.id - guid.id) / 100 + 1) ∧
    (guid.AddOffset (guid.PercentageOffset p nextGuid)).id =
      guid.id + p * (nextGuid.id - guid.id) / 100 ∧
    guid.id ≤ (guid.AddOffset (guid.PercentageOffset p nextGuid)).id ∧
    (guid.AddOffset (guid.PercentageOffset p nextGuid)).id ≤ nextGuid.id ∧
    (guid.AddOffset (guid.PercentageOffset 0 nextGuid)).id = guid.id ∧
    (guid.AddOffset (guid.PercentageOffset 100 nextGuid)).id = nextGuid.id ∧
    ∀ q : Int, p ≤ q → q ≤ 100 →
      (guid.AddOffset (guid.PercentageOffset p nextGuid)).id ≤
        (guid.AddOffset (guid.PercentageOffset q nextGuid)).id := by
  have hd : 0 ≤ nextGuid.id - guid.id := by omega
  have hpd : 0 ≤ p * (nextGuid.id - guid.id) := Int.mul_nonneg hp0 hd
  have hupper : p * (nextGuid.id - guid.id) ≤ 100 * (nextGuid.id - guid.id) :=
    Int.mul_le_mul_of_nonneg_right hp hd
  have hk0 : 0 ≤ p * (nextGuid.id - guid.id) / 100 := Int.ediv_nonneg hpd (by decide)
  have hk1 : p * (nextGuid.id - guid.id) / 100 ≤ nextGuid.id - guid.id := by
    have := Int.ediv_le_ediv (by decide : (0 : Int) < 100) hupper
    rwa [Int.mul_ediv_cancel_left _ (by decide : (100 : Int) ≠ 0)] at this
  refine ⟨rfl, ?_, ?_, AddOffset_PercentageOffset guid nextGuid p, ?_, ?_, ?_, ?_, ?_⟩
  · exact Int.mul_ediv_self_le (by decide : (100 : Int) ≠ 0)
  · have := @Int.lt_mul_ediv_self_add (p * (nextGuid.id - guid.id)) 100 (by decide)
    omega
  · rw [AddOffset_PercentageOffset]
    omega
  · rw [AddOffset_PercentageOffset]
    omega
  · rw [AddOffset_PercentageOffset]
    simp
  · rw [AddOffset_PercentageOffset,
      Int.mul_ediv_cancel_left _ (by decide : (100 : Int) ≠ 0)]
    omega
  · intro q hpq _
    rw [AddOffset_PercentageOffset, AddOffset_PercentageOffset]
    have hmul : p * (nextGuid.id - guid.id) ≤ q * (nextGuid.id - guid.id) :=
      Int.mul_le_mul_of_nonneg_right hpq hd
    have := Int.ediv_le_ediv (by decide : (0 : Int) < 100) hmul
    omega

/-- C28 between the GUIDs 1000 and 1250 at 33 percent: the offset is "82" and the sum
1082. -/
theorem PercentageOffset_AddOffset_witness :
    (GUID.mk 1000).id ≤ (GUID.mk 1250).id ∧ (0 : Int) ≤ 33 ∧ (33 : Int) ≤ 100 ∧
    (GUID.mk 1000).PercentageOffset 33 { id := 1250 } = "82" ∧
    (GUID.mk 1000).AddOffset "82" = { id := 1082 } ∧
    ((GUID.mk 1000).PercentageOffset 33 { id := 1250 } =
      toString (33 * ((GUID.mk 1250).id - (GUID.mk 1000).id) / 100) ∧
    100 * (33 * ((GUID.mk 1250).id - (GUID.mk 1000).id) / 100) ≤
      33 * ((GUID.mk 1250).id - (GUID.mk 1000).id) ∧
    33 * ((GUID.mk 1250).id - (GUID.mk 1000).id) <
      100 * (33 * ((GUID.mk 1250).id - (GUID.mk 1000).id) / 100 + 1) ∧
    ((GUID.mk 1000).AddOffset ((GUID.mk 1000).PercentageOffset 33 { id := 1250 })).id =
      (GUID.mk 1000).id + 33 * ((GUID.mk 1250).id - (GUID.mk 1000).id) / 100 ∧
    (GUID.mk 1000).id ≤
      ((GUID.mk 1000).AddOffset ((GUID.mk 1000).PercentageOffset 33 { id := 1250 })).id ∧
    ((GUID.mk 1000).AddOffset ((GUID.mk 1000).PercentageOffset 33 { id := 1250 })).id ≤
      (GUID.mk 1250).id ∧
    ((GUID.mk 1000).AddOffset ((GUID.mk 1000).PercentageOffset 0 { id := 1250 })).id =
      (GUID.mk 1000).id ∧
    ((GUID.mk 1000).AddOffset ((GUID.mk 1000).PercentageOffset 100 { id := 1250 })).id =
      (GUID.mk 1250).id ∧
    ∀ q : Int, 33 ≤ q → q ≤ 100 →
      ((GUID.mk 1000).AddOffset ((GUID.mk 1000).PercentageOffset 33 { id := 1250 })).id ≤
        ((GUID.mk 1000).AddOffset
          ((GUID.mk 1000).PercentageOffset q { id := 1250 })).id) :=
  ⟨by decide, by decide, by decide, by decide, by decide,
    PercentageOffset_AddOffset { id := 1000 } { id := 1250 } 33 (by decide) (by decide)
      (by decide)⟩

/-! ## The size of the GUIDs -/

theorem Init_initialized (pkg : GUID.Package) (guidBitsSize : Int)
    (h : pkg.isGuidInitialized = true) : pkg.Init guidBitsSize = pkg := by
  simp [GUID.Package.Init, h]

theorem foldl_Init_initialized (later : List Int) :
    ∀ pkg : GUID.Package, pkg.isGuidInitialized = true →
      later.foldl GUID.Package.Init pkg = pkg := by
  induction later with
  | nil => intro pkg _; rfl
  | cons m rest ih =>
    intro pkg h
    rw [List.foldl_cons, Init_initialized pkg m h]
    exact ih pkg h

/-- C29: the size of the GUIDs can be initialized only once: before any `Init`,
`SizeBits()` is 160; after the first `Init(n)`, `SizeBits()` is `n` and `SizeBytes()` is
`n / 8` (the quotient of Go, which for `n ≥ 0` is the rounded-down one); and any further
calls `Init(m)` leave the package variables, and so both sizes, as they are. -/
theorem Init_only_once (n : Int) (later : List Int) :
    GUID.Package.declared.SizeBits = 160 ∧
    (GUID.Package.declared.Init n).SizeBits = n ∧
    (GUID.Package.declared.Init n).SizeBytes = Int.tdiv n 8 ∧
    (0 ≤ n → (GUID.Package.declared.Init n).SizeBytes = n / 8) ∧
    later.foldl GUID.Package.Init (GUID.Package.declared.Init n) =
      GUID.Package.declared.Init n ∧
    (later.foldl GUID.Package.Init (GUID.Package.declared.Init n)).SizeBits = n ∧
    (later.foldl GUID.Package.Init (GUID.Package.declared.Init n)).SizeBytes =
      Int.tdiv n 8 := by
  have hkeep := foldl_Init_initialized later (GUID.Package.declared.Init n) rfl
  refine ⟨rfl, rfl, rfl, ?_, hkeep, ?_, ?_⟩
  · intro hn
    exact Int.tdiv_eq_ediv hn (by decide)
  · rw [hkeep]
    rfl
  · rw [hkeep]
    rfl

/-- C29 on `Init(64)` followed by `Init(128)` and `Init(256)`: the size stays 64 bits,
8 bytes. -/
theorem Init_only_once_witness :
    (0 : Int) ≤ 64 ∧
    ([128, 256].foldl GUID.Package.Init (GUID.Package.declared.Init 64)).SizeBits = 64 ∧
    ([128, 256].foldl GUID.Package.Init (GUID.Package.declared.Init 64)).SizeBytes = 8 ∧
    (GUID.Package.declared.Init 64).SizeBytes = 64 / 8 :=
  ⟨by decide, (Init_only_once 64 [128, 256]).2.2.2.2.2.1, by decide,
    (Init_only_once 64 [128, 256]).2.2.2.1 (by decide)⟩

/-! ## The short form of a GUID -/

/-- C30, evaluated on the code: `Short` fails exactly on the GUIDs whose base-10 string
has fewer than 12 characters, and returns the first 12 characters otherwise.  The GUID 5
(string "5") and the GUID 0 make it fail; the GUID 123456789012345 gives
"123456789012". -/
theorem Short_fails_below_12_characters :
    (∀ guid : GUID, guid.Short = none ↔ guid.String.length < 12) ∧
    (∀ guid : GUID, 12 ≤ guid.String.length → guid.Short = some (guid.String.take 12)) ∧
    (GUID.mk 5).String = "5" ∧ (GUID.mk 5).Short = none ∧ (GUID.mk 0).Short = none ∧
    (GUID.mk 123456789012345).Short = some "123456789012" := by
  refine ⟨?_, ?_, by decide, by decide, by decide, by decide⟩
  · intro guid
    unfold GUID.Short GUID.String
    by_cases h : 12 ≤ (toString guid.id).length
    · simp [h]
    · simp only [h, if_false, true_iff]
      omega
  · intro guid h
    unfold GUID.Short
    unfold GUID.String at h
    simp [h, GUID.String]

/-! ## The registry of offering strategies -/

namespace OfferingStrategy

variable {N S : Type}

theorem latestFactory_cons (strategyName : String) (factory : ManageOffersFactory N S)
    (rest : List (String × ManageOffersFactory N S)) (name : String) :
    latestFactory ((strategyName, factory) :: rest) name =
      match latestFactory rest name with
      | some later => some later
      | none => if name = strategyName then some factory else none := by
  unfold latestFactory
  by_cases h : strategyName = name
  · subst h
    simp only [List.filter_cons, decide_True, if_true]
    cases hl : (rest.filter (fun r => decide (r.1 = strategyName))).getLast? with
    | none =>
      rw [List.getLast?_eq_none_iff] at hl
      simp [hl]
    | some last =>
      obtain ⟨front, hfront⟩ := List.getLast?_eq_some_iff.mp hl
      have e1 : ((strategyName, factory) :: (front ++ [last])).getLast? = some last := by
        rw [← List.cons_append]
        exact List.getLast?_concat _
      rw [hfront, e1]
      rfl
  · have h2 : ¬ name = strategyName := fun e => h e.symm
    simp only [List.filter_cons, h, decide_False, Bool.false_eq_true, if_false, h2]
    cases (rest.filter (fun r => decide (r.1 = name))).getLast? <;> rfl

/-- After a sequence of registrations with factories that are not `nil`, a name is bound
to the factory registered for it last, or as before when none was. -/
theorem registerAll_lookup (registrations : List (String × ManageOffersFactory N S)) :
    ∀ manageOffers : Registry N S, ∃ final : Registry N S,
      registerAll (registrations.map (fun r => (r.1, some r.2))) manageOffers = some final ∧
      ∀ name, final name =
        match latestFactory registrations name with
        | some factory => some factory
        | none => manageOffers name := by
  induction registrations with
  | nil =>
    intro manageOffers
    exact ⟨manageOffers, rfl, fun name => rfl⟩
  | cons r rest ih =>
    intro manageOffers
    obtain ⟨final, h1, h2⟩ := ih
      (fun name => if name = r.1 then some r.2 else manageOffers name)
    refine ⟨final, ?_, ?_⟩
    · simpa [registerAll, RegisterOffersStrategy] using h1
    · intro name
      rw [h2 name, latestFactory_cons r.1 r.2 rest name]
      cases latestFactory rest name with
      | some later => rfl
      | none =>
        by_cases h : name = r.1
        · simp [h]
        · simp [h]

theorem init_eq (newSingleOfferChordManager newMultipleOfferStrategy : ManageOffersFactory N S) :
    init newSingleOfferChordManager newMultipleOfferStrategy =
      registerAll
        ((initRegistrations newSingleOfferChordManager newMultipleOfferStrategy).map
          (fun r => (r.1, some r.2))) Registry.made := rfl

theorem registerAll_append (first second : List (String × Option (ManageOffersFactory N S))) :
    ∀ manageOffers : Registry N S,
      registerAll (first ++ second) manageOffers =
        (registerAll first manageOffers).bind (registerAll second) := by
  induction first with
  | nil => intro manageOffers; rfl
  | cons r rest ih =>
    intro manageOffers
    obtain ⟨strategyName, factory⟩ := r
    cases factory with
    | none => rfl
    | some made =>
      simp only [List.cons_append, registerAll, RegisterOffersStrategy]
      exact ih _

/-- When `CreateOffersStrategy` panics, on any registry. -/
theorem CreateOffersStrategy_eq_none (manageOffers : Registry N S) (node : N)
    (config : Configuration) :
    CreateOffersStrategy manageOffers node config = none ↔
      manageOffers config.DiscoveryBackend = none ∨
      ∃ factory e, manageOffers config.DiscoveryBackend = some factory ∧
        factory node config = Except.error e := by
  cases hm : manageOffers config.DiscoveryBackend with
  | none => simp [CreateOffersStrategy, hm]
  | some factory =>
    cases hf : factory node config with
    | error e => simp [CreateOffersStrategy, hm, hf]
    | ok offersStrategy => simp [CreateOffersStrategy, hm, hf]

theorem latestFactory_isSome (registrations : List (String × ManageOffersFactory N S))
    (name : String) (factory : ManageOffersFactory N S)
    (h : (name, factory) ∈ registrations) :
    (latestFactory registrations name).isSome = true := by
  unfold latestFactory
  have hmem : (name, factory) ∈ registrations.filter (fun r => decide (r.1 = name)) := by
    rw [List.mem_filter]
    exact ⟨h, by simp⟩
  cases hl : (registrations.filter (fun r => decide (r.1 = name))).getLast? with
  | none =>
    rw [List.getLast?_eq_none_iff] at hl
    rw [hl] at hmem
    simp at hmem
  | some last => rfl

/-- C22: on the registry that the package initialisation and any later registrations
(of factories that are not `nil`) leave, every name is bound to the factory registered
under it most recently; the names `chord-single-offer`, `chord-multiple-offer` and
`chord-multiple-offer-updates` are registered; `CreateOffersStrategy` panics if and only
if the configured backend name is not registered or the factory registered for it
answers with an error; otherwise it returns the strategy built by the factory most
recently registered under that name. -/
theorem CreateOffersStrategy_panics_iff
    (newSingleOfferChordManager newMultipleOfferStrategy : ManageOffersFactory N S)
    (later : List (String × ManageOffersFactory N S)) (node : N) (config : Configuration) :
    ∃ manageOffers : Registry N S,
      (init newSingleOfferChordManager newMultipleOfferStrategy).bind
        (registerAll (later.map (fun r => (r.1, some r.2)))) = some manageOffers ∧
      (∀ name, manageOffers name =
        latestFactory
          (initRegistrations newSingleOfferChordManager newMultipleOfferStrategy ++ later)
          name) ∧
      (∀ name ∈ ["chord-single-offer", "chord-multiple-offer",
          "chord-multiple-offer-updates"], (manageOffers name).isSome = true) ∧
      (CreateOffersStrategy manageOffers node config = none ↔
        manageOffers config.DiscoveryBackend = none ∨
        ∃ factory e, manageOffers config.DiscoveryBackend = some factory ∧
          factory node config = Except.error e) ∧
      (∀ factory offersStrategy,
        latestFactory
          (initRegistrations newSingleOfferChordManager newMultipleOfferStrategy ++ later)
          config.DiscoveryBackend = some factory →
        factory node config = Except.ok offersStrategy →
        CreateOffersStrategy manageOffers node config = some offersStrategy) := by
  obtain ⟨final, h1, h2⟩ := registerAll_lookup
    (initRegistrations newSingleOfferChordManager newMultipleOfferStrategy ++ later)
    Registry.made
  have hlookup : ∀ name, final name =
      latestFactory
        (initRegistrations newSingleOfferChordManager newMultipleOfferStrategy ++ later)
        name := by
    intro name
    rw [h2 name]
    cases latestFactory
      (initRegistrations newSingleOfferChordManager newMultipleOfferStrategy ++ later)
      name <;> rfl
  refine ⟨final, ?_, hlookup, ?_, CreateOffersStrategy_eq_none final node config, ?_⟩
  · rw [init_eq, ← registerAll_append, ← List.map_append]
    exact h1
  · intro name hname
    rw [hlookup name]
    simp only [List.mem_cons, List.mem_singleton, List.not_mem_nil, or_false] at hname
    rcases hname with h | h | h
    · exact latestFactory_isSome _ name newSingleOfferChordManager
        (by rw [h]; simp [initRegistrations])
    · exact latestFactory_isSome _ name newMultipleOfferStrategy
        (by rw [h]; simp [initRegistrations])
    · exact latestFactory_isSome _ name newMultipleOfferStrategy
        (by rw [h]; simp [initRegistrations])
  · intro factory offersStrategy hlatest hbuilt
    have hm : final config.DiscoveryBackend = some factory := by
      rw [hlookup, hlatest]
    simp [CreateOffersStrategy, hm, hbuilt]

/-- C22 on a package initialised with a factory that builds "single" and one that
fails, where `chord-multiple-offer` is later registered again with a factory that
builds "multiple": the backend `chord-multiple-offer` gives "multiple", the backend
`chord-multiple-offer-updates` and the unknown backend `swarm` make
`CreateOffersStrategy` panic. -/
theorem CreateOffersStrategy_panics_iff_witness :
    ((init sampleSingleFactory sampleFailingFactory).bind
        (registerAll [("chord-multiple-offer", some sampleMultipleFactory)])).map
      (fun manageOffers =>
        [CreateOffersStrategy manageOffers () { DiscoveryBackend := "chord-single-offer" },
          CreateOffersStrategy manageOffers () { DiscoveryBackend := "chord-multiple-offer" },
          CreateOffersStrategy manageOffers ()
            { DiscoveryBackend := "chord-multiple-offer-updates" },
          CreateOffersStrategy manageOffers () { DiscoveryBackend := "swarm" }]) =
      some [some "single", some "multiple", none, none] ∧
    latestFactory
      (initRegistrations sampleSingleFactory sampleFailingFactory ++
        [("chord-multiple-offer", sampleMultipleFactory)])
      "chord-multiple-offer" = some sampleMultipleFactory ∧
    sampleMultipleFactory () { DiscoveryBackend := "chord-multiple-offer" } =
      Except.ok "multiple" ∧
    ∃ manageOffers : Registry Unit String,
      (init sampleSingleFactory sampleFailingFactory).bind
        (registerAll ([("chord-multiple-offer", sampleMultipleFactory)].map
          (fun r => (r.1, some r.2)))) = some manageOffers ∧
      CreateOffersStrategy manageOffers () { DiscoveryBackend := "chord-multiple-offer" } =
        some "multiple" := by
  obtain ⟨manageOffers, h1, _, _, _, h5⟩ :=
    CreateOffersStrategy_panics_iff sampleSingleFactory sampleFailingFactory
      [("chord-multiple-offer", sampleMultipleFactory)] ()
      { DiscoveryBackend := "chord-multiple-offer" }
  exact ⟨rfl, rfl, rfl, manageOffers, h1, h5 sampleMultipleFactory "multiple" rfl rfl⟩

end OfferingStrategy

/-! ## The state of the resource partitions -/

namespace Partitions

namespace SystemResourcePartitions

theorem take_cons_take (sample : Bool) (recorded : List Bool) (n : Nat) :
    (sample :: recorded.take n).take n = (sample :: recorded).take n := by
  cases n with
  | zero => rfl
  | succ m =>
    simp only [List.take_succ_cons, List.take_take]
    congr 2
    omega

theorem store_same (s : SystemResourcePartitions) (key : Resources)
    (value : ResourcePartitionState) :
    (s.store key value).partitionsState key = some value := by
  simp [store]

theorem store_other (s : SystemResourcePartitions) (key other : Resources)
    (value : ResourcePartitionState) (h : other ≠ key) :
    (s.store key value).partitionsState other = s.partitionsState other := by
  simp [store, h]

theorem store_totalStats (s : SystemResourcePartitions) (key : Resources)
    (value : ResourcePartitionState) : (s.store key value).totalStats = s.totalStats := rfl

/-- A call on another partition leaves what is kept for this one. -/
theorem step_other (s : SystemResourcePartitions) (partition : Resources) (op : Op)
    (h : match op with
      | Op.Try p => p ≠ partition
      | Op.Hit p => p ≠ partition
      | Op.Miss p => p ≠ partition) :
    (step s op).partitionsState partition = s.partitionsState partition ∧
      (step s op).totalStats = s.totalStats := by
  cases op with
  | Try p =>
    have hne : partition ≠ p := fun e => h e.symm
    cases hp : s.partitionsState p with
    | none => simp [step, Try, hp, store, hne]
    | some state => simp [step, Try, hp]
  | Hit p =>
    have hne : partition ≠ p := fun e => h e.symm
    cases hp : s.partitionsState p with
    | none => simp [step, Hit, hp]
    | some state => simp [step, Hit, hp, store, hne]
  | Miss p =>
    have hne : partition ≠ p := fun e => h e.symm
    cases hp : s.partitionsState p with
    | none => simp [step, Miss, hp]
    | some state => simp [step, Miss, hp, store, hne]

theorem tracks_Try (totalStats : Nat) (partition : Resources) (s : SystemResourcePartitions)
    (known : Bool) (recorded : List Bool) (h : Tracks totalStats partition s known recorded) :
    Tracks totalStats partition (s.Try partition).2 true recorded := by
  obtain ⟨h1, h2, h3, h4⟩ := h
  cases hp : s.partitionsState partition with
  | none =>
    have hk : known = false := by rw [h2, hp]; rfl
    have hrec : recorded = [] := h3 hk
    refine ⟨by simp [Try, hp, store_totalStats, h1], by simp [Try, hp, store_same],
      fun e => by simp at e, ?_⟩
    intro state hstate
    simp only [Try, hp, store_same, Option.some.injEq] at hstate
    rw [← hstate, hrec]
    simp [NewResourcePartitionState, h1]
  | some state0 =>
    refine ⟨by simp [Try, hp, h1], by simp [Try, hp], fun e => by simp at e, ?_⟩
    intro state hstate
    simp only [Try, hp] at hstate
    exact h4 state (hp.trans hstate)

theorem tracks_sample (totalStats : Nat) (partition : Resources)
    (s : SystemResourcePartitions) (known : Bool) (recorded : List Bool) (sample : Bool)
    (h : Tracks totalStats partition s known recorded) :
    Tracks totalStats partition (if sample then s.Hit partition else s.Miss partition) known
      (if known then sample :: recorded else recorded) := by
  obtain ⟨h1, h2, h3, h4⟩ := h
  cases hp : s.partitionsState partition with
  | none =>
    have hk : known = false := by rw [h2, hp]; rfl
    have hsame : (if sample then s.Hit partition else s.Miss partition) = s := by
      cases sample <;> simp [Hit, Miss, hp]
    rw [hsame]
    subst hk
    exact ⟨h1, h2, h3, h4⟩
  | some state0 =>
    have hk : known = true := by rw [h2, hp]; rfl
    obtain ⟨h5, h6⟩ := h4 state0 hp
    subst hk
    cases sample with
    | true =>
      refine ⟨by simp [Hit, hp, store_totalStats, h1], by simp [Hit, hp, store_same],
        fun e => by simp at e, ?_⟩
      intro state hstate
      simp only [if_true, Hit, hp, store_same, Option.some.injEq] at hstate
      rw [← hstate]
      simp only [ResourcePartitionState.Hit, h5, h6, if_true]
      exact ⟨trivial, take_cons_take true recorded totalStats⟩
    | false =>
      refine ⟨by simp [Miss, hp, store_totalStats, h1], by simp [Miss, hp, store_same],
        fun e => by simp at e, ?_⟩
      intro state hstate
      simp only [Bool.false_eq_true, if_false, Miss, hp, store_same, Option.some.injEq]
        at hstate
      rw [← hstate]
      simp only [ResourcePartitionState.Miss, h5, h6, if_true]
      exact ⟨trivial, take_cons_take false recorded totalStats⟩

theorem tracks_other (totalStats : Nat) (partition : Resources)
    (s : SystemResourcePartitions) (known : Bool) (recorded : List Bool) (op : Op)
    (hop : match op with
      | Op.Try p => p ≠ partition
      | Op.Hit p => p ≠ partition
      | Op.Miss p => p ≠ partition)
    (h : Tracks totalStats partition s known recorded) :
    Tracks totalStats partition (step s op) known recorded := by
  obtain ⟨h1, h2, h3, h4⟩ := h
  obtain ⟨e1, e2⟩ := step_other s partition op hop
  exact ⟨by rw [e2, h1], by rw [e1, h2], h3, fun state hstate => h4 state (by rw [← e1, hstate])⟩

/-- The system keeps track of the samples that a sequence of calls records. -/
theorem tracks_run (totalStats : Nat) (partition : Resources) (ops : List Op) :
    ∀ (s : SystemResourcePartitions) (known : Bool) (recorded : List Bool),
      Tracks totalStats partition s known recorded →
      ∃ knownAfter, Tracks totalStats partition (run ops s) knownAfter
        (samples partition ops known recorded) := by
  induction ops with
  | nil =>
    intro s known recorded h
    exact ⟨known, h⟩
  | cons op rest ih =>
    intro s known recorded h
    cases op with
    | Try p =>
      by_cases hp : p = partition
      · subst hp
        have := tracks_Try totalStats p s known recorded h
        simpa [run, step, samples] using ih _ _ _ this
      · have := tracks_other totalStats partition s known recorded (Op.Try p) hp h
        simpa [run, samples, hp] using ih _ _ _ this
    | Hit p =>
      by_cases hp : p = partition
      · subst hp
        have := tracks_sample totalStats p s known recorded true h
        simpa [run, step, samples] using ih _ _ _ this
      · have := tracks_other totalStats partition s known recorded (Op.Hit p) hp h
        simpa [run, samples, hp] using ih _ _ _ this
    | Miss p =>
      by_cases hp : p = partition
      · subst hp
        have := tracks_sample totalStats p s known recorded false h
        simpa [run, step, samples] using ih _ _ _ this
      · have := tracks_other totalStats partition s known recorded (Op.Miss p) hp h
        simpa [run, samples, hp] using ih _ _ _ this

theorem tracks_new (totalStats : Nat) (partition : Resources) :
    Tracks totalStats partition (NewSystemResourcePartitions totalStats) false [] :=
  ⟨rfl, rfl, fun _ => rfl, fun state hstate => by simp [NewSystemResourcePartitions] at hstate⟩

/-- What `Try` answers, from the samples the system keeps track of. -/
theorem Try_of_tracks (totalStats : Nat) (partition : Resources)
    (s : SystemResourcePartitions) (known : Bool) (recorded : List Bool)
    (h : Tracks totalStats partition s known recorded) :
    (s.Try partition).1 =
      (decide (recorded.length < totalStats) || (recorded.take totalStats).any id) := by
  obtain ⟨h1, h2, h3, h4⟩ := h
  cases hp : s.partitionsState partition with
  | none =>
    have hk : known = false := by rw [h2, hp]; rfl
    rw [h3 hk]
    simp [Try, hp, NewResourcePartitionState, ResourcePartitionState.Try, h1]
  | some state =>
    obtain ⟨h5, h6⟩ := h4 state hp
    simp only [Try, hp, ResourcePartitionState.Try, h5, h6, List.length_take]
    congr 1
    by_cases hlen : recorded.length < totalStats
    · simp [hlen]
    · simp [hlen]

/-- C23: on a system made by `NewSystemResourcePartitions(N)`, after any sequence of
`Try`, `Hit` and `Miss` calls, `Try` on a partition returns false exactly when at least
`N` samples were recorded for it and the last `N` of them are all misses (a sample is
recorded from the first `Try` of the partition on; `Hit` and `Miss` drop it before).  So
for `N ≥ 1`, `Try` on a partition with no recorded sample returns true, and for `N ≥ 2`,
after two `Hit`s followed by one `Miss`, `Try` returns true.  `GlobalState` has
`N = 13`. -/
theorem Try_false_only_after_misses (totalStats : Nat) (ops : List Op)
    (partition : Resources) :
    (((run ops (NewSystemResourcePartitions totalStats)).Try partition).1 = false ↔
      totalStats ≤ (samples partition ops false []).length ∧
      ∀ sample ∈ (samples partition ops false []).take totalStats, sample = false) ∧
    (0 < totalStats → samples partition ops false [] = [] →
      ((run ops (NewSystemResourcePartitions totalStats)).Try partition).1 = true) ∧
    (2 ≤ totalStats →
      ((run (ops ++ [Op.Hit partition, Op.Hit partition, Op.Miss partition])
        (NewSystemResourcePartitions totalStats)).Try partition).1 = true) ∧
    GlobalState = NewSystemResourcePartitions 13 := by
  obtain ⟨known, htracks⟩ := tracks_run totalStats partition ops
    (NewSystemResourcePartitions totalStats) false [] (tracks_new totalStats partition)
  have htry := Try_of_tracks totalStats partition _ known _ htracks
  refine ⟨?_, ?_, ?_, rfl⟩
  · rw [htry]
    simp only [Bool.or_eq_false_iff, decide_eq_false_iff_not, Nat.not_lt]
    constructor
    · intro ⟨h1, h2⟩
      refine ⟨h1, fun sample hmem => ?_⟩
      cases sample with
      | false => rfl
      | true =>
        have : ((samples partition ops false []).take totalStats).any id = true :=
          List.any_eq_true.mpr ⟨true, hmem, rfl⟩
        rw [this] at h2
        exact absurd h2 (by decide)
    · intro ⟨h1, h2⟩
      refine ⟨h1, ?_⟩
      cases hany : ((samples partition ops false []).take totalStats).any id with
      | false => rfl
      | true =>
        obtain ⟨sample, hmem, hsample⟩ := List.any_eq_true.mp hany
        have := h2 sample hmem
        rw [this] at hsample
        exact absurd hsample (by decide)
  · intro hpos hnone
    rw [htry, hnone]
    simp [hpos]
  · intro htwo
    have h1 := tracks_sample totalStats partition _ known _ true htracks
    have h2 := tracks_sample totalStats partition _ known _ true h1
    have h3 := tracks_sample totalStats partition _ known _ false h2
    simp only [if_true, Bool.false_eq_true, if_false] at h1 h2 h3
    have hrun : run (ops ++ [Op.Hit partition, Op.Hit partition, Op.Miss partition])
        (NewSystemResourcePartitions totalStats) =
        (((run ops (NewSystemResourcePartitions totalStats)).Hit partition).Hit
          partition).Miss partition := by
      simp [run, List.foldl_append, step]
    rw [hrun, Try_of_tracks totalStats partition _ known _ h3]
    cases known with
    | false =>
      have hnone := htracks.2.2.1 rfl
      simp only [Bool.false_eq_true, if_false, hnone, List.length_nil]
      simp
      omega
    | true =>
      obtain ⟨m, rfl⟩ : ∃ m, totalStats = m + 2 := ⟨totalStats - 2, by omega⟩
      simp

/-- C23 on `GlobalState` and the partition (1, 1024): `Try` is true on the fresh
system, true after a `Try`, two `Hit`s and a `Miss`, and false after a `Try` and 13
`Miss`es; 12 `Miss`es are not enough. -/
theorem Try_false_only_after_misses_witness :
    (0 < 13) ∧ (2 ≤ 13) ∧
    samples { cpus := 1, ram := 1024 } [] false [] = [] ∧
    ((run [] (NewSystemResourcePartitions 13)).Try { cpus := 1, ram := 1024 }).1 = true ∧
    ((run ([Op.Try { cpus := 1, ram := 1024 }] ++
        [Op.Hit { cpus := 1, ram := 1024 }, Op.Hit { cpus := 1, ram := 1024 },
          Op.Miss { cpus := 1, ram := 1024 }])
      (NewSystemResourcePartitions 13)).Try { cpus := 1, ram := 1024 }).1 = true ∧
    ((run (Op.Try { cpus := 1, ram := 1024 } ::
        List.replicate 13 (Op.Miss { cpus := 1, ram := 1024 }))
      GlobalState).Try { cpus := 1, ram := 1024 }).1 = false ∧
    ((run (Op.Try { cpus := 1, ram := 1024 } ::
        List.replicate 12 (Op.Miss { cpus := 1, ram := 1024 }))
      GlobalState).Try { cpus := 1, ram := 1024 }).1 = true :=
  ⟨by decide, by decide, rfl,
    (Try_false_only_after_misses 13 [] { cpus := 1, ram := 1024 }).2.1 (by decide) rfl,
    (Try_false_only_after_misses 13 [Op.Try { cpus := 1, ram := 1024 }]
      { cpus := 1, ram := 1024 }).2.2.1 (by decide),
    rfl, rfl⟩

end SystemResourcePartitions

end Partitions

/-! ## One active offer at most -/

namespace Supplier

variable {W : Type}

theorem nodup_of_length_le_one (m : OfferMap) (h : m.length ≤ 1) :
    (OfferMap.keys m).Nodup := by
  cases m with
  | nil => simp [OfferMap.keys]
  | cons e rest =>
    cases rest with
    | nil => simp [OfferMap.keys]
    | cons e2 rest2 => simp at h

/-- What `createOffer` leaves in the map: the offers as they were (when the available
resources are not valid), or nothing, or the one offer of the strategy. -/
theorem createOffer_adds (config : Configuration) (strategy : OffersManager W)
    (sup : Supplier W) :
    (OfferMap.keys (createOffer config strategy sup).activeOffers).Sublist
        (OfferMap.keys sup.activeOffers) ∨
      ∃ offer, (createOffer config strategy sup).activeOffers = [(offer.ID, offer)] := by
  cases hvalid : sup.availableResources.IsValid with
  | false =>
    rw [createOffer_of_not_valid config strategy sup hvalid]
    exact Or.inl (List.Sublist.refl _)
  | true =>
    rw [createOffer_of_valid config strategy sup hvalid]
    cases (strategy.CreateOffer sup.offersIDGen
        (sup.availableResources.Add sup.activeOffers.total) sup.world).1 with
    | none => exact Or.inl (by simp [OfferMap.keys])
    | some offer => exact Or.inr ⟨offer, rfl⟩

/-- An operation leaves offers that were there, or the one offer of the strategy; the
former when it does not run `createOffer`. -/
theorem step_adds (config : Configuration) (strategy : OffersManager W)
    (sup sup1 : Supplier W) (op : Op) (hlen : sup.activeOffers.length ≤ 1)
    (h : step config strategy sup op = some sup1) :
    ((OfferMap.keys sup1.activeOffers).Sublist (OfferMap.keys sup.activeOffers) ∨
      (op.runsCreateOffer config = true ∧
        ∃ offer, sup1.activeOffers = [(offer.ID, offer)])) := by
  have hnd := nodup_of_length_le_one sup.activeOffers hlen
  cases op with
  | start =>
    simp only [step, Option.some.injEq] at h
    subst h
    unfold Start
    cases hw : sup.working with
    | true => exact Or.inl (by simp)
    | false =>
      cases hs : config.Simulation with
      | false => exact Or.inl (by simp)
      | true =>
        simp only [Bool.false_eq_true, if_false, Bool.not_true]
        rcases createOffer_adds config strategy { sup with working := true } with h1 | h1
        · exact Or.inl h1
        · exact Or.inr ⟨by simp [Op.runsCreateOffer, hs], h1⟩
  | supply =>
    simp only [step, Option.some.injEq] at h
    subst h
    rcases createOffer_adds config strategy sup with h1 | h1
    · exact Or.inl h1
    · exact Or.inr ⟨rfl, h1⟩
  | refreshCheck now =>
    simp only [step, Option.some.injEq] at h
    subst h
    rw [refreshCheckTick_eq config now sup hnd]
    exact Or.inl (keys_refreshed_sublist config now sup.activeOffers)
  | refresh now fromTrader recvOffer =>
    obtain ⟨b, hb⟩ := step_refresh_some config strategy sup sup1 now fromTrader recvOffer h
    rcases (RefreshOffer_cases now sup sup1 fromTrader recvOffer b hb).2 with ⟨_, h1⟩ | ⟨_, h1⟩
    · rw [h1]
      exact Or.inl (List.Sublist.refl _)
    · rw [h1]
      simp only [OfferMap.keys_mutate]
      exact Or.inl (List.Sublist.refl _)
  | obtain offerID res =>
    obtain ⟨b, hb⟩ := step_obtain_some config strategy sup sup1 offerID res h
    cases b with
    | false =>
      rw [(ObtainResources_false config strategy sup sup1 offerID res hb).1]
      exact Or.inl (List.Sublist.refl _)
    | true =>
      obtain ⟨offer, _, _, _, h1⟩ := ObtainResources_true config strategy sup sup1 offerID res hb
      rw [h1]
      cases hs : config.Simulation with
      | false =>
        simp only [Bool.false_eq_true, if_false]
        exact Or.inl (keys_delete_sublist _ _)
      | true =>
        simp only [if_true]
        rcases createOffer_adds config strategy
          { sup with
            availableResources := sup.availableResources.Add (offer.Resources.Sub res)
            activeOffers := sup.activeOffers.delete offerID
            client := sup.client ++ [removeOfferCall config offer offer.ID] } with h2 | h2
        · exact Or.inl (h2.trans (keys_delete_sublist _ _))
        · exact Or.inr ⟨by simp [Op.runsCreateOffer, hs], h2⟩
  | giveBack res =>
    simp only [step, ReturnResources] at h
    cases hw : sup.working with
    | false => simp [isWorking, hw] at h
    | true =>
      cases hs : config.Simulation with
      | false =>
        simp [isWorking, hw, hs] at h
        subst h
        exact Or.inl (List.Sublist.refl _)
      | true =>
        simp [isWorking, hw, hs] at h
        subst h
        rcases createOffer_adds config strategy
          { sup with
            working := true
            availableResources := sup.availableResources.Add res } with h2 | h2
        · exact Or.inl h2
        · exact Or.inr ⟨by simp [Op.runsCreateOffer, hs], h2⟩

theorem step_length (config : Configuration) (strategy : OffersManager W)
    (sup sup1 : Supplier W) (op : Op) (hlen : sup.activeOffers.length ≤ 1)
    (h : step config strategy sup op = some sup1) : sup1.activeOffers.length ≤ 1 := by
  rcases step_adds config strategy sup sup1 op hlen h with h1 | ⟨_, offer, h1⟩
  · have := h1.length_le
    simp only [OfferMap.keys, List.length_map] at this
    omega
  · rw [h1]
    simp

/-- C31: in every state that a supplier reaches from `NewSupplier` through completed
operations, whatever the strategy returns, there is at most one active offer, and so
after every further operation; an operation leaves offers that were there before, or,
only if it runs `createOffer`, the one offer the strategy returned; and when the
available resources are valid `createOffer` empties the map before it stores that offer,
so that it leaves the offer of the strategy alone, or nothing when the strategy fails. -/
theorem at_most_one_active_offer (config : Configuration) (strategy : OffersManager W)
    (maxResources : Resources) (world : W) (ops : List Op) (sup : Supplier W)
    (h : run config strategy ops (NewSupplier maxResources world) = some sup) :
    sup.activeOffers.length ≤ 1 ∧
    (∀ op sup1, step config strategy sup op = some sup1 →
      sup1.activeOffers.length ≤ 1 ∧
      ((OfferMap.keys sup1.activeOffers).Sublist (OfferMap.keys sup.activeOffers) ∨
        (op.runsCreateOffer config = true ∧
          ∃ offer, sup1.activeOffers = [(offer.ID, offer)]))) ∧
    (sup.availableResources.IsValid = true →
      (createOffer config strategy sup).activeOffers =
        match (strategy.CreateOffer sup.offersIDGen
          (sup.availableResources.Add sup.activeOffers.total) sup.world).1 with
        | some offer => [(offer.ID, offer)]
        | none => []) := by
  have hlen : sup.activeOffers.length ≤ 1 :=
    run_invariant config strategy (fun s => s.activeOffers.length ≤ 1)
      (fun s op s1 hs hstep => step_length config strategy s s1 op hs hstep) ops
      (NewSupplier maxResources world) sup (by simp [NewSupplier]) h
  refine ⟨hlen, ?_, ?_⟩
  · intro op sup1 hstep
    exact ⟨step_length config strategy sup sup1 op hlen hstep,
      step_adds config strategy sup sup1 op hlen hstep⟩
  · intro hvalid
    rw [createOffer_of_valid config strategy sup hvalid]

/-- C31 on the sample supplier: after `Start` and a supply tick it holds offer 0 alone,
and it still holds one offer at most after any further operation. -/
theorem at_most_one_active_offer_witness :
    run sampleConfig sampleStrategy [Op.start, Op.supply]
      (NewSupplier { cpus := 4, ram := 4096 } ()) = some sampleOffered ∧
    sampleOffered.activeOffers.length = 1 ∧
    sampleOffered.activeOffers.length ≤ 1 ∧
    ∀ op sup1, step sampleConfig sampleStrategy sampleOffered op = some sup1 →
      sup1.activeOffers.length ≤ 1 ∧
      ((OfferMap.keys sup1.activeOffers).Sublist (OfferMap.keys sampleOffered.activeOffers) ∨
        (op.runsCreateOffer sampleConfig = true ∧
          ∃ offer, sup1.activeOffers = [(offer.ID, offer)])) :=
  ⟨run_sampleOffered, rfl,
    (at_most_one_active_offer sampleConfig sampleStrategy { cpus := 4, ram := 4096 } ()
      [Op.start, Op.supply] sampleOffered run_sampleOffered).1,
    (at_most_one_active_offer sampleConfig sampleStrategy { cpus := 4, ram := 4096 } ()
      [Op.start, Op.supply] sampleOffered run_sampleOffered).2.1⟩

end Supplier

/-! ## Containers of another group policy -/

namespace Scheduler

variable {W : Type}

theorem groupContainer_ignored (groups : Groups) (contConfig : ContainerConfig)
    (hco : contConfig.GroupPolicy ≠ GroupPolicy.CoLocationGroupPolicy)
    (hsp : contConfig.GroupPolicy ≠ GroupPolicy.SpreadGroupPolicy) :
    groupContainer groups contConfig = groups := by
  simp [groupContainer, hco, hsp]

theorem foldl_groupContainer_filter (contConfigs : List ContainerConfig) :
    ∀ groups : Groups,
      contConfigs.foldl groupContainer groups =
        (contConfigs.filter (fun c =>
          decide (c.GroupPolicy = GroupPolicy.CoLocationGroupPolicy ∨
            c.GroupPolicy = GroupPolicy.SpreadGroupPolicy))).foldl groupContainer groups := by
  induction contConfigs with
  | nil => intro groups; rfl
  | cons c rest ih =>
    intro groups
    by_cases h : c.GroupPolicy = GroupPolicy.CoLocationGroupPolicy ∨
        c.GroupPolicy = GroupPolicy.SpreadGroupPolicy
    · rw [List.filter_cons_of_pos (by simpa using h), List.foldl_cons, List.foldl_cons]
      exact ih _
    · rw [List.filter_cons_of_neg (by simpa using h), List.foldl_cons,
        groupContainer_ignored groups c (fun e => h (Or.inl e)) (fun e => h (Or.inr e))]
      exact ih _

/-- C32: a container whose group policy is neither co-location nor spread is ignored by
`SubmitContainers`: the submission gives the same answer, makes the same calls and
leaves the same state as the submission without these containers, so that they are in
no launch and in no demand and cause no error; they are in neither group; and a
submission made only of such containers, or an empty one, on a working scheduler
returns an empty list of statuses and no error and leaves the state as it was, without
any call to the discovery or to a remote node. -/
theorem SubmitContainers_ignores_other_policies (config : Configuration)
    (env : Collaborators W) (st : State W) (contConfigs : List ContainerConfig) :
    SubmitContainers config env st contConfigs =
      SubmitContainers config env st
        (contConfigs.filter (fun c =>
          decide (c.GroupPolicy = GroupPolicy.CoLocationGroupPolicy ∨
            c.GroupPolicy = GroupPolicy.SpreadGroupPolicy))) ∧
    (∀ c ∈ (groupContainers env contConfigs).coLocateContainers ++
        (groupContainers env contConfigs).spreadContainers,
      c.GroupPolicy = GroupPolicy.CoLocationGroupPolicy ∨
        c.GroupPolicy = GroupPolicy.SpreadGroupPolicy) ∧
    (st.working = true →
      (∀ c ∈ contConfigs, c.GroupPolicy ≠ GroupPolicy.CoLocationGroupPolicy ∧
        c.GroupPolicy ≠ GroupPolicy.SpreadGroupPolicy) →
      SubmitContainers config env st contConfigs = some (([], none), st)) := by
  have hgroups : groupContainers env contConfigs =
      groupContainers env (contConfigs.filter (fun c =>
        decide (c.GroupPolicy = GroupPolicy.CoLocationGroupPolicy ∨
          c.GroupPolicy = GroupPolicy.SpreadGroupPolicy))) := by
    unfold groupContainers
    exact foldl_groupContainer_filter contConfigs _
  obtain ⟨hg1, hg2, _, _⟩ := groupContainers_eq env contConfigs
  refine ⟨?_, ?_, ?_⟩
  · unfold SubmitContainers
    rw [← hgroups]
  · intro c hc
    rw [hg1, hg2] at hc
    rcases List.mem_append.mp hc with h | h
    · exact Or.inl (by simpa using (List.mem_filter.mp h).2)
    · exact Or.inr (by simpa using (List.mem_filter.mp h).2)
  · intro hw hall
    have hco : (groupContainers env contConfigs).coLocateContainers = [] := by
      rw [hg1, List.filter_eq_nil_iff]
      intro c hc
      simpa using (hall c hc).1
    have hsp : (groupContainers env contConfigs).spreadContainers = [] := by
      rw [hg2, List.filter_eq_nil_iff]
      intro c hc
      simpa using (hall c hc).2
    unfold SubmitContainers
    simp [hw, hco, hsp, launchContainers, launchSpread]

/-- C32 on the sample scheduler: a submission of one container of another policy
returns nothing and calls nobody, and such a container next to a spread one changes
nothing to the submission of the spread one. -/
theorem SubmitContainers_ignores_other_policies_witness :
    sampleScheduler.working = true ∧
    (∀ c ∈ [sampleOther], c.GroupPolicy ≠ GroupPolicy.CoLocationGroupPolicy ∧
      c.GroupPolicy ≠ GroupPolicy.SpreadGroupPolicy) ∧
    SubmitContainers sampleConfig sampleCollaborators sampleScheduler [sampleOther] =
      some (([], none), sampleScheduler) ∧
    SubmitContainers sampleConfig sampleCollaborators sampleScheduler
        [sampleOther, sampleSpread, sampleOther] =
      SubmitContainers sampleConfig sampleCollaborators sampleScheduler [sampleSpread] :=
  ⟨rfl, by decide,
    (SubmitContainers_ignores_other_policies sampleConfig sampleCollaborators sampleScheduler
      [sampleOther]).2.2 rfl (by decide),
    (SubmitContainers_ignores_other_policies sampleConfig sampleCollaborators sampleScheduler
      [sampleOther, sampleSpread, sampleOther]).1⟩

/-! ### The CPU class of the co-located demand -/

theorem getLast?_cons_eq (c : ContainerConfig) (rest : List ContainerConfig) :
    (c :: rest).getLast? =
      match rest.getLast? with
      | some last => some last
      | none => some c := by
  cases hl : rest.getLast? with
  | none =>
    rw [List.getLast?_eq_none_iff] at hl
    rw [hl]
    rfl
  | some last =>
    obtain ⟨front, hfront⟩ := List.getLast?_eq_some_iff.mp hl
    rw [hfront, ← List.cons_append]
    exact List.getLast?_concat _

/-- The CPU class that the first loop of `SubmitContainers` leaves in the co-located
demand: that of the last co-location container, or the one it started with. -/
theorem foldl_groupContainer_cpuClass (contConfigs : List ContainerConfig) :
    ∀ groups : Groups,
      (contConfigs.foldl groupContainer groups).coLocateTotalResources.cpuClass =
        match (contConfigs.filter (fun c =>
          decide (c.GroupPolicy = GroupPolicy.CoLocationGroupPolicy))).getLast? with
        | some last => last.Resources.CPUClass
        | none => groups.coLocateTotalResources.cpuClass := by
  induction contConfigs with
  | nil => intro groups; rfl
  | cons c rest ih =>
    intro groups
    rw [List.foldl_cons, ih]
    by_cases hco : c.GroupPolicy = GroupPolicy.CoLocationGroupPolicy
    · rw [List.filter_cons_of_pos (by simpa using hco), getLast?_cons_eq]
      cases (rest.filter (fun c =>
        decide (c.GroupPolicy = GroupPolicy.CoLocationGroupPolicy))).getLast? with
      | some last => rfl
      | none => simp [groupContainer, hco, Resources.SetCPUClass]
    · rw [List.filter_cons_of_neg (by simpa using hco)]
      by_cases hsp : c.GroupPolicy = GroupPolicy.SpreadGroupPolicy
      · simp [groupContainer, hco, hsp]
      · simp [groupContainer, hco, hsp]

/-- C33: the demand of the co-located group in `SubmitContainers` has the CPU class of
the last co-location container of the submitted list, the low CPU class when there is
none, and for CPUs and RAM the sums over the co-location containers; so the CPU classes
of the other co-located containers play no part.  When there are co-location containers
this demand is the one sent to the discovery, in the first call of the submission. -/
theorem coLocate_cpuClass_is_last (config : Configuration) (env : Collaborators W)
    (st : State W) (contConfigs : List ContainerConfig) :
    (groupContainers env contConfigs).coLocateTotalResources.cpuClass =
      (match (contConfigs.filter (fun c =>
        decide (c.GroupPolicy = GroupPolicy.CoLocationGroupPolicy))).getLast? with
      | some last => last.Resources.CPUClass
      | none => env.LowCPUPClass) ∧
    (groupContainers env contConfigs).coLocateTotalResources.cpus =
      ((contConfigs.filter (fun c =>
        decide (c.GroupPolicy = GroupPolicy.CoLocationGroupPolicy))).map
          (fun c => c.Resources.CPUs)).sum ∧
    (groupContainers env contConfigs).coLocateTotalResources.ram =
      ((contConfigs.filter (fun c =>
        decide (c.GroupPolicy = GroupPolicy.CoLocationGroupPolicy))).map
          (fun c => c.Resources.Memory)).sum ∧
    (contConfigs.filter (fun c =>
        decide (c.GroupPolicy = GroupPolicy.CoLocationGroupPolicy)) ≠ [] →
      ∀ result final, SubmitContainers config env st contConfigs = some (result, final) →
        ∃ later, final.calls = st.calls ++
          Call.FindOffers (groupContainers env contConfigs).coLocateTotalResources ::
            later) := by
  obtain ⟨hg1, _, hg3, hg4⟩ := groupContainers_eq env contConfigs
  refine ⟨?_, hg3, hg4, ?_⟩
  · unfold groupContainers
    rw [foldl_groupContainer_cpuClass]
    rfl
  · intro hne result final h
    have hne2 : (groupContainers env contConfigs).coLocateContainers ≠ [] := by
      rw [hg1]
      exact hne
    obtain ⟨tried, htried⟩ := launchContainers_calls_shape config env
      (groupContainers env contConfigs).coLocateContainers
      (groupContainers env contConfigs).coLocateTotalResources st hne2
    have hw : st.working = true := by
      cases hwk : st.working with
      | true => rfl
      | false => simp [SubmitContainers, hwk] at h
    unfold SubmitContainers at h
    simp only [hw, Bool.not_true, Bool.false_eq_true, if_false, List.nil_append] at h
    cases hl : (launchContainers config env (groupContainers env contConfigs).coLocateContainers
        (groupContainers env contConfigs).coLocateTotalResources st).1.2 with
    | some err =>
      simp only [hl, Option.some.injEq, Prod.mk.injEq] at h
      refine ⟨tried.map (launchCall config
        (groupContainers env contConfigs).coLocateContainers), ?_⟩
      rw [← h.2, htried]
    | none =>
      simp only [hl, Option.some.injEq] at h
      obtain ⟨rounds, stops, _, h2, _⟩ := launchSpread_calls_shape config env
        (groupContainers env contConfigs).spreadContainers
        (launchContainers config env (groupContainers env contConfigs).coLocateContainers
          (groupContainers env contConfigs).coLocateTotalResources st).1.1
        (launchContainers config env (groupContainers env contConfigs).coLocateContainers
          (groupContainers env contConfigs).coLocateTotalResources st).2
      rw [h] at h2
      refine ⟨tried.map (launchCall config
          (groupContainers env contConfigs).coLocateContainers) ++
        (List.zipWith (fun c offers => Call.FindOffers (spreadDemand c) ::
            offers.map (launchCall config [c]))
          (groupContainers env contConfigs).spreadContainers rounds).flatten ++
        stops.map (fun status =>
          Call.StopLocalContainer { IP := status.SupplierIP, GUID := "" }
            status.ContainerID), ?_⟩
      rw [h2, htried]
      simp

/-- C33 on two co-located containers, one of CPU class 1 and one of CPU class 0: the
demand takes the class of whichever comes last, with the same CPUs and RAM. -/
theorem coLocate_cpuClass_is_last_witness :
    (groupContainers sampleCollaborators
      [sampleCoLocatedHigh, sampleCoLocated 2 1024]).coLocateTotalResources =
      { cpuClass := 0, cpus := 3, ram := 1536 } ∧
    (groupContainers sampleCollaborators
      [sampleCoLocated 2 1024, sampleCoLocatedHigh]).coLocateTotalResources =
      { cpuClass := 1, cpus := 3, ram := 1536 } ∧
    [sampleCoLocated 2 1024, sampleCoLocatedHigh].filter (fun c =>
      decide (c.GroupPolicy = GroupPolicy.CoLocationGroupPolicy)) ≠ [] ∧
    (groupContainers sampleCollaborators
      [sampleCoLocated 2 1024, sampleCoLocatedHigh]).coLocateTotalResources.cpuClass =
      (match ([sampleCoLocated 2 1024, sampleCoLocatedHigh].filter (fun c =>
        decide (c.GroupPolicy = GroupPolicy.CoLocationGroupPolicy))).getLast? with
      | some last => last.Resources.CPUClass
      | none => sampleCollaborators.LowCPUPClass) ∧
    ∀ result final,
      SubmitContainers sampleConfig sampleCollaborators sampleScheduler
        [sampleCoLocated 2 1024, sampleCoLocatedHigh] = some (result, final) →
      ∃ later, final.calls = sampleScheduler.calls ++
        Call.FindOffers (groupContainers sampleCollaborators
          [sampleCoLocated 2 1024, sampleCoLocatedHigh]).coLocateTotalResources :: later :=
  ⟨rfl, rfl, by decide,
    (coLocate_cpuClass_is_last sampleConfig sampleCollaborators sampleScheduler
      [sampleCoLocated 2 1024, sampleCoLocatedHigh]).1,
    (coLocate_cpuClass_is_last sampleConfig sampleCollaborators sampleScheduler
      [sampleCoLocated 2 1024, sampleCoLocatedHigh]).2.2.2 (by decide)⟩

end Scheduler

/-! ## Where partition state comes from -/

namespace Partitions

namespace SystemResourcePartitions

theorem mergePartitionState_other (s : SystemResourcePartitions)
    (newPartitionState : PartitionState) (partition : Resources)
    (h : Resources.NewResources newPartitionState.PartitionResources.CPUs
      newPartitionState.PartitionResources.RAM ≠ partition) :
    (mergePartitionState s newPartitionState).partitionsState partition =
      s.partitionsState partition := by
  have hne : partition ≠ Resources.NewResources newPartitionState.PartitionResources.CPUs
      newPartitionState.PartitionResources.RAM := fun e => h e.symm
  unfold mergePartitionState
  simp only
  cases s.partitionsState (Resources.NewResources newPartitionState.PartitionResources.CPUs
      newPartitionState.PartitionResources.RAM) with
  | none => exact store_other s _ partition _ hne
  | some state => exact store_other s _ partition _ hne

theorem mergePartitionState_isSome (s : SystemResourcePartitions)
    (newPartitionState : PartitionState) (partition : Resources)
    (h : (s.partitionsState partition).isSome = true ∨
      Resources.NewResources newPartitionState.PartitionResources.CPUs
        newPartitionState.PartitionResources.RAM = partition) :
    ((mergePartitionState s newPartitionState).partitionsState partition).isSome = true := by
  by_cases hp : Resources.NewResources newPartitionState.PartitionResources.CPUs
      newPartitionState.PartitionResources.RAM = partition
  · unfold mergePartitionState
    simp only
    rw [hp]
    cases s.partitionsState partition with
    | none => rw [store_same]; rfl
    | some state => rw [store_same]; rfl
  · rw [mergePartitionState_other s newPartitionState partition hp]
    rcases h with h | h
    · exact h
    · exact absurd h hp

theorem MergePartitionsState_other (newPartitionsState : List PartitionState)
    (partition : Resources) :
    ∀ s : SystemResourcePartitions,
      (Call.MergePartitionsState newPartitionsState).passes partition = false →
      (s.MergePartitionsState newPartitionsState).partitionsState partition =
        s.partitionsState partition := by
  induction newPartitionsState with
  | nil => intro s _; rfl
  | cons item rest ih =>
    intro s h
    simp only [Call.passes, List.any_cons, Bool.or_eq_false_iff, decide_eq_false_iff_not] at h
    have hrest : (Call.MergePartitionsState rest).passes partition = false := h.2
    unfold MergePartitionsState
    rw [List.foldl_cons]
    have := ih (mergePartitionState s item) hrest
    unfold MergePartitionsState at this
    rw [this, mergePartitionState_other s item partition h.1]

theorem MergePartitionsState_isSome (newPartitionsState : List PartitionState)
    (partition : Resources) :
    ∀ s : SystemResourcePartitions,
      ((s.partitionsState partition).isSome = true ∨
        (Call.MergePartitionsState newPartitionsState).passes partition = true) →
      ((s.MergePartitionsState newPartitionsState).partitionsState partition).isSome =
        true := by
  induction newPartitionsState with
  | nil =>
    intro s h
    rcases h with h | h
    · exact h
    · simp [Call.passes] at h
  | cons item rest ih =>
    intro s h
    unfold MergePartitionsState
    rw [List.foldl_cons]
    have hrec := ih (mergePartitionState s item)
    unfold MergePartitionsState at hrec
    apply hrec
    rcases h with h | h
    · exact Or.inl (mergePartitionState_isSome s item partition (Or.inl h))
    · simp only [Call.passes, List.any_cons, Bool.or_eq_true, decide_eq_true_eq] at h
      rcases h with h | h
      · exact Or.inl (mergePartitionState_isSome s item partition (Or.inr h))
      · exact Or.inr h

/-- A call that does not pass the partition to `Try` or to `MergePartitionsState`
leaves it without state. -/
theorem apply_keeps_none (s : SystemResourcePartitions) (call : Call) (partition : Resources)
    (hnone : s.partitionsState partition = none) (hpass : call.passes partition = false) :
    (apply s call).partitionsState partition = none := by
  cases call with
  | MergePartitionsState newPartitionsState =>
    simp only [apply]
    rw [MergePartitionsState_other newPartitionsState partition s hpass]
    exact hnone
  | op o =>
    cases o with
    | Try p =>
      simp only [Call.passes, decide_eq_false_iff_not] at hpass
      rw [apply, (step_other s partition (Op.Try p) hpass).1]
      exact hnone
    | Hit p =>
      by_cases hp : p = partition
      · subst hp
        simp [apply, step, Hit, hnone]
      · rw [apply, (step_other s partition (Op.Hit p) hp).1]
        exact hnone
    | Miss p =>
      by_cases hp : p = partition
      · subst hp
        simp [apply, step, Miss, hnone]
      · rw [apply, (step_other s partition (Op.Miss p) hp).1]
        exact hnone

theorem runCalls_keeps_none (calls : List Call) (partition : Resources) :
    ∀ s : SystemResourcePartitions, s.partitionsState partition = none →
      (∀ call ∈ calls, call.passes partition = false) →
      (runCalls calls s).partitionsState partition = none := by
  induction calls with
  | nil => intro s h _; exact h
  | cons call rest ih =>
    intro s h hall
    unfold runCalls
    rw [List.foldl_cons]
    have := ih (apply s call)
      (apply_keeps_none s call partition h (hall call (List.mem_cons_self _ _)))
      (fun c hc => hall c (List.mem_cons_of_mem _ hc))
    unfold runCalls at this
    exact this

/-- C34: `Hit` and `Miss` on a partition that has no state leave the whole system as it
is: no state is created for the partition, the sample is dropped and the state of every
other partition is unchanged.  Only `Try` and `MergePartitionsState` create partition
state: a call after which a partition has state that it had not before passes the
partition to one of the two, and both do create it; so a partition that no call of a
run from `NewSystemResourcePartitions` passed to them has no state, and `Hit` and `Miss`
on it change nothing. -/
theorem Hit_Miss_without_state (totalStats : Nat) (calls : List Call)
    (partition : Resources) :
    (∀ s : SystemResourcePartitions, s.partitionsState partition = none →
      s.Hit partition = s ∧ s.Miss partition = s) ∧
    (∀ (s : SystemResourcePartitions) (call : Call), s.partitionsState partition = none →
      (apply s call).partitionsState partition ≠ none → call.passes partition = true) ∧
    (∀ s : SystemResourcePartitions,
      ((s.Try partition).2.partitionsState partition).isSome = true) ∧
    (∀ (s : SystemResourcePartitions) (newPartitionsState : List PartitionState),
      (Call.MergePartitionsState newPartitionsState).passes partition = true →
      ((s.MergePartitionsState newPartitionsState).partitionsState partition).isSome =
        true) ∧
    ((∀ call ∈ calls, call.passes partition = false) →
      (runCalls calls (NewSystemResourcePartitions totalStats)).partitionsState partition =
        none ∧
      (runCalls calls (NewSystemResourcePartitions totalStats)).Hit partition =
        runCalls calls (NewSystemResourcePartitions totalStats) ∧
      (runCalls calls (NewSystemResourcePartitions totalStats)).Miss partition =
        runCalls calls (NewSystemResourcePartitions totalStats)) := by
  have hdrop : ∀ s : SystemResourcePartitions, s.partitionsState partition = none →
      s.Hit partition = s ∧ s.Miss partition = s := by
    intro s h
    exact ⟨by simp [Hit, h], by simp [Miss, h]⟩
  refine ⟨hdrop, ?_, ?_, ?_, ?_⟩
  · intro s call hnone hsome
    cases hpass : call.passes partition with
    | true => rfl
    | false => exact absurd (apply_keeps_none s call partition hnone hpass) hsome
  · intro s
    cases hp : s.partitionsState partition with
    | none => simp [Try, hp, store_same]
    | some state => simp [Try, hp]
  · intro s newPartitionsState hpass
    exact MergePartitionsState_isSome newPartitionsState partition s (Or.inr hpass)
  · intro hall
    have hnone := runCalls_keeps_none calls partition
      (NewSystemResourcePartitions totalStats) rfl hall
    exact ⟨hnone, hdrop _ hnone⟩

/-- C34 on `GlobalState`: after `Try` on (2, 2048) and a merge for (4, 4096), the
partition (1, 1024) has no state, also after a `Hit` on it, and a further `Hit` or
`Miss` on it changes nothing. -/
theorem Hit_Miss_without_state_witness :
    (∀ call ∈ [Call.op (Op.Try { cpus := 2, ram := 2048 }),
        Call.MergePartitionsState
          [{ PartitionResources := { CPUs := 4, RAM := 4096 }, Hits := [false, true] }],
        Call.op (Op.Hit { cpus := 1, ram := 1024 })],
      call.passes { cpus := 1, ram := 1024 } = false) ∧
    ((runCalls [Call.op (Op.Try { cpus := 2, ram := 2048 }),
        Call.MergePartitionsState
          [{ PartitionResources := { CPUs := 4, RAM := 4096 }, Hits := [false, true] }],
        Call.op (Op.Hit { cpus := 1, ram := 1024 })]
      (NewSystemResourcePartitions 13)).partitionsState { cpus := 4, ram := 4096 }) =
      some { totalTries := 13, hits := [false, true] } ∧
    ((runCalls [Call.op (Op.Try { cpus := 2, ram := 2048 }),
        Call.MergePartitionsState
          [{ PartitionResources := { CPUs := 4, RAM := 4096 }, Hits := [false, true] }],
        Call.op (Op.Hit { cpus := 1, ram := 1024 })]
      (NewSystemResourcePartitions 13)).partitionsState { cpus := 1, ram := 1024 } = none ∧
    (runCalls [Call.op (Op.Try { cpus := 2, ram := 2048 }),
        Call.MergePartitionsState
          [{ PartitionResources := { CPUs := 4, RAM := 4096 }, Hits := [false, true] }],
        Call.op (Op.Hit { cpus := 1, ram := 1024 })]
      (NewSystemResourcePartitions 13)).Hit { cpus := 1, ram := 1024 } =
      runCalls [Call.op (Op.Try { cpus := 2, ram := 2048 }),
        Call.MergePartitionsState
          [{ PartitionResources := { CPUs := 4, RAM := 4096 }, Hits := [false, true] }],
        Call.op (Op.Hit { cpus := 1, ram := 1024 })]
      (NewSystemResourcePartitions 13) ∧
    (runCalls [Call.op (Op.Try { cpus := 2, ram := 2048 }),
        Call.MergePartitionsState
          [{ PartitionResources := { CPUs := 4, RAM := 4096 }, Hits := [false, true] }],
        Call.op (Op.Hit { cpus := 1, ram := 1024 })]
      (NewSystemResourcePartitions 13)).Miss { cpus := 1, ram := 1024 } =
      runCalls [Call.op (Op.Try { cpus := 2, ram := 2048 }),
        Call.MergePartitionsState
          [{ PartitionResources := { CPUs := 4, RAM := 4096 }, Hits := [false, true] }],
        Call.op (Op.Hit { cpus := 1, ram := 1024 })]
      (NewSystemResourcePartitions 13)) :=
  ⟨by decide, rfl,
    (Hit_Miss_without_state 13
      [Call.op (Op.Try { cpus := 2, ram := 2048 }),
        Call.MergePartitionsState
          [{ PartitionResources := { CPUs := 4, RAM := 4096 }, Hits := [false, true] }],
        Call.op (Op.Hit { cpus := 1, ram := 1024 })]
      { cpus := 1, ram := 1024 }).2.2.2.2 (by decide)⟩

end SystemResourcePartitions

end Partitions

end Caravela
